import Mathlib

/-!
# MobilizeRewriteFilter

A shallow embedding of `net/instaweb/rewriter/mobilize_rewrite_filter.cc`
and a verification of its role table, its classification policy and its
single-pass reordering state machine.

Conventions of the embedding.

* A node of the host document is known by its identity (`Nat`), the
  counterpart of the C++ pointer. Pointer comparison is comparison of
  identities.
* The filter never reads the document tree; it issues commands to the
  `RewriteDriver`. The driver is embedded as the log of the commands it was
  sent (oldest first), the allocator of fresh node identities and the
  `DebugMode()` bit.
* `std::vector` used as a stack (`element_roles_stack_`,
  `nav_keyword_stack_`): a `List` whose head is `back()`; `push_back` is
  cons, `pop_back` is the tail. `mobile_role_containers_` is indexed, so it
  keeps the vector order (`push_back` appends).
* Operations that C++ leaves undefined (`pop_back` on an empty vector,
  `operator[]` past the end) and a failed `DCHECK` make the handler return
  `none`.
* The depth counters are C++ `int`. The fields `body_element_depth_` and
  `nav_element_depth_` hold the number the statements `++` and `--` have
  counted, an unbounded `Int`; the value of the 32-bit `int` is `asInt32` of
  that number. The two are the same number, and the tests the handlers make
  on a counter read the same, as long as the count is in the range of `int`,
  that is up to the event that brings it to 2147483648. What the `int` holds
  at that event is stated with `asInt32`.
-/

namespace MobilizeRewrite

/-! ## Data model -/

/-- Modelled from the spec: the enumeration `HtmlName::Keyword`
(`pagespeed/kernel/html/html_name.h`, not part of the sources at hand). The
tag and attribute identities the filter names are listed in the alphabetical
order of the enumeration; every name the table does not know is
`kNotAKeyword`, its last entry. -/
inductive Keyword
  | kA | kArea | kBody | kBr | kCaption | kCol | kColgroup | kContent
  | kDataMobileRole | kDiv | kHead | kHref | kLi | kLink | kMap | kMeta
  | kName | kNav | kP | kRel | kScript | kSpan | kSrc | kStyle | kTable
  | kTbody | kTd | kTfoot | kTh | kThead | kTr | kUl | kNotAKeyword
  deriving DecidableEq, Repr, Inhabited

/-- The integer value of a keyword: `operator<` on the enumeration. -/
def Keyword.ord : Keyword → Nat
  | .kA => 0 | .kArea => 1 | .kBody => 2 | .kBr => 3 | .kCaption => 4
  | .kCol => 5 | .kColgroup => 6 | .kContent => 7 | .kDataMobileRole => 8
  | .kDiv => 9 | .kHead => 10 | .kHref => 11 | .kLi => 12 | .kLink => 13
  | .kMap => 14 | .kMeta => 15 | .kName => 16 | .kNav => 17 | .kP => 18
  | .kRel => 19 | .kScript => 20 | .kSpan => 21 | .kSrc => 22 | .kStyle => 23
  | .kTable => 24 | .kTbody => 25 | .kTd => 26 | .kTfoot => 27 | .kTh => 28
  | .kThead => 29 | .kTr => 30 | .kUl => 31 | .kNotAKeyword => 32

/-- Modelled from the spec: the enumeration `MobileRole::Level`
(`mobilize_rewrite_filter.h`, not part of the sources at hand):
`Keeper < Header < Navigational < Content < Marginal`, plus the sentinel
`Invalid`. -/
inductive Level
  | kKeeper | kHeader | kNavigational | kContent | kMarginal | kInvalid
  deriving DecidableEq, Repr, Inhabited

/-- The integer value of a level (`kInvalid` is 5, the size of
`kMobileRoles`). -/
def Level.toNat : Level → Nat
  | .kKeeper => 0 | .kHeader => 1 | .kNavigational => 2 | .kContent => 3
  | .kMarginal => 4 | .kInvalid => 5

/-- The cast `static_cast<MobileRole::Level>(i)`. -/
def Level.ofIndex : Nat → Level
  | 0 => .kKeeper | 1 => .kHeader | 2 => .kNavigational | 3 => .kContent
  | 4 => .kMarginal | _ => .kInvalid

/-- An entry of the role table: `MobileRole(level, value)`. -/
structure MobileRole where
  level : Level
  value : String
  deriving DecidableEq, Repr

/-- The table `MobileRole::kMobileRoles`. -/
def kMobileRoles : List MobileRole :=
  [ ⟨.kKeeper, "keeper"⟩,
    ⟨.kHeader, "header"⟩,
    ⟨.kNavigational, "navigational"⟩,
    ⟨.kContent, "content"⟩,
    ⟨.kMarginal, "marginal"⟩ ]

/-- Modelled from the spec: `HtmlElement::Attribute`
(`pagespeed/kernel/html/html_element.h`, not part of the sources at hand),
the query `attributeValue`: the name of the attribute, its value as written
(`escaped_value()`, possibly NULL) and its decoded value
(`DecodedValueOrNull()`). -/
structure Attribute where
  name : Keyword
  escaped_value : Option String
  decoded_value : Option String
  deriving DecidableEq, Repr

/-- Modelled from the spec: `HtmlElement`
(`pagespeed/kernel/html/html_element.h`, not part of the sources at hand), as
far as the filter queries it: identity, parent, tag identity, tag name and
attributes. -/
structure HtmlElement where
  id : Nat
  parent : Option Nat
  keyword : Keyword
  name_str : String
  attributes : List Attribute
  deriving DecidableEq, Repr

/-- Modelled from the spec: `HtmlCharactersNode`
(`pagespeed/kernel/html/html_node.h`, not part of the sources at hand): a
text node, its identity and contents. -/
structure HtmlCharactersNode where
  id : Nat
  contents : String
  deriving DecidableEq, Repr

/-- Modelled from the spec: `HtmlElement::FindAttribute` (not part of the
sources at hand): the first attribute of that name, NULL when there is
none. -/
def HtmlElement.FindAttribute (element : HtmlElement) (k : Keyword) :
    Option Attribute :=
  element.attributes.find? (fun a => a.name == k)

/-- Modelled from the spec: `HtmlElement::AttributeValue` (not part of the
sources at hand): the decoded value of the first attribute of that name, NULL
when there is none. -/
def HtmlElement.AttributeValue (element : HtmlElement) (k : Keyword) :
    Option String :=
  match element.FindAttribute k with
  | some a => a.decoded_value
  | none => none

/-- Modelled from the spec: the constructor of `StringPiece` from a
`const char*` (`pagespeed/kernel/base/string_util.h`, not part of the sources
at hand): NULL is the empty string. -/
def StringPiece (p : Option String) : String := p.getD ""

/-- Close styles of an element that the filter sets. -/
inductive CloseStyle
  | EXPLICIT_CLOSE | IMPLICIT_CLOSE | BRIEF_CLOSE
  deriving DecidableEq, Repr

/-- Quote styles of an attribute that the filter sets. -/
inductive QuoteStyle
  | SINGLE_QUOTE | DOUBLE_QUOTE
  deriving DecidableEq, Repr

/-- Modelled from the spec: the mutation primitives of the driver and of the
nodes the filter creates (`rewrite_driver.h`, `html_element.h`, not part of
the sources at hand), one command for each call the filter makes. -/
inductive Cmd
  | NewElement (node : Nat) (parent : Option Nat) (keyword : Keyword)
  | NewCharactersNode (node : Nat) (parent : Nat) (contents : String)
  | SetStyle (node : Nat) (style : CloseStyle)
  | AddAttribute (node : Nat) (name : Keyword) (value : String)
      (quote : QuoteStyle)
  | SetValue (node : Nat) (name : Keyword) (value : String)
  | SetContents (node : Nat) (contents : String)
  | AppendChild (parent : Nat) (child : Nat)
  | InsertElementAfterElement (existing : Nat) (new_element : Nat)
  | InsertNodeAfterCurrent (current : Nat) (new_node : Nat)
  | InsertDebugComment (msg : String) (node : Nat)
  | DeleteNode (node : Nat)
  | DeleteSavingChildren (node : Nat)
  | MoveCurrentInto (current : Nat) (container : Nat)
  deriving DecidableEq, Repr

/-- Modelled from the spec: the `RewriteDriver` (`rewrite_driver.h`, not
part of the sources at hand) as the filter uses it: `DebugMode()`, the next
fresh node identity, and the commands received so far (oldest first). -/
structure RewriteDriver where
  debug_mode : Bool
  next_node : Nat
  commands : List Cmd
  deriving DecidableEq, Repr

/-- Send one command to the driver. -/
def RewriteDriver.emit (d : RewriteDriver) (c : Cmd) : RewriteDriver :=
  { d with commands := d.commands ++ [c] }

/-- The call `driver_->NewElement(parent, keyword)`: a fresh node. -/
def RewriteDriver.NewElement (d : RewriteDriver) (parent : Option Nat)
    (keyword : Keyword) : RewriteDriver × Nat :=
  ({ d with next_node := d.next_node + 1,
            commands := d.commands ++ [Cmd.NewElement d.next_node parent keyword] },
   d.next_node)

/-- The call `driver_->NewCharactersNode(parent, contents)`: a fresh node. -/
def RewriteDriver.NewCharactersNode (d : RewriteDriver) (parent : Nat)
    (contents : String) : RewriteDriver × Nat :=
  ({ d with next_node := d.next_node + 1,
            commands := d.commands ++ [Cmd.NewCharactersNode d.next_node parent contents] },
   d.next_node)

/-- The fields of `MobilizeRewriteFilter`. The statistics variables are
embedded as the counters they hold. -/
structure State where
  driver_ : RewriteDriver
  body_element_depth_ : Int
  nav_element_depth_ : Int
  reached_reorder_containers_ : Bool
  found_viewport_ : Bool
  added_style_ : Bool
  added_containers_ : Bool
  added_mob_js_ : Bool
  in_script_ : Bool
  use_cxx_layout_ : Bool
  use_js_layout_ : Bool
  use_js_logo_ : Bool
  use_js_nav_ : Bool
  static_file_prefix_ : String
  style_css_ : String
  element_roles_stack_ : List Level
  nav_keyword_stack_ : List Keyword
  mobile_role_containers_ : List Nat
  num_pages_mobilized_ : Nat
  num_keeper_blocks_ : Nat
  num_header_blocks_ : Nat
  num_navigational_blocks_ : Nat
  num_content_blocks_ : Nat
  num_marginal_blocks_ : Nat
  num_elements_deleted_ : Nat
  deriving DecidableEq, Repr

/-! ## Constants and tables -/

/-- The constant `kViewportContent`. -/
def kViewportContent : String := "width=device-width"

/-- The table `kPreserveNavTags`. -/
def kPreserveNavTags : List Keyword := [.kA]

/-- The table `kTableTags`. -/
def kTableTags : List Keyword :=
  [.kCaption, .kCol, .kColgroup, .kTable, .kTbody, .kTd, .kTfoot, .kTh,
   .kThead, .kTr]

/-- The table `kTableTagsToBr`. -/
def kTableTagsToBr : List Keyword := [.kTable, .kTr]

/-- The table `kPolymerElementLinks`. -/
def kPolymerElementLinks : List String :=
  [ "core-drawer-panel/core-drawer-panel.html",
    "core-header-panel/core-header-panel.html",
    "core-icon-button/core-icon-button.html",
    "core-icons/core-icons.html",
    "core-item/core-item.html",
    "core-menu/core-menu.html",
    "core-menu/core-submenu.html",
    "core-scaffold/core-scaffold.html",
    "core-toolbar/core-toolbar.html",
    "paper-icon-button/paper-icon-button.html",
    "paper-fab/paper-fab.html" ]

/-- The table `kPolymerCustomElementLinks`. -/
def kPolymerCustomElementLinks : List String := ["polymer-elements.html"]

/-- The table `MobilizeRewriteFilter::kKeeperTags`. -/
def kKeeperTags : List Keyword := [.kArea, .kMap, .kScript, .kStyle]

/-- The constant `MobilizeRewriteFilter::kNumKeeperTags`. -/
def kNumKeeperTags : Nat := kKeeperTags.length

/-! ## Role table and classification -/

/-- The function `MobileRole::FromString`: the first entry of the table whose
name is the given string, NULL when there is none. -/
def FromString (mobile_role : String) : Option MobileRole :=
  kMobileRoles.find? (fun r => mobile_role == r.value)

/-- The function `MobileRole::LevelFromString`. -/
def LevelFromString (mobile_role : String) : Level :=
  match FromString mobile_role with
  | none => .kInvalid
  | some role => role.level

/-- Modelled from the spec: `MobileRole::StringFromLevel`
(`mobilize_rewrite_filter.h`, not part of the sources at hand), the way back
from a level to its name in the role table; NULL for `kInvalid`. -/
def StringFromLevel (level : Level) : Option String :=
  kMobileRoles[level.toNat]?.map (fun r => r.value)

/-- The loop of `std::lower_bound` over `sorted_list[first, first + count)`;
`fuel` bounds the number of iterations. -/
def lowerBound (sorted_list : List Keyword) (keyword : Keyword) :
    Nat → Nat → Nat → Nat
  | 0, first, _ => first
  | fuel + 1, first, count =>
    if 0 < count then
      let step := count / 2
      let it := first + step
      if (sorted_list.getD it default).ord < keyword.ord then
        lowerBound sorted_list keyword fuel (it + 1) (count - (step + 1))
      else
        lowerBound sorted_list keyword fuel first step
    else first

/-- The function `MobilizeRewriteFilter::CheckForKeyword`:
`std::binary_search(sorted_list, sorted_list + len, keyword)`. -/
def CheckForKeyword (sorted_list : List Keyword) (len : Nat)
    (keyword : Keyword) : Bool :=
  let first := lowerBound sorted_list keyword len 0 len
  first != len && !(keyword.ord < (sorted_list.getD first default).ord)

/-- The function `MobilizeRewriteFilter::GetMobileRole`. -/
def GetMobileRole (element : HtmlElement) : Level :=
  match element.FindAttribute .kDataMobileRole with
  | some mobile_role_attribute =>
    LevelFromString (StringPiece mobile_role_attribute.escaped_value)
  | none =>
    if CheckForKeyword kKeeperTags kNumKeeperTags element.keyword then
      .kKeeper
    else .kInvalid

/-! ## Helpers from the string library -/

/-- The test `haystack.find(needle) != npos` on character lists. -/
def containsChars : List Char → List Char → Bool
  | [], needle => needle.isEmpty
  | c :: cs, needle => needle.isPrefixOf (c :: cs) || containsChars cs needle

/-- The test `haystack.find(needle) != npos`. -/
def containsSubstring (haystack needle : String) : Bool :=
  containsChars haystack.data needle.data

/-- Modelled from the spec: `GlobalReplaceSubstring`
(`pagespeed/kernel/base/string_util.h`, not part of the sources at hand):
every occurrence of `substring`, scanned left to right, is replaced. -/
def GlobalReplaceSubstring (substring replacement s : String) : String :=
  s.replace substring replacement

/-- Modelled from the spec: `IsHtmlSpace`
(`pagespeed/kernel/base/string_util.h`, not part of the sources at hand):
space, tab, carriage return, line feed and form feed. -/
def IsHtmlSpace (c : Char) : Bool :=
  c == ' ' || c == '\t' || c == '\r' || c == '\n' || c == Char.ofNat 12

/-- Modelled from the spec: `OnlyWhitespace`
(`pagespeed/kernel/base/string_util.h`, not part of the sources at hand):
every character is HTML white space. -/
def OnlyWhitespace (s : String) : Bool := s.data.all IsHtmlSpace

/-! ## The filter -/

/-- Send one command to the driver of the filter. -/
def State.emit (s : State) (c : Cmd) : State :=
  { s with driver_ := s.driver_.emit c }

/-- The constructor `MobilizeRewriteFilter::MobilizeRewriteFilter`. The
options of the driver (`mob_layout`, `mob_logo`, `mob_nav`, the proxy suffix
of the domain lawyer) and the style sheet `CSS_mobilize_css` are its
arguments; the statistics variables start at the given values. -/
def MobilizeRewriteFilter (rewrite_driver : RewriteDriver)
    (mob_layout mob_logo mob_nav : Bool) (proxy_suffix : String)
    (CSS_mobilize_css : String) : State :=
  let suffix := proxy_suffix
  let static_file_prefix :=
    if !suffix.isEmpty && suffix.startsWith "." then
      "//" ++ suffix.drop 1 ++ "/static/"
    else ""
  { driver_ := rewrite_driver
    body_element_depth_ := 0
    nav_element_depth_ := 0
    reached_reorder_containers_ := false
    found_viewport_ := false
    added_style_ := false
    added_containers_ := false
    added_mob_js_ := false
    in_script_ := false
    use_cxx_layout_ := !(mob_layout || mob_logo || mob_nav)
    use_js_layout_ := mob_layout
    use_js_logo_ := mob_logo
    use_js_nav_ := mob_nav
    static_file_prefix_ := static_file_prefix
    style_css_ := CSS_mobilize_css
    element_roles_stack_ := []
    nav_keyword_stack_ := []
    mobile_role_containers_ := []
    num_pages_mobilized_ := 0
    num_keeper_blocks_ := 0
    num_header_blocks_ := 0
    num_navigational_blocks_ := 0
    num_content_blocks_ := 0
    num_marginal_blocks_ := 0
    num_elements_deleted_ := 0 }

/-- The method `MobilizeRewriteFilter::StartDocument`. -/
def StartDocument (s : State) : State :=
  { s with
    body_element_depth_ := 0
    nav_element_depth_ := 0
    reached_reorder_containers_ := false
    found_viewport_ := false
    added_style_ := false
    added_containers_ := false
    added_mob_js_ := false
    in_script_ := false
    element_roles_stack_ := []
    nav_keyword_stack_ := [] }

/-- The method `MobilizeRewriteFilter::EndDocument`. -/
def EndDocument (s : State) : State :=
  { s with num_pages_mobilized_ := s.num_pages_mobilized_ + 1 }

/-- Modelled from the spec: `MobilizeRewriteFilter::InImportantElement`
(`mobilize_rewrite_filter.h`, not part of the sources at hand): an element
is important when `element_roles_stack_` is not empty, that is when a
role-bearing ancestor is open. -/
def InImportantElement (s : State) : Bool :=
  !s.element_roles_stack_.isEmpty

/-- The method `MobilizeRewriteFilter::IsReorderContainer`. -/
def IsReorderContainer (s : State) (element : HtmlElement) : Bool :=
  s.mobile_role_containers_.any (fun c => element.id == c)

/-- The method `MobilizeRewriteFilter::MobileRoleToContainer`. The outer
`none` is the undefined read past the end of `mobile_role_containers_`; the
inner `none` is NULL. -/
def MobileRoleToContainer (s : State) (level : Level) : Option (Option Nat) :=
  if level = .kInvalid then some none
  else
    match s.mobile_role_containers_[level.toNat]? with
    | some c => some (some c)
    | none => none

/-- The method `MobilizeRewriteFilter::LogMovedBlock`. For `kInvalid` the
code only logs an error. -/
def LogMovedBlock (s : State) : Level → State
  | .kKeeper => { s with num_keeper_blocks_ := s.num_keeper_blocks_ + 1 }
  | .kHeader => { s with num_header_blocks_ := s.num_header_blocks_ + 1 }
  | .kNavigational =>
    { s with num_navigational_blocks_ := s.num_navigational_blocks_ + 1 }
  | .kContent => { s with num_content_blocks_ := s.num_content_blocks_ + 1 }
  | .kMarginal => { s with num_marginal_blocks_ := s.num_marginal_blocks_ + 1 }
  | .kInvalid => s

/-- One iteration of the loop of `AddReorderContainers`. -/
def AddReorderContainers.body (element : HtmlElement) (s : State) (i : Nat) :
    State :=
  let level := Level.ofIndex i
  let (d, added_container) := s.driver_.NewElement (some element.id) .kDiv
  let d := d.emit (.AddAttribute added_container .kName
    (StringPiece (StringFromLevel level)) .SINGLE_QUOTE)
  let d := d.emit (.AppendChild element.id added_container)
  { s with driver_ := d
           mobile_role_containers_ :=
             s.mobile_role_containers_ ++ [added_container] }

/-- The method `MobilizeRewriteFilter::AddReorderContainers`. -/
def AddReorderContainers (s : State) (element : HtmlElement) : State :=
  if !s.added_containers_ then
    let s := { s with mobile_role_containers_ := [] }
    let s := (List.range Level.kInvalid.toNat).foldl
      (AddReorderContainers.body element) s
    { s with added_containers_ := true }
  else s

/-- One iteration of the loop of `RemoveReorderContainers`, on the container
at index `i`. -/
def RemoveReorderContainers.body (s : State) (ic : Nat × Nat) : State :=
  let s :=
    if s.driver_.debug_mode then
      let level := Level.ofIndex ic.1
      s.emit (.InsertDebugComment
        ("End section: " ++ StringPiece (StringFromLevel level)) ic.2)
    else s
  s.emit (.DeleteSavingChildren ic.2)

/-- The method `MobilizeRewriteFilter::RemoveReorderContainers`. -/
def RemoveReorderContainers (s : State) : State :=
  if s.added_containers_ then
    let s := ((List.range s.mobile_role_containers_.length).zip
      s.mobile_role_containers_).foldl RemoveReorderContainers.body s
    { s with mobile_role_containers_ := [], added_containers_ := false }
  else s

/-- The method `MobilizeRewriteFilter::InsertPolymerLink`. -/
def InsertPolymerLink (s : State) (element : HtmlElement) (url : String) :
    State :=
  let (d, polymer_link) := s.driver_.NewElement (some element.id) .kLink
  let d := d.emit (.AppendChild element.id polymer_link)
  let d := d.emit (.AddAttribute polymer_link .kRel "import" .DOUBLE_QUOTE)
  let d := d.emit (.AddAttribute polymer_link .kHref url .DOUBLE_QUOTE)
  { s with driver_ := d }

/-- The part of `AddStyleAndViewport` that adds the inline style in
self-restructure mode. -/
def AddStyleAndViewport.style (s : State) (element : HtmlElement) : State :=
  if s.use_cxx_layout_ then
    let (d, added_style_element) := s.driver_.NewElement (some element.id) .kStyle
    let d := d.emit (.AppendChild element.id added_style_element)
    let (d, add_style_text) := d.NewCharactersNode added_style_element s.style_css_
    let d := d.emit (.AppendChild added_style_element add_style_text)
    { s with driver_ := d }
  else s

/-- The part of `AddStyleAndViewport` that adds the viewport meta. -/
def AddStyleAndViewport.viewport (s : State) (element : HtmlElement) : State :=
  if !s.found_viewport_ then
    let s := { s with found_viewport_ := true }
    let (d, added_viewport_element) := s.driver_.NewElement (some element.id) .kMeta
    let d := d.emit (.SetStyle added_viewport_element .BRIEF_CLOSE)
    let d := d.emit (.AddAttribute added_viewport_element .kName "viewport"
      .SINGLE_QUOTE)
    let d := d.emit (.AddAttribute added_viewport_element .kContent
      kViewportContent .SINGLE_QUOTE)
    let d := d.emit (.AppendChild element.id added_viewport_element)
    { s with driver_ := d }
  else s

/-- The part of `AddStyleAndViewport` that links the style sheet in
delegation mode. -/
def AddStyleAndViewport.link (s : State) (element : HtmlElement) : State :=
  if !s.use_cxx_layout_ then
    let (d, link) := s.driver_.NewElement (some element.id) .kLink
    let d := d.emit (.AppendChild element.id link)
    let d := d.emit (.AddAttribute link .kRel "stylesheet" .DOUBLE_QUOTE)
    let d := d.emit (.AddAttribute link .kHref
      (s.static_file_prefix_ ++ "lite.css") .DOUBLE_QUOTE)
    { s with driver_ := d }
  else s

/-- A loop of `AddStyleAndViewport` over a table of links: each link,
prefixed by `base`, is inserted by `InsertPolymerLink`. -/
def InsertPolymerLinks (s : State) (element : HtmlElement) (base : String)
    (links : List String) : State :=
  links.foldl (fun s l => InsertPolymerLink s element (base ++ l)) s

/-- The part of `AddStyleAndViewport` that adds the Polymer script and
links. -/
def AddStyleAndViewport.polymer (s : State) (element : HtmlElement) : State :=
  if s.use_js_nav_ then
    let polymer_base_url := s.static_file_prefix_ ++ "polymer/"
    let (d, polymer_script) := s.driver_.NewElement (some element.id) .kScript
    let d := d.emit (.AppendChild element.id polymer_script)
    let d := d.emit (.AddAttribute polymer_script .kSrc
      (polymer_base_url ++ "platform/platform.js") .DOUBLE_QUOTE)
    let d := d.emit (.SetStyle polymer_script .EXPLICIT_CLOSE)
    let s := { s with driver_ := d }
    let s := InsertPolymerLinks s element polymer_base_url kPolymerElementLinks
    InsertPolymerLinks s element s.static_file_prefix_
      kPolymerCustomElementLinks
  else s

/-- The method `MobilizeRewriteFilter::AddStyleAndViewport`. -/
def AddStyleAndViewport (s : State) (element : HtmlElement) : State :=
  if !s.added_style_ then
    let s := { s with added_style_ := true }
    let s := AddStyleAndViewport.style s element
    let s := AddStyleAndViewport.viewport s element
    let s := AddStyleAndViewport.link s element
    AddStyleAndViewport.polymer s element
  else s

/-- The deletion both pruning branches of `HandleStartTagInBody` perform:
the debug comment when `DebugMode()` is on, `DeleteSavingChildren` and the
statistics. -/
def deleteElementSavingChildren (s : State) (element : HtmlElement)
    (debug_msg : String) : State :=
  let s :=
    if s.driver_.debug_mode then
      s.emit (.InsertDebugComment (debug_msg ++ element.name_str) element.id)
    else s
  let s := s.emit (.DeleteSavingChildren element.id)
  { s with num_elements_deleted_ := s.num_elements_deleted_ + 1 }

/-- The table branch of `HandleStartTagInBody`: a `br` is inserted after a
`table` or `tr` element, and the element is deleted, its children kept. -/
def HandleStartTagInBody.table (s : State) (element : HtmlElement) : State :=
  let s :=
    if CheckForKeyword kTableTagsToBr kTableTagsToBr.length element.keyword then
      let (d, added_br_element) := s.driver_.NewElement element.parent .kBr
      let d := d.emit (.SetStyle added_br_element .IMPLICIT_CLOSE)
      let d := d.emit (.InsertElementAfterElement element.id added_br_element)
      { s with driver_ := d }
    else s
  deleteElementSavingChildren s element "Deleted table tag: "

/-- The role branch of `HandleStartTagInBody`: the role is pushed, and a
navigational element raises `nav_element_depth_`, the outermost one clearing
`nav_keyword_stack_`. -/
def HandleStartTagInBody.role (s : State) (element : HtmlElement) : State :=
  let element_role := GetMobileRole element
  let s := { s with element_roles_stack_ := element_role :: s.element_roles_stack_ }
  if element_role == .kNavigational then
    let s := { s with nav_element_depth_ := s.nav_element_depth_ + 1 }
    if s.nav_element_depth_ == 1 then
      { s with nav_keyword_stack_ := [] }
    else s
  else s

/-- The navigational branch of `HandleStartTagInBody`: a whitelisted tag is
pushed on `nav_keyword_stack_`, and the element is deleted, its children
kept, when that stack is empty. -/
def HandleStartTagInBody.nav (s : State) (element : HtmlElement) : State :=
  let keyword := element.keyword
  let s :=
    if CheckForKeyword kPreserveNavTags kPreserveNavTags.length keyword then
      { s with nav_keyword_stack_ := keyword :: s.nav_keyword_stack_ }
    else s
  if s.nav_keyword_stack_.isEmpty then
    deleteElementSavingChildren s element
      "Deleted non-nav element in navigational section: "
  else s

/-- The method `MobilizeRewriteFilter::HandleStartTagInBody`. -/
def HandleStartTagInBody (s : State) (element : HtmlElement) : State :=
  let keyword := element.keyword
  if s.reached_reorder_containers_ then
    s
  else if IsReorderContainer s element then
    { s with reached_reorder_containers_ := true }
  else if CheckForKeyword kTableTags kTableTags.length keyword then
    HandleStartTagInBody.table s element
  else if GetMobileRole element != .kInvalid then
    HandleStartTagInBody.role s element
  else if 0 < s.nav_element_depth_ then
    HandleStartTagInBody.nav s element
  else if !InImportantElement s then
    deleteElementSavingChildren s element
      "Deleted element which did not have a mobile role: "
  else s

/-- The part of `HandleEndTagInBody` that follows `pop_back` in the role
branch: the stack is the popped one and a navigational element lowers
`nav_element_depth_`. -/
def HandleEndTagInBody.leave (s : State) (element_role : Level)
    (popped : List Level) : State :=
  let s := { s with element_roles_stack_ := popped }
  if element_role == .kNavigational then
    { s with nav_element_depth_ := s.nav_element_depth_ - 1 }
  else s

/-- The end of the role branch of `HandleEndTagInBody`: the element is moved
into its container unless the top of the stack is its own role. -/
def HandleEndTagInBody.move (s : State) (element : HtmlElement)
    (element_role : Level) (mobile_role_container : Nat) : State :=
  if s.element_roles_stack_.isEmpty ||
      s.element_roles_stack_.head? != some element_role then
    LogMovedBlock
      (s.emit (.MoveCurrentInto element.id mobile_role_container))
      element_role
  else s

/-- The navigational branch of `HandleEndTagInBody`: a whitelisted tag on
top of `nav_keyword_stack_` is popped by its close event. -/
def HandleEndTagInBody.nav (s : State) (element : HtmlElement) : State :=
  let keyword := element.keyword
  if !s.nav_keyword_stack_.isEmpty &&
      s.nav_keyword_stack_.head? == some keyword then
    { s with nav_keyword_stack_ := s.nav_keyword_stack_.tail }
  else s

/-- The method `MobilizeRewriteFilter::HandleEndTagInBody`. It returns `none`
when `pop_back` runs on an empty `element_roles_stack_`, when
`mobile_role_containers_` is read past its end, and when the `DCHECK` on the
container fails. -/
def HandleEndTagInBody (s : State) (element : HtmlElement) : Option State :=
  if s.reached_reorder_containers_ then
    some s
  else if GetMobileRole element != .kInvalid then
    let element_role := GetMobileRole element
    match s.element_roles_stack_ with
    | [] => none
    | _ :: popped =>
      let s := HandleEndTagInBody.leave s element_role popped
      match MobileRoleToContainer s element_role with
      | some (some mobile_role_container) =>
        some (HandleEndTagInBody.move s element element_role
          mobile_role_container)
      | _ => none
  else if 0 < s.nav_element_depth_ then
    some (HandleEndTagInBody.nav s element)
  else some s

/-- The script reference `EndElement` inserts after the body in delegation
mode. -/
def insertScriptAfterCurrent (s : State) (element : HtmlElement)
    (file : String) : State :=
  let (d, script) := s.driver_.NewElement element.parent .kScript
  let d := d.emit (.SetStyle script .EXPLICIT_CLOSE)
  let d := d.emit (.InsertNodeAfterCurrent element.id script)
  let d := d.emit (.AddAttribute script .kSrc (s.static_file_prefix_ ++ file)
    .DOUBLE_QUOTE)
  { s with driver_ := d }

/-- The first part of `StartElement`: in delegation mode a script element
sets `in_script_` and a reference to the minified jquery is rewritten. -/
def StartElement.unminify (s : State) (element : HtmlElement) : State :=
  if element.keyword == .kScript && !s.use_cxx_layout_ then
    let s := { s with in_script_ := true }
    match element.FindAttribute .kSrc with
    | some src_attribute =>
      let src := StringPiece src_attribute.decoded_value
      if containsSubstring src "jquery.min.js" then
        s.emit (.SetValue element.id .kSrc
          (GlobalReplaceSubstring "/jquery.min.js" "/jquery.js" src))
      else s
    | none => s
  else s

/-- The test of `StartElement` for a viewport meta: a `meta` element whose
`name` attribute is `viewport`. -/
def StartElement.isViewportMeta (element : HtmlElement) : Bool :=
  element.keyword == .kMeta &&
    (match element.FindAttribute .kName with
     | some name_attribute =>
       StringPiece name_attribute.escaped_value == "viewport"
     | none => false)

/-- The second part of `StartElement`, for a viewport meta: it is kept when
its content is `kViewportContent` and deleted otherwise. -/
def StartElement.viewport (s : State) (element : HtmlElement) : State :=
  let content := StringPiece (element.AttributeValue .kContent)
  if content == kViewportContent then
    { s with found_viewport_ := true }
  else
    let s := s.emit (.DeleteNode element.id)
    { s with num_elements_deleted_ := s.num_elements_deleted_ + 1 }

/-- The value a C++ `int` holds when the statements `++` and `--` have
brought its count to `count`, as the compiled code has it (32 bits, two's
complement): the count itself as long as it is in the range of `int`. -/
def asInt32 (count : Int) : Int :=
  (count + 2147483648) % 4294967296 - 2147483648

/-- The statement `++body_element_depth_`. The field holds the count; the
`int` of the code holds `asInt32` of it. -/
@[simp]
def State.enterBody (s : State) : State :=
  { s with body_element_depth_ := s.body_element_depth_ + 1 }

/-- The statement `--body_element_depth_`, on the count as `enterBody`. -/
@[simp]
def State.leaveBody (s : State) : State :=
  { s with body_element_depth_ := s.body_element_depth_ - 1 }

/-- The method `MobilizeRewriteFilter::StartElement`. -/
def StartElement (s : State) (element : HtmlElement) : State :=
  let keyword := element.keyword
  let s := StartElement.unminify s element
  if StartElement.isViewportMeta element then
    StartElement.viewport s element
  else if keyword == .kBody then
    let s := s.enterBody
    if s.use_cxx_layout_ then AddReorderContainers s element else s
  else if 0 < s.body_element_depth_ then
    if s.use_cxx_layout_ then HandleStartTagInBody s element else s
  else s

/-- The part of `EndElement` that inserts the script references after the
outermost body in delegation mode. -/
def EndElement.addScripts (s : State) (element : HtmlElement) : State :=
  if !s.added_mob_js_ then
    let s := { s with added_mob_js_ := true }
    let s :=
      if s.use_js_layout_ then insertScriptAfterCurrent s element "mob.js"
      else s
    let s :=
      if s.use_js_nav_ then insertScriptAfterCurrent s element "mob_nav.js"
      else s
    if s.use_js_logo_ then insertScriptAfterCurrent s element "mob_logo.js"
    else s
  else s

/-- The first part of `EndElement`: the close of a script element resets
`in_script_`. -/
def EndElement.script (s : State) (element : HtmlElement) : State :=
  if element.keyword == .kScript then { s with in_script_ := false } else s

/-- The method `MobilizeRewriteFilter::EndElement`; `none` as in
`HandleEndTagInBody`. -/
def EndElement (s : State) (element : HtmlElement) : Option State :=
  let keyword := element.keyword
  let s := EndElement.script s element
  if keyword == .kBody then
    let s := s.leaveBody
    if s.body_element_depth_ == 0 then
      let s :=
        if s.use_js_layout_ || s.use_js_nav_ then EndElement.addScripts s element
        else RemoveReorderContainers s
      some { s with reached_reorder_containers_ := false }
    else some s
  else if s.body_element_depth_ == 0 && keyword == .kHead then
    some (AddStyleAndViewport s element)
  else if 0 < s.body_element_depth_ then
    if s.use_cxx_layout_ then HandleEndTagInBody s element else some s
  else some s

/-- The method `MobilizeRewriteFilter::Characters`. -/
def Characters (s : State) (characters : HtmlCharactersNode) : State :=
  if !s.use_cxx_layout_ then
    if s.in_script_ then
      if containsSubstring characters.contents "//e.mouseflow.com/projects" then
        s.emit (.SetContents characters.id ("/*" ++ characters.contents ++ "*/"))
      else s
    else s
  else if s.body_element_depth_ == 0 || s.reached_reorder_containers_ then
    s
  else
    let (del, debug_msg) :=
      if !InImportantElement s then
        (true, "Deleted characters which were not in an element which" ++
          " was tagged as important: ")
      else if 0 < s.nav_element_depth_ && s.nav_keyword_stack_.isEmpty then
        (true, "Deleted characters inside a navigational section" ++
          " which were not considered to be relevant to navigation: ")
      else (false, "")
    if del then
      let s :=
        if s.driver_.debug_mode && !OnlyWhitespace characters.contents then
          s.emit (.InsertDebugComment (debug_msg ++ characters.contents)
            characters.id)
        else s
      let s := s.emit (.DeleteNode characters.id)
      { s with num_elements_deleted_ := s.num_elements_deleted_ + 1 }
    else s

/-! ## Event streams -/

/-- The three parse events the filter consumes. -/
inductive Event
  | StartElement (element : HtmlElement)
  | EndElement (element : HtmlElement)
  | Characters (characters : HtmlCharactersNode)
  deriving DecidableEq, Repr

/-- Deliver one event to the filter. -/
def step (s : State) : Event → Option State
  | .StartElement element => some (StartElement s element)
  | .EndElement element => EndElement s element
  | .Characters characters => some (Characters s characters)

/-- Deliver a stream of events, in order. -/
def run (s : State) : List Event → Option State
  | [] => some s
  | ev :: rest =>
    match step s ev with
    | some s1 => run s1 rest
    | none => none

/-- The elements left open (innermost first) after a stream of events that
starts with the elements `opened` open; `none` when a close event does not
match the innermost open element. -/
def openElements (opened : List HtmlElement) : List Event →
    Option (List HtmlElement)
  | [] => some opened
  | .StartElement element :: rest => openElements (element :: opened) rest
  | .Characters _ :: rest => openElements opened rest
  | .EndElement element :: rest =>
    match opened with
    | [] => none
    | top :: below =>
      if top = element then openElements below rest else none

/-- A stream is well nested when every open event is followed by its
matching close event, in stack order. -/
def WellNested (events : List Event) : Prop :=
  openElements [] events = some []

instance (events : List Event) : Decidable (WellNested events) := by
  unfold WellNested; infer_instance

/-- The commands issued between an earlier state and a later one. -/
def issued (s s1 : State) : List Cmd :=
  s1.driver_.commands.drop s.driver_.commands.length

/-- The moves among the commands, in order: the element moved and the
container it is moved into. -/
def moves (commands : List Cmd) : List (Nat × Nat) :=
  commands.filterMap (fun c =>
    match c with
    | .MoveCurrentInto current container => some (current, container)
    | _ => none)

/-- The elements moved into `container`, in the order of the commands. -/
def movedInto (container : Nat) (commands : List Cmd) : List Nat :=
  ((moves commands).filter (fun m => m.2 == container)).map (fun m => m.1)

/-- The elements opened by a stream, in the order of their open events. -/
def openIds : List Event → List Nat
  | [] => []
  | .StartElement element :: rest => element.id :: openIds rest
  | _ :: rest => openIds rest

/-- The elements closed by a stream, in the order of their close events. -/
def closeIds : List Event → List Nat
  | [] => []
  | .EndElement element :: rest => element.id :: closeIds rest
  | _ :: rest => closeIds rest

/-- The number of body elements among the open elements. -/
def openBodies (opened : List HtmlElement) : Nat :=
  (opened.filter (fun element => element.keyword == .kBody)).length

/-! ## The invariant of the traversal -/

/-- The traversal state proper is untouched between `s` and `s1`: the mode,
the depth counters, the stacks, the containers and their flags are the same,
and the driver has only allocated nodes. -/
def Keeps (s s1 : State) : Prop :=
  s1.use_cxx_layout_ = s.use_cxx_layout_ ∧
  s1.use_js_layout_ = s.use_js_layout_ ∧
  s1.use_js_logo_ = s.use_js_logo_ ∧
  s1.use_js_nav_ = s.use_js_nav_ ∧
  s1.body_element_depth_ = s.body_element_depth_ ∧
  s1.reached_reorder_containers_ = s.reached_reorder_containers_ ∧
  s1.added_containers_ = s.added_containers_ ∧
  s1.element_roles_stack_ = s.element_roles_stack_ ∧
  s1.mobile_role_containers_ = s.mobile_role_containers_ ∧
  s.driver_.next_node ≤ s1.driver_.next_node

/-- An element pushes (and pops) a role when it is not a body element and its
role is valid. -/
def pushesRole (element : HtmlElement) : Bool :=
  element.keyword != .kBody && GetMobileRole element != .kInvalid

/-- The roles of the open role-bearing elements inside the body, innermost
first. -/
def roleStack : List HtmlElement → List Level
  | [] => []
  | element :: below =>
    if pushesRole element && decide (0 < openBodies below) then
      GetMobileRole element :: roleStack below
    else roleStack below

/-- The elements opened by a stream. -/
def elementsOf : List Event → List HtmlElement
  | [] => []
  | .StartElement element :: rest => element :: elementsOf rest
  | _ :: rest => elementsOf rest

/-- An element of the source document, as opposed to a node the filter
created (those are numbered from `fresh` on), whose open and close events
take the same branch of the handlers: if it has a valid role, it is neither
a table tag nor a viewport meta. -/
def SourceElement (fresh : Nat) (element : HtmlElement) : Prop :=
  element.id < fresh ∧
  (GetMobileRole element ≠ .kInvalid →
    CheckForKeyword kTableTags kTableTags.length element.keyword = false ∧
    StartElement.isViewportMeta element = false)

/-- The invariant of the traversal in self-restructure mode. -/
def Traversal (fresh : Nat) (s : State) (opened : List HtmlElement) : Prop :=
  s.use_cxx_layout_ = true ∧
  s.reached_reorder_containers_ = false ∧
  fresh ≤ s.driver_.next_node ∧
  (∀ c ∈ s.mobile_role_containers_, fresh ≤ c) ∧
  s.body_element_depth_ = openBodies opened ∧
  s.element_roles_stack_ = roleStack opened

instance (fresh : Nat) (element : HtmlElement) :
    Decidable (SourceElement fresh element) := by
  unfold SourceElement; infer_instance

instance (fresh : Nat) (s : State) (opened : List HtmlElement) :
    Decidable (Traversal fresh s opened) := by
  unfold Traversal; infer_instance

/-! ## Fixtures used to state the claims -/

/-- The same element without its attributes named `k`. -/
def withoutAttribute (element : HtmlElement) (k : Keyword) : HtmlElement :=
  { element with attributes := element.attributes.filter (fun a => a.name != k) }

/-- An element with at most one attribute, `data-mobile-role`. -/
def exampleElement (id : Nat) (parent : Option Nat) (keyword : Keyword)
    (name_str : String) (mobile_role : Option String) : HtmlElement :=
  { id := id, parent := parent, keyword := keyword, name_str := name_str,
    attributes :=
      match mobile_role with
      | some r => [⟨.kDataMobileRole, some r, some r⟩]
      | none => [] }

/-- The names of the role table. -/
def roleNames : List String := kMobileRoles.map (fun r => r.value)

/-- The filter of a driver without debug mode whose next fresh node is 100,
in self-restructure mode, at the start of a document. -/
def exampleStart : State :=
  StartDocument (MobilizeRewriteFilter ⟨false, 100, []⟩ false false false "" "")

/-- Whether a command is a move. -/
def isMove : Cmd → Bool
  | .MoveCurrentInto _ _ => true
  | _ => false

/-- A body element. -/
def bodyElement : HtmlElement := exampleElement 0 none .kBody "body" none

/-- A `div` with the given identity, parent and role annotation. -/
def divElement (id parent : Nat) (mobile_role : String) : HtmlElement :=
  exampleElement id (some parent) .kDiv "div" (some mobile_role)

/-- The events of
`<body><div data-mobile-role=content><div data-mobile-role=content>Z</div></div></body>`. -/
def nestedContentDocument : List Event :=
  [ .StartElement bodyElement,
    .StartElement (divElement 1 0 "content"),
    .StartElement (divElement 2 1 "content"),
    .Characters ⟨3, "Z"⟩,
    .EndElement (divElement 2 1 "content"),
    .EndElement (divElement 1 0 "content"),
    .EndElement bodyElement ]

/-- The state of the filter inside the inner `div` of
`nestedContentDocument`, after its text. -/
def insideInnerDiv : State :=
  (run exampleStart (nestedContentDocument.take 4)).getD exampleStart

/-- The events of
`<body><div data-mobile-role=content><div data-mobile-role=header><div data-mobile-role=content>Z</div></div></div></body>`:
a content element (node 3) inside a header element (node 2) inside a content
element (node 1). -/
def crossNestedDocument : List Event :=
  [ .StartElement bodyElement,
    .StartElement (divElement 1 0 "content"),
    .StartElement (divElement 2 1 "header"),
    .StartElement (divElement 3 2 "content"),
    .Characters ⟨4, "Z"⟩,
    .EndElement (divElement 3 2 "content"),
    .EndElement (divElement 2 1 "header"),
    .EndElement (divElement 1 0 "content"),
    .EndElement bodyElement ]

/-- The state of the filter after the whole of `nestedContentDocument`. -/
def afterNestedContentDocument : State :=
  (run exampleStart nestedContentDocument).getD exampleStart

/-- The events of
`<body><div data-mobile-role=content><table data-mobile-role=navigational></table></div></body>`:
a table element (node 2) annotated as navigational inside a content element
(node 1). -/
def navTableDocument : List Event :=
  [ .StartElement bodyElement,
    .StartElement (divElement 1 0 "content"),
    .StartElement (exampleElement 2 (some 1) .kTable "table" (some "navigational")),
    .EndElement (exampleElement 2 (some 1) .kTable "table" (some "navigational")),
    .EndElement (divElement 1 0 "content"),
    .EndElement bodyElement ]

/-- The events of
`<body><table data-mobile-role=navigational></table></body>`. -/
def bareNavTableDocument : List Event :=
  [ .StartElement bodyElement,
    .StartElement (exampleElement 1 (some 0) .kTable "table" (some "navigational")),
    .EndElement (exampleElement 1 (some 0) .kTable "table" (some "navigational")),
    .EndElement bodyElement ]

/-- An element without attributes. -/
def plainElement (id parent : Nat) (keyword : Keyword) (name_str : String) :
    HtmlElement :=
  exampleElement id (some parent) keyword name_str none

/-- The events of
`<body><div data-mobile-role=content><table><tr><td>A</td></tr></table></div></body>`. -/
def tableDocument : List Event :=
  [ .StartElement bodyElement,
    .StartElement (divElement 1 0 "content"),
    .StartElement (plainElement 2 1 .kTable "table"),
    .StartElement (plainElement 3 2 .kTr "tr"),
    .StartElement (plainElement 4 3 .kTd "td"),
    .Characters ⟨5, "A"⟩,
    .EndElement (plainElement 4 3 .kTd "td"),
    .EndElement (plainElement 3 2 .kTr "tr"),
    .EndElement (plainElement 2 1 .kTable "table"),
    .EndElement (divElement 1 0 "content"),
    .EndElement bodyElement ]

/-- The events of `<body><table><tr><td>A</td></tr></table></body>`. -/
def bareTableDocument : List Event :=
  [ .StartElement bodyElement,
    .StartElement (plainElement 2 0 .kTable "table"),
    .StartElement (plainElement 3 2 .kTr "tr"),
    .StartElement (plainElement 4 3 .kTd "td"),
    .Characters ⟨5, "A"⟩,
    .EndElement (plainElement 4 3 .kTd "td"),
    .EndElement (plainElement 3 2 .kTr "tr"),
    .EndElement (plainElement 2 0 .kTable "table"),
    .EndElement bodyElement ]

/-- The events of
`<body><div data-mobile-role=navigational><span>text</span><a>link</a></div></body>`. -/
def navLinksDocument : List Event :=
  [ .StartElement bodyElement,
    .StartElement (divElement 1 0 "navigational"),
    .StartElement (plainElement 2 1 .kSpan "span"),
    .Characters ⟨3, "text"⟩,
    .EndElement (plainElement 2 1 .kSpan "span"),
    .StartElement (plainElement 4 1 .kA "a"),
    .Characters ⟨5, "link"⟩,
    .EndElement (plainElement 4 1 .kA "a"),
    .EndElement (divElement 1 0 "navigational"),
    .EndElement bodyElement ]

/-- The commands the events `i` to `j - 1` of a stream add to the log, the
stream being delivered to `exampleStart`. -/
def issuedBetween (i j : Nat) (events : List Event) : Option (List Cmd) :=
  match run exampleStart (events.take i), run exampleStart (events.take j) with
  | some s, some s1 => some (issued s s1)
  | _, _ => none


/-- The state of the filter inside the content element of `tableDocument`. -/
def insideContentDiv : State :=
  (run exampleStart (tableDocument.take 2)).getD exampleStart

/-- The state of the filter inside the navigational element of
`navLinksDocument`. -/
def insideNavDiv : State :=
  (run exampleStart (navLinksDocument.take 2)).getD exampleStart

/-- The state of the filter inside the body, outside any other element. -/
def insideBody : State :=
  (run exampleStart [.StartElement bodyElement]).getD exampleStart

/-- The events of
`<body><div data-mobile-role=navigational><script>x</script></div></body>`:
a script element (node 2) inside a navigational element and outside any `a`
element. -/
def navScriptDocument : List Event :=
  [ .StartElement bodyElement,
    .StartElement (divElement 1 0 "navigational"),
    .StartElement (plainElement 2 1 .kScript "script"),
    .Characters ⟨3, "x"⟩,
    .EndElement (plainElement 2 1 .kScript "script"),
    .EndElement (divElement 1 0 "navigational"),
    .EndElement bodyElement ]

/-- The events of `<body><script data-mobile-role=bogus>x</script></body>`:
a script element whose annotation names no role. -/
def bogusScriptDocument : List Event :=
  [ .StartElement bodyElement,
    .StartElement (exampleElement 2 (some 0) .kScript "script" (some "bogus")),
    .Characters ⟨3, "x"⟩,
    .EndElement (exampleElement 2 (some 0) .kScript "script" (some "bogus")),
    .EndElement bodyElement ]

/-- The events of `<body><body></body></body>`: a body element (node 1)
nested in the body. -/
def nestedBodyDocument : List Event :=
  [ .StartElement bodyElement,
    .StartElement (plainElement 1 0 .kBody "body"),
    .EndElement (plainElement 1 0 .kBody "body"),
    .EndElement bodyElement ]

/-- The filter of `exampleStart` with the options `mob_layout`, `mob_logo`
and `mob_nav` as given, at the start of a document. -/
def optionsStart (mob_layout mob_logo mob_nav : Bool) : State :=
  StartDocument
    (MobilizeRewriteFilter ⟨false, 100, []⟩ mob_layout mob_logo mob_nav "" "")

/-- The events of `<body></body>`. -/
def emptyBodyDocument : List Event :=
  [.StartElement bodyElement, .EndElement bodyElement]

/-- Whether a command inserts a node after the current one, as the script
references of `EndElement` are. -/
def isScriptInsertion : Cmd → Bool
  | .InsertNodeAfterCurrent _ _ => true
  | _ => false

/-- Whether a command creates a `div`, moves a node or deletes an element
keeping its children: the commands that make, fill and dissolve the
containers. -/
def isContainerCommand : Cmd → Bool
  | .NewElement _ _ .kDiv => true
  | .MoveCurrentInto _ _ => true
  | .DeleteSavingChildren _ => true
  | _ => false

/-- The commands the filter with the given options issues on
`<body></body>`. -/
def emptyBodyCommands (mob_layout mob_logo mob_nav : Bool) : Option (List Cmd) :=
  (run (optionsStart mob_layout mob_logo mob_nav) emptyBodyDocument).map
    (fun s => s.driver_.commands)

/-- The containers are left alone from `s` to `s1`: the mode, the flag
`added_containers_` and the container set are the same, and the log of `s1`
extends the log of `s` without a container command. -/
def Quiet (s s1 : State) : Prop :=
  s1.use_cxx_layout_ = s.use_cxx_layout_ ∧
  s1.added_containers_ = s.added_containers_ ∧
  s1.mobile_role_containers_ = s.mobile_role_containers_ ∧
  s.driver_.commands <+: s1.driver_.commands ∧
  s1.driver_.commands.filter isContainerCommand
    = s.driver_.commands.filter isContainerCommand

/-- The four one-shot flags of the filter: `found_viewport_`, `added_style_`,
`added_containers_` and `added_mob_js_`. -/
def flags (s : State) : Bool × Bool × Bool × Bool :=
  (s.found_viewport_, s.added_style_, s.added_containers_, s.added_mob_js_)

/-- The flags `found_viewport_`, `added_style_` and `added_mob_js_` that are
set in `s` are set in `s1`. -/
def Latched (s s1 : State) : Prop :=
  (s.found_viewport_ = true → s1.found_viewport_ = true) ∧
  (s.added_style_ = true → s1.added_style_ = true) ∧
  (s.added_mob_js_ = true → s1.added_mob_js_ = true)

/-- The events of `<body></body><body></body>`: two body elements (nodes 0
and 1), one after the other. -/
def twoBodiesDocument : List Event :=
  [ .StartElement bodyElement,
    .EndElement bodyElement,
    .StartElement (exampleElement 1 none .kBody "body" none),
    .EndElement (exampleElement 1 none .kBody "body" none) ]

/-- The moved-blocks counter of a role (`LogMovedBlock` has none for
`kInvalid`). -/
def movedBlocks (s : State) : Level → Nat
  | .kKeeper => s.num_keeper_blocks_
  | .kHeader => s.num_header_blocks_
  | .kNavigational => s.num_navigational_blocks_
  | .kContent => s.num_content_blocks_
  | .kMarginal => s.num_marginal_blocks_
  | .kInvalid => 0

/-- Whether a command deletes a node, with or without its children. -/
def isDeletion : Cmd → Bool
  | .DeleteNode _ => true
  | .DeleteSavingChildren _ => true
  | _ => false

/-- Whether a command removes or relocates a node of the document:
`DeleteNode`, `DeleteSavingChildren` or `MoveCurrentInto`. -/
def isDestructive : Cmd → Bool
  | .DeleteNode _ => true
  | .DeleteSavingChildren _ => true
  | .MoveCurrentInto _ _ => true
  | _ => false

/-- The log of `s1` extends the log of `s`, and the destructive commands
added are `added`, in this order. -/
def Destroys (s s1 : State) (added : List Cmd) : Prop :=
  s.driver_.commands <+: s1.driver_.commands ∧
  s1.driver_.commands.filter isDestructive
    = s.driver_.commands.filter isDestructive ++ added

/-- The traversal state of the pruning rules: the two stacks and
`nav_element_depth_`. -/
def navState (s : State) : List Level × List Keyword × Int :=
  (s.element_roles_stack_, s.nav_keyword_stack_, s.nav_element_depth_)

/-- The events of a body whose first child is the keeper container the filter
appended (node 100): the open of the body and the open of that container. -/
def reachedContainersDocument : List Event :=
  [ .StartElement bodyElement,
    .StartElement (plainElement 100 0 .kDiv "div") ]

/-- The state of the filter after `reachedContainersDocument`. -/
def insideContainers : State :=
  (run exampleStart reachedContainersDocument).getD exampleStart

/-- Whether a command inserts a debug comment. -/
def isDebugComment : Cmd → Bool
  | .InsertDebugComment _ _ => true
  | _ => false

/-- The driver with `DebugMode()` off and the debug comments taken out of
its log. -/
def RewriteDriver.withoutDebug (d : RewriteDriver) : RewriteDriver :=
  { debug_mode := false
    next_node := d.next_node
    commands := d.commands.filter (fun c => !isDebugComment c) }

/-- The state with the driver replaced by `RewriteDriver.withoutDebug`:
what is left of a state when the debug mode and its comments are
forgotten. -/
def State.withoutDebug (s : State) : State :=
  { s with driver_ := s.driver_.withoutDebug }

/-- The state with `DebugMode()` set to `debug_mode`. -/
def State.setDebugMode (s : State) (debug_mode : Bool) : State :=
  { s with driver_ := { s.driver_ with debug_mode := debug_mode } }

/-- The filter of `exampleStart` on a driver with `DebugMode()` on. -/
def debugStart : State :=
  StartDocument (MobilizeRewriteFilter ⟨true, 100, []⟩ false false false "" "")

/-- The commands the events `i` to `j - 1` of a stream add to the log, the
stream being delivered to `s0`. -/
def issuedIn (s0 : State) (i j : Nat) (events : List Event) :
    Option (List Cmd) :=
  match run s0 (events.take i), run s0 (events.take j) with
  | some s, some s1 => some (issued s s1)
  | _, _ => none

/-- The events of
`<body><span>X</span><div data-mobile-role=content>Z</div> </body>`: an
element without role (node 1) with its text (node 2), a content element
(node 3) with its text (node 4), and a blank text (node 5). -/
def mixedDocument : List Event :=
  [ .StartElement bodyElement,
    .StartElement (plainElement 1 0 .kSpan "span"),
    .Characters ⟨2, "X"⟩,
    .EndElement (plainElement 1 0 .kSpan "span"),
    .StartElement (divElement 3 0 "content"),
    .Characters ⟨4, "Z"⟩,
    .EndElement (divElement 3 0 "content"),
    .Characters ⟨5, " "⟩,
    .EndElement bodyElement ]

/-- The debug messages of the three deletion rules of
`HandleStartTagInBody`. -/
def elementRules : List String :=
  [ "Deleted table tag: ",
    "Deleted non-nav element in navigational section: ",
    "Deleted element which did not have a mobile role: " ]

/-- The debug messages of the two deletion rules of `Characters`. -/
def textRules : List String :=
  [ "Deleted characters which were not in an element which" ++
      " was tagged as important: ",
    "Deleted characters inside a navigational section" ++
      " which were not considered to be relevant to navigation: " ]

/-- The state of the debug-mode filter inside the body, outside any other
element. -/
def debugInsideBody : State :=
  (run debugStart [.StartElement bodyElement]).getD debugStart

/-- Whether an element is a viewport meta whose content is
`kViewportContent`: the test of `StartElement` that sets
`found_viewport_`. -/
def isGoodViewport (element : HtmlElement) : Bool :=
  StartElement.isViewportMeta element &&
    (StringPiece (element.AttributeValue .kContent) == kViewportContent)

/-- Whether a stream of events opens a viewport meta whose content is
`kViewportContent`. -/
def seenViewport (events : List Event) : Bool :=
  events.any (fun ev =>
    match ev with
    | .StartElement element => isGoodViewport element
    | _ => false)

/-- The commands by which `AddStyleAndViewport` appends the viewport meta, as
the fresh node `n`, to the element `head`. -/
def viewportMeta (n head : Nat) : List Cmd :=
  [ .NewElement n (some head) .kMeta,
    .SetStyle n .BRIEF_CLOSE,
    .AddAttribute n .kName "viewport" .SINGLE_QUOTE,
    .AddAttribute n .kContent kViewportContent .SINGLE_QUOTE,
    .AppendChild head n ]

/-- Whether a command creates a `meta` element. -/
def isMetaCreation : Cmd → Bool
  | .NewElement _ _ .kMeta => true
  | _ => false

/-- The `meta` creations of the log. -/
def metas (s : State) : List Cmd :=
  s.driver_.commands.filter isMetaCreation

/-- A head element. -/
def headElement : HtmlElement := exampleElement 1 none .kHead "head" none

/-- A viewport meta (node 2, in the head) with the given content. -/
def viewportElement (content : String) : HtmlElement :=
  { id := 2, parent := some 1, keyword := .kMeta, name_str := "meta",
    attributes :=
      [ ⟨.kName, some "viewport", some "viewport"⟩,
        ⟨.kContent, some content, some content⟩ ] }

/-- From `s` to `s1` the flags `found_viewport_` and `added_style_` are
kept, and the log is extended without the creation of a `meta`. -/
def NoMeta (s s1 : State) : Prop :=
  s1.found_viewport_ = s.found_viewport_ ∧
  s1.added_style_ = s.added_style_ ∧
  s.driver_.commands <+: s1.driver_.commands ∧
  metas s1 = metas s

/-- The events of `<head><meta name=viewport content=...>` up to the close of
the meta, the head still open. -/
def headWithViewport (content : String) : List Event :=
  [ .StartElement headElement,
    .StartElement (viewportElement content),
    .EndElement (viewportElement content) ]

/-- The state of the filter after `headWithViewport content`. -/
def insideHead (content : String) : State :=
  (run exampleStart (headWithViewport content)).getD exampleStart

/-- The containers are in place whenever they are needed: in
self-restructure mode, `added_containers_` set means that
`mobile_role_containers_` holds five consecutive nodes, and it is set inside
the body. -/
def ContainersReady (s : State) : Prop :=
  s.use_cxx_layout_ = true ∧
  (s.added_containers_ = true →
    ∃ n, s.mobile_role_containers_ = [n, n + 1, n + 2, n + 3, n + 4]) ∧
  (0 < s.body_element_depth_ → s.added_containers_ = true)

/-- The mode, the flag `added_containers_` and the container set. -/
def containerState (s : State) : Bool × Bool × List Nat :=
  (s.use_cxx_layout_, s.added_containers_, s.mobile_role_containers_)

/-- Whether the open event of `element`, the elements `below` being open,
starts a navigational subtree: the element pushes a role inside the body and
this role is `kNavigational`. -/
def opensNavigation (element : HtmlElement) (below : List HtmlElement) : Bool :=
  pushesRole element && decide (0 < openBodies below) &&
    (GetMobileRole element == .kNavigational)

/-- The number of open navigational elements inside the body. -/
def navDepth : List HtmlElement → Nat
  | [] => 0
  | element :: below =>
    (if opensNavigation element below then 1 else 0) + navDepth below

/-- Whether `element`, the elements `below` being open, is a whitelisted
element of a navigational subtree: its tag is in `kPreserveNavTags` (the tag
`a`), it has no valid role, and it opens inside the body under an open
navigational element. -/
def whitelisted (element : HtmlElement) (below : List HtmlElement) : Bool :=
  CheckForKeyword kPreserveNavTags kPreserveNavTags.length element.keyword &&
    (GetMobileRole element == .kInvalid) &&
    decide (0 < openBodies below) && decide (0 < navDepth below)

/-- The number of open whitelisted elements of navigational subtrees. -/
def openWhitelisted : List HtmlElement → Nat
  | [] => 0
  | element :: below =>
    (if whitelisted element below then 1 else 0) + openWhitelisted below

/-- The navigational part of the invariant of the traversal:
`nav_element_depth_` counts the open navigational elements and
`nav_keyword_stack_` holds one `a` for each open whitelisted element. -/
def NavTraversal (s : State) (opened : List HtmlElement) : Prop :=
  s.nav_element_depth_ = navDepth opened ∧
  s.nav_keyword_stack_ = List.replicate (openWhitelisted opened) Keyword.kA

/-- The events of
`<body><div data-mobile-role=navigational><a data-mobile-role=content>x`:
an `a` element annotated as content (node 2), open inside an open
navigational element (node 1), and its text. -/
def annotatedLinkDocument : List Event :=
  [ .StartElement bodyElement,
    .StartElement (divElement 1 0 "navigational"),
    .StartElement (exampleElement 2 (some 1) .kA "a" (some "content")),
    .Characters ⟨3, "x"⟩ ]

/-- The state of the filter inside the `a` element of `navLinksDocument`. -/
def insideNavLink : State :=
  (run exampleStart (navLinksDocument.take 6)).getD exampleStart

/-- The events of
`<body><div data-mobile-role=navigational><table data-mobile-role=navigational></table><a>`:
an `a` element without role (node 3) open inside an open navigational
element (node 1), after a table element annotated as navigational
(node 2). -/
def navTableLinkDocument : List Event :=
  [ .StartElement bodyElement,
    .StartElement (divElement 1 0 "navigational"),
    .StartElement (exampleElement 2 (some 1) .kTable "table" (some "navigational")),
    .EndElement (exampleElement 2 (some 1) .kTable "table" (some "navigational")),
    .StartElement (plainElement 3 1 .kA "a") ]

/-- The function `CheckKeywordsSorted`, run by the constructor in debug
builds: whether every `DCHECK(list[i - 1] < list[i])` of its loop holds. -/
def CheckKeywordsSorted (list : List Keyword) (len : Nat) : Bool :=
  (List.range' 1 (len - 1)).all (fun i =>
    decide ((list.getD (i - 1) default).ord < (list.getD i default).ord))

/-- The static file prefix as the specification words it: `//`, then the
proxy suffix without its first character, then `/static/`, when the suffix
starts with a dot (so is not empty); the empty string otherwise. -/
def staticFilePrefixSpec (proxy_suffix : String) : String :=
  match proxy_suffix.data with
  | '.' :: rest => "//" ++ String.mk rest ++ "/static/"
  | _ => ""

/-- A viewport meta with the content `width=1024` that is annotated as
content (node 5, a child of the body). -/
def annotatedViewportElement : HtmlElement :=
  { id := 5, parent := some 0, keyword := .kMeta, name_str := "meta",
    attributes :=
      [ ⟨.kName, some "viewport", some "viewport"⟩,
        ⟨.kContent, some "width=1024", some "width=1024"⟩,
        ⟨.kDataMobileRole, some "content", some "content"⟩ ] }

/-- The fields of the filter that neither the open nor the close of a body
element may change: all of them but `driver_`, `body_element_depth_`,
`mobile_role_containers_`, `added_containers_`,
`reached_reorder_containers_` and `added_mob_js_`. -/
def bodyFrame (s : State) :
    (Int × Bool × Bool × Bool) × (Bool × Bool × Bool × Bool) ×
      (String × String) × (List Level × List Keyword) ×
      (Nat × Nat × Nat × Nat × Nat × Nat × Nat) :=
  ((s.nav_element_depth_, s.found_viewport_, s.added_style_, s.in_script_),
   (s.use_cxx_layout_, s.use_js_layout_, s.use_js_logo_, s.use_js_nav_),
   (s.static_file_prefix_, s.style_css_),
   (s.element_roles_stack_, s.nav_keyword_stack_),
   (s.num_pages_mobilized_, s.num_keeper_blocks_, s.num_header_blocks_,
    s.num_navigational_blocks_, s.num_content_blocks_,
    s.num_marginal_blocks_, s.num_elements_deleted_))

/-- A body element annotated as content (node 0). -/
def annotatedBodyElement : HtmlElement :=
  exampleElement 0 none .kBody "body" (some "content")

/-- The containers in use were made after the driver had allocated `base`
nodes: the driver has allocated at least `base` nodes, and when
`added_containers_` is set every container is a node allocated since. -/
def FreshContainers (base : Nat) (s : State) : Prop :=
  base ≤ s.driver_.next_node ∧
  (s.added_containers_ = true →
    ∀ c ∈ s.mobile_role_containers_, base ≤ c)

/-- The state in which the next document starts when the body of the
previous one (`<body>`) was never closed. -/
def afterUnclosedBody : State := StartDocument insideBody

/-- Whether a command injects a style: it creates a `style` element or
gives a link the relation `stylesheet`. -/
def isStyleInjection : Cmd → Bool
  | .NewElement _ _ .kStyle => true
  | .AddAttribute _ .kRel value _ => value == "stylesheet"
  | _ => false

/-- The style injections of the log. -/
def styles (s : State) : List Cmd :=
  s.driver_.commands.filter isStyleInjection

/-- The commands by which `AddStyleAndViewport` appends the inline style, as
the fresh nodes `n` (the `style` element) and `n + 1` (its text), to the
element `head`. -/
def inlineStyle (n head : Nat) (css : String) : List Cmd :=
  [ .NewElement n (some head) .kStyle,
    .AppendChild head n,
    .NewCharactersNode (n + 1) n css,
    .AppendChild n (n + 1) ]

/-- The commands by which `AddStyleAndViewport` appends the link to the
style sheet `lite.css`, as the fresh node `n`, to the element `head`. -/
def stylesheetLink (n head : Nat) (base : String) : List Cmd :=
  [ .NewElement n (some head) .kLink,
    .AppendChild head n,
    .AddAttribute n .kRel "stylesheet" .DOUBLE_QUOTE,
    .AddAttribute n .kHref (base ++ "lite.css") .DOUBLE_QUOTE ]

/-- From `s` to `s1` the mode, the prefix of the static files and the style
sheet are the same, and the log is extended without a style injection. -/
def NoStyle (s s1 : State) : Prop :=
  s1.use_cxx_layout_ = s.use_cxx_layout_ ∧
  s1.static_file_prefix_ = s.static_file_prefix_ ∧
  s1.style_css_ = s.style_css_ ∧
  s.driver_.commands <+: s1.driver_.commands ∧
  styles s1 = styles s

/-- The events of `<head>`: the head element is open. -/
def headOpenDocument : List Event := [.StartElement headElement]

/-- The state of the filter after `headOpenDocument`, from the state `s0`. -/
def insideOpenHead (s0 : State) : State :=
  (run s0 headOpenDocument).getD s0

/-- Whether a command inserts a `br` element: it creates one or inserts an
element after another one, as the table branch of `HandleStartTagInBody`
does. -/
def isBreakInsertion : Cmd → Bool
  | .NewElement _ _ .kBr => true
  | .InsertElementAfterElement _ _ => true
  | _ => false

/-- The `br` insertions of the log. -/
def breaks (s : State) : List Cmd :=
  s.driver_.commands.filter isBreakInsertion

/-- The events of
`<body><table><tr><td>x</td></tr></table><div data-mobile-role=content>y</div></body>`
up to the close of the `div`: a table and an annotated element inside the
body. -/
def delegatedDocument : List Event :=
  [ .StartElement bodyElement,
    .StartElement (plainElement 1 0 .kTable "table"),
    .StartElement (plainElement 2 1 .kTr "tr"),
    .StartElement (plainElement 3 2 .kTd "td"),
    .Characters ⟨4, "x"⟩,
    .EndElement (plainElement 3 2 .kTd "td"),
    .EndElement (plainElement 2 1 .kTr "tr"),
    .EndElement (plainElement 1 0 .kTable "table"),
    .StartElement (divElement 5 0 "content"),
    .Characters ⟨6, "y"⟩,
    .EndElement (divElement 5 0 "content") ]

/-- A body element with the given identity, the child of the body element
before it. -/
def bodyAt (id : Nat) : HtmlElement :=
  exampleElement id (if id = 0 then none else some (id - 1)) .kBody "body" none

/-- The open events of `count` body elements nested in one another, numbered
from `first` on. -/
def nestedBodyOpens (first : Nat) : Nat → List Event
  | 0 => []
  | count + 1 =>
    .StartElement (bodyAt first) :: nestedBodyOpens (first + 1) count

/-- The close events of the body elements of `nestedBodyOpens`, innermost
first. -/
def nestedBodyCloses (first : Nat) : Nat → List Event
  | 0 => []
  | count + 1 =>
    nestedBodyCloses (first + 1) count ++ [.EndElement (bodyAt first)]

/-- The elements whose close event the filter receives before it has
reached the reorder containers, that is while `reached_reorder_containers_`
is unset, in the order of these events, along a stream delivered from the
state `s`. Once the flag is set the filter is handed, inside the containers,
the elements it moved there; these close events are not listed. -/
def closesBeforeContainers (s : State) : List Event → List Nat
  | [] => []
  | .StartElement element :: rest =>
    closesBeforeContainers (StartElement s element) rest
  | .Characters characters :: rest =>
    closesBeforeContainers (Characters s characters) rest
  | .EndElement element :: rest =>
    match EndElement s element with
    | some s1 =>
      if s.reached_reorder_containers_ then closesBeforeContainers s1 rest
      else element.id :: closesBeforeContainers s1 rest
    | none => []

/-- The reorder container of the level with index `i`, as
`AddReorderContainers` creates it for the body of the fixtures (node 0) from
`exampleStart`: a `div`, child of the body, node `100 + i`, with the name of
the level as its `name` attribute. -/
def containerElement (i : Nat) : HtmlElement :=
  { id := 100 + i, parent := some 0, keyword := .kDiv, name_str := "div",
    attributes :=
      [⟨.kName, StringFromLevel (Level.ofIndex i),
        StringFromLevel (Level.ofIndex i)⟩] }

/-- The whole pass over `nestedContentDocument`: the source elements, then
the five containers the filter appended to the body, the outer content
element (node 1), which the filter moved, being delivered again, with its
subtree, inside the content container (node 103). -/
def nestedContentPass : List Event :=
  nestedContentDocument.take 6 ++
  [ .StartElement (containerElement 0), .EndElement (containerElement 0),
    .StartElement (containerElement 1), .EndElement (containerElement 1),
    .StartElement (containerElement 2), .EndElement (containerElement 2),
    .StartElement (containerElement 3),
    .StartElement (divElement 1 103 "content"),
    .StartElement (divElement 2 1 "content"),
    .Characters ⟨3, "Z"⟩,
    .EndElement (divElement 2 1 "content"),
    .EndElement (divElement 1 103 "content"),
    .EndElement (containerElement 3),
    .StartElement (containerElement 4), .EndElement (containerElement 4),
    .EndElement bodyElement ]

/-- The state of the filter after the whole of `nestedContentPass`. -/
def afterNestedContentPass : State :=
  (run exampleStart nestedContentPass).getD exampleStart

/-- The pass over
`<body><div data-mobile-role=navigational><a>x</a></div></body>` up to the
second delivery of the `a` element: the source elements, the keeper and the
header container, the open of the navigational container (node 102) and,
inside it, the opens of the navigational element (node 1), which the filter
moved there, and of its `a` element (node 2). -/
def navLinkPass : List Event :=
  [ .StartElement bodyElement,
    .StartElement (divElement 1 0 "navigational"),
    .StartElement (plainElement 2 1 .kA "a"),
    .Characters ⟨3, "x"⟩,
    .EndElement (plainElement 2 1 .kA "a"),
    .EndElement (divElement 1 0 "navigational"),
    .StartElement (containerElement 0), .EndElement (containerElement 0),
    .StartElement (containerElement 1), .EndElement (containerElement 1),
    .StartElement (containerElement 2),
    .StartElement (divElement 1 102 "navigational"),
    .StartElement (plainElement 2 1 .kA "a") ]

/-! ## Classification: lemmas -/

theorem FindAttribute_withoutAttribute (element : HtmlElement) (k : Keyword) :
    (withoutAttribute element k).FindAttribute k = none := by
  simp only [HtmlElement.FindAttribute, withoutAttribute, List.find?_eq_none]
  intro a ha
  have := (List.mem_filter.1 ha).2
  simpa using this

theorem CheckForKeyword_kKeeperTags (k : Keyword) :
    CheckForKeyword kKeeperTags kNumKeeperTags k = decide (k ∈ kKeeperTags) := by
  cases k <;> decide

theorem CheckForKeyword_kTableTags (k : Keyword) :
    CheckForKeyword kTableTags kTableTags.length k = decide (k ∈ kTableTags) := by
  cases k <;> decide

theorem CheckForKeyword_kTableTagsToBr (k : Keyword) :
    CheckForKeyword kTableTagsToBr kTableTagsToBr.length k
      = decide (k ∈ kTableTagsToBr) := by
  cases k <;> decide

theorem CheckForKeyword_kPreserveNavTags (k : Keyword) :
    CheckForKeyword kPreserveNavTags kPreserveNavTags.length k
      = decide (k ∈ kPreserveNavTags) := by
  cases k <;> decide

theorem GetMobileRole_of_attribute (element : HtmlElement) (a : Attribute)
    (h : element.FindAttribute .kDataMobileRole = some a) :
    GetMobileRole element = LevelFromString (StringPiece a.escaped_value) := by
  simp [GetMobileRole, h]

theorem GetMobileRole_of_no_attribute (element : HtmlElement)
    (h : element.FindAttribute .kDataMobileRole = none) :
    GetMobileRole element =
      if element.keyword ∈ kKeeperTags then .kKeeper else .kInvalid := by
  simp [GetMobileRole, h, CheckForKeyword_kKeeperTags]

theorem FromString_unknown (s : String) (hs : s ∉ roleNames) :
    FromString s = none := by
  rw [FromString, List.find?_eq_none]
  intro r hr hbeq
  exact hs (List.mem_map.2 ⟨r, hr, (beq_iff_eq.1 hbeq).symm⟩)

theorem LevelFromString_unknown (s : String) (hs : s ∉ roleNames) :
    LevelFromString s = .kInvalid := by
  simp [LevelFromString, FromString_unknown s hs]

/-! ## Classification: the claims -/

/-- C6: an element whose `data-mobile-role` attribute (the one
`FindAttribute` returns) has a value that is exactly the name of an entry of
the role table gets the level of that entry, whatever its tag; so does a
`script` element annotated `content`. -/
theorem GetMobileRole_known_annotation (element : HtmlElement) (a : Attribute)
    (r : MobileRole)
    (hattr : element.FindAttribute .kDataMobileRole = some a)
    (hr : r ∈ kMobileRoles) (hval : a.escaped_value = some r.value) :
    GetMobileRole element = r.level := by
  rw [GetMobileRole_of_attribute element a hattr, hval]
  have : ∀ r ∈ kMobileRoles, LevelFromString r.value = r.level := by decide
  exact this r hr

theorem GetMobileRole_known_annotation_witness :
    GetMobileRole (exampleElement 1 none .kScript "script" (some "content"))
      = Level.kContent :=
  GetMobileRole_known_annotation
    (exampleElement 1 none .kScript "script" (some "content"))
    ⟨.kDataMobileRole, some "content", some "content"⟩
    ⟨.kContent, "content"⟩ (by decide) (by decide) (by decide)

/-- C7, as stated, fails: a `script` element annotated with the unknown role
`bogus` is classified `kInvalid`, while the same element without the
attribute is classified `kKeeper`. -/
theorem GetMobileRole_unknown_annotation_counterexample :
    "bogus" ∉ roleNames ∧
    GetMobileRole (exampleElement 1 none .kScript "script" (some "bogus"))
      = .kInvalid ∧
    GetMobileRole (withoutAttribute
      (exampleElement 1 none .kScript "script" (some "bogus")) .kDataMobileRole)
      = .kKeeper := by
  decide

/-- C7, amended: an element whose `data-mobile-role` attribute has a value
that is none of the five role names is classified `kInvalid`, whatever its
tag; this is the role of the same element without the attribute exactly when
the tag is not a keeper tag. -/
theorem GetMobileRole_unknown_annotation (element : HtmlElement) (a : Attribute)
    (hattr : element.FindAttribute .kDataMobileRole = some a)
    (hval : StringPiece a.escaped_value ∉ roleNames) :
    GetMobileRole element = .kInvalid ∧
    (GetMobileRole (withoutAttribute element .kDataMobileRole) =
        GetMobileRole element ↔
      element.keyword ∉ [Keyword.kArea, .kMap, .kScript, .kStyle]) := by
  have h1 : GetMobileRole element = .kInvalid := by
    rw [GetMobileRole_of_attribute element a hattr]
    exact LevelFromString_unknown _ hval
  refine ⟨h1, ?_⟩
  rw [h1, GetMobileRole_of_no_attribute _ (FindAttribute_withoutAttribute _ _)]
  have : (withoutAttribute element .kDataMobileRole).keyword = element.keyword := rfl
  rw [this]
  generalize element.keyword = k
  cases k <;> decide

theorem GetMobileRole_unknown_annotation_witness :
    GetMobileRole (exampleElement 1 none .kDiv "div" (some "Header"))
      = .kInvalid ∧
    (GetMobileRole (withoutAttribute
        (exampleElement 1 none .kDiv "div" (some "Header")) .kDataMobileRole) =
        GetMobileRole (exampleElement 1 none .kDiv "div" (some "Header")) ↔
      Keyword.kDiv ∉ [Keyword.kArea, .kMap, .kScript, .kStyle]) :=
  GetMobileRole_unknown_annotation
    (exampleElement 1 none .kDiv "div" (some "Header"))
    ⟨.kDataMobileRole, some "Header", some "Header"⟩ (by decide) (by decide)

/-- C8: an element without a `data-mobile-role` attribute is classified
`kKeeper` exactly when its tag is one of `area`, `map`, `script`, `style`,
and `kInvalid` otherwise; never header, navigational, content or marginal. -/
theorem GetMobileRole_no_annotation (element : HtmlElement)
    (hattr : element.FindAttribute .kDataMobileRole = none) :
    (GetMobileRole element = .kKeeper ↔
      element.keyword ∈ [Keyword.kArea, .kMap, .kScript, .kStyle]) ∧
    (element.keyword ∉ [Keyword.kArea, .kMap, .kScript, .kStyle] →
      GetMobileRole element = .kInvalid) ∧
    GetMobileRole element ∉
      [Level.kHeader, .kNavigational, .kContent, .kMarginal] := by
  rw [GetMobileRole_of_no_attribute element hattr]
  generalize element.keyword = k
  cases k <;> decide

theorem GetMobileRole_no_annotation_witness :
    (GetMobileRole (exampleElement 1 none .kStyle "style" none) = .kKeeper ↔
      Keyword.kStyle ∈ [Keyword.kArea, .kMap, .kScript, .kStyle]) ∧
    (Keyword.kStyle ∉ [Keyword.kArea, .kMap, .kScript, .kStyle] →
      GetMobileRole (exampleElement 1 none .kStyle "style" none) = .kInvalid) ∧
    GetMobileRole (exampleElement 1 none .kStyle "style" none) ∉
      [Level.kHeader, .kNavigational, .kContent, .kMarginal] :=
  GetMobileRole_no_annotation (exampleElement 1 none .kStyle "style" none)
    (by decide)

/-- C9: the role table is a bijection between the five role names and the
five valid levels. The entry at index `i` has level `i`; the names are
pairwise distinct; looking up the name of an entry gives back that entry and
its level, and every valid level has an entry; a string that is none of the
five names (such as `Header` or the empty string) is looked up as NULL,
level `kInvalid`. -/
theorem kMobileRoles_bijection :
    kMobileRoles.map (fun r => r.level.toNat) = List.range 5 ∧
    roleNames.Nodup ∧
    (∀ r ∈ kMobileRoles,
      FromString r.value = some r ∧ LevelFromString r.value = r.level) ∧
    (∀ l : Level, l ≠ .kInvalid →
      ∃ r ∈ kMobileRoles, r.level = l ∧ StringFromLevel l = some r.value) ∧
    (∀ s : String, s ∉ roleNames →
      FromString s = none ∧ LevelFromString s = .kInvalid) ∧
    LevelFromString "Header" = .kInvalid ∧ LevelFromString "" = .kInvalid := by
  refine ⟨by decide, by decide, by decide, ?_, ?_, by decide, by decide⟩
  · intro l hl
    cases l <;> first | exact absurd rfl hl | decide
  · intro s hs
    exact ⟨FromString_unknown s hs, LevelFromString_unknown s hs⟩

theorem kMobileRoles_bijection_witness :
    (∃ r ∈ kMobileRoles, r.level = Level.kContent ∧
      StringFromLevel Level.kContent = some r.value) ∧
    (FromString "KEEPER" = none ∧ LevelFromString "KEEPER" = .kInvalid) :=
  ⟨kMobileRoles_bijection.2.2.2.1 Level.kContent (by decide),
   kMobileRoles_bijection.2.2.2.2.1 "KEEPER" (by decide)⟩

/-! ## The handlers: lemmas -/

theorem LogMovedBlock_driver (s : State) (l : Level) :
    (LogMovedBlock s l).driver_ = s.driver_ := by
  cases l <;> rfl

theorem LogMovedBlock_stack (s : State) (l : Level) :
    (LogMovedBlock s l).element_roles_stack_ = s.element_roles_stack_ := by
  cases l <;> rfl

theorem MobileRoleToContainer_leave (s : State) (r : Level)
    (popped : List Level) (l : Level) :
    MobileRoleToContainer (HandleEndTagInBody.leave s r popped) l
      = MobileRoleToContainer s l := by
  unfold HandleEndTagInBody.leave MobileRoleToContainer
  dsimp only
  split_ifs <;> rfl

theorem leave_stack (s : State) (r : Level) (popped : List Level) :
    (HandleEndTagInBody.leave s r popped).element_roles_stack_ = popped := by
  unfold HandleEndTagInBody.leave
  dsimp only
  split_ifs <;> rfl

theorem leave_driver (s : State) (r : Level) (popped : List Level) :
    (HandleEndTagInBody.leave s r popped).driver_ = s.driver_ := by
  unfold HandleEndTagInBody.leave
  dsimp only
  split_ifs <;> rfl

/-- The role branch of `HandleEndTagInBody`, when the stack is not empty and
the container of the role exists. -/
theorem HandleEndTagInBody_role (s : State) (element : HtmlElement)
    (own : Level) (below : List Level) (c : Nat)
    (hreach : s.reached_reorder_containers_ = false)
    (hvalid : GetMobileRole element ≠ .kInvalid)
    (hstack : s.element_roles_stack_ = own :: below)
    (hcont : s.mobile_role_containers_[(GetMobileRole element).toNat]? = some c) :
    HandleEndTagInBody s element = some
      (HandleEndTagInBody.move
        (HandleEndTagInBody.leave s (GetMobileRole element) below) element
        (GetMobileRole element) c) := by
  have hM : MobileRoleToContainer s (GetMobileRole element) = some (some c) := by
    simp [MobileRoleToContainer, hvalid, hcont]
  unfold HandleEndTagInBody
  simp [hreach, hvalid, hstack, MobileRoleToContainer_leave, hM]

/-- What a successful `HandleEndTagInBody` did. -/
theorem HandleEndTagInBody_inv (s s1 : State) (element : HtmlElement)
    (h : HandleEndTagInBody s element = some s1) :
    (s.reached_reorder_containers_ = true ∧ s1 = s) ∨
    (s.reached_reorder_containers_ = false ∧
      GetMobileRole element ≠ .kInvalid ∧
      ∃ own below c, s.element_roles_stack_ = own :: below ∧
        s.mobile_role_containers_[(GetMobileRole element).toNat]? = some c ∧
        s1 = HandleEndTagInBody.move
          (HandleEndTagInBody.leave s (GetMobileRole element) below) element
          (GetMobileRole element) c) ∨
    (s.reached_reorder_containers_ = false ∧
      GetMobileRole element = .kInvalid ∧
      (s1 = s ∨ s1 = HandleEndTagInBody.nav s element)) := by
  by_cases hreach : s.reached_reorder_containers_ = true
  · left
    simp [HandleEndTagInBody, hreach] at h
    exact ⟨hreach, h.symm⟩
  · have hreach : s.reached_reorder_containers_ = false := by simpa using hreach
    right
    by_cases hvalid : GetMobileRole element = .kInvalid
    · right
      refine ⟨hreach, hvalid, ?_⟩
      simp only [HandleEndTagInBody, hreach, hvalid] at h
      simp only [bne_self_eq_false, Bool.false_eq_true, if_false] at h
      split_ifs at h
      · exact Or.inr (Option.some.inj h).symm
      · exact Or.inl (Option.some.inj h).symm
    · left
      refine ⟨hreach, hvalid, ?_⟩
      cases hstack : s.element_roles_stack_ with
      | nil => simp [HandleEndTagInBody, hreach, hvalid, hstack] at h
      | cons own below =>
        cases hcont : s.mobile_role_containers_[(GetMobileRole element).toNat]? with
        | none =>
          have hM : MobileRoleToContainer s (GetMobileRole element) = none := by
            simp only [MobileRoleToContainer, hvalid, if_false, hcont]
          simp [HandleEndTagInBody, hreach, hvalid, hstack,
            MobileRoleToContainer_leave, hM] at h
        | some c =>
          rw [HandleEndTagInBody_role s element own below c hreach hvalid
            hstack hcont] at h
          exact ⟨own, below, c, rfl, rfl, (Option.some.inj h).symm⟩

/-! ## The handlers: the claims -/

/-- C1: in self-restructure mode, inside the body and before the reorder
containers are reached, `Characters` deletes the text node exactly when
`element_roles_stack_` is empty, or `nav_element_depth_ > 0` and
`nav_keyword_stack_` is empty; in every other case the state, and with it the
command log, is unchanged; the contents of the node are never rewritten. -/
theorem Characters_deletes_iff (s : State) (characters : HtmlCharactersNode)
    (hmode : s.use_cxx_layout_ = true) (hbody : 0 < s.body_element_depth_)
    (hreach : s.reached_reorder_containers_ = false) :
    (Cmd.DeleteNode characters.id ∈ issued s (Characters s characters) ↔
      (s.element_roles_stack_ = [] ∨
        (0 < s.nav_element_depth_ ∧ s.nav_keyword_stack_ = []))) ∧
    (¬ (s.element_roles_stack_ = [] ∨
        (0 < s.nav_element_depth_ ∧ s.nav_keyword_stack_ = [])) →
      Characters s characters = s) ∧
    (∀ contents, Cmd.SetContents characters.id contents ∉
      issued s (Characters s characters)) := by
  have hne : s.body_element_depth_ ≠ 0 := by omega
  by_cases h1 : s.element_roles_stack_ = []
  · by_cases hd : s.driver_.debug_mode = true <;>
    by_cases hw : OnlyWhitespace characters.contents = true <;>
    simp [Characters, hmode, hne, hreach, InImportantElement, h1, hd, hw,
      State.emit, RewriteDriver.emit, issued]
  · by_cases h2 : 0 < s.nav_element_depth_ ∧ s.nav_keyword_stack_ = []
    · by_cases hd : s.driver_.debug_mode = true <;>
      by_cases hw : OnlyWhitespace characters.contents = true <;>
      simp [Characters, hmode, hne, hreach, InImportantElement, h1, h2, hd, hw,
        State.emit, RewriteDriver.emit, issued]
    · have h3 : (decide (0 < s.nav_element_depth_) &&
          s.nav_keyword_stack_.isEmpty) = false := by
        rcases Decidable.not_and_iff_or_not_not.1 h2 with h | h
        · simp [h]
        · simp [h]
      simp [Characters, hmode, hne, hreach, InImportantElement, h1, h2, h3,
        issued]

theorem Characters_deletes_iff_witness :
    (Cmd.DeleteNode 3 ∈ issued insideInnerDiv (Characters insideInnerDiv ⟨3, "Z"⟩) ↔
      (insideInnerDiv.element_roles_stack_ = [] ∨
        (0 < insideInnerDiv.nav_element_depth_ ∧
          insideInnerDiv.nav_keyword_stack_ = []))) ∧
    (¬ (insideInnerDiv.element_roles_stack_ = [] ∨
        (0 < insideInnerDiv.nav_element_depth_ ∧
          insideInnerDiv.nav_keyword_stack_ = [])) →
      Characters insideInnerDiv ⟨3, "Z"⟩ = insideInnerDiv) ∧
    (∀ contents, Cmd.SetContents 3 contents ∉
      issued insideInnerDiv (Characters insideInnerDiv ⟨3, "Z"⟩)) :=
  Characters_deletes_iff insideInnerDiv ⟨3, "Z"⟩ (by decide) (by decide)
    (by decide)

/-- C2: when an element of valid role `r` closes in the body before the
containers are reached, `HandleEndTagInBody` pops `element_roles_stack_` and
then issues exactly one command, the move of the element into the container
of `r`, if the stack is now empty or its new top differs from `r`, and no
command at all if the new top is `r`. On
`<body><div data-mobile-role=content><div data-mobile-role=content>Z</div></div></body>`
the only move is that of the outer `div` (node 1) into the content container
(node 103). -/
theorem HandleEndTagInBody_moves_iff (s : State) (element : HtmlElement)
    (r own : Level) (below : List Level) (c : Nat)
    (hreach : s.reached_reorder_containers_ = false)
    (hrole : GetMobileRole element = r) (hvalid : r ≠ .kInvalid)
    (hstack : s.element_roles_stack_ = own :: below)
    (hcont : s.mobile_role_containers_[r.toNat]? = some c) :
    (∃ s1, HandleEndTagInBody s element = some s1 ∧
      s1.element_roles_stack_ = below ∧
      issued s s1 =
        if below = [] ∨ below.head? ≠ some r then
          [Cmd.MoveCurrentInto element.id c]
        else []) ∧
    (∃ s2, run exampleStart nestedContentDocument = some s2 ∧
      (issued exampleStart s2).filter isMove = [Cmd.MoveCurrentInto 1 103]) := by
  subst hrole
  constructor
  · refine ⟨_, HandleEndTagInBody_role s element own below c hreach hvalid
      hstack hcont, ?_, ?_⟩
    · unfold HandleEndTagInBody.move
      split_ifs <;> simp [LogMovedBlock_stack, State.emit, leave_stack]
    · unfold HandleEndTagInBody.move
      simp only [leave_stack]
      by_cases hb : below = [] ∨ below.head? ≠ some (GetMobileRole element)
      · have hb2 : (below.isEmpty || below.head? != some (GetMobileRole element))
            = true := by
          rcases hb with hb | hb
          · simp [hb]
          · simp [hb]
        simp [hb, hb2, LogMovedBlock_driver, State.emit, RewriteDriver.emit,
          issued, leave_driver]
      · have hb2 : (below.isEmpty || below.head? != some (GetMobileRole element))
            = false := by
          simp only [not_or, not_not] at hb
          cases below with
          | nil => exact absurd rfl hb.1
          | cons a l => simpa using hb.2
        simp [hb, hb2, issued, leave_driver]
  · refine ⟨_, rfl, ?_⟩
    decide

theorem HandleEndTagInBody_moves_iff_witness :
    (∃ s1, HandleEndTagInBody insideInnerDiv (divElement 2 1 "content") = some s1 ∧
      s1.element_roles_stack_ = [Level.kContent] ∧
      issued insideInnerDiv s1 =
        if [Level.kContent] = [] ∨
            [Level.kContent].head? ≠ some Level.kContent then
          [Cmd.MoveCurrentInto (divElement 2 1 "content").id 103]
        else []) ∧
    (∃ s2, run exampleStart nestedContentDocument = some s2 ∧
      (issued exampleStart s2).filter isMove = [Cmd.MoveCurrentInto 1 103]) :=
  HandleEndTagInBody_moves_iff insideInnerDiv (divElement 2 1 "content")
    .kContent .kContent [.kContent] 103 (by decide) (by decide) (by decide)
    (by decide) (by decide)

/-- C5: when the containers have not been created, `AddReorderContainers`
creates five `div` nodes and appends them to the body in the order keeper,
header, navigational, content, marginal, the i-th named after level i;
afterwards `MobileRoleToContainer` maps each valid level to the container
created for it. The commands depend on nothing but the body and the next
fresh node. -/
theorem AddReorderContainers_canonical_order (s : State) (element : HtmlElement)
    (hadded : s.added_containers_ = false) :
    issued s (AddReorderContainers s element) =
      [ .NewElement s.driver_.next_node (some element.id) .kDiv,
        .AddAttribute s.driver_.next_node .kName "keeper" .SINGLE_QUOTE,
        .AppendChild element.id s.driver_.next_node,
        .NewElement (s.driver_.next_node + 1) (some element.id) .kDiv,
        .AddAttribute (s.driver_.next_node + 1) .kName "header" .SINGLE_QUOTE,
        .AppendChild element.id (s.driver_.next_node + 1),
        .NewElement (s.driver_.next_node + 2) (some element.id) .kDiv,
        .AddAttribute (s.driver_.next_node + 2) .kName "navigational"
          .SINGLE_QUOTE,
        .AppendChild element.id (s.driver_.next_node + 2),
        .NewElement (s.driver_.next_node + 3) (some element.id) .kDiv,
        .AddAttribute (s.driver_.next_node + 3) .kName "content" .SINGLE_QUOTE,
        .AppendChild element.id (s.driver_.next_node + 3),
        .NewElement (s.driver_.next_node + 4) (some element.id) .kDiv,
        .AddAttribute (s.driver_.next_node + 4) .kName "marginal" .SINGLE_QUOTE,
        .AppendChild element.id (s.driver_.next_node + 4) ] ∧
    (AddReorderContainers s element).mobile_role_containers_ =
      [ s.driver_.next_node, s.driver_.next_node + 1, s.driver_.next_node + 2,
        s.driver_.next_node + 3, s.driver_.next_node + 4 ] ∧
    (∀ l : Level, l ≠ .kInvalid →
      MobileRoleToContainer (AddReorderContainers s element) l =
        some (some (s.driver_.next_node + l.toNat))) ∧
    (AddReorderContainers s element).added_containers_ = true := by
  have hrange : List.range Level.kInvalid.toNat = [0, 1, 2, 3, 4] := by decide
  have hnames : StringPiece (StringFromLevel (Level.ofIndex 0)) = "keeper" ∧
      StringPiece (StringFromLevel (Level.ofIndex 1)) = "header" ∧
      StringPiece (StringFromLevel (Level.ofIndex 2)) = "navigational" ∧
      StringPiece (StringFromLevel (Level.ofIndex 3)) = "content" ∧
      StringPiece (StringFromLevel (Level.ofIndex 4)) = "marginal" := by decide
  obtain ⟨h0, h1, h2, h3, h4⟩ := hnames
  have hc : (AddReorderContainers s element).mobile_role_containers_ =
      [ s.driver_.next_node, s.driver_.next_node + 1, s.driver_.next_node + 2,
        s.driver_.next_node + 3, s.driver_.next_node + 4 ] := by
    simp [AddReorderContainers, hadded, hrange, AddReorderContainers.body,
      RewriteDriver.NewElement, RewriteDriver.emit]
  refine ⟨?_, hc, ?_, ?_⟩
  · simp [AddReorderContainers, hadded, hrange, AddReorderContainers.body,
      RewriteDriver.NewElement, RewriteDriver.emit, issued, h0, h1, h2, h3, h4]
  · intro l hl
    cases l <;>
      first
      | exact absurd rfl hl
      | simp [MobileRoleToContainer, hc, Level.toNat]
  · simp [AddReorderContainers, hadded]

theorem AddReorderContainers_canonical_order_witness :
    (AddReorderContainers exampleStart bodyElement).mobile_role_containers_ =
      [100, 101, 102, 103, 104] ∧
    MobileRoleToContainer (AddReorderContainers exampleStart bodyElement)
      Level.kContent = some (some 103) := by
  have h := AddReorderContainers_canonical_order exampleStart bodyElement
    (by decide)
  exact ⟨h.2.1, h.2.2.1 Level.kContent (by decide)⟩

/-! ## The depth of the body: lemmas -/

theorem foldl_field {β γ : Type} (proj : State → γ) (f : State → β → State)
    (h : ∀ a b, proj (f a b) = proj a) (l : List β) (a : State) :
    proj (l.foldl f a) = proj a := by
  induction l generalizing a with
  | nil => rfl
  | cons b l ih => exact (ih (f a b)).trans (h a b)

@[simp] theorem emit_body_element_depth (s : State) (c : Cmd) :
    (s.emit c).body_element_depth_ = s.body_element_depth_ := rfl

@[simp] theorem LogMovedBlock_body_element_depth (s : State) (l : Level) :
    (LogMovedBlock s l).body_element_depth_ = s.body_element_depth_ := by
  cases l <;> rfl

theorem AddReorderContainers_body_element_depth (s : State) (element : HtmlElement) :
    (AddReorderContainers s element).body_element_depth_ = s.body_element_depth_ := by
  unfold AddReorderContainers
  split
  · dsimp only
    exact foldl_field (fun t => t.body_element_depth_)
      (AddReorderContainers.body element) (fun _ _ => rfl) _ _
  · rfl

theorem RemoveReorderContainers_body_element_depth (s : State) :
    (RemoveReorderContainers s).body_element_depth_ = s.body_element_depth_ := by
  unfold RemoveReorderContainers
  split
  · dsimp only
    refine foldl_field (fun t => t.body_element_depth_)
      RemoveReorderContainers.body (fun a b => ?_) _ _
    show (RemoveReorderContainers.body a b).body_element_depth_ = _
    unfold RemoveReorderContainers.body
    split <;> rfl
  · rfl

theorem deleteElementSavingChildren_body_element_depth (s : State)
    (element : HtmlElement) (msg : String) :
    (deleteElementSavingChildren s element msg).body_element_depth_
      = s.body_element_depth_ := by
  unfold deleteElementSavingChildren
  split <;> rfl

theorem HandleStartTagInBody_body_element_depth (s : State) (element : HtmlElement) :
    (HandleStartTagInBody s element).body_element_depth_ = s.body_element_depth_ := by
  have htable : (HandleStartTagInBody.table s element).body_element_depth_
      = s.body_element_depth_ := by
    unfold HandleStartTagInBody.table
    dsimp only
    rw [deleteElementSavingChildren_body_element_depth]
    split <;> rfl
  have hrole : (HandleStartTagInBody.role s element).body_element_depth_
      = s.body_element_depth_ := by
    unfold HandleStartTagInBody.role
    dsimp only
    split_ifs <;> rfl
  have hnav : (HandleStartTagInBody.nav s element).body_element_depth_
      = s.body_element_depth_ := by
    unfold HandleStartTagInBody.nav
    dsimp only
    split_ifs <;>
      first
      | rfl
      | (rw [deleteElementSavingChildren_body_element_depth])
  unfold HandleStartTagInBody
  dsimp only
  split_ifs <;>
    first
    | rfl
    | exact htable
    | exact hrole
    | exact hnav
    | exact deleteElementSavingChildren_body_element_depth _ _ _

theorem InsertPolymerLinks_body_element_depth (s : State) (element : HtmlElement)
    (base : String) (links : List String) :
    (InsertPolymerLinks s element base links).body_element_depth_
      = s.body_element_depth_ :=
  foldl_field (fun t => t.body_element_depth_)
    (fun s l => InsertPolymerLink s element (base ++ l)) (fun _ _ => rfl) _ _

theorem AddStyleAndViewport_body_element_depth (s : State) (element : HtmlElement) :
    (AddStyleAndViewport s element).body_element_depth_ = s.body_element_depth_ := by
  have hp : ∀ t : State, (AddStyleAndViewport.polymer t element).body_element_depth_ = t.body_element_depth_ := by
    intro t
    unfold AddStyleAndViewport.polymer
    split
    · dsimp only
      rw [InsertPolymerLinks_body_element_depth,
        InsertPolymerLinks_body_element_depth]
    · rfl
  have hl : ∀ t : State, (AddStyleAndViewport.link t element).body_element_depth_ = t.body_element_depth_ := by
    intro t; unfold AddStyleAndViewport.link; split <;> rfl
  have hv : ∀ t : State, (AddStyleAndViewport.viewport t element).body_element_depth_ = t.body_element_depth_ := by
    intro t; unfold AddStyleAndViewport.viewport; split <;> rfl
  have hs : ∀ t : State, (AddStyleAndViewport.style t element).body_element_depth_ = t.body_element_depth_ := by
    intro t; unfold AddStyleAndViewport.style; split <;> rfl
  unfold AddStyleAndViewport
  split
  · simp only [hp, hl, hv, hs]
  · rfl

theorem move_body_element_depth (s : State) (element : HtmlElement) (r : Level) (c : Nat) :
    (HandleEndTagInBody.move s element r c).body_element_depth_ = s.body_element_depth_ := by
  unfold HandleEndTagInBody.move
  split_ifs <;> simp

theorem leave_body_element_depth (s : State) (r : Level) (popped : List Level) :
    (HandleEndTagInBody.leave s r popped).body_element_depth_ = s.body_element_depth_ := by
  unfold HandleEndTagInBody.leave
  dsimp only
  split_ifs <;> rfl

theorem nav_body_element_depth (s : State) (element : HtmlElement) :
    (HandleEndTagInBody.nav s element).body_element_depth_ = s.body_element_depth_ := by
  unfold HandleEndTagInBody.nav
  dsimp only
  split_ifs <;> rfl

theorem HandleEndTagInBody_body_element_depth (s s1 : State) (element : HtmlElement)
    (h : HandleEndTagInBody s element = some s1) :
    s1.body_element_depth_ = s.body_element_depth_ := by
  rcases HandleEndTagInBody_inv s s1 element h with ⟨_, rfl⟩ | ⟨_, _, _, _, _, _, _, rfl⟩ | ⟨_, _, rfl | rfl⟩
  · rfl
  · rw [move_body_element_depth, leave_body_element_depth]
  · rfl
  · exact nav_body_element_depth s element

theorem Characters_body_element_depth (s : State) (characters : HtmlCharactersNode) :
    (Characters s characters).body_element_depth_ = s.body_element_depth_ := by
  unfold Characters
  split_ifs <;> simp

theorem insertScriptAfterCurrent_body_element_depth (s : State) (element : HtmlElement) (file : String) :
    (insertScriptAfterCurrent s element file).body_element_depth_ = s.body_element_depth_ := rfl

theorem unminify_body_element_depth (s : State) (element : HtmlElement) :
    (StartElement.unminify s element).body_element_depth_ = s.body_element_depth_ := by
  unfold StartElement.unminify
  split
  · dsimp only
    split
    · split <;> rfl
    · rfl
  · rfl

theorem viewport_body_element_depth (s : State) (element : HtmlElement) :
    (StartElement.viewport s element).body_element_depth_ = s.body_element_depth_ := by
  unfold StartElement.viewport
  dsimp only
  split <;> rfl

theorem addScripts_body_element_depth (s : State) (element : HtmlElement) :
    (EndElement.addScripts s element).body_element_depth_ = s.body_element_depth_ := by
  unfold EndElement.addScripts
  dsimp only
  split_ifs <;> rfl

theorem isViewportMeta_keyword (element : HtmlElement)
    (h : StartElement.isViewportMeta element = true) : element.keyword = .kMeta := by
  unfold StartElement.isViewportMeta at h
  simp only [Bool.and_eq_true, beq_iff_eq] at h
  exact h.1

theorem StartElement_body_element_depth (s : State) (element : HtmlElement) :
    (StartElement s element).body_element_depth_ =
      s.body_element_depth_ + (if element.keyword = .kBody then 1 else 0) := by
  unfold StartElement
  dsimp only
  by_cases hv : StartElement.isViewportMeta element = true
  · have hk := isViewportMeta_keyword element hv
    simp [hv, hk, viewport_body_element_depth, unminify_body_element_depth]
  · by_cases hb : element.keyword = .kBody
    · simp only [hv, hb, if_true, beq_self_eq_true, if_false, Bool.false_eq_true]
      split
      · rw [AddReorderContainers_body_element_depth]
        simp [unminify_body_element_depth]
      · simp [unminify_body_element_depth]
    · simp only [hv, hb, if_false, Bool.false_eq_true, beq_iff_eq, add_zero]
      split_ifs <;>
        simp [HandleStartTagInBody_body_element_depth, unminify_body_element_depth]

theorem EndElement_body_element_depth (s s1 : State) (element : HtmlElement)
    (h : EndElement s element = some s1) :
    s1.body_element_depth_ =
      s.body_element_depth_ - (if element.keyword = .kBody then 1 else 0) := by
  unfold EndElement at h
  dsimp only at h
  have hscript : (EndElement.script s element).body_element_depth_
      = s.body_element_depth_ := by
    unfold EndElement.script; split <;> rfl
  by_cases hb : element.keyword = .kBody
  · simp only [hb, beq_self_eq_true, if_true] at h
    split_ifs at h <;> (cases h; simp [hb, addScripts_body_element_depth, RemoveReorderContainers_body_element_depth, hscript])
  · simp only [hb, beq_iff_eq, if_false, Bool.false_eq_true, sub_zero] at h ⊢
    split_ifs at h
    · cases h; rw [AddStyleAndViewport_body_element_depth, hscript]
    · rw [HandleEndTagInBody_body_element_depth _ _ _ h, hscript]
    · cases h; rw [hscript]
    · cases h; rw [hscript]

/-! ## Streams: lemmas -/

theorem run_append (s : State) (pre rest : List Event) :
    run s (pre ++ rest) = (run s pre).bind (fun s1 => run s1 rest) := by
  induction pre generalizing s with
  | nil => rfl
  | cons ev pre ih =>
    simp only [List.cons_append, run]
    cases step s ev with
    | none => rfl
    | some s1 => exact ih s1

theorem openElements_append (opened : List HtmlElement) (pre rest : List Event) :
    openElements opened (pre ++ rest) =
      (openElements opened pre).bind (fun o => openElements o rest) := by
  induction pre generalizing opened with
  | nil => rfl
  | cons ev pre ih =>
    cases ev with
    | StartElement element => simp only [List.cons_append, openElements]; exact ih _
    | Characters c => simp only [List.cons_append, openElements]; exact ih _
    | EndElement element =>
      cases opened with
      | nil => rfl
      | cons top below =>
        simp only [List.cons_append, openElements]
        split
        · exact ih _
        · rfl

theorem openBodies_cons (element : HtmlElement) (opened : List HtmlElement) :
    (openBodies (element :: opened) : Int) =
      openBodies opened + (if element.keyword = .kBody then 1 else 0) := by
  unfold openBodies
  by_cases h : element.keyword = .kBody <;> simp [List.filter_cons, h]

/-- The body depth follows the open body elements along any stream. -/
theorem body_element_depth_run (events : List Event) (s s1 : State)
    (opened opened1 : List HtmlElement)
    (hopen : openElements opened events = some opened1)
    (hrun : run s events = some s1) :
    s1.body_element_depth_ - openBodies opened1 =
      s.body_element_depth_ - openBodies opened := by
  induction events generalizing s opened with
  | nil =>
    simp only [openElements, run, Option.some.injEq] at hopen hrun
    subst hopen; subst hrun; rfl
  | cons ev events ih =>
    cases ev with
    | StartElement element =>
      simp only [openElements, run, step] at hopen hrun
      rw [ih _ _ hopen hrun, StartElement_body_element_depth, openBodies_cons]
      omega
    | Characters c =>
      simp only [openElements, run, step] at hopen hrun
      rw [ih _ _ hopen hrun, Characters_body_element_depth]
    | EndElement element =>
      cases opened with
      | nil => simp [openElements] at hopen
      | cons top below =>
        simp only [openElements] at hopen
        split_ifs at hopen with htop
        subst htop
        simp only [run, step] at hrun
        cases hstep : EndElement s top with
        | none => simp [hstep] at hrun
        | some s2 =>
          simp only [hstep] at hrun
          rw [ih _ _ hopen hrun, EndElement_body_element_depth _ _ _ hstep, openBodies_cons]
          omega

/-! ## The moves in the command log: lemmas -/

@[simp] theorem moves_nil : moves [] = [] := rfl

@[simp] theorem moves_append (a b : List Cmd) :
    moves (a ++ b) = moves a ++ moves b := by
  simp [moves, List.filterMap_append]

@[simp] theorem emit_commands (s : State) (c : Cmd) :
    (s.emit c).driver_.commands = s.driver_.commands ++ [c] := rfl

@[simp] theorem driver_emit_commands (d : RewriteDriver) (c : Cmd) :
    (d.emit c).commands = d.commands ++ [c] := rfl

@[simp] theorem NewElement_commands (d : RewriteDriver) (parent : Option Nat)
    (k : Keyword) :
    (d.NewElement parent k).1.commands
      = d.commands ++ [Cmd.NewElement d.next_node parent k] := rfl

@[simp] theorem NewCharactersNode_commands (d : RewriteDriver) (parent : Nat)
    (contents : String) :
    (d.NewCharactersNode parent contents).1.commands
      = d.commands ++ [Cmd.NewCharactersNode d.next_node parent contents] := rfl

theorem moves_LogMovedBlock (s : State) (l : Level) :
    moves (LogMovedBlock s l).driver_.commands = moves s.driver_.commands := by
  rw [LogMovedBlock_driver]

theorem moves_AddReorderContainers (s : State) (element : HtmlElement) :
    moves (AddReorderContainers s element).driver_.commands
      = moves s.driver_.commands := by
  unfold AddReorderContainers
  split
  · dsimp only
    refine foldl_field (fun t => moves t.driver_.commands)
      (AddReorderContainers.body element) (fun a b => ?_) _ _
    simp [AddReorderContainers.body, moves]
  · rfl

theorem moves_RemoveReorderContainers (s : State) :
    moves (RemoveReorderContainers s).driver_.commands
      = moves s.driver_.commands := by
  unfold RemoveReorderContainers
  split
  · dsimp only
    refine foldl_field (fun t => moves t.driver_.commands)
      RemoveReorderContainers.body (fun a b => ?_) _ _
    unfold RemoveReorderContainers.body
    split <;> simp [moves]
  · rfl

theorem moves_deleteElementSavingChildren (s : State) (element : HtmlElement)
    (msg : String) :
    moves (deleteElementSavingChildren s element msg).driver_.commands
      = moves s.driver_.commands := by
  unfold deleteElementSavingChildren
  split <;> simp [moves]

theorem moves_HandleStartTagInBody (s : State) (element : HtmlElement) :
    moves (HandleStartTagInBody s element).driver_.commands
      = moves s.driver_.commands := by
  have htable : moves (HandleStartTagInBody.table s element).driver_.commands
      = moves s.driver_.commands := by
    unfold HandleStartTagInBody.table
    dsimp only
    rw [moves_deleteElementSavingChildren]
    split <;> simp [moves]
  have hrole : moves (HandleStartTagInBody.role s element).driver_.commands
      = moves s.driver_.commands := by
    unfold HandleStartTagInBody.role
    dsimp only
    split_ifs <;> rfl
  have hnav : moves (HandleStartTagInBody.nav s element).driver_.commands
      = moves s.driver_.commands := by
    unfold HandleStartTagInBody.nav
    dsimp only
    split_ifs <;>
      first
      | rfl
      | (rw [moves_deleteElementSavingChildren])
  unfold HandleStartTagInBody
  dsimp only
  split_ifs <;>
    first
    | rfl
    | exact htable
    | exact hrole
    | exact hnav
    | exact moves_deleteElementSavingChildren _ _ _

theorem moves_InsertPolymerLinks (s : State) (element : HtmlElement)
    (base : String) (links : List String) :
    moves (InsertPolymerLinks s element base links).driver_.commands
      = moves s.driver_.commands := by
  refine foldl_field (fun t => moves t.driver_.commands)
    (fun s l => InsertPolymerLink s element (base ++ l)) (fun a b => ?_) _ _
  simp [InsertPolymerLink, moves]

theorem moves_AddStyleAndViewport (s : State) (element : HtmlElement) :
    moves (AddStyleAndViewport s element).driver_.commands
      = moves s.driver_.commands := by
  have hp : ∀ t : State, moves (AddStyleAndViewport.polymer t element).driver_.commands
      = moves t.driver_.commands := by
    intro t
    unfold AddStyleAndViewport.polymer
    split
    · dsimp only
      rw [moves_InsertPolymerLinks, moves_InsertPolymerLinks]
      simp [moves]
    · rfl
  have hl : ∀ t : State, moves (AddStyleAndViewport.link t element).driver_.commands
      = moves t.driver_.commands := by
    intro t; unfold AddStyleAndViewport.link; split <;> simp [moves]
  have hv : ∀ t : State, moves (AddStyleAndViewport.viewport t element).driver_.commands
      = moves t.driver_.commands := by
    intro t; unfold AddStyleAndViewport.viewport; split <;> simp [moves]
  have hs : ∀ t : State, moves (AddStyleAndViewport.style t element).driver_.commands
      = moves t.driver_.commands := by
    intro t; unfold AddStyleAndViewport.style; split <;> simp [moves]
  unfold AddStyleAndViewport
  split
  · simp only [hp, hl, hv, hs]
  · rfl

theorem moves_move (s : State) (element : HtmlElement) (r : Level) (c : Nat) :
    moves (HandleEndTagInBody.move s element r c).driver_.commands
      = moves s.driver_.commands ∨
    moves (HandleEndTagInBody.move s element r c).driver_.commands
      = moves s.driver_.commands ++ [(element.id, c)] := by
  unfold HandleEndTagInBody.move
  split_ifs
  · right; rw [moves_LogMovedBlock]; simp [moves]
  · left; rfl

theorem moves_HandleEndTagInBody (s s1 : State) (element : HtmlElement)
    (h : HandleEndTagInBody s element = some s1) :
    moves s1.driver_.commands = moves s.driver_.commands ∨
    ∃ c, moves s1.driver_.commands = moves s.driver_.commands ++ [(element.id, c)] := by
  rcases HandleEndTagInBody_inv s s1 element h with
    ⟨_, rfl⟩ | ⟨_, _, _, below, c, _, _, rfl⟩ | ⟨_, _, rfl | rfl⟩
  · exact Or.inl rfl
  · rcases moves_move (HandleEndTagInBody.leave s (GetMobileRole element) below)
      element (GetMobileRole element) c with h1 | h1
    · left; rw [h1, leave_driver]
    · right; exact ⟨c, by rw [h1, leave_driver]⟩
  · exact Or.inl rfl
  · left
    unfold HandleEndTagInBody.nav
    dsimp only
    split_ifs <;> rfl

theorem moves_Characters (s : State) (characters : HtmlCharactersNode) :
    moves (Characters s characters).driver_.commands = moves s.driver_.commands := by
  unfold Characters
  split_ifs <;> simp [moves]

theorem moves_unminify (s : State) (element : HtmlElement) :
    moves (StartElement.unminify s element).driver_.commands
      = moves s.driver_.commands := by
  unfold StartElement.unminify
  split
  · dsimp only
    split
    · split <;> simp [moves]
    · rfl
  · rfl

theorem moves_viewport (s : State) (element : HtmlElement) :
    moves (StartElement.viewport s element).driver_.commands
      = moves s.driver_.commands := by
  unfold StartElement.viewport
  dsimp only
  split <;> simp [moves]

theorem moves_addScripts (s : State) (element : HtmlElement) :
    moves (EndElement.addScripts s element).driver_.commands
      = moves s.driver_.commands := by
  unfold EndElement.addScripts
  dsimp only
  split_ifs <;> simp [insertScriptAfterCurrent, moves]

theorem moves_script (s : State) (element : HtmlElement) :
    moves (EndElement.script s element).driver_.commands
      = moves s.driver_.commands := by
  unfold EndElement.script; split <;> rfl

theorem moves_StartElement (s : State) (element : HtmlElement) :
    moves (StartElement s element).driver_.commands = moves s.driver_.commands := by
  unfold StartElement
  dsimp only
  split_ifs <;>
    simp [moves_viewport, moves_unminify, moves_AddReorderContainers,
      moves_HandleStartTagInBody]

theorem moves_EndElement (s s1 : State) (element : HtmlElement)
    (h : EndElement s element = some s1) :
    moves s1.driver_.commands = moves s.driver_.commands ∨
    ∃ c, moves s1.driver_.commands = moves s.driver_.commands ++ [(element.id, c)] := by
  unfold EndElement at h
  dsimp only at h
  split_ifs at h
  · cases h; left; simp [moves_addScripts, moves_script]
  · cases h; left; simp [moves_RemoveReorderContainers, moves_script]
  · cases h; left; simp [moves_script]
  · cases h; left; simp [moves_AddStyleAndViewport, moves_script]
  · have := moves_HandleEndTagInBody _ _ _ h
    rwa [moves_script] at this
  · cases h; left; simp [moves_script]
  · cases h; left; simp [moves_script]

/-- Along any stream the log of moves grows by a subsequence of the close
events: an element is moved, if at all, when it closes. -/
theorem moves_run (events : List Event) (s s1 : State)
    (hrun : run s events = some s1) :
    ∃ l, moves s1.driver_.commands = moves s.driver_.commands ++ l ∧
      (l.map (fun m => m.1)).Sublist (closeIds events) := by
  induction events generalizing s with
  | nil =>
    simp only [run, Option.some.injEq] at hrun
    subst hrun
    exact ⟨[], by simp, by simp [closeIds]⟩
  | cons ev events ih =>
    cases ev with
    | StartElement element =>
      simp only [run, step] at hrun
      obtain ⟨l, hl, hsub⟩ := ih _ hrun
      exact ⟨l, by rw [hl, moves_StartElement], by simpa [closeIds] using hsub⟩
    | Characters c =>
      simp only [run, step] at hrun
      obtain ⟨l, hl, hsub⟩ := ih _ hrun
      exact ⟨l, by rw [hl, moves_Characters], by simpa [closeIds] using hsub⟩
    | EndElement element =>
      simp only [run, step] at hrun
      cases hstep : EndElement s element with
      | none => simp [hstep] at hrun
      | some s2 =>
        simp only [hstep] at hrun
        obtain ⟨l, hl, hsub⟩ := ih _ hrun
        rcases moves_EndElement _ _ _ hstep with h2 | ⟨c, h2⟩
        · exact ⟨l, by rw [hl, h2], by
            simp only [closeIds]; exact hsub.trans (List.sublist_cons_self _ _)⟩
        · refine ⟨(element.id, c) :: l, by rw [hl, h2]; simp, ?_⟩
          simp only [closeIds, List.map_cons]
          exact hsub.cons₂ _


/-! ## The invariant of the traversal: lemmas -/

theorem Keeps.refl (s : State) : Keeps s s :=
  ⟨rfl, rfl, rfl, rfl, rfl, rfl, rfl, rfl, rfl, Nat.le_refl _⟩

theorem Keeps.trans {s s1 s2 : State} (h1 : Keeps s s1) (h2 : Keeps s1 s2) :
    Keeps s s2 := by
  obtain ⟨a1, a2, a3, a4, a5, a6, a7, a8, a9, a10⟩ := h1
  obtain ⟨b1, b2, b3, b4, b5, b6, b7, b8, b9, b10⟩ := h2
  exact ⟨b1.trans a1, b2.trans a2, b3.trans a3, b4.trans a4, b5.trans a5,
    b6.trans a6, b7.trans a7, b8.trans a8, b9.trans a9, Nat.le_trans a10 b10⟩

theorem Keeps.foldl {β : Type} (f : State → β → State)
    (h : ∀ a b, Keeps a (f a b)) (l : List β) (s : State) :
    Keeps s (l.foldl f s) := by
  induction l generalizing s with
  | nil => exact Keeps.refl s
  | cons b l ih => exact (h s b).trans (ih (f s b))

theorem Keeps.emit (s : State) (c : Cmd) : Keeps s (s.emit c) :=
  ⟨rfl, rfl, rfl, rfl, rfl, rfl, rfl, rfl, rfl, Nat.le_refl _⟩

theorem Keeps.deleteSavingChildren (s : State) (element : HtmlElement)
    (msg : String) : Keeps s (deleteElementSavingChildren s element msg) := by
  unfold deleteElementSavingChildren
  split <;> exact ⟨rfl, rfl, rfl, rfl, rfl, rfl, rfl, rfl, rfl, Nat.le_refl _⟩

theorem Keeps.characters (s : State) (characters : HtmlCharactersNode) :
    Keeps s (Characters s characters) := by
  unfold Characters
  split_ifs <;> simp [Keeps, State.emit, RewriteDriver.emit]

theorem Keeps.unminify (s : State) (element : HtmlElement) :
    Keeps s (StartElement.unminify s element) := by
  unfold StartElement.unminify
  split
  · dsimp only
    split
    · split <;> simp [Keeps, State.emit, RewriteDriver.emit]
    · simp [Keeps]
  · exact Keeps.refl s

theorem Keeps.viewport (s : State) (element : HtmlElement) :
    Keeps s (StartElement.viewport s element) := by
  unfold StartElement.viewport
  dsimp only
  split <;> simp [Keeps, State.emit, RewriteDriver.emit]

theorem Keeps.script (s : State) (element : HtmlElement) :
    Keeps s (EndElement.script s element) := by
  unfold EndElement.script
  split <;> simp [Keeps]

theorem Keeps.insertScript (s : State) (element : HtmlElement)
    (file : String) : Keeps s (insertScriptAfterCurrent s element file) := by
  simp [Keeps, insertScriptAfterCurrent, RewriteDriver.NewElement,
    RewriteDriver.emit]

theorem Keeps.addScripts (s : State) (element : HtmlElement) :
    Keeps s (EndElement.addScripts s element) := by
  unfold EndElement.addScripts
  dsimp only
  split_ifs <;>
    simp [Keeps, insertScriptAfterCurrent, RewriteDriver.NewElement,
      RewriteDriver.emit] <;> omega

theorem Keeps.polymerLinks (s : State) (element : HtmlElement)
    (base : String) (links : List String) :
    Keeps s (InsertPolymerLinks s element base links) := by
  refine Keeps.foldl (fun s l => InsertPolymerLink s element (base ++ l))
    (fun a b => ?_) links s
  simp [Keeps, InsertPolymerLink, RewriteDriver.NewElement, RewriteDriver.emit]

theorem Keeps.styleAndViewport (s : State) (element : HtmlElement) :
    Keeps s (AddStyleAndViewport s element) := by
  have hp : ∀ t : State, Keeps t (AddStyleAndViewport.polymer t element) := by
    intro t
    unfold AddStyleAndViewport.polymer
    split
    · dsimp only
      refine Keeps.trans ?_ (Keeps.polymerLinks _ _ _ _)
      refine Keeps.trans ?_ (Keeps.polymerLinks _ _ _ _)
      simp [Keeps, RewriteDriver.NewElement, RewriteDriver.emit]
    · exact Keeps.refl t
  have hl : ∀ t : State, Keeps t (AddStyleAndViewport.link t element) := by
    intro t; unfold AddStyleAndViewport.link
    split <;> simp [Keeps, RewriteDriver.NewElement, RewriteDriver.emit]
  have hv : ∀ t : State, Keeps t (AddStyleAndViewport.viewport t element) := by
    intro t; unfold AddStyleAndViewport.viewport
    split <;> simp [Keeps, RewriteDriver.NewElement, RewriteDriver.emit]
  have hs : ∀ t : State, Keeps t (AddStyleAndViewport.style t element) := by
    intro t; unfold AddStyleAndViewport.style
    split
    · simp only [Keeps, RewriteDriver.NewElement, RewriteDriver.NewCharactersNode,
        RewriteDriver.emit, and_self, true_and]
      omega
    · exact Keeps.refl t
  unfold AddStyleAndViewport
  split
  · dsimp only
    refine Keeps.trans ?_ (hp _)
    refine Keeps.trans ?_ (hl _)
    refine Keeps.trans ?_ (hv _)
    refine Keeps.trans ?_ (hs _)
    simp [Keeps]
  · exact Keeps.refl s


/-- What `AddReorderContainers` leaves and what it makes. -/
theorem AddReorderContainers_frame (s : State) (element : HtmlElement) :
    (AddReorderContainers s element).use_cxx_layout_ = s.use_cxx_layout_ ∧
    (AddReorderContainers s element).body_element_depth_
      = s.body_element_depth_ ∧
    (AddReorderContainers s element).reached_reorder_containers_
      = s.reached_reorder_containers_ ∧
    (AddReorderContainers s element).element_roles_stack_
      = s.element_roles_stack_ ∧
    s.driver_.next_node ≤ (AddReorderContainers s element).driver_.next_node ∧
    (∀ c ∈ (AddReorderContainers s element).mobile_role_containers_,
      c ∈ s.mobile_role_containers_ ∨ s.driver_.next_node ≤ c) := by
  by_cases hadded : s.added_containers_ = true
  · simp only [AddReorderContainers, hadded, Bool.not_true, Bool.false_eq_true,
      if_false]
    exact ⟨trivial, trivial, trivial, trivial, Nat.le_refl _,
      fun c hc => Or.inl hc⟩
  · have hadded : s.added_containers_ = false := by simpa using hadded
    have hrange : List.range Level.kInvalid.toNat = [0, 1, 2, 3, 4] := by decide
    simp only [AddReorderContainers, hadded, hrange, AddReorderContainers.body,
      RewriteDriver.NewElement, RewriteDriver.emit, List.foldl, Bool.not_false,
      if_true, List.nil_append, List.cons_append, List.mem_cons,
      List.not_mem_nil, or_false]
    refine ⟨trivial, trivial, trivial, trivial, by omega, ?_⟩
    intro c hc
    right
    rcases hc with h | h | h | h | h <;> omega

/-- What `RemoveReorderContainers` leaves and what it clears. -/
theorem RemoveReorderContainers_frame (s : State) :
    (RemoveReorderContainers s).use_cxx_layout_ = s.use_cxx_layout_ ∧
    (RemoveReorderContainers s).body_element_depth_ = s.body_element_depth_ ∧
    (RemoveReorderContainers s).reached_reorder_containers_
      = s.reached_reorder_containers_ ∧
    (RemoveReorderContainers s).element_roles_stack_ = s.element_roles_stack_ ∧
    s.driver_.next_node ≤ (RemoveReorderContainers s).driver_.next_node ∧
    (∀ c ∈ (RemoveReorderContainers s).mobile_role_containers_,
      c ∈ s.mobile_role_containers_) := by
  have hbody : ∀ a b, Keeps a (RemoveReorderContainers.body a b) := by
    intro a b
    unfold RemoveReorderContainers.body
    split <;> simp [Keeps, State.emit, RewriteDriver.emit]
  unfold RemoveReorderContainers
  split
  · dsimp only
    obtain ⟨h1, _, _, _, h5, h7, _, h9, _, h12⟩ :=
      Keeps.foldl RemoveReorderContainers.body hbody
        ((List.range s.mobile_role_containers_.length).zip s.mobile_role_containers_) s
    exact ⟨h1, h5, h7, h9, h12, by simp⟩
  · simp


theorem IsReorderContainer_fresh (fresh : Nat) (s : State) (element : HtmlElement)
    (hc : ∀ c ∈ s.mobile_role_containers_, fresh ≤ c) (hid : element.id < fresh) :
    IsReorderContainer s element = false := by
  unfold IsReorderContainer
  rw [List.any_eq_false]
  intro c hmem
  have := hc c hmem
  simp only [beq_iff_eq]
  omega

theorem Keeps.table (s : State) (element : HtmlElement) :
    Keeps s (HandleStartTagInBody.table s element) := by
  unfold HandleStartTagInBody.table
  dsimp only
  refine Keeps.trans ?_ (Keeps.deleteSavingChildren _ _ _)
  split <;> simp [Keeps, RewriteDriver.NewElement, RewriteDriver.emit]

theorem Keeps.startNav (s : State) (element : HtmlElement) :
    Keeps s (HandleStartTagInBody.nav s element) := by
  unfold HandleStartTagInBody.nav
  dsimp only
  split_ifs
  · refine Keeps.trans ?_ (Keeps.deleteSavingChildren _ _ _)
    simp [Keeps]
  · simp [Keeps]
  · exact Keeps.deleteSavingChildren _ _ _
  · exact Keeps.refl s

theorem Keeps.endNav (s : State) (element : HtmlElement) :
    Keeps s (HandleEndTagInBody.nav s element) := by
  unfold HandleEndTagInBody.nav
  dsimp only
  split_ifs <;> simp [Keeps]

theorem HandleStartTagInBody_eq_role (s : State) (element : HtmlElement)
    (hreach : s.reached_reorder_containers_ = false)
    (hcont : IsReorderContainer s element = false)
    (htable : CheckForKeyword kTableTags kTableTags.length element.keyword = false)
    (hrole : GetMobileRole element ≠ .kInvalid) :
    HandleStartTagInBody s element = HandleStartTagInBody.role s element := by
  unfold HandleStartTagInBody
  simp [hreach, hcont, htable, hrole]

theorem Keeps.startTag (s : State) (element : HtmlElement)
    (hreach : s.reached_reorder_containers_ = false)
    (hcont : IsReorderContainer s element = false)
    (hno : CheckForKeyword kTableTags kTableTags.length element.keyword = true ∨
      GetMobileRole element = .kInvalid) :
    Keeps s (HandleStartTagInBody s element) := by
  unfold HandleStartTagInBody
  simp only [hreach, hcont, Bool.false_eq_true, if_false]
  by_cases htable : CheckForKeyword kTableTags kTableTags.length element.keyword = true
  · simp only [htable, if_true]
    exact Keeps.table s element
  · have hrole : GetMobileRole element = .kInvalid := by
      rcases hno with h | h
      · exact absurd h htable
      · exact h
    simp only [htable, hrole, bne_self_eq_false, Bool.false_eq_true, if_false]
    split_ifs
    · exact Keeps.startNav s element
    · exact Keeps.deleteSavingChildren _ _ _
    · exact Keeps.refl s

theorem role_frame (s : State) (element : HtmlElement) :
    (HandleStartTagInBody.role s element).use_cxx_layout_ = s.use_cxx_layout_ ∧
    (HandleStartTagInBody.role s element).body_element_depth_
      = s.body_element_depth_ ∧
    (HandleStartTagInBody.role s element).reached_reorder_containers_
      = s.reached_reorder_containers_ ∧
    (HandleStartTagInBody.role s element).mobile_role_containers_
      = s.mobile_role_containers_ ∧
    (HandleStartTagInBody.role s element).driver_ = s.driver_ ∧
    (HandleStartTagInBody.role s element).element_roles_stack_
      = GetMobileRole element :: s.element_roles_stack_ := by
  unfold HandleStartTagInBody.role
  dsimp only
  split_ifs <;> exact ⟨rfl, rfl, rfl, rfl, rfl, rfl⟩

theorem move_frame (s : State) (element : HtmlElement) (r : Level) (c : Nat) :
    (HandleEndTagInBody.move s element r c).use_cxx_layout_ = s.use_cxx_layout_ ∧
    (HandleEndTagInBody.move s element r c).body_element_depth_
      = s.body_element_depth_ ∧
    (HandleEndTagInBody.move s element r c).reached_reorder_containers_
      = s.reached_reorder_containers_ ∧
    (HandleEndTagInBody.move s element r c).mobile_role_containers_
      = s.mobile_role_containers_ ∧
    (HandleEndTagInBody.move s element r c).driver_.next_node
      = s.driver_.next_node ∧
    (HandleEndTagInBody.move s element r c).element_roles_stack_
      = s.element_roles_stack_ := by
  unfold HandleEndTagInBody.move
  split_ifs
  · cases r <;> exact ⟨rfl, rfl, rfl, rfl, rfl, rfl⟩
  · exact ⟨rfl, rfl, rfl, rfl, rfl, rfl⟩

theorem leave_frame (s : State) (r : Level) (popped : List Level) :
    (HandleEndTagInBody.leave s r popped).use_cxx_layout_ = s.use_cxx_layout_ ∧
    (HandleEndTagInBody.leave s r popped).body_element_depth_
      = s.body_element_depth_ ∧
    (HandleEndTagInBody.leave s r popped).reached_reorder_containers_
      = s.reached_reorder_containers_ ∧
    (HandleEndTagInBody.leave s r popped).mobile_role_containers_
      = s.mobile_role_containers_ ∧
    (HandleEndTagInBody.leave s r popped).driver_ = s.driver_ ∧
    (HandleEndTagInBody.leave s r popped).element_roles_stack_ = popped := by
  unfold HandleEndTagInBody.leave
  dsimp only
  split_ifs <;> exact ⟨rfl, rfl, rfl, rfl, rfl, rfl⟩

/-! ### The invariant along a stream -/

theorem openBodies_cons_nat (element : HtmlElement) (opened : List HtmlElement) :
    openBodies (element :: opened) =
      openBodies opened + (if element.keyword = .kBody then 1 else 0) := by
  unfold openBodies
  by_cases h : element.keyword = .kBody <;> simp [List.filter_cons, h]

theorem roleStack_cons_of_not (element : HtmlElement) (opened : List HtmlElement)
    (h : (pushesRole element && decide (0 < openBodies opened)) = false) :
    roleStack (element :: opened) = roleStack opened := by
  simp only [roleStack, h, Bool.false_eq_true, if_false]

theorem roleStack_cons_of (element : HtmlElement) (opened : List HtmlElement)
    (h : (pushesRole element && decide (0 < openBodies opened)) = true) :
    roleStack (element :: opened)
      = GetMobileRole element :: roleStack opened := by
  simp only [roleStack, h, if_true]

theorem unminify_cxx (s : State) (element : HtmlElement)
    (hcxx : s.use_cxx_layout_ = true) : StartElement.unminify s element = s := by
  simp [StartElement.unminify, hcxx]

theorem StartElement_cxx (s : State) (element : HtmlElement)
    (hcxx : s.use_cxx_layout_ = true) :
    StartElement s element =
      if StartElement.isViewportMeta element = true then
        StartElement.viewport s element
      else if element.keyword = .kBody then
        AddReorderContainers s.enterBody element
      else if 0 < s.body_element_depth_ then HandleStartTagInBody s element
      else s := by
  unfold StartElement
  simp [unminify_cxx, hcxx]

/-- The invariant is re-established in a state that differs from one that
satisfies it by the given frame. -/
theorem Traversal.frame {fresh : Nat} {s : State} {opened : List HtmlElement}
    (hinv : Traversal fresh s opened) (t : State) (opened1 : List HtmlElement)
    (h1 : t.use_cxx_layout_ = s.use_cxx_layout_)
    (h2 : t.reached_reorder_containers_ = false)
    (h3 : s.driver_.next_node ≤ t.driver_.next_node)
    (h4 : ∀ c ∈ t.mobile_role_containers_,
      c ∈ s.mobile_role_containers_ ∨ s.driver_.next_node ≤ c)
    (h5 : t.body_element_depth_ = openBodies opened1)
    (h6 : t.element_roles_stack_ = roleStack opened1) :
    Traversal fresh t opened1 := by
  obtain ⟨hcxx, _, hnext, hcont, _, _⟩ := hinv
  refine ⟨h1.trans hcxx, h2, Nat.le_trans hnext h3, ?_, h5, h6⟩
  intro c hc
  rcases h4 c hc with h | h
  · exact hcont c h
  · exact Nat.le_trans hnext h

/-- The invariant through a step that keeps the traversal state. -/
theorem Traversal.keeps {fresh : Nat} {s : State} {opened : List HtmlElement}
    (hinv : Traversal fresh s opened) (t : State) (opened1 : List HtmlElement)
    (hk : Keeps s t) (hb : openBodies opened1 = openBodies opened)
    (hr : roleStack opened1 = roleStack opened) :
    Traversal fresh t opened1 := by
  obtain ⟨k1, _, _, _, k5, k7, _, k9, k11, k12⟩ := hk
  refine hinv.frame t opened1 k1 (k7.trans hinv.2.1) k12
    (fun c hc => Or.inl (k11 ▸ hc)) ?_ ?_
  · rw [k5, hinv.2.2.2.2.1, hb]
  · rw [k9, hinv.2.2.2.2.2, hr]

theorem Traversal.startElement (fresh : Nat) (s : State)
    (opened : List HtmlElement) (element : HtmlElement)
    (hinv : Traversal fresh s opened) (hsrc : SourceElement fresh element) :
    Traversal fresh (StartElement s element) (element :: opened) := by
  have hinv' := hinv
  obtain ⟨hcxx, hreach, hnext, hcont, hdepth, hstack⟩ := hinv'
  obtain ⟨hid, hclean⟩ := hsrc
  rw [StartElement_cxx s element hcxx]
  by_cases hv : StartElement.isViewportMeta element = true
  · have hk := isViewportMeta_keyword element hv
    have hrole : GetMobileRole element = .kInvalid := by
      by_contra hne
      have := (hclean hne).2
      rw [hv] at this; cases this
    rw [if_pos hv]
    refine hinv.keeps _ _ (Keeps.viewport s element) ?_ (roleStack_cons_of_not _ _ ?_)
    · rw [openBodies_cons_nat, hk]; simp
    · simp [pushesRole, hrole]
  · rw [if_neg hv]
    by_cases hb : element.keyword = .kBody
    · rw [if_pos hb]
      obtain ⟨a1, a2, a3, a4, a5, a6⟩ :=
        AddReorderContainers_frame s.enterBody element
      refine hinv.frame _ _ a1 (a3.trans hreach) a5 a6 ?_ ?_
      · rw [a2, openBodies_cons_nat, hb]
        simp [hdepth]
      · refine a4.trans (hstack.trans (roleStack_cons_of_not _ _ ?_).symm)
        simp [pushesRole, hb]
    · rw [if_neg hb]
      have hob : openBodies (element :: opened) = openBodies opened := by
        rw [openBodies_cons_nat]; simp [hb]
      by_cases hd : 0 < s.body_element_depth_
      · rw [if_pos hd]
        have hcont' : IsReorderContainer s element = false :=
          IsReorderContainer_fresh fresh _ element hcont hid
        have hpos : 0 < openBodies opened := by omega
        by_cases hrole : GetMobileRole element = .kInvalid
        · refine hinv.keeps _ _
            (Keeps.startTag _ element hreach hcont' (Or.inr hrole))
            hob (roleStack_cons_of_not _ _ ?_)
          simp [pushesRole, hrole]
        · rw [HandleStartTagInBody_eq_role _ element hreach hcont'
            (hclean hrole).1 hrole]
          obtain ⟨r1, r2, r3, r4, r5, r6⟩ := role_frame s element
          refine hinv.frame _ _ r1 (r3.trans hreach) (by rw [r5])
            (fun c hc => Or.inl (r4 ▸ hc)) ?_ ?_
          · rw [r2, hdepth, hob]
          · rw [r6, hstack, roleStack_cons_of]
            simp [pushesRole, hb, hrole, hpos]
      · rw [if_neg hd]
        have hzero : openBodies opened = 0 := by omega
        refine hinv.keeps _ _ (Keeps.refl s) hob (roleStack_cons_of_not _ _ ?_)
        simp [hzero]

theorem Traversal.textNode (fresh : Nat) (s : State)
    (opened : List HtmlElement) (characters : HtmlCharactersNode)
    (hinv : Traversal fresh s opened) :
    Traversal fresh (Characters s characters) opened :=
  hinv.keeps _ _ (Keeps.characters s characters) rfl rfl

theorem Traversal.endElement (fresh : Nat) (s s1 : State)
    (opened : List HtmlElement) (element : HtmlElement)
    (hinv : Traversal fresh s (element :: opened))
    (h : EndElement s element = some s1) :
    Traversal fresh s1 opened := by
  have hinv' := hinv
  obtain ⟨hcxx, hreach, hnext, hcont, hdepth, hstack⟩ := hinv'
  have ks := Keeps.script s element
  have hs : Traversal fresh (EndElement.script s element) (element :: opened) :=
    hinv.keeps _ _ ks rfl rfl
  have hsd : (EndElement.script s element).body_element_depth_
      = openBodies (element :: opened) := hs.2.2.2.2.1
  unfold EndElement at h
  dsimp only at h
  by_cases hb : element.keyword = .kBody
  · have hob : (openBodies (element :: opened) : Int) = openBodies opened + 1 := by
      rw [openBodies_cons_nat, hb]; simp
    have hrs : roleStack (element :: opened) = roleStack opened :=
      roleStack_cons_of_not _ _ (by simp [pushesRole, hb])
    simp only [hb, beq_self_eq_true, if_true] at h
    split_ifs at h
    · cases h
      obtain ⟨k1, _, _, _, k5, k7, _, k9, k11, k12⟩ :=
        Keeps.addScripts (EndElement.script s element).leaveBody element
      refine hs.frame _ _ k1 rfl k12 (fun c hc => Or.inl (k11 ▸ hc)) ?_ ?_
      · show (EndElement.addScripts _ element).body_element_depth_ = _
        rw [k5]
        show (EndElement.script s element).body_element_depth_ - 1 = _
        rw [hsd, hob]; simp
      · show (EndElement.addScripts _ element).element_roles_stack_ = _
        rw [k9]
        exact hs.2.2.2.2.2.trans hrs
    · cases h
      obtain ⟨a1, a2, a3, a4, a5, a6⟩ :=
        RemoveReorderContainers_frame (EndElement.script s element).leaveBody
      refine hs.frame _ _ a1 rfl a5 (fun c hc => Or.inl (a6 c hc)) ?_ ?_
      · show (RemoveReorderContainers _).body_element_depth_ = _
        rw [a2]
        show (EndElement.script s element).body_element_depth_ - 1 = _
        rw [hsd, hob]; simp
      · show (RemoveReorderContainers _).element_roles_stack_ = _
        rw [a4]
        exact hs.2.2.2.2.2.trans hrs
    · cases h
      refine hs.frame _ _ rfl hs.2.1 (Nat.le_refl _) (fun c hc => Or.inl hc) ?_ ?_
      · show (EndElement.script s element).body_element_depth_ - 1 = _
        rw [hsd, hob]; simp
      · exact hs.2.2.2.2.2.trans hrs
  · have hob : openBodies (element :: opened) = openBodies opened := by
      rw [openBodies_cons_nat]; simp [hb]
    have hbk : (element.keyword == Keyword.kBody) = false := by simpa using hb
    simp only [hbk, Bool.false_eq_true, if_false] at h
    split_ifs at h with h1 h2 h3
    · cases h
      have hzero : openBodies opened = 0 := by
        simp only [Bool.and_eq_true, beq_iff_eq] at h1
        have := h1.1
        rw [hsd, hob] at this
        exact_mod_cast this
      exact hs.keeps _ _ (Keeps.styleAndViewport _ element) hob.symm
        (roleStack_cons_of_not _ _ (by simp [hzero])).symm
    · have hpos : 0 < openBodies opened := by
        rw [hsd, hob] at h2
        exact_mod_cast h2
      rcases HandleEndTagInBody_inv _ s1 element h with
        ⟨hr, _⟩ | ⟨_, hvalid, own, below, c, hst, _, rfl⟩ | ⟨_, hinvalid, rfl | rfl⟩
      · rw [hs.2.1] at hr; cases hr
      · have hrs : roleStack (element :: opened)
            = GetMobileRole element :: roleStack opened :=
          roleStack_cons_of _ _ (by simp [pushesRole, hb, hvalid, hpos])
        have hbelow : below = roleStack opened := by
          have := hs.2.2.2.2.2
          rw [hst, hrs] at this
          exact (List.cons.inj this).2
        obtain ⟨m1, m2, m3, m4, m5, m6⟩ := move_frame
          (HandleEndTagInBody.leave (EndElement.script s element)
            (GetMobileRole element) below) element (GetMobileRole element) c
        obtain ⟨l1, l2, l3, l4, l5, l6⟩ := leave_frame
          (EndElement.script s element) (GetMobileRole element) below
        refine hs.frame _ _ (m1.trans l1) (m3.trans (l3.trans hs.2.1))
          (by rw [m5, l5]) (fun c hc => Or.inl (l4 ▸ m4 ▸ hc)) ?_ ?_
        · rw [m2, l2, hsd, hob]
        · rw [m6, l6, hbelow]
      · exact hs.keeps _ _ (Keeps.refl _) hob.symm
          (roleStack_cons_of_not _ _ (by simp [pushesRole, hinvalid])).symm
      · exact hs.keeps _ _ (Keeps.endNav _ element) hob.symm
          (roleStack_cons_of_not _ _ (by simp [pushesRole, hinvalid])).symm
    · exact absurd hs.1 h3
    · cases h
      have hzero : openBodies opened = 0 := by
        have : ¬ (0 : Int) < openBodies opened := by
          rw [hsd, hob] at h2; exact h2
        omega
      exact hs.keeps _ _ (Keeps.refl _) hob.symm
        (roleStack_cons_of_not _ _ (by simp [hzero])).symm

/-- The invariant of the traversal holds along every stream of source
elements. -/
theorem Traversal.stream (fresh : Nat) (events : List Event) (s s1 : State)
    (opened opened1 : List HtmlElement)
    (hsrc : ∀ element ∈ elementsOf events, SourceElement fresh element)
    (hopen : openElements opened events = some opened1)
    (hrun : run s events = some s1)
    (hinv : Traversal fresh s opened) :
    Traversal fresh s1 opened1 := by
  induction events generalizing s opened with
  | nil =>
    simp only [openElements, run, Option.some.injEq] at hopen hrun
    subst hopen; subst hrun; exact hinv
  | cons ev events ih =>
    cases ev with
    | StartElement element =>
      simp only [openElements, run, step] at hopen hrun
      exact ih _ _ (fun e he => hsrc e (List.mem_cons_of_mem _ he)) hopen hrun
        (Traversal.startElement fresh s opened element hinv
          (hsrc element (List.mem_cons_self _ _)))
    | Characters c =>
      simp only [openElements, run, step] at hopen hrun
      exact ih _ _ hsrc hopen hrun (Traversal.textNode fresh s opened c hinv)
    | EndElement element =>
      cases opened with
      | nil => simp [openElements] at hopen
      | cons top below =>
        simp only [openElements] at hopen
        split_ifs at hopen with htop
        subst htop
        simp only [run, step] at hrun
        cases hstep : EndElement s top with
        | none => simp [hstep] at hrun
        | some s2 =>
          simp only [hstep] at hrun
          exact ih _ _ hsrc hopen hrun
            (Traversal.endElement fresh s s2 below top hinv hstep)

/-! ## Relocation: lemmas and the claims -/


theorem closeIds_append (pre rest : List Event) :
    closeIds (pre ++ rest) = closeIds pre ++ closeIds rest := by
  induction pre with
  | nil => rfl
  | cons ev pre ih => cases ev <;> simp [closeIds, ih]

theorem run_append_some (s s1 : State) (pre rest : List Event)
    (h : run s (pre ++ rest) = some s1) :
    ∃ t, run s pre = some t ∧ run t rest = some s1 := by
  rw [run_append] at h
  cases hpre : run s pre with
  | none => simp [hpre] at h
  | some t => exact ⟨t, rfl, by simpa [hpre] using h⟩

theorem moves_move_same_role (s : State) (element : HtmlElement) (r : Level)
    (c : Nat) (below : List Level)
    (hstack : s.element_roles_stack_ = r :: below) :
    moves (HandleEndTagInBody.move s element r c).driver_.commands
      = moves s.driver_.commands := by
  unfold HandleEndTagInBody.move
  simp [hstack]

theorem moves_EndElement_same_role (s s1 : State) (element : HtmlElement)
    (own : Level) (below : List Level)
    (h : EndElement s element = some s1)
    (hstack : s.element_roles_stack_ = own :: GetMobileRole element :: below) :
    moves s1.driver_.commands = moves s.driver_.commands := by
  have hs : (EndElement.script s element).element_roles_stack_
      = own :: GetMobileRole element :: below := by
    rw [← hstack]; unfold EndElement.script; split <;> rfl
  unfold EndElement at h
  dsimp only at h
  split_ifs at h
  · cases h; simp [moves_addScripts, moves_script]
  · cases h; simp [moves_RemoveReorderContainers, moves_script]
  · cases h; simp [moves_script]
  · cases h; simp [moves_AddStyleAndViewport, moves_script]
  · rcases HandleEndTagInBody_inv _ s1 element h with
      ⟨_, rfl⟩ | ⟨_, _, own1, below1, c, hst, _, rfl⟩ | ⟨_, _, rfl | rfl⟩
    · exact moves_script s element
    · rw [hs] at hst
      injection hst with _ hb
      subst hb
      rw [moves_move_same_role _ _ _ _ below (leave_stack _ _ _), leave_driver,
        moves_script]
    · exact moves_script s element
    · have : moves (HandleEndTagInBody.nav (EndElement.script s element)
          element).driver_.commands
          = moves (EndElement.script s element).driver_.commands := by
        unfold HandleEndTagInBody.nav
        dsimp only
        split_ifs <;> rfl
      rw [this, moves_script]
  · cases h; simp [moves_script]
  · cases h; simp [moves_script]

theorem moves_EndElement_of_not_pushes (s s1 : State) (element : HtmlElement)
    (h : EndElement s element = some s1)
    (hno : pushesRole element = false ∨ s.body_element_depth_ ≤ 0) :
    moves s1.driver_.commands = moves s.driver_.commands := by
  have hd : (EndElement.script s element).body_element_depth_
      = s.body_element_depth_ := by
    unfold EndElement.script; split <;> rfl
  unfold EndElement at h
  dsimp only at h
  split_ifs at h with h1 h2 h3 h4 h5 h6
  · cases h; simp [moves_addScripts, moves_script]
  · cases h; simp [moves_RemoveReorderContainers, moves_script]
  · cases h; simp [moves_script]
  · cases h; simp [moves_AddStyleAndViewport, moves_script]
  · rcases HandleEndTagInBody_inv _ s1 element h with
      ⟨_, rfl⟩ | ⟨_, hvalid, _, _, _, _, _, _⟩ | ⟨_, _, rfl | rfl⟩
    · exact moves_script s element
    · exfalso
      rcases hno with hp | hdepth
      · have hb : element.keyword ≠ .kBody := by simpa using h1
        simp [pushesRole, hb, hvalid] at hp
      · rw [hd] at h5; omega
    · exact moves_script s element
    · have : moves (HandleEndTagInBody.nav (EndElement.script s element)
          element).driver_.commands
          = moves (EndElement.script s element).driver_.commands := by
        unfold HandleEndTagInBody.nav
        dsimp only
        split_ifs <;> rfl
      rw [this, moves_script]
  · cases h; simp [moves_script]
  · cases h; simp [moves_script]

theorem run_close_some (s s1 : State) (pre rest : List Event)
    (element : HtmlElement)
    (h : run s (pre ++ .EndElement element :: rest) = some s1) :
    ∃ t t2, run s pre = some t ∧ EndElement t element = some t2 ∧
      run t2 rest = some s1 := by
  obtain ⟨t, hpre, hrest⟩ := run_append_some s s1 pre _ h
  simp only [run, step] at hrest
  cases hstep : EndElement t element with
  | none => simp [hstep] at hrest
  | some t2 =>
    simp only [hstep] at hrest
    exact ⟨t, t2, hpre, hstep, hrest⟩

/-- C4, amended: the elements moved into one container are placed in the
order of their close events. For every split of a stream into an earlier and
a later part, the moves into the container that the stream adds to the log
are a subsequence of the close events of the earlier part followed by a
subsequence of the close events of the later part. -/
theorem moves_in_close_order (pre rest : List Event) (s s1 : State)
    (container : Nat) (hrun : run s (pre ++ rest) = some s1) :
    ∃ l1 l2, movedInto container s1.driver_.commands
        = movedInto container s.driver_.commands ++ l1 ++ l2 ∧
      l1.Sublist (closeIds pre) ∧ l2.Sublist (closeIds rest) := by
  obtain ⟨t, hpre, hrest⟩ := run_append_some s s1 pre rest hrun
  obtain ⟨m1, hm1, hsub1⟩ := moves_run pre s t hpre
  obtain ⟨m2, hm2, hsub2⟩ := moves_run rest t s1 hrest
  refine ⟨(m1.filter (fun m => m.2 == container)).map (fun m => m.1),
    (m2.filter (fun m => m.2 == container)).map (fun m => m.1), ?_, ?_, ?_⟩
  · simp [movedInto, hm2, hm1]
  · exact ((List.filter_sublist m1).map _).trans hsub1
  · exact ((List.filter_sublist m2).map _).trans hsub2

theorem moves_in_close_order_witness :
    ∃ l1 l2, movedInto 103 afterNestedContentDocument.driver_.commands
        = movedInto 103 exampleStart.driver_.commands ++ l1 ++ l2 ∧
      l1.Sublist (closeIds (nestedContentDocument.take 5)) ∧
      l2.Sublist (closeIds (nestedContentDocument.drop 5)) :=
  moves_in_close_order (nestedContentDocument.take 5)
    (nestedContentDocument.drop 5) exampleStart afterNestedContentDocument 103
    (by decide)

/-- C4, as stated, fails: in `crossNestedDocument` the content element 1 is
opened before the content element 3, and element 3 is moved into the content
container (node 103) before element 1. -/
theorem moves_in_source_order_counterexample :
    WellNested crossNestedDocument ∧
    openIds crossNestedDocument = [0, 1, 2, 3] ∧
    GetMobileRole (divElement 1 0 "content") = .kContent ∧
    GetMobileRole (divElement 3 2 "content") = .kContent ∧
    (run exampleStart crossNestedDocument).map
      (fun s => movedInto 103 s.driver_.commands) = some [3, 1] := by
  decide

/-! ## Elements whose open and close events take different branches -/

/-- C11: the code breaks the claim on `navTableDocument`, a well-nested
stream. The open event of the table element takes the table branch, which
leaves `nav_element_depth_` at 0 and pushes nothing; its close event takes
the role branch, which pops the entry of the enclosing content element and
lowers `nav_element_depth_` to -1. -/
theorem nav_element_depth_negative :
    WellNested navTableDocument ∧
    (run exampleStart (navTableDocument.take 3)).map
      (fun s => (s.nav_element_depth_, s.element_roles_stack_))
      = some (0, [Level.kContent]) ∧
    (run exampleStart (navTableDocument.take 4)).map
      (fun s => (s.nav_element_depth_, s.element_roles_stack_))
      = some (-1, []) := by
  decide

/-- C12: the code breaks the claim on two well-nested streams. In
`bareNavTableDocument` the table element pushes nothing when it opens and
its close event runs `pop_back` on the empty `element_roles_stack_` (the
handler is undefined there). In `navTableDocument` the close event of the
table element pops the entry the enclosing content element pushed: the stack
is empty while that element is still open, and the close event of the
content element then runs `pop_back` on the empty stack. -/
theorem pop_back_on_empty_stack :
    WellNested bareNavTableDocument ∧
    (run exampleStart (bareNavTableDocument.take 2)).map
      (fun s => (s.use_cxx_layout_, s.reached_reorder_containers_,
        s.element_roles_stack_)) = some (true, false, []) ∧
    run exampleStart (bareNavTableDocument.take 3) = none ∧
    WellNested navTableDocument ∧
    openElements [] (navTableDocument.take 4)
      = some [divElement 1 0 "content", bodyElement] ∧
    (run exampleStart (navTableDocument.take 2)).map
      (fun s => s.element_roles_stack_) = some [Level.kContent] ∧
    (run exampleStart (navTableDocument.take 4)).map
      (fun s => s.element_roles_stack_) = some [] ∧
    run exampleStart (navTableDocument.take 5) = none := by
  decide

/-! ## The pruning rules of `HandleStartTagInBody`: lemmas -/

theorem HandleStartTagInBody_eq_table (s : State) (element : HtmlElement)
    (hreach : s.reached_reorder_containers_ = false)
    (hcont : IsReorderContainer s element = false)
    (htable : CheckForKeyword kTableTags kTableTags.length element.keyword = true) :
    HandleStartTagInBody s element = HandleStartTagInBody.table s element := by
  unfold HandleStartTagInBody
  simp [hreach, hcont, htable]

theorem HandleStartTagInBody_eq_nav (s : State) (element : HtmlElement)
    (hreach : s.reached_reorder_containers_ = false)
    (hcont : IsReorderContainer s element = false)
    (htable : CheckForKeyword kTableTags kTableTags.length element.keyword = false)
    (hrole : GetMobileRole element = .kInvalid)
    (hnav : 0 < s.nav_element_depth_) :
    HandleStartTagInBody s element = HandleStartTagInBody.nav s element := by
  unfold HandleStartTagInBody
  simp [hreach, hcont, htable, hrole, hnav]

theorem HandleStartTagInBody_eq_unimportant (s : State) (element : HtmlElement)
    (hreach : s.reached_reorder_containers_ = false)
    (hcont : IsReorderContainer s element = false)
    (htable : CheckForKeyword kTableTags kTableTags.length element.keyword = false)
    (hrole : GetMobileRole element = .kInvalid)
    (hnav : ¬ 0 < s.nav_element_depth_) :
    HandleStartTagInBody s element =
      if s.element_roles_stack_ = [] then
        deleteElementSavingChildren s element
          "Deleted element which did not have a mobile role: "
      else s := by
  unfold HandleStartTagInBody
  by_cases hst : s.element_roles_stack_ = [] <;>
    simp [hreach, hcont, htable, hrole, hnav, InImportantElement, hst]

theorem issued_deleteElementSavingChildren (s : State) (element : HtmlElement)
    (msg : String) :
    issued s (deleteElementSavingChildren s element msg) =
      (if s.driver_.debug_mode = true then
        [Cmd.InsertDebugComment (msg ++ element.name_str) element.id]
       else []) ++ [Cmd.DeleteSavingChildren element.id] := by
  by_cases hd : s.driver_.debug_mode = true <;>
    simp [deleteElementSavingChildren, hd, State.emit, RewriteDriver.emit, issued]

/-- The table branch: its commands and what it leaves alone. -/
theorem table_branch (s : State) (element : HtmlElement) :
    issued s (HandleStartTagInBody.table s element) =
      (if element.keyword = .kTable ∨ element.keyword = .kTr then
        [ Cmd.NewElement s.driver_.next_node element.parent .kBr,
          Cmd.SetStyle s.driver_.next_node .IMPLICIT_CLOSE,
          Cmd.InsertElementAfterElement element.id s.driver_.next_node ]
       else []) ++
      (if s.driver_.debug_mode = true then
        [ Cmd.InsertDebugComment ("Deleted table tag: " ++ element.name_str)
            element.id ]
       else []) ++
      [Cmd.DeleteSavingChildren element.id] ∧
    (HandleStartTagInBody.table s element).element_roles_stack_
      = s.element_roles_stack_ ∧
    (HandleStartTagInBody.table s element).nav_keyword_stack_
      = s.nav_keyword_stack_ ∧
    (HandleStartTagInBody.table s element).nav_element_depth_
      = s.nav_element_depth_ ∧
    (HandleStartTagInBody.table s element).num_elements_deleted_
      = s.num_elements_deleted_ + 1 := by
  have hbr : CheckForKeyword kTableTagsToBr kTableTagsToBr.length element.keyword
      = decide (element.keyword = .kTable ∨ element.keyword = .kTr) := by
    rw [CheckForKeyword_kTableTagsToBr]; simp [kTableTagsToBr]
  by_cases hb : element.keyword = .kTable ∨ element.keyword = .kTr <;>
  by_cases hd : s.driver_.debug_mode = true <;>
  simp [HandleStartTagInBody.table, hbr, hb, hd, deleteElementSavingChildren,
    RewriteDriver.NewElement, State.emit, RewriteDriver.emit, issued]

/-! ## The pruning rules of `HandleStartTagInBody`: the claims -/

/-- C13: an element with a table tag that opens in the body before the
containers are reached (it is none of them: they are `div` nodes) is deleted,
its children kept, whatever its role annotation and whatever the stacks
hold; nothing is pushed on either stack; a `br` is created and inserted
after it exactly when its tag is `table` or `tr`. The commands are exactly:
the three of the `br` (for `table` and `tr`), the debug comment (in debug
mode), `DeleteSavingChildren`. On `<table><tr><td>A</td></tr></table>`
inside a content element that is two `br` insertions and three deletions;
without an important ancestor the text `A` is deleted as well. -/
theorem table_tag_deleted (s : State) (element : HtmlElement)
    (hreach : s.reached_reorder_containers_ = false)
    (hcont : IsReorderContainer s element = false)
    (htag : element.keyword ∈ kTableTags) :
    (issued s (HandleStartTagInBody s element) =
      (if element.keyword = .kTable ∨ element.keyword = .kTr then
        [ Cmd.NewElement s.driver_.next_node element.parent .kBr,
          Cmd.SetStyle s.driver_.next_node .IMPLICIT_CLOSE,
          Cmd.InsertElementAfterElement element.id s.driver_.next_node ]
       else []) ++
      (if s.driver_.debug_mode = true then
        [ Cmd.InsertDebugComment ("Deleted table tag: " ++ element.name_str)
            element.id ]
       else []) ++
      [Cmd.DeleteSavingChildren element.id] ∧
    (HandleStartTagInBody s element).element_roles_stack_
      = s.element_roles_stack_ ∧
    (HandleStartTagInBody s element).nav_keyword_stack_
      = s.nav_keyword_stack_ ∧
    (HandleStartTagInBody s element).nav_element_depth_
      = s.nav_element_depth_ ∧
    (HandleStartTagInBody s element).num_elements_deleted_
      = s.num_elements_deleted_ + 1) ∧
    issuedBetween 2 9 tableDocument = some
      [ Cmd.NewElement 105 (some 1) .kBr, Cmd.SetStyle 105 .IMPLICIT_CLOSE,
        Cmd.InsertElementAfterElement 2 105, Cmd.DeleteSavingChildren 2,
        Cmd.NewElement 106 (some 2) .kBr, Cmd.SetStyle 106 .IMPLICIT_CLOSE,
        Cmd.InsertElementAfterElement 3 106, Cmd.DeleteSavingChildren 3,
        Cmd.DeleteSavingChildren 4 ] ∧
    issuedBetween 1 8 bareTableDocument = some
      [ Cmd.NewElement 105 (some 0) .kBr, Cmd.SetStyle 105 .IMPLICIT_CLOSE,
        Cmd.InsertElementAfterElement 2 105, Cmd.DeleteSavingChildren 2,
        Cmd.NewElement 106 (some 2) .kBr, Cmd.SetStyle 106 .IMPLICIT_CLOSE,
        Cmd.InsertElementAfterElement 3 106, Cmd.DeleteSavingChildren 3,
        Cmd.DeleteSavingChildren 4, Cmd.DeleteNode 5 ] := by
  have htable : CheckForKeyword kTableTags kTableTags.length element.keyword
      = true := by
    rw [CheckForKeyword_kTableTags]; simpa using htag
  rw [HandleStartTagInBody_eq_table s element hreach hcont htable]
  exact ⟨table_branch s element, by decide, by decide⟩

theorem table_tag_deleted_witness :
    issued insideContentDiv
      (HandleStartTagInBody insideContentDiv (plainElement 2 1 .kTable "table"))
      = [ Cmd.NewElement 105 (some 1) .kBr, Cmd.SetStyle 105 .IMPLICIT_CLOSE,
          Cmd.InsertElementAfterElement 2 105, Cmd.DeleteSavingChildren 2 ] ∧
    (HandleStartTagInBody insideContentDiv
      (plainElement 2 1 .kTable "table")).element_roles_stack_
      = [Level.kContent] :=
  have h := table_tag_deleted insideContentDiv (plainElement 2 1 .kTable "table")
    (by decide) (by decide) (by decide)
  ⟨h.1.1, h.1.2.1⟩

/-- C14: an element that opens in the body while `nav_element_depth_ > 0`,
before the containers are reached, and that neither has a table tag nor a
valid role: with the tag `a` it is pushed on `nav_keyword_stack_` and kept
(no command); with another tag it is deleted, its children kept, when
`nav_keyword_stack_` is empty, and the state is unchanged when that stack is
not empty. On `<span>text</span><a>link</a>` inside a navigational element
the span and the text `text` are deleted and nothing touches the `a` element
and the text `link`. -/
theorem navigational_pruning (s : State) (element : HtmlElement)
    (hreach : s.reached_reorder_containers_ = false)
    (hcont : IsReorderContainer s element = false)
    (htag : element.keyword ∉ kTableTags)
    (hrole : GetMobileRole element = .kInvalid)
    (hnav : 0 < s.nav_element_depth_) :
    (element.keyword = .kA →
      HandleStartTagInBody s element =
        { s with nav_keyword_stack_ := Keyword.kA :: s.nav_keyword_stack_ }) ∧
    (element.keyword ≠ .kA → s.nav_keyword_stack_ = [] →
      issued s (HandleStartTagInBody s element) =
        (if s.driver_.debug_mode = true then
          [ Cmd.InsertDebugComment
              ("Deleted non-nav element in navigational section: " ++
                element.name_str) element.id ]
         else []) ++ [Cmd.DeleteSavingChildren element.id] ∧
      (HandleStartTagInBody s element).nav_keyword_stack_ = [] ∧
      (HandleStartTagInBody s element).element_roles_stack_
        = s.element_roles_stack_) ∧
    (element.keyword ≠ .kA → s.nav_keyword_stack_ ≠ [] →
      HandleStartTagInBody s element = s) ∧
    issuedBetween 2 8 navLinksDocument = some
      [Cmd.DeleteSavingChildren 2, Cmd.DeleteNode 3] := by
  have htable : CheckForKeyword kTableTags kTableTags.length element.keyword
      = false := by
    rw [CheckForKeyword_kTableTags]; simpa using htag
  rw [HandleStartTagInBody_eq_nav s element hreach hcont htable hrole hnav]
  have hpre : CheckForKeyword kPreserveNavTags kPreserveNavTags.length
      element.keyword = decide (element.keyword = .kA) := by
    rw [CheckForKeyword_kPreserveNavTags]; simp [kPreserveNavTags]
  refine ⟨?_, ?_, ?_, by decide⟩
  · intro ha
    have hp : CheckForKeyword kPreserveNavTags kPreserveNavTags.length
        element.keyword = true := by rw [hpre]; simpa using ha
    simp only [HandleStartTagInBody.nav, hp, if_true]
    simp [ha]
  · intro ha hempty
    have hp : CheckForKeyword kPreserveNavTags kPreserveNavTags.length
        element.keyword = false := by rw [hpre]; simpa using ha
    have h : HandleStartTagInBody.nav s element =
        deleteElementSavingChildren s element
          "Deleted non-nav element in navigational section: " := by
      simp [HandleStartTagInBody.nav, hp, hempty]
    rw [h, issued_deleteElementSavingChildren]
    refine ⟨rfl, ?_, ?_⟩
    · rw [← hempty]
      unfold deleteElementSavingChildren; split <;> rfl
    · unfold deleteElementSavingChildren; split <;> rfl
  · intro ha hne
    have hp : CheckForKeyword kPreserveNavTags kPreserveNavTags.length
        element.keyword = false := by rw [hpre]; simpa using ha
    simp [HandleStartTagInBody.nav, hp, hne]

theorem navigational_pruning_witness :
    issued insideNavDiv
      (HandleStartTagInBody insideNavDiv (plainElement 2 1 .kSpan "span"))
      = [Cmd.DeleteSavingChildren 2] ∧
    HandleStartTagInBody insideNavDiv (plainElement 4 1 .kA "a") =
      { insideNavDiv with nav_keyword_stack_ := [Keyword.kA] } :=
  ⟨((navigational_pruning insideNavDiv (plainElement 2 1 .kSpan "span")
      (by decide) (by decide) (by decide) (by decide) (by decide)).2.1
      (by decide) (by decide)).1,
   (navigational_pruning insideNavDiv (plainElement 4 1 .kA "a")
      (by decide) (by decide) (by decide) (by decide) (by decide)).1
      (by decide)⟩

/-- C15: an element that opens in the body before the containers are
reached, with no table tag, no valid role and `nav_element_depth_ = 0`, is
deleted, its children kept, exactly when `element_roles_stack_` is empty;
when the stack is not empty the state is unchanged, so no command is
issued. -/
theorem unimportant_element_deleted (s : State) (element : HtmlElement)
    (hreach : s.reached_reorder_containers_ = false)
    (hcont : IsReorderContainer s element = false)
    (htag : element.keyword ∉ kTableTags)
    (hrole : GetMobileRole element = .kInvalid)
    (hnav : s.nav_element_depth_ = 0) :
    (Cmd.DeleteSavingChildren element.id ∈
        issued s (HandleStartTagInBody s element) ↔
      s.element_roles_stack_ = []) ∧
    (s.element_roles_stack_ = [] →
      issued s (HandleStartTagInBody s element) =
        (if s.driver_.debug_mode = true then
          [ Cmd.InsertDebugComment
              ("Deleted element which did not have a mobile role: " ++
                element.name_str) element.id ]
         else []) ++ [Cmd.DeleteSavingChildren element.id]) ∧
    (s.element_roles_stack_ ≠ [] → HandleStartTagInBody s element = s) := by
  have htable : CheckForKeyword kTableTags kTableTags.length element.keyword
      = false := by
    rw [CheckForKeyword_kTableTags]; simpa using htag
  have hnav' : ¬ 0 < s.nav_element_depth_ := by omega
  rw [HandleStartTagInBody_eq_unimportant s element hreach hcont htable hrole
    hnav']
  by_cases hst : s.element_roles_stack_ = []
  · simp only [hst, if_true, issued_deleteElementSavingChildren]
    refine ⟨?_, ?_, ?_⟩
    · simp
    · intro _; trivial
    · intro h; exact absurd rfl h
  · simp [hst, issued]

theorem unimportant_element_deleted_witness :
    issued insideBody
      (HandleStartTagInBody insideBody (plainElement 2 0 .kSpan "span"))
      = [Cmd.DeleteSavingChildren 2] ∧
    HandleStartTagInBody insideContentDiv (plainElement 2 1 .kSpan "span")
      = insideContentDiv :=
  ⟨(unimportant_element_deleted insideBody (plainElement 2 0 .kSpan "span")
      (by decide) (by decide) (by decide) (by decide) (by decide)).2.1
      (by decide),
   (unimportant_element_deleted insideContentDiv
      (plainElement 2 1 .kSpan "span")
      (by decide) (by decide) (by decide) (by decide) (by decide)).2.2
      (by decide)⟩

/-! ## Text inside a keeper-tag element -/

theorem kKeeperTags_not_table (k : Keyword) (h : k ∈ kKeeperTags) :
    CheckForKeyword kTableTags kTableTags.length k = false ∧ k ≠ .kBody ∧
    k ≠ .kMeta := by
  rw [CheckForKeyword_kTableTags]
  revert h
  cases k <;> decide

/-- The open of a keeper-tag element in the body, in self-restructure mode,
takes the role branch when its role is valid. -/
theorem StartElement_keeper (s : State) (element : HtmlElement)
    (hmode : s.use_cxx_layout_ = true) (hbody : 0 < s.body_element_depth_)
    (hreach : s.reached_reorder_containers_ = false)
    (hcont : IsReorderContainer s element = false)
    (htag : element.keyword ∈ kKeeperTags)
    (hrole : GetMobileRole element ≠ .kInvalid) :
    StartElement s element = HandleStartTagInBody.role s element := by
  obtain ⟨htable, hb, hm⟩ := kKeeperTags_not_table element.keyword htag
  have hv : ¬ StartElement.isViewportMeta element = true :=
    fun h => hm (isViewportMeta_keyword element h)
  rw [StartElement_cxx s element hmode, if_neg hv, if_neg hb, if_pos hbody]
  exact HandleStartTagInBody_eq_role s element hreach hcont htable hrole

/-- Text inside an important element: `Characters` deletes it exactly in a
navigational section outside the whitelisted tags. -/
theorem Characters_in_important (s : State) (characters : HtmlCharactersNode)
    (hmode : s.use_cxx_layout_ = true) (hbody : 0 < s.body_element_depth_)
    (hreach : s.reached_reorder_containers_ = false)
    (h1 : s.element_roles_stack_ ≠ []) :
    (Cmd.DeleteNode characters.id ∈ issued s (Characters s characters) ↔
      0 < s.nav_element_depth_ ∧ s.nav_keyword_stack_ = []) ∧
    (¬ (0 < s.nav_element_depth_ ∧ s.nav_keyword_stack_ = []) →
      Characters s characters = s) := by
  have hne : s.body_element_depth_ ≠ 0 := by omega
  by_cases h2 : 0 < s.nav_element_depth_ ∧ s.nav_keyword_stack_ = []
  · by_cases hd : s.driver_.debug_mode = true <;>
    by_cases hw : OnlyWhitespace characters.contents = true <;>
    simp [Characters, hmode, hne, hreach, InImportantElement, h1, h2, hd, hw,
      State.emit, RewriteDriver.emit, issued]
  · have h3 : (decide (0 < s.nav_element_depth_) &&
        s.nav_keyword_stack_.isEmpty) = false := by
      rcases Decidable.not_and_iff_or_not_not.1 h2 with h | h
      · simp [h]
      · simp [h]
    simp [Characters, hmode, hne, hreach, InImportantElement, h1, h2, h3,
      issued]

/-- C16, as the code has it: the text of a script element inside a
navigational element and outside any `a` element is deleted, and so is the
text of a script element in the body whose annotation names no role (the
element is deleted too, its children kept). -/
theorem keeper_content_preserved_counterexample :
    issuedBetween 3 4 navScriptDocument = some [Cmd.DeleteNode 3] ∧
    issuedBetween 1 3 bogusScriptDocument
      = some [Cmd.DeleteSavingChildren 2, Cmd.DeleteNode 3] := by
  decide

/-- C16, amended: in self-restructure mode, for a keeper-tag element (script,
style, map or area) with no role annotation or a valid one that opens in the
body before the containers are reached, `Characters` deletes a text node
right inside it exactly when, after the open, `nav_element_depth_ > 0` and
`nav_keyword_stack_` is empty, and otherwise leaves the state unchanged; the
open changes these two fields only when the role is navigational (the depth
grows by one and the stack is cleared when the depth becomes 1), and without
annotation the role is keeper. So the text is kept unless the element is
inside a navigational element and outside any `a` element, or is itself
annotated as navigational outside any `a` element. -/
theorem keeper_content_preserved (s : State) (element : HtmlElement)
    (characters : HtmlCharactersNode)
    (hmode : s.use_cxx_layout_ = true) (hbody : 0 < s.body_element_depth_)
    (hreach : s.reached_reorder_containers_ = false)
    (hcont : IsReorderContainer s element = false)
    (htag : element.keyword ∈ kKeeperTags)
    (hrole : GetMobileRole element ≠ .kInvalid) :
    (Cmd.DeleteNode characters.id ∈
        issued (StartElement s element)
          (Characters (StartElement s element) characters) ↔
      0 < (StartElement s element).nav_element_depth_ ∧
        (StartElement s element).nav_keyword_stack_ = []) ∧
    (¬ (0 < (StartElement s element).nav_element_depth_ ∧
        (StartElement s element).nav_keyword_stack_ = []) →
      Characters (StartElement s element) characters = StartElement s element) ∧
    (GetMobileRole element ≠ .kNavigational →
      (StartElement s element).nav_element_depth_ = s.nav_element_depth_ ∧
      (StartElement s element).nav_keyword_stack_ = s.nav_keyword_stack_) ∧
    (GetMobileRole element = .kNavigational →
      (StartElement s element).nav_element_depth_ = s.nav_element_depth_ + 1 ∧
      (StartElement s element).nav_keyword_stack_ =
        if s.nav_element_depth_ = 0 then [] else s.nav_keyword_stack_) ∧
    (element.FindAttribute .kDataMobileRole = none →
      GetMobileRole element = .kKeeper) := by
  have hstart := StartElement_keeper s element hmode hbody hreach hcont htag hrole
  obtain ⟨f1, f2, f3, _, _, f6⟩ := role_frame s element
  rw [← hstart] at f1 f2 f3 f6
  have hne : (StartElement s element).element_roles_stack_ ≠ [] := by
    rw [f6]; simp
  have hC := Characters_in_important (StartElement s element) characters
    (f1.trans hmode) (by rw [f2]; exact hbody) (f3.trans hreach) hne
  refine ⟨hC.1, hC.2, ?_, ?_, ?_⟩
  · intro hn
    rw [hstart]
    simp [HandleStartTagInBody.role, hn]
  · intro hn
    rw [hstart]
    by_cases h0 : s.nav_element_depth_ = 0
    · simp [HandleStartTagInBody.role, hn, h0]
    · have h1 : ¬ s.nav_element_depth_ + 1 = 1 := by omega
      simp [HandleStartTagInBody.role, hn, h0, h1]
  · intro hnone
    have := GetMobileRole_of_no_attribute element hnone
    simpa [CheckForKeyword_kKeeperTags, htag] using this

theorem keeper_content_preserved_witness :
    (Cmd.DeleteNode 3 ∈
        issued (StartElement insideContentDiv (plainElement 2 1 .kScript "script"))
          (Characters
            (StartElement insideContentDiv (plainElement 2 1 .kScript "script"))
            ⟨3, "x"⟩) ↔
      0 < (StartElement insideContentDiv
            (plainElement 2 1 .kScript "script")).nav_element_depth_ ∧
        (StartElement insideContentDiv
            (plainElement 2 1 .kScript "script")).nav_keyword_stack_ = []) ∧
    (Cmd.DeleteNode 3 ∈
        issued (StartElement insideNavDiv (plainElement 2 1 .kScript "script"))
          (Characters
            (StartElement insideNavDiv (plainElement 2 1 .kScript "script"))
            ⟨3, "x"⟩) ↔
      0 < (StartElement insideNavDiv
            (plainElement 2 1 .kScript "script")).nav_element_depth_ ∧
        (StartElement insideNavDiv
            (plainElement 2 1 .kScript "script")).nav_keyword_stack_ = []) :=
  ⟨(keeper_content_preserved insideContentDiv
      (plainElement 2 1 .kScript "script") ⟨3, "x"⟩
      (by decide) (by decide) (by decide) (by decide) (by decide) (by decide)).1,
   (keeper_content_preserved insideNavDiv
      (plainElement 2 1 .kScript "script") ⟨3, "x"⟩
      (by decide) (by decide) (by decide) (by decide) (by decide) (by decide)).1⟩

/-! ## Dissolving the containers -/

theorem RemoveReorderContainers_of_not_added (t : State)
    (h : t.added_containers_ = false) : RemoveReorderContainers t = t := by
  simp [RemoveReorderContainers, h]

theorem RemoveReorderContainers_added (t : State) :
    (RemoveReorderContainers t).added_containers_ = false := by
  unfold RemoveReorderContainers
  split
  · rfl
  · simpa using ‹¬ t.added_containers_ = true›

/-- C17: in self-restructure mode, with the five containers `c0 … c4` of
`AddReorderContainers` in place, the close of a body that brings
`body_element_depth_` from 1 to 0 issues `DeleteSavingChildren` for each of
the five containers once, in ascending role order (in debug mode each is
preceded by its `End section:` comment) and nothing else, clears
`mobile_role_containers_` and resets `added_containers_`; a call to
`RemoveReorderContainers` on the state it leaves, and on any state without
containers added, changes nothing, so the method is idempotent. The close
of a body at another depth only decrements the depth. On
`nestedContentDocument` the last close issues the five deletions; on
`<body><body></body></body>` the inner close issues nothing and the outer
one the five deletions. -/
theorem containers_dissolved_once (s : State) (element : HtmlElement)
    (c0 c1 c2 c3 c4 : Nat)
    (hcxx : s.use_cxx_layout_ = true)
    (hmode : s.use_cxx_layout_
      = !(s.use_js_layout_ || s.use_js_logo_ || s.use_js_nav_))
    (hbody : element.keyword = .kBody)
    (hadded : s.added_containers_ = true)
    (hcont : s.mobile_role_containers_ = [c0, c1, c2, c3, c4]) :
    (s.body_element_depth_ = 1 →
      ∃ s1, EndElement s element = some s1 ∧
        issued s s1 =
          (if s.driver_.debug_mode = true then
            [ Cmd.InsertDebugComment "End section: keeper" c0,
              Cmd.DeleteSavingChildren c0,
              Cmd.InsertDebugComment "End section: header" c1,
              Cmd.DeleteSavingChildren c1,
              Cmd.InsertDebugComment "End section: navigational" c2,
              Cmd.DeleteSavingChildren c2,
              Cmd.InsertDebugComment "End section: content" c3,
              Cmd.DeleteSavingChildren c3,
              Cmd.InsertDebugComment "End section: marginal" c4,
              Cmd.DeleteSavingChildren c4 ]
           else
            [ Cmd.DeleteSavingChildren c0, Cmd.DeleteSavingChildren c1,
              Cmd.DeleteSavingChildren c2, Cmd.DeleteSavingChildren c3,
              Cmd.DeleteSavingChildren c4 ]) ∧
        s1.mobile_role_containers_ = [] ∧
        s1.added_containers_ = false ∧
        s1.body_element_depth_ = 0 ∧
        RemoveReorderContainers s1 = s1) ∧
    (s.body_element_depth_ ≠ 1 →
      EndElement s element =
        some { s with body_element_depth_ := s.body_element_depth_ - 1 }) ∧
    (∀ t : State, t.added_containers_ = false → RemoveReorderContainers t = t) ∧
    (∀ t : State, RemoveReorderContainers (RemoveReorderContainers t)
      = RemoveReorderContainers t) ∧
    issuedBetween 6 7 nestedContentDocument = some
      [ Cmd.DeleteSavingChildren 100, Cmd.DeleteSavingChildren 101,
        Cmd.DeleteSavingChildren 102, Cmd.DeleteSavingChildren 103,
        Cmd.DeleteSavingChildren 104 ] ∧
    issuedBetween 2 3 nestedBodyDocument = some [] ∧
    issuedBetween 3 4 nestedBodyDocument = some
      [ Cmd.DeleteSavingChildren 100, Cmd.DeleteSavingChildren 101,
        Cmd.DeleteSavingChildren 102, Cmd.DeleteSavingChildren 103,
        Cmd.DeleteSavingChildren 104 ] := by
  have hjs : s.use_js_layout_ = false ∧ s.use_js_nav_ = false := by
    rw [hcxx] at hmode
    revert hmode
    cases s.use_js_layout_ <;> cases s.use_js_logo_ <;> cases s.use_js_nav_ <;>
      decide
  have hscript : EndElement.script s element = s := by
    simp [EndElement.script, hbody]
  have hzip : (List.range 5).zip [c0, c1, c2, c3, c4]
      = [(0, c0), (1, c1), (2, c2), (3, c3), (4, c4)] := rfl
  refine ⟨?_, ?_, RemoveReorderContainers_of_not_added,
    fun t => RemoveReorderContainers_of_not_added _
      (RemoveReorderContainers_added t), by decide, by decide, by decide⟩
  · intro hdepth
    have hend : EndElement s element =
        some { RemoveReorderContainers s.leaveBody with
          reached_reorder_containers_ := false } := by
      unfold EndElement
      simp [hscript, hbody, hdepth, hjs.1, hjs.2]
    refine ⟨_, hend, ?_, ?_, ?_, ?_, ?_⟩
    · by_cases hd : s.driver_.debug_mode = true
      · simp [RemoveReorderContainers, hadded, hcont, hzip,
          RemoveReorderContainers.body, hd, State.emit, RewriteDriver.emit,
          issued, Level.ofIndex, StringFromLevel, StringPiece]
        decide
      · simp [RemoveReorderContainers, hadded, hcont, hzip,
          RemoveReorderContainers.body, hd, State.emit, RewriteDriver.emit,
          issued]
    · simp [RemoveReorderContainers, hadded]
    · simp [RemoveReorderContainers, hadded]
    · simp [RemoveReorderContainers_body_element_depth, hdepth]
    · simp [RemoveReorderContainers, hadded]
  · intro hdepth
    have h0 : ¬ s.body_element_depth_ - 1 = 0 := by omega
    unfold EndElement
    simp [hscript, hbody, State.leaveBody, h0]

theorem containers_dissolved_once_witness :
    insideBody.mobile_role_containers_ = [100, 101, 102, 103, 104] ∧
    ∃ s1, EndElement insideBody bodyElement = some s1 ∧
      s1.mobile_role_containers_ = [] ∧ s1.added_containers_ = false ∧
      s1.body_element_depth_ = 0 ∧ RemoveReorderContainers s1 = s1 :=
  ⟨by decide,
   match (containers_dissolved_once insideBody bodyElement 100 101 102 103 104
      (by decide) (by decide) (by decide) (by decide) (by decide)).1
      (by decide) with
   | ⟨s1, h1, _, h3, h4, h5, h6⟩ => ⟨s1, h1, h3, h4, h5, h6⟩⟩

/-! ## The two modes -/

/-- C19, at the failing input: with only `mob_logo` set `use_cxx_layout_` is
false, and on `<body></body>` the filter issues no command at all: no
container is created and no script reference is inserted, not even
`mob_logo.js`, which `EndElement` inserts only under the test
`use_js_layout_ || use_js_nav_`. Over the eight settings of the options,
script references are inserted exactly when `mob_layout` or `mob_nav` is
set, and containers are made exactly when none of the three is set. -/
theorem logo_only_neither_mode :
    (optionsStart false true false).use_cxx_layout_ = false ∧
    emptyBodyCommands false true false = some [] ∧
    emptyBodyCommands true true false = some
      [ Cmd.NewElement 100 none .kScript, Cmd.SetStyle 100 .EXPLICIT_CLOSE,
        Cmd.InsertNodeAfterCurrent 0 100,
        Cmd.AddAttribute 100 .kSrc "mob.js" .DOUBLE_QUOTE,
        Cmd.NewElement 101 none .kScript, Cmd.SetStyle 101 .EXPLICIT_CLOSE,
        Cmd.InsertNodeAfterCurrent 0 101,
        Cmd.AddAttribute 101 .kSrc "mob_logo.js" .DOUBLE_QUOTE ] ∧
    (∀ mob_layout mob_logo mob_nav : Bool,
      (emptyBodyCommands mob_layout mob_logo mob_nav).map
          (fun l => l.any isScriptInsertion)
        = some (mob_layout || mob_nav)) ∧
    (∀ mob_layout mob_logo mob_nav : Bool,
      (emptyBodyCommands mob_layout mob_logo mob_nav).map
          (fun l => l.any isContainerCommand)
        = some (!(mob_layout || mob_logo || mob_nav))) := by
  decide

/-! ## Delegation mode: lemmas -/

theorem Quiet.same (s : State) : Quiet s s :=
  ⟨rfl, rfl, rfl, List.prefix_refl _, rfl⟩

theorem Quiet.chain {s s1 s2 : State} (h1 : Quiet s s1) (h2 : Quiet s1 s2) :
    Quiet s s2 := by
  obtain ⟨a1, a2, a3, a4, a5⟩ := h1
  obtain ⟨b1, b2, b3, b4, b5⟩ := h2
  exact ⟨b1.trans a1, b2.trans a2, b3.trans a3, a4.trans b4, b5.trans a5⟩

theorem Quiet.fold {β : Type} (f : State → β → State)
    (h : ∀ a b, Quiet a (f a b)) (l : List β) (s : State) :
    Quiet s (l.foldl f s) := by
  induction l generalizing s with
  | nil => exact Quiet.same s
  | cons b l ih => exact (h s b).chain (ih (f s b))

theorem Quiet.of_unminify (s : State) (element : HtmlElement) :
    Quiet s (StartElement.unminify s element) := by
  unfold StartElement.unminify
  split
  · dsimp only
    split
    · split <;>
        simp [Quiet, State.emit, RewriteDriver.emit, isContainerCommand]
    · simp [Quiet]
  · exact Quiet.same s

theorem Quiet.of_viewport (s : State) (element : HtmlElement) :
    Quiet s (StartElement.viewport s element) := by
  unfold StartElement.viewport
  dsimp only
  split <;> simp [Quiet, State.emit, RewriteDriver.emit, isContainerCommand]

theorem Quiet.of_addScripts (s : State) (element : HtmlElement) :
    Quiet s (EndElement.addScripts s element) := by
  unfold EndElement.addScripts
  dsimp only
  split_ifs <;>
    simp [Quiet, insertScriptAfterCurrent, RewriteDriver.NewElement,
      RewriteDriver.emit, isContainerCommand]

theorem Quiet.of_polymerLinks (s : State) (element : HtmlElement)
    (base : String) (links : List String) :
    Quiet s (InsertPolymerLinks s element base links) := by
  refine Quiet.fold (fun s l => InsertPolymerLink s element (base ++ l))
    (fun a b => ?_) links s
  simp [Quiet, InsertPolymerLink, RewriteDriver.NewElement, RewriteDriver.emit,
    isContainerCommand]

theorem Quiet.of_styleAndViewport (s : State) (element : HtmlElement) :
    Quiet s (AddStyleAndViewport s element) := by
  have hp : ∀ t : State, Quiet t (AddStyleAndViewport.polymer t element) := by
    intro t
    unfold AddStyleAndViewport.polymer
    split
    · dsimp only
      refine Quiet.chain ?_ (Quiet.of_polymerLinks _ _ _ _)
      refine Quiet.chain ?_ (Quiet.of_polymerLinks _ _ _ _)
      simp [Quiet, RewriteDriver.NewElement, RewriteDriver.emit,
        isContainerCommand]
    · exact Quiet.same t
  have hl : ∀ t : State, Quiet t (AddStyleAndViewport.link t element) := by
    intro t; unfold AddStyleAndViewport.link
    split <;>
      simp [Quiet, RewriteDriver.NewElement, RewriteDriver.emit,
        isContainerCommand]
  have hv : ∀ t : State, Quiet t (AddStyleAndViewport.viewport t element) := by
    intro t; unfold AddStyleAndViewport.viewport
    split <;>
      simp [Quiet, RewriteDriver.NewElement, RewriteDriver.emit,
        isContainerCommand]
  have hs : ∀ t : State, Quiet t (AddStyleAndViewport.style t element) := by
    intro t; unfold AddStyleAndViewport.style
    split <;>
      simp [Quiet, RewriteDriver.NewElement, RewriteDriver.NewCharactersNode,
        RewriteDriver.emit, isContainerCommand]
  unfold AddStyleAndViewport
  split
  · dsimp only
    refine Quiet.chain ?_ (hp _)
    refine Quiet.chain ?_ (hl _)
    refine Quiet.chain ?_ (hv _)
    refine Quiet.chain ?_ (hs _)
    simp [Quiet]
  · exact Quiet.same s

/-- In delegation mode `Characters` at most rewrites the text of a
script. -/
theorem Quiet.of_characters (s : State) (characters : HtmlCharactersNode)
    (hmode : s.use_cxx_layout_ = false) : Quiet s (Characters s characters) := by
  unfold Characters
  simp only [hmode, Bool.not_false, if_true]
  split_ifs <;> simp [Quiet, State.emit, RewriteDriver.emit, isContainerCommand]

/-- In delegation mode `StartElement` calls neither `AddReorderContainers`
nor `HandleStartTagInBody`. -/
theorem Quiet.of_startElement (s : State) (element : HtmlElement)
    (hmode : s.use_cxx_layout_ = false) : Quiet s (StartElement s element) := by
  have hu := Quiet.of_unminify s element
  have hm : (StartElement.unminify s element).use_cxx_layout_ = false :=
    hu.1.trans hmode
  unfold StartElement
  dsimp only
  split_ifs
  · exact hu.chain (Quiet.of_viewport _ _)
  · simp [hm] at *
  · exact hu.chain (by simp [Quiet])
  · simp [hm] at *
  · exact hu
  · exact hu

/-- In delegation mode `EndElement` never fails, and dissolves nothing
when no container was added. -/
theorem Quiet.of_endElement (s : State) (element : HtmlElement)
    (hmode : s.use_cxx_layout_ = false) (hadded : s.added_containers_ = false) :
    ∃ s1, EndElement s element = some s1 ∧ Quiet s s1 := by
  have hsc : Quiet s (EndElement.script s element) := by
    unfold EndElement.script; split <;> simp [Quiet]
  have hm : (EndElement.script s element).use_cxx_layout_ = false :=
    hsc.1.trans hmode
  have ha : (EndElement.script s element).added_containers_ = false :=
    hsc.2.1.trans hadded
  have hl : Quiet s (EndElement.script s element).leaveBody :=
    hsc.chain (by simp [Quiet])
  unfold EndElement
  dsimp only
  split_ifs
  · refine ⟨_, rfl, ?_⟩
    refine (hl.chain (Quiet.of_addScripts _ element)).chain ?_
    simp [Quiet]
  · refine ⟨_, rfl, ?_⟩
    rw [RemoveReorderContainers_of_not_added _ (by simpa using ha)]
    exact hl.chain (by simp [Quiet])
  · exact ⟨_, rfl, hl⟩
  · exact ⟨_, rfl, hsc.chain (Quiet.of_styleAndViewport _ _)⟩
  · simp [hm] at *
  · exact ⟨_, rfl, hsc⟩
  · exact ⟨_, rfl, hsc⟩

theorem Quiet.of_run (events : List Event) (s : State)
    (hmode : s.use_cxx_layout_ = false) (hadded : s.added_containers_ = false) :
    ∃ s1, run s events = some s1 ∧ Quiet s s1 := by
  induction events generalizing s with
  | nil => exact ⟨s, rfl, Quiet.same s⟩
  | cons ev events ih =>
    have hstep : ∃ s2, step s ev = some s2 ∧ Quiet s s2 := by
      cases ev with
      | StartElement element => exact ⟨_, rfl, Quiet.of_startElement s element hmode⟩
      | EndElement element => exact Quiet.of_endElement s element hmode hadded
      | Characters c => exact ⟨_, rfl, Quiet.of_characters s c hmode⟩
    obtain ⟨s2, h2, q2⟩ := hstep
    obtain ⟨s1, h1, q1⟩ := ih s2 (q2.1.trans hmode) (q2.2.1.trans hadded)
    exact ⟨s1, by simp [run, h2, h1], q2.chain q1⟩

/-- What `Quiet` says of the commands issued in between. -/
theorem Quiet.issued_quiet {s s1 : State} (h : Quiet s s1) :
    ∀ c ∈ issued s s1, isContainerCommand c = false := by
  obtain ⟨_, _, _, hp, hf⟩ := h
  obtain ⟨new, hnew⟩ := hp
  have hi : issued s s1 = new := by simp [issued, ← hnew]
  rw [hi]
  rw [← hnew, List.filter_append] at hf
  have hnil : new.filter isContainerCommand = [] := by
    simpa using hf
  intro c hc
  by_contra hcc
  have : c ∈ new.filter isContainerCommand :=
    List.mem_filter.2 ⟨hc, by simpa using hcc⟩
  rw [hnil] at this
  exact absurd this (List.not_mem_nil _)
/-! ## The one-shot flags: lemmas -/

theorem Latched.of_flags {s s1 : State} (h : flags s1 = flags s) :
    Latched s s1 ∧ s1.added_containers_ = s.added_containers_ := by
  simp only [flags, Prod.mk.injEq] at h
  obtain ⟨h1, h2, h3, h4⟩ := h
  exact ⟨⟨fun h => h1.trans h, fun h => h2.trans h, fun h => h4.trans h⟩, h3⟩

theorem Latched.step_trans {s s1 s2 : State} (h1 : Latched s s1)
    (h2 : Latched s1 s2) : Latched s s2 :=
  ⟨fun h => h2.1 (h1.1 h), fun h => h2.2.1 (h1.2.1 h),
    fun h => h2.2.2 (h1.2.2 h)⟩

theorem flags_deleteElementSavingChildren (s : State) (element : HtmlElement)
    (msg : String) :
    flags (deleteElementSavingChildren s element msg) = flags s := by
  unfold deleteElementSavingChildren
  split <;> rfl

theorem flags_HandleStartTagInBody (s : State) (element : HtmlElement) :
    flags (HandleStartTagInBody s element) = flags s := by
  have htable : flags (HandleStartTagInBody.table s element) = flags s := by
    unfold HandleStartTagInBody.table
    dsimp only
    rw [flags_deleteElementSavingChildren]
    split <;> rfl
  have hrole : flags (HandleStartTagInBody.role s element) = flags s := by
    unfold HandleStartTagInBody.role
    dsimp only
    split_ifs <;> rfl
  have hnav : flags (HandleStartTagInBody.nav s element) = flags s := by
    unfold HandleStartTagInBody.nav
    dsimp only
    split_ifs <;>
      first
      | rfl
      | (rw [flags_deleteElementSavingChildren] <;> rfl)
  unfold HandleStartTagInBody
  dsimp only
  split_ifs <;>
    first
    | rfl
    | exact htable
    | exact hrole
    | exact hnav
    | exact flags_deleteElementSavingChildren _ _ _

theorem flags_HandleEndTagInBody (s s1 : State) (element : HtmlElement)
    (h : HandleEndTagInBody s element = some s1) : flags s1 = flags s := by
  have hleave : ∀ (t : State) (r : Level) (popped : List Level),
      flags (HandleEndTagInBody.leave t r popped) = flags t := by
    intro t r popped
    unfold HandleEndTagInBody.leave
    dsimp only
    split_ifs <;> rfl
  have hmove : ∀ (t : State) (r : Level) (c : Nat),
      flags (HandleEndTagInBody.move t element r c) = flags t := by
    intro t r c
    unfold HandleEndTagInBody.move
    split_ifs
    · cases r <;> rfl
    · rfl
  rcases HandleEndTagInBody_inv s s1 element h with
    ⟨_, rfl⟩ | ⟨_, _, _, _, _, _, _, rfl⟩ | ⟨_, _, rfl | rfl⟩
  · rfl
  · rw [hmove, hleave]
  · rfl
  · unfold HandleEndTagInBody.nav
    dsimp only
    split_ifs <;> rfl

theorem flags_Characters (s : State) (characters : HtmlCharactersNode) :
    flags (Characters s characters) = flags s := by
  unfold Characters
  split_ifs <;> simp [flags, State.emit]

theorem flags_unminify (s : State) (element : HtmlElement) :
    flags (StartElement.unminify s element) = flags s := by
  unfold StartElement.unminify
  split
  · dsimp only
    split
    · split <;> rfl
    · rfl
  · rfl

theorem flags_script (s : State) (element : HtmlElement) :
    flags (EndElement.script s element) = flags s := by
  unfold EndElement.script
  split <;> rfl

theorem flags_InsertPolymerLinks (s : State) (element : HtmlElement)
    (base : String) (links : List String) :
    flags (InsertPolymerLinks s element base links) = flags s :=
  foldl_field flags (fun s l => InsertPolymerLink s element (base ++ l))
    (fun _ _ => rfl) _ _

/-- `StartElement.viewport` may set `found_viewport_`. -/
theorem viewport_flags (s : State) (element : HtmlElement) :
    Latched s (StartElement.viewport s element) ∧
    (StartElement.viewport s element).added_containers_
      = s.added_containers_ := by
  unfold StartElement.viewport
  dsimp only
  split <;> simp [Latched, State.emit]

/-- `EndElement.addScripts` sets `added_mob_js_`. -/
theorem addScripts_flags (s : State) (element : HtmlElement) :
    Latched s (EndElement.addScripts s element) ∧
    (EndElement.addScripts s element).added_containers_
      = s.added_containers_ := by
  unfold EndElement.addScripts
  dsimp only
  split_ifs <;> simp_all [Latched, insertScriptAfterCurrent]

/-- `AddStyleAndViewport` sets `added_style_` and may set
`found_viewport_`. -/
theorem AddStyleAndViewport_flags (s : State) (element : HtmlElement) :
    Latched s (AddStyleAndViewport s element) ∧
    (AddStyleAndViewport s element).added_containers_
      = s.added_containers_ := by
  have hp : ∀ t : State, flags (AddStyleAndViewport.polymer t element)
      = flags t := by
    intro t
    unfold AddStyleAndViewport.polymer
    split
    · dsimp only
      rw [flags_InsertPolymerLinks, flags_InsertPolymerLinks]
      rfl
    · rfl
  have hl : ∀ t : State, flags (AddStyleAndViewport.link t element)
      = flags t := by
    intro t; unfold AddStyleAndViewport.link; split <;> rfl
  have hs : ∀ t : State, flags (AddStyleAndViewport.style t element)
      = flags t := by
    intro t; unfold AddStyleAndViewport.style; split <;> rfl
  have hv : ∀ t : State,
      Latched t (AddStyleAndViewport.viewport t element) ∧
      (AddStyleAndViewport.viewport t element).added_containers_
        = t.added_containers_ := by
    intro t; unfold AddStyleAndViewport.viewport
    split <;> simp [Latched]
  unfold AddStyleAndViewport
  split
  · dsimp only
    obtain ⟨p1, p2⟩ := Latched.of_flags (hp (AddStyleAndViewport.link
      (AddStyleAndViewport.viewport (AddStyleAndViewport.style
        { s with added_style_ := true } element) element) element))
    obtain ⟨l1, l2⟩ := Latched.of_flags (hl (AddStyleAndViewport.viewport
      (AddStyleAndViewport.style { s with added_style_ := true } element)
      element))
    obtain ⟨v1, v2⟩ := hv (AddStyleAndViewport.style
      { s with added_style_ := true } element)
    obtain ⟨s1, s2⟩ := Latched.of_flags
      (hs { s with added_style_ := true })
    have h0 : Latched s { s with added_style_ := true } := by simp [Latched]
    exact ⟨(((h0.step_trans s1).step_trans v1).step_trans l1).step_trans p1,
      p2.trans (l2.trans (v2.trans s2))⟩
  · exact ⟨⟨id, id, id⟩, rfl⟩

/-- `AddReorderContainers` leaves the other flags and does not reset
`added_containers_`. -/
theorem AddReorderContainers_flags (s : State) (element : HtmlElement) :
    Latched s (AddReorderContainers s element) ∧
    (AddReorderContainers s element).added_containers_ = true := by
  unfold AddReorderContainers
  split
  · dsimp only
    have h := foldl_field (fun t => (t.found_viewport_, t.added_style_,
        t.added_mob_js_)) (AddReorderContainers.body element)
      (fun _ _ => rfl) (List.range Level.kInvalid.toNat)
      { s with mobile_role_containers_ := [] }
    simp only [Prod.mk.injEq] at h
    exact ⟨⟨fun k => h.1.trans k, fun k => h.2.1.trans k,
      fun k => h.2.2.trans k⟩, rfl⟩
  · exact ⟨⟨id, id, id⟩, by simpa using ‹¬ (!s.added_containers_) = true›⟩

/-- `RemoveReorderContainers` leaves the other flags. -/
theorem RemoveReorderContainers_flags (s : State) :
    Latched s (RemoveReorderContainers s) := by
  unfold RemoveReorderContainers
  split
  · dsimp only
    have h := foldl_field (fun t => (t.found_viewport_, t.added_style_,
        t.added_mob_js_)) RemoveReorderContainers.body
      (fun a b => by
        show (fun t : State => (t.found_viewport_, t.added_style_,
          t.added_mob_js_)) (RemoveReorderContainers.body a b) = _
        unfold RemoveReorderContainers.body
        split <;> rfl)
      ((List.range s.mobile_role_containers_.length).zip
        s.mobile_role_containers_) s
    simp only [Prod.mk.injEq] at h
    exact ⟨fun k => h.1.trans k, fun k => h.2.1.trans k,
      fun k => h.2.2.trans k⟩
  · exact ⟨id, id, id⟩

theorem StartElement_flags (s : State) (element : HtmlElement) :
    Latched s (StartElement s element) ∧
    (s.added_containers_ = true →
      (StartElement s element).added_containers_ = true) := by
  obtain ⟨u1, u2⟩ := Latched.of_flags (flags_unminify s element)
  unfold StartElement
  dsimp only
  split_ifs
  · obtain ⟨v1, v2⟩ := viewport_flags (StartElement.unminify s element) element
    exact ⟨u1.step_trans v1, fun h => (v2.trans u2).trans h⟩
  · obtain ⟨a1, a2⟩ := AddReorderContainers_flags
      (StartElement.unminify s element).enterBody element
    exact ⟨u1.step_trans (Latched.step_trans ⟨id, id, id⟩ a1), fun _ => a2⟩
  · exact ⟨u1.step_trans ⟨id, id, id⟩, fun h => u2.trans h⟩
  · obtain ⟨h1, h2⟩ := Latched.of_flags
      (flags_HandleStartTagInBody (StartElement.unminify s element) element)
    exact ⟨u1.step_trans h1, fun h => (h2.trans u2).trans h⟩
  · exact ⟨u1, fun h => u2.trans h⟩
  · exact ⟨u1, fun h => u2.trans h⟩

theorem EndElement_flags (s s1 : State) (element : HtmlElement)
    (h : EndElement s element = some s1) :
    Latched s s1 ∧
    (s.added_containers_ = true → s1.added_containers_ = false →
      element.keyword = .kBody ∧ s.body_element_depth_ = 1 ∧
      s.use_js_layout_ = false ∧ s.use_js_nav_ = false) := by
  obtain ⟨c1, c2⟩ := Latched.of_flags (flags_script s element)
  have hdepth : (EndElement.script s element).body_element_depth_
      = s.body_element_depth_ := by
    unfold EndElement.script; split <;> rfl
  have hlayout : (EndElement.script s element).use_js_layout_
      = s.use_js_layout_ := by
    unfold EndElement.script; split <;> rfl
  have hnav : (EndElement.script s element).use_js_nav_ = s.use_js_nav_ := by
    unfold EndElement.script; split <;> rfl
  unfold EndElement at h
  dsimp only at h
  split_ifs at h with hb h0 hjs hhead hin hcxx
  · cases h
    obtain ⟨a1, a2⟩ := addScripts_flags (EndElement.script s element).leaveBody
      element
    have hleave : Latched (EndElement.script s element)
        (EndElement.script s element).leaveBody := ⟨id, id, id⟩
    refine ⟨c1.step_trans (hleave.step_trans (a1.step_trans ⟨id, id, id⟩)),
      ?_⟩
    intro ht hf
    have : s.added_containers_ = false := by
      rw [← c2]; exact a2.symm.trans hf
    rw [ht] at this
    exact absurd this (by decide)
  · cases h
    have hleave : Latched (EndElement.script s element)
        (EndElement.script s element).leaveBody := ⟨id, id, id⟩
    refine ⟨c1.step_trans (hleave.step_trans
      ((RemoveReorderContainers_flags _).step_trans ⟨id, id, id⟩)), ?_⟩
    intro _ _
    simp only [State.leaveBody, beq_iff_eq, hdepth, hlayout, hnav,
      Bool.or_eq_true, not_or, Bool.not_eq_true] at hb h0 hjs
    exact ⟨hb, by omega, hjs.1, hjs.2⟩
  · cases h
    refine ⟨c1.step_trans ⟨id, id, id⟩, ?_⟩
    intro ht hf
    have : s.added_containers_ = false := by rw [← c2]; exact hf
    rw [ht] at this
    exact absurd this (by decide)
  · cases h
    obtain ⟨a1, a2⟩ := AddStyleAndViewport_flags (EndElement.script s element)
      element
    refine ⟨c1.step_trans a1, ?_⟩
    intro ht hf
    have : s.added_containers_ = false := by
      rw [← c2]; exact a2.symm.trans hf
    rw [ht] at this
    exact absurd this (by decide)
  · obtain ⟨a1, a2⟩ := Latched.of_flags (flags_HandleEndTagInBody _ _ _ h)
    refine ⟨c1.step_trans a1, ?_⟩
    intro ht hf
    have : s.added_containers_ = false := by
      rw [← c2]; exact a2.symm.trans hf
    rw [ht] at this
    exact absurd this (by decide)
  · cases h
    refine ⟨c1, ?_⟩
    intro ht hf
    have : s.added_containers_ = false := by rw [← c2]; exact hf
    rw [ht] at this
    exact absurd this (by decide)
  · cases h
    refine ⟨c1, ?_⟩
    intro ht hf
    have : s.added_containers_ = false := by rw [← c2]; exact hf
    rw [ht] at this
    exact absurd this (by decide)

/-- Along a run the three latched flags stay set, and `added_containers_`
stays set as long as no body closes. -/
theorem Latched.of_stream (events : List Event) (s s1 : State)
    (hrun : run s events = some s1) :
    Latched s s1 ∧
    ((∀ element, Event.EndElement element ∈ events →
        element.keyword ≠ .kBody) →
      s.added_containers_ = true → s1.added_containers_ = true) := by
  induction events generalizing s with
  | nil =>
    simp only [run, Option.some.injEq] at hrun
    subst hrun
    exact ⟨⟨id, id, id⟩, fun _ h => h⟩
  | cons ev events ih =>
    cases ev with
    | StartElement element =>
      simp only [run, step] at hrun
      obtain ⟨l, hl⟩ := ih _ hrun
      obtain ⟨a1, a2⟩ := StartElement_flags s element
      exact ⟨a1.step_trans l, fun hno h =>
        hl (fun e he => hno e (List.mem_cons_of_mem _ he)) (a2 h)⟩
    | Characters c =>
      simp only [run, step] at hrun
      obtain ⟨l, hl⟩ := ih _ hrun
      obtain ⟨a1, a2⟩ := Latched.of_flags (flags_Characters s c)
      exact ⟨a1.step_trans l, fun hno h =>
        hl (fun e he => hno e (List.mem_cons_of_mem _ he)) (a2.trans h)⟩
    | EndElement element =>
      simp only [run, step] at hrun
      cases hstep : EndElement s element with
      | none => simp [hstep] at hrun
      | some s2 =>
        simp only [hstep] at hrun
        obtain ⟨l, hl⟩ := ih _ hrun
        obtain ⟨a1, a2⟩ := EndElement_flags s s2 element hstep
        refine ⟨a1.step_trans l, fun hno h => ?_⟩
        apply hl (fun e he => hno e (List.mem_cons_of_mem _ he))
        cases h2 : s2.added_containers_ with
        | true => rfl
        | false =>
          exact absurd (a2 h h2).1 (hno element (List.mem_cons_self _ _))

/-! ## Delegation mode and the one-shot flags: the claims -/

/-- C18, as the code has it: with `mob_layout` set, the open of the body
issues no command, leaves `mobile_role_containers_` empty and
`added_containers_` false: no container is created. -/
theorem delegation_creates_containers_counterexample :
    (run (optionsStart true false false) (emptyBodyDocument.take 1)).map
      (fun s => (s.use_cxx_layout_, s.driver_.commands,
        s.mobile_role_containers_, s.added_containers_))
      = some (false, [], [], false) := by
  decide

/-- C18, amended: when delegation mode is active (`use_cxx_layout_` is false,
as the constructor sets it when any of `mob_layout`, `mob_logo`, `mob_nav`
is set) and no container was added, every stream of events is processed
without failure, and the engine neither creates the containers at a body
open nor dissolves anything at a body close: `added_containers_` stays
false, `mobile_role_containers_` is unchanged, and no command issued creates
a `div`, moves a node or deletes an element keeping its children. -/
theorem delegation_no_containers (events : List Event) (s : State)
    (hmode : s.use_cxx_layout_ = false) (hadded : s.added_containers_ = false) :
    (∃ s1, run s events = some s1 ∧
      s1.use_cxx_layout_ = false ∧
      s1.added_containers_ = false ∧
      s1.mobile_role_containers_ = s.mobile_role_containers_ ∧
      ∀ c ∈ issued s s1, isContainerCommand c = false) ∧
    (∀ (rewrite_driver : RewriteDriver) (mob_layout mob_logo mob_nav : Bool)
        (proxy_suffix css : String),
      (mob_layout || mob_logo || mob_nav) = true →
      (StartDocument (MobilizeRewriteFilter rewrite_driver mob_layout mob_logo
        mob_nav proxy_suffix css)).use_cxx_layout_ = false ∧
      (StartDocument (MobilizeRewriteFilter rewrite_driver mob_layout mob_logo
        mob_nav proxy_suffix css)).added_containers_ = false) := by
  obtain ⟨s1, h1, q⟩ := Quiet.of_run events s hmode hadded
  refine ⟨⟨s1, h1, q.1.trans hmode, q.2.1.trans hadded, q.2.2.1,
    q.issued_quiet⟩, ?_⟩
  intro d a b c p css h
  simp [StartDocument, MobilizeRewriteFilter, h]

theorem delegation_no_containers_witness :
    ∃ s1, run (optionsStart true false false) emptyBodyDocument = some s1 ∧
      s1.use_cxx_layout_ = false ∧
      s1.added_containers_ = false ∧
      s1.mobile_role_containers_
        = (optionsStart true false false).mobile_role_containers_ ∧
      ∀ c ∈ issued (optionsStart true false false) s1,
        isContainerCommand c = false :=
  (delegation_no_containers emptyBodyDocument (optionsStart true false false)
    (by decide) (by decide)).1

/-- C20, as the code has it: on `<body></body><body></body>`
`added_containers_` is true after the first body opens, false again after
it closes, and true after the second body opens. -/
theorem one_shot_flags_counterexample :
    (run exampleStart (twoBodiesDocument.take 1)).map
      (fun s => s.added_containers_) = some true ∧
    (run exampleStart (twoBodiesDocument.take 2)).map
      (fun s => s.added_containers_) = some false ∧
    (run exampleStart (twoBodiesDocument.take 3)).map
      (fun s => s.added_containers_) = some true := by
  decide

/-- C20, amended: along any stream of events (no `StartDocument` in
between) each of `found_viewport_`, `added_style_` and `added_mob_js_`, once
true, stays true: they change at most once and only from false to true;
`added_containers_` stays true as long as no body closes, and a close event
that sets it back to false is the close of a body that brings
`body_element_depth_` from 1 to 0 with neither `use_js_layout_` nor
`use_js_nav_` set (`RemoveReorderContainers`). -/
theorem one_shot_flags (events : List Event) (s s1 : State)
    (hrun : run s events = some s1) :
    (s.found_viewport_ = true → s1.found_viewport_ = true) ∧
    (s.added_style_ = true → s1.added_style_ = true) ∧
    (s.added_mob_js_ = true → s1.added_mob_js_ = true) ∧
    ((∀ element, Event.EndElement element ∈ events →
        element.keyword ≠ .kBody) →
      s.added_containers_ = true → s1.added_containers_ = true) ∧
    (∀ (t t1 : State) (ev : Event), step t ev = some t1 →
      t.added_containers_ = true → t1.added_containers_ = false →
      ∃ element, ev = .EndElement element ∧ element.keyword = .kBody ∧
        t.body_element_depth_ = 1 ∧ t.use_js_layout_ = false ∧
        t.use_js_nav_ = false) := by
  obtain ⟨⟨h1, h2, h3⟩, h4⟩ := Latched.of_stream events s s1 hrun
  refine ⟨h1, h2, h3, h4, ?_⟩
  intro t t1 ev hstep ht hf
  cases ev with
  | StartElement element =>
    simp only [step, Option.some.injEq] at hstep
    subst hstep
    rw [(StartElement_flags t element).2 ht] at hf
    exact absurd hf (by decide)
  | Characters c =>
    simp only [step, Option.some.injEq] at hstep
    subst hstep
    rw [(Latched.of_flags (flags_Characters t c)).2, ht] at hf
    exact absurd hf (by decide)
  | EndElement element =>
    exact ⟨element, rfl, (EndElement_flags t t1 element hstep).2 ht hf⟩

theorem one_shot_flags_witness :
    insideInnerDiv.added_containers_ = true ∧
    run insideInnerDiv
      [.EndElement (divElement 2 1 "content"),
       .EndElement (divElement 1 0 "content")]
      = some ((run exampleStart (nestedContentDocument.take 6)).getD
          exampleStart) ∧
    ((run exampleStart (nestedContentDocument.take 6)).getD
      exampleStart).added_containers_ = true :=
  ⟨by decide, by decide,
   (one_shot_flags
      [.EndElement (divElement 2 1 "content"),
       .EndElement (divElement 1 0 "content")]
      insideInnerDiv
      ((run exampleStart (nestedContentDocument.take 6)).getD exampleStart)
      (by decide)).2.2.2.1
      (by
        intro element he
        simp only [List.mem_cons, Event.EndElement.injEq, List.mem_singleton,
          List.not_mem_nil, or_false] at he
        rcases he with rfl | rfl <;> decide)
      (by decide)⟩

/-! ## The reset at the start of a document -/

/-- C21: from every state `StartDocument` yields a state in which
`body_element_depth_` and `nav_element_depth_` are 0, the flags
`reached_reorder_containers_`, `found_viewport_`, `added_style_`,
`added_containers_`, `added_mob_js_` and `in_script_` are false and both
stacks are empty; the configuration fields (`use_cxx_layout_`,
`use_js_layout_`, `use_js_logo_`, `use_js_nav_`, `static_file_prefix_`) are
unchanged, and so are the driver, `style_css_`, `mobile_role_containers_`
and the statistics; `StartDocument` is idempotent. -/
theorem StartDocument_resets (s : State) :
    (StartDocument s).body_element_depth_ = 0 ∧
    (StartDocument s).nav_element_depth_ = 0 ∧
    (StartDocument s).reached_reorder_containers_ = false ∧
    (StartDocument s).found_viewport_ = false ∧
    (StartDocument s).added_style_ = false ∧
    (StartDocument s).added_containers_ = false ∧
    (StartDocument s).added_mob_js_ = false ∧
    (StartDocument s).in_script_ = false ∧
    (StartDocument s).element_roles_stack_ = [] ∧
    (StartDocument s).nav_keyword_stack_ = [] ∧
    (StartDocument s).use_cxx_layout_ = s.use_cxx_layout_ ∧
    (StartDocument s).use_js_layout_ = s.use_js_layout_ ∧
    (StartDocument s).use_js_logo_ = s.use_js_logo_ ∧
    (StartDocument s).use_js_nav_ = s.use_js_nav_ ∧
    (StartDocument s).static_file_prefix_ = s.static_file_prefix_ ∧
    (StartDocument s).driver_ = s.driver_ ∧
    (StartDocument s).style_css_ = s.style_css_ ∧
    (StartDocument s).mobile_role_containers_ = s.mobile_role_containers_ ∧
    (StartDocument s).num_pages_mobilized_ = s.num_pages_mobilized_ ∧
    (StartDocument s).num_keeper_blocks_ = s.num_keeper_blocks_ ∧
    (StartDocument s).num_header_blocks_ = s.num_header_blocks_ ∧
    (StartDocument s).num_navigational_blocks_ = s.num_navigational_blocks_ ∧
    (StartDocument s).num_content_blocks_ = s.num_content_blocks_ ∧
    (StartDocument s).num_marginal_blocks_ = s.num_marginal_blocks_ ∧
    (StartDocument s).num_elements_deleted_ = s.num_elements_deleted_ ∧
    StartDocument (StartDocument s) = StartDocument s := by
  simp [StartDocument]

/-! ## The statistics -/

theorem movedBlocks_LogMovedBlock (s : State) (r l : Level)
    (hr : r ≠ .kInvalid) :
    movedBlocks (LogMovedBlock s r) l
      = movedBlocks s l + if l = r then 1 else 0 := by
  cases r <;> cases l <;> simp_all [movedBlocks, LogMovedBlock]

theorem issued_self (s : State) : issued s s = [] := by
  simp [issued]

/-- The counters across `HandleEndTagInBody.move`. -/
theorem move_counters (s : State) (element : HtmlElement) (r : Level) (c : Nat)
    (hr : r ≠ .kInvalid) :
    (issued s (HandleEndTagInBody.move s element r c) = [] ∨
      issued s (HandleEndTagInBody.move s element r c)
        = [Cmd.MoveCurrentInto element.id c]) ∧
    (∀ l, movedBlocks (HandleEndTagInBody.move s element r c) l
      = movedBlocks s l + if l = r then
          (moves (issued s (HandleEndTagInBody.move s element r c))).length
        else 0) ∧
    (HandleEndTagInBody.move s element r c).num_elements_deleted_
      = s.num_elements_deleted_ ∧
    (HandleEndTagInBody.move s element r c).num_pages_mobilized_
      = s.num_pages_mobilized_ := by
  unfold HandleEndTagInBody.move
  split_ifs
  · have hi : issued s (LogMovedBlock
        (s.emit (.MoveCurrentInto element.id c)) r)
        = [Cmd.MoveCurrentInto element.id c] := by
      simp [issued, LogMovedBlock_driver, State.emit, RewriteDriver.emit]
    refine ⟨Or.inr hi, ?_, ?_, ?_⟩
    · intro l
      rw [movedBlocks_LogMovedBlock _ _ _ hr, hi]
      rfl
    · cases r <;> rfl
    · cases r <;> rfl
  · refine ⟨Or.inl (issued_self s), ?_, rfl, rfl⟩
    intro l
    simp [issued_self, moves]

/-- The counters across the deletion of an element. -/
theorem deleteElementSavingChildren_counters (s : State)
    (element : HtmlElement) (msg : String) :
    (deleteElementSavingChildren s element msg).num_elements_deleted_
      = s.num_elements_deleted_ + 1 ∧
    (issued s (deleteElementSavingChildren s element msg)).filter isDeletion
      = [Cmd.DeleteSavingChildren element.id] ∧
    (∀ l, movedBlocks (deleteElementSavingChildren s element msg) l
      = movedBlocks s l) ∧
    (deleteElementSavingChildren s element msg).num_pages_mobilized_
      = s.num_pages_mobilized_ := by
  refine ⟨?_, ?_, ?_, ?_⟩
  · unfold deleteElementSavingChildren; split <;> rfl
  · rw [issued_deleteElementSavingChildren]
    by_cases hd : s.driver_.debug_mode = true <;> simp [hd, isDeletion]
  · intro l
    unfold deleteElementSavingChildren
    split <;> cases l <;> rfl
  · unfold deleteElementSavingChildren; split <;> rfl

/-- The counters across `HandleStartTagInBody`. -/
theorem HandleStartTagInBody_counters (s : State) (element : HtmlElement) :
    (HandleStartTagInBody s element).num_elements_deleted_
      = s.num_elements_deleted_ +
        ((issued s (HandleStartTagInBody s element)).filter
          isDeletion).length ∧
    ((issued s (HandleStartTagInBody s element)).filter isDeletion).length
      ≤ 1 ∧
    (∀ l, movedBlocks (HandleStartTagInBody s element) l = movedBlocks s l) ∧
    (HandleStartTagInBody s element).num_pages_mobilized_
      = s.num_pages_mobilized_ := by
  have hsame : ∀ t : State, t.driver_ = s.driver_ →
      t.num_elements_deleted_ = s.num_elements_deleted_ →
      (∀ l, movedBlocks t l = movedBlocks s l) →
      t.num_pages_mobilized_ = s.num_pages_mobilized_ →
      t.num_elements_deleted_ = s.num_elements_deleted_ +
        ((issued s t).filter isDeletion).length ∧
      ((issued s t).filter isDeletion).length ≤ 1 ∧
      (∀ l, movedBlocks t l = movedBlocks s l) ∧
      t.num_pages_mobilized_ = s.num_pages_mobilized_ := by
    intro t h1 h2 h3 h4
    have hi : issued s t = [] := by simp [issued, h1]
    simp [hi, h2, h3, h4]
  have hdel : ∀ msg : String,
      (deleteElementSavingChildren s element msg).num_elements_deleted_
        = s.num_elements_deleted_ +
          ((issued s (deleteElementSavingChildren s element msg)).filter
            isDeletion).length ∧
      ((issued s (deleteElementSavingChildren s element msg)).filter
        isDeletion).length ≤ 1 ∧
      (∀ l, movedBlocks (deleteElementSavingChildren s element msg) l
        = movedBlocks s l) ∧
      (deleteElementSavingChildren s element msg).num_pages_mobilized_
        = s.num_pages_mobilized_ := by
    intro msg
    obtain ⟨d1, d2, d3, d4⟩ := deleteElementSavingChildren_counters s element
      msg
    rw [d2]
    exact ⟨d1, by simp, d3, d4⟩
  unfold HandleStartTagInBody
  dsimp only
  split_ifs
  · exact hsame s rfl rfl (fun _ => rfl) rfl
  · exact hsame _ rfl rfl (fun l => by cases l <;> rfl) rfl
  · obtain ⟨t1, t2, t3, t4, t5⟩ := table_branch s element
    rw [t1]
    refine ⟨?_, ?_, ?_, ?_⟩
    · rw [t5]
      by_cases hb : element.keyword = .kTable ∨ element.keyword = .kTr <;>
        by_cases hd : s.driver_.debug_mode = true <;>
        simp [hb, hd, isDeletion]
    · by_cases hb : element.keyword = .kTable ∨ element.keyword = .kTr <;>
        by_cases hd : s.driver_.debug_mode = true <;>
        simp [hb, hd, isDeletion]
    · intro l
      unfold HandleStartTagInBody.table
      dsimp only
      rw [(deleteElementSavingChildren_counters _ _ _).2.2.1 l]
      split <;> cases l <;> rfl
    · unfold HandleStartTagInBody.table
      dsimp only
      rw [(deleteElementSavingChildren_counters _ _ _).2.2.2]
      split <;> rfl
  · refine hsame _ ?_ ?_ ?_ ?_ <;> unfold HandleStartTagInBody.role <;>
      dsimp only
    · split_ifs <;> rfl
    · split_ifs <;> rfl
    · intro l; split_ifs <;> cases l <;> rfl
    · split_ifs <;> rfl
  · unfold HandleStartTagInBody.nav
    dsimp only
    split_ifs
    · obtain ⟨d1, d2, d3, d4⟩ := deleteElementSavingChildren_counters
        { s with nav_keyword_stack_ := element.keyword :: s.nav_keyword_stack_ }
        element "Deleted non-nav element in navigational section: "
      have hi : ∀ t : State, issued s t = issued
          { s with nav_keyword_stack_ :=
            element.keyword :: s.nav_keyword_stack_ } t := fun _ => rfl
      rw [hi, d2]
      exact ⟨d1, by simp, fun l => (d3 l).trans (by cases l <;> rfl), d4⟩
    · exact hsame _ rfl rfl (fun l => by cases l <;> rfl) rfl
    · exact hdel _
    · exact hsame s rfl rfl (fun _ => rfl) rfl
  · exact hdel _
  · exact hsame s rfl rfl (fun _ => rfl) rfl

/-- The counters across `Characters`. -/
theorem Characters_counters (s : State) (characters : HtmlCharactersNode) :
    (Characters s characters).num_elements_deleted_
      = s.num_elements_deleted_ +
        ((issued s (Characters s characters)).filter isDeletion).length ∧
    ((issued s (Characters s characters)).filter isDeletion).length ≤ 1 ∧
    (∀ l, movedBlocks (Characters s characters) l = movedBlocks s l) ∧
    (Characters s characters).num_pages_mobilized_
      = s.num_pages_mobilized_ := by
  refine ⟨?_, ?_, ?_, ?_⟩
  · unfold Characters
    split_ifs <;>
      simp [issued, State.emit, RewriteDriver.emit, isDeletion]
  · unfold Characters
    split_ifs <;>
      simp [issued, State.emit, RewriteDriver.emit, isDeletion]
  · intro l
    unfold Characters
    split_ifs <;> cases l <;> rfl
  · unfold Characters
    split_ifs <;> rfl

/-- The counters across `RemoveReorderContainers`. -/
theorem RemoveReorderContainers_counters (s : State) :
    (RemoveReorderContainers s).num_elements_deleted_
      = s.num_elements_deleted_ ∧
    (∀ l, movedBlocks (RemoveReorderContainers s) l = movedBlocks s l) ∧
    (RemoveReorderContainers s).num_pages_mobilized_
      = s.num_pages_mobilized_ := by
  have h : ∀ (l : List (Nat × Nat)) (t : State),
      (fun u : State => (u.num_elements_deleted_, u.num_pages_mobilized_,
        u.num_keeper_blocks_, u.num_header_blocks_,
        u.num_navigational_blocks_, u.num_content_blocks_,
        u.num_marginal_blocks_)) (l.foldl RemoveReorderContainers.body t)
      = (t.num_elements_deleted_, t.num_pages_mobilized_,
        t.num_keeper_blocks_, t.num_header_blocks_,
        t.num_navigational_blocks_, t.num_content_blocks_,
        t.num_marginal_blocks_) := by
    intro l t
    refine foldl_field (fun u : State => (u.num_elements_deleted_,
        u.num_pages_mobilized_, u.num_keeper_blocks_, u.num_header_blocks_,
        u.num_navigational_blocks_, u.num_content_blocks_,
        u.num_marginal_blocks_)) RemoveReorderContainers.body
      (fun a b => ?_) l t
    unfold RemoveReorderContainers.body
    split <;> rfl
  unfold RemoveReorderContainers
  split
  · have h1 := h ((List.range s.mobile_role_containers_.length).zip
      s.mobile_role_containers_) s
    simp only [Prod.mk.injEq] at h1
    obtain ⟨a1, a2, a3, a4, a5, a6, a7⟩ := h1
    refine ⟨a1, ?_, a2⟩
    intro l
    cases l
    · exact a3
    · exact a4
    · exact a5
    · exact a6
    · exact a7
    · rfl
  · exact ⟨rfl, fun _ => rfl, rfl⟩

/-- C28: a successful `HandleEndTagInBody` issues at most one command, a move
of the element; a move is issued only for a valid role `r`, and then the
moved-blocks counter of `r` grows by one and no other counter changes;
without a move no counter changes. `HandleStartTagInBody` and `Characters`
add to the deleted-elements counter the number of deletions they issue (one
or none) and change no other counter. `RemoveReorderContainers`, which
dissolves the containers, changes no counter. `LogMovedBlock` is called in
`HandleEndTagInBody` only, with a role that is not `kInvalid`. -/
theorem counters_follow_commands (s : State) (element : HtmlElement)
    (characters : HtmlCharactersNode) :
    (∀ s1, HandleEndTagInBody s element = some s1 →
      (issued s s1 = [] ∨
        ∃ c, issued s s1 = [Cmd.MoveCurrentInto element.id c] ∧
          GetMobileRole element ≠ .kInvalid) ∧
      (∀ l, movedBlocks s1 l = movedBlocks s l +
        if l = GetMobileRole element then (moves (issued s s1)).length
        else 0) ∧
      s1.num_elements_deleted_ = s.num_elements_deleted_ ∧
      s1.num_pages_mobilized_ = s.num_pages_mobilized_) ∧
    ((HandleStartTagInBody s element).num_elements_deleted_
        = s.num_elements_deleted_ +
          ((issued s (HandleStartTagInBody s element)).filter
            isDeletion).length ∧
      ((issued s (HandleStartTagInBody s element)).filter isDeletion).length
        ≤ 1 ∧
      (∀ l, movedBlocks (HandleStartTagInBody s element) l = movedBlocks s l) ∧
      (HandleStartTagInBody s element).num_pages_mobilized_
        = s.num_pages_mobilized_) ∧
    ((Characters s characters).num_elements_deleted_
        = s.num_elements_deleted_ +
          ((issued s (Characters s characters)).filter isDeletion).length ∧
      ((issued s (Characters s characters)).filter isDeletion).length ≤ 1 ∧
      (∀ l, movedBlocks (Characters s characters) l = movedBlocks s l) ∧
      (Characters s characters).num_pages_mobilized_
        = s.num_pages_mobilized_) ∧
    ((RemoveReorderContainers s).num_elements_deleted_
        = s.num_elements_deleted_ ∧
      (∀ l, movedBlocks (RemoveReorderContainers s) l = movedBlocks s l) ∧
      (RemoveReorderContainers s).num_pages_mobilized_
        = s.num_pages_mobilized_) := by
  refine ⟨?_, ?_, ?_, ?_⟩
  · intro s1 h
    rcases HandleEndTagInBody_inv s s1 element h with
      ⟨_, rfl⟩ | ⟨_, hvalid, _, below, c, _, _, rfl⟩ | ⟨_, _, rfl | rfl⟩
    · exact ⟨Or.inl (issued_self _), by simp [issued_self, moves], rfl, rfl⟩
    · have hleave : ∀ t : State,
          issued s t = issued (HandleEndTagInBody.leave s
            (GetMobileRole element) below) t := by
        intro t; simp [issued, leave_driver]
      have hl : ∀ l, movedBlocks (HandleEndTagInBody.leave s
          (GetMobileRole element) below) l = movedBlocks s l := by
        intro l
        unfold HandleEndTagInBody.leave
        dsimp only
        split_ifs <;> cases l <;> rfl
      have hd : (HandleEndTagInBody.leave s (GetMobileRole element)
          below).num_elements_deleted_ = s.num_elements_deleted_ ∧
          (HandleEndTagInBody.leave s (GetMobileRole element)
          below).num_pages_mobilized_ = s.num_pages_mobilized_ := by
        unfold HandleEndTagInBody.leave
        dsimp only
        split_ifs <;> exact ⟨rfl, rfl⟩
      obtain ⟨m1, m2, m3, m4⟩ := move_counters (HandleEndTagInBody.leave s
        (GetMobileRole element) below) element (GetMobileRole element) c
        hvalid
      rw [hleave]
      refine ⟨?_, ?_, m3.trans hd.1, m4.trans hd.2⟩
      · rcases m1 with m1 | m1
        · exact Or.inl m1
        · exact Or.inr ⟨c, m1, hvalid⟩
      · intro l; rw [m2 l, hl l]
    · exact ⟨Or.inl (issued_self _), by simp [issued_self, moves], rfl, rfl⟩
    · have hn : (HandleEndTagInBody.nav s element).driver_ = s.driver_ ∧
          (∀ l, movedBlocks (HandleEndTagInBody.nav s element) l
            = movedBlocks s l) ∧
          (HandleEndTagInBody.nav s element).num_elements_deleted_
            = s.num_elements_deleted_ ∧
          (HandleEndTagInBody.nav s element).num_pages_mobilized_
            = s.num_pages_mobilized_ := by
        unfold HandleEndTagInBody.nav
        dsimp only
        split_ifs
        · exact ⟨rfl, fun l => by cases l <;> rfl, rfl, rfl⟩
        · exact ⟨rfl, fun l => rfl, rfl, rfl⟩
      have hi : issued s (HandleEndTagInBody.nav s element) = [] := by
        simp [issued, hn.1]
      exact ⟨Or.inl hi, by simp [hi, moves, hn.2.1], hn.2.2.1, hn.2.2.2⟩
  · exact HandleStartTagInBody_counters s element
  · exact Characters_counters s characters
  · exact RemoveReorderContainers_counters s

theorem counters_follow_commands_witness :
    HandleEndTagInBody insideContentDiv (divElement 1 0 "content")
      = some ((HandleEndTagInBody insideContentDiv
          (divElement 1 0 "content")).getD insideContentDiv) ∧
    issued insideContentDiv ((HandleEndTagInBody insideContentDiv
        (divElement 1 0 "content")).getD insideContentDiv)
      = [Cmd.MoveCurrentInto 1 103] ∧
    (∀ l, movedBlocks ((HandleEndTagInBody insideContentDiv
        (divElement 1 0 "content")).getD insideContentDiv) l
      = movedBlocks insideContentDiv l +
        if l = GetMobileRole (divElement 1 0 "content") then
          (moves (issued insideContentDiv ((HandleEndTagInBody insideContentDiv
            (divElement 1 0 "content")).getD insideContentDiv))).length
        else 0) :=
  ⟨by decide, by decide,
   ((counters_follow_commands insideContentDiv (divElement 1 0 "content")
      ⟨2, "Z"⟩).1 _ (by decide)).2.1⟩

/-! ## The destructive commands of each handler: lemmas -/

theorem destroys_refl (s : State) : Destroys s s [] :=
  ⟨List.prefix_refl _, by simp⟩

theorem destroys_trans {s s1 s2 : State} {a b : List Cmd}
    (h1 : Destroys s s1 a) (h2 : Destroys s1 s2 b) : Destroys s s2 (a ++ b) :=
  ⟨h1.1.trans h2.1, by rw [h2.2, h1.2, List.append_assoc]⟩

theorem destroys_trans_nil {s s1 s2 : State} {b : List Cmd}
    (h1 : Destroys s s1 []) (h2 : Destroys s1 s2 b) : Destroys s s2 b := by
  simpa using destroys_trans h1 h2

theorem destroys_nil_trans {s s1 s2 : State} {a : List Cmd}
    (h1 : Destroys s s1 a) (h2 : Destroys s1 s2 []) : Destroys s s2 a := by
  simpa using destroys_trans h1 h2

theorem destroys_foldl {β : Type} (f : State → β → State)
    (h : ∀ a b, Destroys a (f a b) []) (l : List β) (s : State) :
    Destroys s (l.foldl f s) [] := by
  induction l generalizing s with
  | nil => exact destroys_refl s
  | cons b l ih => exact destroys_trans_nil (h s b) (ih (f s b))

/-- What `Destroys` says of the commands issued in between. -/
theorem destroys_issued {s s1 : State} {a : List Cmd} (h : Destroys s s1 a) :
    s1.driver_.commands = s.driver_.commands ++ issued s s1 ∧
    (issued s s1).filter isDestructive = a := by
  obtain ⟨⟨new, hnew⟩, hf⟩ := h
  have hi : issued s s1 = new := by simp [issued, ← hnew]
  rw [hi]
  refine ⟨hnew.symm, ?_⟩
  rw [← hnew, List.filter_append] at hf
  exact List.append_cancel_left hf

theorem destroys_of_driver {s s1 : State} (h : s1.driver_ = s.driver_) :
    Destroys s s1 [] := by
  simp [Destroys, h]

theorem destroys_unminify (s : State) (element : HtmlElement) :
    Destroys s (StartElement.unminify s element) [] := by
  unfold StartElement.unminify
  split
  · dsimp only
    split
    · split <;>
        simp [Destroys, State.emit, RewriteDriver.emit, isDestructive]
    · simp [Destroys]
  · exact destroys_refl s

theorem destroys_viewport (s : State) (element : HtmlElement) :
    Destroys s (StartElement.viewport s element)
      (if StringPiece (element.AttributeValue .kContent) == kViewportContent
        then [] else [Cmd.DeleteNode element.id]) := by
  unfold StartElement.viewport
  dsimp only
  split <;> simp [Destroys, State.emit, RewriteDriver.emit, isDestructive]

theorem destroys_AddReorderContainers (s : State) (element : HtmlElement) :
    Destroys s (AddReorderContainers s element) [] := by
  unfold AddReorderContainers
  split
  · dsimp only
    have h0 : Destroys s { s with mobile_role_containers_ := [] } [] :=
      destroys_of_driver rfl
    have h1 := destroys_foldl (AddReorderContainers.body element)
      (fun a b => by
        simp [Destroys, AddReorderContainers.body, RewriteDriver.NewElement,
          RewriteDriver.emit, isDestructive])
      (List.range Level.kInvalid.toNat) { s with mobile_role_containers_ := [] }
    exact destroys_trans_nil (destroys_trans_nil h0 h1) (destroys_of_driver rfl)
  · exact destroys_refl s

theorem destroys_RemoveReorderContainers_body (l : List (Nat × Nat))
    (s : State) :
    Destroys s (l.foldl RemoveReorderContainers.body s)
      (l.map (fun ic => Cmd.DeleteSavingChildren ic.2)) := by
  induction l generalizing s with
  | nil => exact destroys_refl s
  | cons ic l ih =>
    have h1 : Destroys s (RemoveReorderContainers.body s ic)
        [Cmd.DeleteSavingChildren ic.2] := by
      unfold RemoveReorderContainers.body
      split <;> simp [Destroys, State.emit, RewriteDriver.emit, isDestructive]
    exact destroys_trans h1 (ih _)

theorem destroys_RemoveReorderContainers (s : State) :
    Destroys s (RemoveReorderContainers s)
      (if s.added_containers_ = true then
        s.mobile_role_containers_.map Cmd.DeleteSavingChildren
       else []) := by
  unfold RemoveReorderContainers
  split
  · rename_i h
    have h1 := destroys_RemoveReorderContainers_body
      ((List.range s.mobile_role_containers_.length).zip
        s.mobile_role_containers_) s
    have hm : ((List.range s.mobile_role_containers_.length).zip
        s.mobile_role_containers_).map
          (fun ic => Cmd.DeleteSavingChildren ic.2)
        = s.mobile_role_containers_.map Cmd.DeleteSavingChildren := by
      have : (fun ic : Nat × Nat => Cmd.DeleteSavingChildren ic.2)
          = Cmd.DeleteSavingChildren ∘ Prod.snd := rfl
      rw [this, ← List.map_map, List.map_snd_zip _ _ (by simp)]
    rw [hm] at h1
    simp only [h, if_true]
    exact destroys_nil_trans h1 (destroys_of_driver rfl)
  · exact destroys_refl s

theorem destroys_deleteElementSavingChildren (s : State)
    (element : HtmlElement) (msg : String) :
    Destroys s (deleteElementSavingChildren s element msg)
      [Cmd.DeleteSavingChildren element.id] := by
  unfold deleteElementSavingChildren
  split <;> simp [Destroys, State.emit, RewriteDriver.emit, isDestructive]

theorem destroys_HandleStartTagInBody (s : State) (element : HtmlElement) :
    ∃ a, Destroys s (HandleStartTagInBody s element) a ∧
      (a = [] ∨
        (a = [Cmd.DeleteSavingChildren element.id] ∧
          s.reached_reorder_containers_ = false ∧
          IsReorderContainer s element = false)) := by
  unfold HandleStartTagInBody
  dsimp only
  split_ifs with h1 h2 h3 h4 h5 h6
  · exact ⟨[], destroys_refl s, Or.inl rfl⟩
  · exact ⟨[], destroys_of_driver rfl, Or.inl rfl⟩
  · refine ⟨[Cmd.DeleteSavingChildren element.id], ?_,
      Or.inr ⟨rfl, by simpa using h1, by simpa using h2⟩⟩
    unfold HandleStartTagInBody.table
    dsimp only
    refine destroys_trans_nil ?_ (destroys_deleteElementSavingChildren _ _ _)
    split <;>
      simp [Destroys, RewriteDriver.NewElement, RewriteDriver.emit,
        isDestructive]
  · refine ⟨[], destroys_of_driver ?_, Or.inl rfl⟩
    unfold HandleStartTagInBody.role
    dsimp only
    split_ifs <;> rfl
  · unfold HandleStartTagInBody.nav
    dsimp only
    split_ifs
    · have h0 : Destroys s { s with nav_keyword_stack_ :=
          element.keyword :: s.nav_keyword_stack_ } [] :=
        destroys_of_driver rfl
      exact ⟨_, destroys_trans_nil h0
        (destroys_deleteElementSavingChildren _ _ _),
        Or.inr ⟨rfl, by simpa using h1, by simpa using h2⟩⟩
    · exact ⟨[], destroys_of_driver rfl, Or.inl rfl⟩
    · exact ⟨_, destroys_deleteElementSavingChildren _ _ _,
        Or.inr ⟨rfl, by simpa using h1, by simpa using h2⟩⟩
    · exact ⟨[], destroys_refl s, Or.inl rfl⟩
  · exact ⟨_, destroys_deleteElementSavingChildren _ _ _,
      Or.inr ⟨rfl, by simpa using h1, by simpa using h2⟩⟩
  · exact ⟨[], destroys_refl s, Or.inl rfl⟩

theorem destroys_HandleEndTagInBody (s s1 : State) (element : HtmlElement)
    (h : HandleEndTagInBody s element = some s1) :
    ∃ a, Destroys s s1 a ∧
      (a = [] ∨
        ∃ c, a = [Cmd.MoveCurrentInto element.id c] ∧
          s.reached_reorder_containers_ = false ∧
          s.mobile_role_containers_[(GetMobileRole element).toNat]? = some c) := by
  rcases HandleEndTagInBody_inv s s1 element h with
    ⟨_, rfl⟩ | ⟨hr, _, _, below, c, _, hc, rfl⟩ | ⟨_, _, rfl | rfl⟩
  · exact ⟨[], destroys_refl _, Or.inl rfl⟩
  · have hl : Destroys s (HandleEndTagInBody.leave s (GetMobileRole element)
        below) [] := destroys_of_driver (leave_driver _ _ _)
    unfold HandleEndTagInBody.move
    split_ifs
    · refine ⟨[Cmd.MoveCurrentInto element.id c], ?_, Or.inr ⟨c, rfl, hr, hc⟩⟩
      refine destroys_trans_nil hl ?_
      simp [Destroys, LogMovedBlock_driver, State.emit, RewriteDriver.emit,
        isDestructive]
    · exact ⟨[], hl, Or.inl rfl⟩
  · exact ⟨[], destroys_refl _, Or.inl rfl⟩
  · refine ⟨[], destroys_of_driver ?_, Or.inl rfl⟩
    unfold HandleEndTagInBody.nav
    dsimp only
    split_ifs <;> rfl

theorem destroys_script (s : State) (element : HtmlElement) :
    Destroys s (EndElement.script s element) [] := by
  refine destroys_of_driver ?_
  unfold EndElement.script
  split <;> rfl

theorem destroys_addScripts (s : State) (element : HtmlElement) :
    Destroys s (EndElement.addScripts s element) [] := by
  unfold EndElement.addScripts
  dsimp only
  split_ifs <;>
    simp [Destroys, insertScriptAfterCurrent, RewriteDriver.NewElement,
      RewriteDriver.emit, isDestructive]

theorem destroys_InsertPolymerLinks (s : State) (element : HtmlElement)
    (base : String) (links : List String) :
    Destroys s (InsertPolymerLinks s element base links) [] := by
  refine destroys_foldl (fun s l => InsertPolymerLink s element (base ++ l))
    (fun a b => ?_) links s
  simp [Destroys, InsertPolymerLink, RewriteDriver.NewElement,
    RewriteDriver.emit, isDestructive]

theorem destroys_AddStyleAndViewport (s : State) (element : HtmlElement) :
    Destroys s (AddStyleAndViewport s element) [] := by
  have hp : ∀ t : State,
      Destroys t (AddStyleAndViewport.polymer t element) [] := by
    intro t
    unfold AddStyleAndViewport.polymer
    split
    · dsimp only
      refine destroys_trans_nil ?_ (destroys_InsertPolymerLinks _ _ _ _)
      refine destroys_trans_nil ?_ (destroys_InsertPolymerLinks _ _ _ _)
      simp [Destroys, RewriteDriver.NewElement, RewriteDriver.emit,
        isDestructive]
    · exact destroys_refl t
  have hl : ∀ t : State, Destroys t (AddStyleAndViewport.link t element) [] := by
    intro t; unfold AddStyleAndViewport.link
    split <;>
      simp [Destroys, RewriteDriver.NewElement, RewriteDriver.emit,
        isDestructive]
  have hv : ∀ t : State,
      Destroys t (AddStyleAndViewport.viewport t element) [] := by
    intro t; unfold AddStyleAndViewport.viewport
    split <;>
      simp [Destroys, RewriteDriver.NewElement, RewriteDriver.emit,
        isDestructive]
  have hs : ∀ t : State, Destroys t (AddStyleAndViewport.style t element) [] := by
    intro t; unfold AddStyleAndViewport.style
    split <;>
      simp [Destroys, RewriteDriver.NewElement, RewriteDriver.NewCharactersNode,
        RewriteDriver.emit, isDestructive]
  unfold AddStyleAndViewport
  split
  · dsimp only
    refine destroys_trans_nil ?_ (hp _)
    refine destroys_trans_nil ?_ (hl _)
    refine destroys_trans_nil ?_ (hv _)
    refine destroys_trans_nil ?_ (hs _)
    exact destroys_of_driver rfl
  · exact destroys_refl s

theorem destroys_Characters (s : State) (characters : HtmlCharactersNode) :
    ∃ a, Destroys s (Characters s characters) a ∧
      (a = [] ∨
        (a = [Cmd.DeleteNode characters.id] ∧ s.use_cxx_layout_ = true ∧
          s.body_element_depth_ ≠ 0 ∧
          s.reached_reorder_containers_ = false)) := by
  unfold Characters
  split_ifs with h1 h2 h3 h4 h5 h6
  · exact ⟨[], by simp [Destroys, State.emit, RewriteDriver.emit,
      isDestructive], Or.inl rfl⟩
  · exact ⟨[], destroys_refl s, Or.inl rfl⟩
  · exact ⟨[], destroys_refl s, Or.inl rfl⟩
  · exact ⟨[], destroys_refl s, Or.inl rfl⟩
  all_goals
    first
    | exact ⟨[], destroys_refl s, Or.inl rfl⟩
    | (refine ⟨[Cmd.DeleteNode characters.id], ?_, Or.inr ⟨rfl, ?_, ?_, ?_⟩⟩
       · simp_all [Destroys, State.emit, RewriteDriver.emit, isDestructive]
       · simpa using h1
       · simp_all
       · simp_all)

theorem destroys_StartElement (s : State) (element : HtmlElement) :
    ∃ a, Destroys s (StartElement s element) a ∧
      (a = [] ∨
        (a = [Cmd.DeleteNode element.id] ∧
          StartElement.isViewportMeta element = true) ∨
        (a = [Cmd.DeleteSavingChildren element.id] ∧
          0 < s.body_element_depth_ ∧ s.use_cxx_layout_ = true ∧
          s.reached_reorder_containers_ = false ∧
          IsReorderContainer s element = false ∧
          element.keyword ≠ .kBody)) := by
  have hu := destroys_unminify s element
  obtain ⟨k1, _, _, _, k5, k6, _, _, k9, _⟩ := Keeps.unminify s element
  have hc : IsReorderContainer (StartElement.unminify s element) element
      = IsReorderContainer s element := by
    unfold IsReorderContainer; rw [k9]
  unfold StartElement
  dsimp only
  split_ifs with h1 h2 h3 h4 h5
  · have hv := destroys_viewport (StartElement.unminify s element) element
    by_cases hcontent :
        (StringPiece (element.AttributeValue .kContent) == kViewportContent)
          = true
    · rw [if_pos hcontent] at hv
      exact ⟨[], destroys_trans_nil hu hv, Or.inl rfl⟩
    · rw [if_neg hcontent] at hv
      exact ⟨_, destroys_trans_nil hu hv, Or.inr (Or.inl ⟨rfl, h1⟩)⟩
  · have hb : Destroys (StartElement.unminify s element)
        (StartElement.unminify s element).enterBody [] :=
      destroys_of_driver rfl
    exact ⟨[], destroys_trans_nil hu (destroys_trans_nil hb
      (destroys_AddReorderContainers _ _)), Or.inl rfl⟩
  · have hb : Destroys (StartElement.unminify s element)
        (StartElement.unminify s element).enterBody [] :=
      destroys_of_driver rfl
    exact ⟨[], destroys_trans_nil hu hb, Or.inl rfl⟩
  · obtain ⟨a, ha, hcase⟩ := destroys_HandleStartTagInBody
      (StartElement.unminify s element) element
    refine ⟨a, destroys_trans_nil hu ha, ?_⟩
    rcases hcase with rfl | ⟨rfl, c1, c2⟩
    · exact Or.inl rfl
    · refine Or.inr (Or.inr ⟨rfl, ?_, ?_, k6.symm.trans c1,
        hc.symm.trans c2, ?_⟩)
      · rw [← k5]; assumption
      · rw [← k1]; assumption
      · intro hk; simp_all
  · exact ⟨[], hu, Or.inl rfl⟩
  · exact ⟨[], hu, Or.inl rfl⟩

theorem destroys_EndElement (s s1 : State) (element : HtmlElement)
    (h : EndElement s element = some s1) :
    ∃ a, Destroys s s1 a ∧
      (a = [] ∨
        (∃ c, a = [Cmd.MoveCurrentInto element.id c] ∧
          0 < s.body_element_depth_ ∧ s.use_cxx_layout_ = true ∧
          s.reached_reorder_containers_ = false ∧
          element.keyword ≠ .kBody ∧
          s.mobile_role_containers_[(GetMobileRole element).toNat]? = some c) ∨
        (a = s.mobile_role_containers_.map Cmd.DeleteSavingChildren ∧
          element.keyword = .kBody ∧ s.body_element_depth_ = 1 ∧
          s.added_containers_ = true)) := by
  have hsc := destroys_script s element
  obtain ⟨k1, _, _, _, k5, k6, k7, _, k9, _⟩ := Keeps.script s element
  have hleave : Destroys (EndElement.script s element)
      (EndElement.script s element).leaveBody [] := destroys_of_driver rfl
  unfold EndElement at h
  dsimp only at h
  split_ifs at h with hb h0 hjs hhead hin hcxx
  · cases h
    refine ⟨[], ?_, Or.inl rfl⟩
    exact destroys_trans_nil hsc (destroys_trans_nil hleave
      (destroys_trans_nil (destroys_addScripts _ element)
        (destroys_of_driver rfl)))
  · cases h
    have hr := destroys_RemoveReorderContainers
      (EndElement.script s element).leaveBody
    have hall := destroys_trans_nil hsc (destroys_trans_nil hleave
      (destroys_nil_trans hr (destroys_of_driver rfl)))
    by_cases hadd : s.added_containers_ = true
    · have hadd2 : (EndElement.script s element).leaveBody.added_containers_
          = true := k7.trans hadd
      rw [if_pos hadd2] at hall
      refine ⟨_, hall, Or.inr (Or.inr ⟨?_, by simpa using hb, ?_, hadd⟩)⟩
      · show List.map Cmd.DeleteSavingChildren
          (EndElement.script s element).mobile_role_containers_ = _
        rw [k9]
      · simp only [State.leaveBody, beq_iff_eq, k5] at h0
        omega
    · have hadd2 : ¬ (EndElement.script s element).leaveBody.added_containers_
          = true := fun hx => hadd (k7.symm.trans hx)
      rw [if_neg hadd2] at hall
      exact ⟨[], hall, Or.inl rfl⟩
  · cases h
    exact ⟨[], destroys_trans_nil hsc hleave, Or.inl rfl⟩
  · cases h
    exact ⟨[], destroys_trans_nil hsc (destroys_AddStyleAndViewport _ _),
      Or.inl rfl⟩
  · obtain ⟨a, ha, hcase⟩ := destroys_HandleEndTagInBody _ _ _ h
    refine ⟨a, destroys_trans_nil hsc ha, ?_⟩
    rcases hcase with rfl | ⟨c, rfl, c1, c2⟩
    · exact Or.inl rfl
    · refine Or.inr (Or.inl ⟨c, rfl, ?_, ?_, k6.symm.trans c1, ?_, ?_⟩)
      · rw [← k5]; assumption
      · rw [← k1]; assumption
      · intro hk; simp_all
      · rw [← k9]; exact c2
  · cases h
    exact ⟨[], hsc, Or.inl rfl⟩
  · cases h
    exact ⟨[], hsc, Or.inl rfl⟩

/-- Every event extends the log. -/
theorem step_extends (s s1 : State) (ev : Event) (h : step s ev = some s1) :
    s1.driver_.commands = s.driver_.commands ++ issued s s1 := by
  cases ev with
  | StartElement element =>
    simp only [step, Option.some.injEq] at h
    subst h
    obtain ⟨a, ha, _⟩ := destroys_StartElement s element
    exact (destroys_issued ha).1
  | Characters c =>
    simp only [step, Option.some.injEq] at h
    subst h
    obtain ⟨a, ha, _⟩ := destroys_Characters s c
    exact (destroys_issued ha).1
  | EndElement element =>
    obtain ⟨a, ha, _⟩ := destroys_EndElement s s1 element h
    exact (destroys_issued ha).1

/-! ## Where the restructuring is active: lemmas -/

theorem navState_unminify (s : State) (element : HtmlElement) :
    navState (StartElement.unminify s element) = navState s := by
  unfold StartElement.unminify
  split
  · dsimp only
    split
    · split <;> rfl
    · rfl
  · rfl

theorem navState_viewport (s : State) (element : HtmlElement) :
    navState (StartElement.viewport s element) = navState s := by
  unfold StartElement.viewport
  dsimp only
  split <;> rfl

theorem navState_AddReorderContainers (s : State) (element : HtmlElement) :
    navState (AddReorderContainers s element) = navState s := by
  unfold AddReorderContainers
  split
  · dsimp only
    exact foldl_field navState (AddReorderContainers.body element)
      (fun _ _ => rfl) _ _
  · rfl

theorem navState_RemoveReorderContainers (s : State) :
    navState (RemoveReorderContainers s) = navState s := by
  unfold RemoveReorderContainers
  split
  · dsimp only
    refine foldl_field navState RemoveReorderContainers.body (fun a b => ?_) _ _
    unfold RemoveReorderContainers.body
    split <;> rfl
  · rfl

theorem navState_script (s : State) (element : HtmlElement) :
    navState (EndElement.script s element) = navState s := by
  unfold EndElement.script
  split <;> rfl

theorem navState_addScripts (s : State) (element : HtmlElement) :
    navState (EndElement.addScripts s element) = navState s := by
  unfold EndElement.addScripts
  dsimp only
  split_ifs <;> rfl

theorem navState_AddStyleAndViewport (s : State) (element : HtmlElement) :
    navState (AddStyleAndViewport s element) = navState s := by
  have hlinks : ∀ (t : State) (base : String) (links : List String),
      navState (InsertPolymerLinks t element base links) = navState t :=
    fun t base links => foldl_field navState
      (fun s l => InsertPolymerLink s element (base ++ l)) (fun _ _ => rfl) _ _
  have hp : ∀ t : State, navState (AddStyleAndViewport.polymer t element)
      = navState t := by
    intro t
    unfold AddStyleAndViewport.polymer
    split
    · dsimp only
      rw [hlinks, hlinks]
      rfl
    · rfl
  have hl : ∀ t : State, navState (AddStyleAndViewport.link t element)
      = navState t := by
    intro t; unfold AddStyleAndViewport.link; split <;> rfl
  have hv : ∀ t : State, navState (AddStyleAndViewport.viewport t element)
      = navState t := by
    intro t; unfold AddStyleAndViewport.viewport; split <;> rfl
  have hs : ∀ t : State, navState (AddStyleAndViewport.style t element)
      = navState t := by
    intro t; unfold AddStyleAndViewport.style; split <;> rfl
  unfold AddStyleAndViewport
  split
  · simp only [hp, hl, hv, hs]
    rfl
  · rfl

theorem navState_Characters (s : State) (characters : HtmlCharactersNode) :
    navState (Characters s characters) = navState s := by
  unfold Characters
  split_ifs <;> rfl

theorem IsReorderContainer_false_iff (s : State) (element : HtmlElement) :
    IsReorderContainer s element = false ↔
      element.id ∉ s.mobile_role_containers_ := by
  simp only [IsReorderContainer, List.any_eq_false, beq_iff_eq]
  constructor
  · intro h hm; exact h _ hm rfl
  · intro h x hx hxe; exact h (hxe ▸ hx)

theorem mem_of_destroys {s s1 : State} {a : List Cmd} (h : Destroys s s1 a)
    (c : Cmd) (hc : c ∈ issued s s1) (hd : isDestructive c = true) : c ∈ a := by
  rw [← (destroys_issued h).2]
  exact List.mem_filter.2 ⟨hc, hd⟩

/-- With `reached_reorder_containers_` set, the three handlers of the body do
nothing. -/
theorem handlers_of_reached (s : State) (element : HtmlElement)
    (characters : HtmlCharactersNode)
    (hreach : s.reached_reorder_containers_ = true) :
    HandleStartTagInBody s element = s ∧
    HandleEndTagInBody s element = some s ∧
    (s.use_cxx_layout_ = true → Characters s characters = s) := by
  refine ⟨?_, ?_, ?_⟩
  · simp [HandleStartTagInBody, hreach]
  · simp [HandleEndTagInBody, hreach]
  · intro hcxx
    simp [Characters, hcxx, hreach]

/-- Outside the body, and after the containers are reached, `StartElement`
leaves the traversal state alone. -/
theorem navState_StartElement (s : State) (element : HtmlElement)
    (h : ¬ 0 < s.body_element_depth_ ∨ s.reached_reorder_containers_ = true) :
    navState (StartElement s element) = navState s := by
  have hu := navState_unminify s element
  obtain ⟨_, _, _, _, k5, k6, _, _, _, _⟩ := Keeps.unminify s element
  unfold StartElement
  dsimp only
  split_ifs with h1 h2 h3 h4 h5
  · exact (navState_viewport _ _).trans hu
  · exact (navState_AddReorderContainers _ _).trans hu
  · exact hu
  · rcases h with h | h
    · rw [k5] at *
      contradiction
    · rw [(handlers_of_reached _ element ⟨0, ""⟩ (k6.trans h)).1]
      exact hu
  · exact hu
  · exact hu

/-- Outside the body, and after the containers are reached, `EndElement`
does not fail and leaves the traversal state alone. -/
theorem navState_EndElement (s : State) (element : HtmlElement)
    (h : ¬ 0 < s.body_element_depth_ ∨ s.reached_reorder_containers_ = true) :
    ∃ s1, EndElement s element = some s1 ∧ navState s1 = navState s := by
  have hu := navState_script s element
  obtain ⟨_, _, _, _, k5, k6, _, _, _, _⟩ := Keeps.script s element
  unfold EndElement
  dsimp only
  split_ifs with h1 h2 h3 h4 h5 h6
  · exact ⟨_, rfl, (navState_addScripts _ element).trans hu⟩
  · exact ⟨_, rfl, (navState_RemoveReorderContainers
      (EndElement.script s element).leaveBody).trans hu⟩
  · exact ⟨_, rfl, hu⟩
  · exact ⟨_, rfl, (navState_AddStyleAndViewport _ _).trans hu⟩
  · rcases h with h | h
    · rw [k5] at *
      contradiction
    · exact ⟨_, (handlers_of_reached _ element ⟨0, ""⟩ (k6.trans h)).2.1, hu⟩
  · exact ⟨_, rfl, hu⟩
  · exact ⟨_, rfl, hu⟩

theorem reached_StartElement (s : State) (element : HtmlElement)
    (hreach : s.reached_reorder_containers_ = true) :
    (StartElement s element).reached_reorder_containers_ = true := by
  obtain ⟨_, _, _, _, _, k6, _, _, _, _⟩ := Keeps.unminify s element
  have hu : (StartElement.unminify s element).reached_reorder_containers_
      = true := k6.trans hreach
  unfold StartElement
  dsimp only
  split_ifs
  · exact (Keeps.viewport _ _).2.2.2.2.2.1.trans hu
  · exact (AddReorderContainers_frame _ _).2.2.1.trans hu
  · exact hu
  · rw [(handlers_of_reached _ element ⟨0, ""⟩ hu).1]
    exact hu
  · exact hu
  · exact hu

theorem reached_EndElement (s s1 : State) (element : HtmlElement)
    (h : EndElement s element = some s1)
    (hreach : s.reached_reorder_containers_ = true) :
    s1.reached_reorder_containers_ = true ∨
    (element.keyword = .kBody ∧ s.body_element_depth_ = 1 ∧
      s1.reached_reorder_containers_ = false) := by
  obtain ⟨_, _, _, _, k5, k6, _, _, _, _⟩ := Keeps.script s element
  have hu : (EndElement.script s element).reached_reorder_containers_
      = true := k6.trans hreach
  unfold EndElement at h
  dsimp only at h
  split_ifs at h with hb h0
  · cases h
    refine Or.inr ⟨by simpa using hb, ?_, rfl⟩
    simp only [State.leaveBody, beq_iff_eq, k5] at h0
    omega
  · cases h
    refine Or.inr ⟨by simpa using hb, ?_, rfl⟩
    simp only [State.leaveBody, beq_iff_eq, k5] at h0
    omega
  · cases h
    exact Or.inl hu
  · cases h
    exact Or.inl ((Keeps.styleAndViewport _ _).2.2.2.2.2.1.trans hu)
  · rw [(handlers_of_reached _ element ⟨0, ""⟩ hu).2.1] at h
    cases h
    exact Or.inl hu
  · cases h
    exact Or.inl hu
  · cases h
    exact Or.inl hu

/-! ## Where the restructuring is active: the claims -/

/-- C25: when an element that is one of the reorder containers opens,
`HandleStartTagInBody` sets `reached_reorder_containers_` and does nothing
else. With the flag set, `HandleStartTagInBody` and `HandleEndTagInBody`
return the state unchanged, and so does `Characters` in self-restructure
mode: no command is issued, both stacks and `nav_element_depth_` are
unchanged. Every event leaves the flag set and the two stacks and
`nav_element_depth_` unchanged, except that the close of a body that brings
`body_element_depth_` from 1 to 0 resets the flag to false. -/
theorem reached_containers_freeze (s : State) (element : HtmlElement)
    (characters : HtmlCharactersNode) :
    (s.reached_reorder_containers_ = false →
      IsReorderContainer s element = true →
      HandleStartTagInBody s element
        = { s with reached_reorder_containers_ := true }) ∧
    (s.reached_reorder_containers_ = true →
      HandleStartTagInBody s element = s ∧
      HandleEndTagInBody s element = some s ∧
      (s.use_cxx_layout_ = true → Characters s characters = s)) ∧
    (s.reached_reorder_containers_ = true →
      ∀ ev : Event, ∃ s1, step s ev = some s1 ∧
        navState s1 = navState s ∧
        (s1.reached_reorder_containers_ = true ∨
          ∃ e, ev = .EndElement e ∧ e.keyword = .kBody ∧
            s.body_element_depth_ = 1 ∧
            s1.reached_reorder_containers_ = false)) ∧
    (element.keyword = .kBody → s.body_element_depth_ = 1 →
      ∃ s1, EndElement s element = some s1 ∧
        s1.reached_reorder_containers_ = false ∧
        s1.body_element_depth_ = 0) := by
  refine ⟨?_, handlers_of_reached s element characters, ?_, ?_⟩
  · intro hreach hcont
    simp [HandleStartTagInBody, hreach, hcont]
  · intro hreach ev
    cases ev with
    | StartElement e =>
      exact ⟨_, rfl, navState_StartElement s e (Or.inr hreach),
        Or.inl (reached_StartElement s e hreach)⟩
    | Characters c =>
      exact ⟨_, rfl, navState_Characters s c,
        Or.inl ((Keeps.characters s c).2.2.2.2.2.1.trans hreach)⟩
    | EndElement e =>
      obtain ⟨s1, h1, h2⟩ := navState_EndElement s e (Or.inr hreach)
      refine ⟨s1, h1, h2, ?_⟩
      rcases reached_EndElement s s1 e h1 hreach with h | ⟨a, b, c⟩
      · exact Or.inl h
      · exact Or.inr ⟨e, rfl, a, b, c⟩
  · intro hb hdepth
    have hsc : EndElement.script s element = s := by
      simp [EndElement.script, hb]
    by_cases hjs : (s.use_js_layout_ || s.use_js_nav_) = true
    · refine ⟨{ EndElement.addScripts s.leaveBody element with
        reached_reorder_containers_ := false }, ?_, rfl, ?_⟩
      · unfold EndElement
        simp only [hsc, hb, State.leaveBody, hdepth]
        simp only [State.leaveBody, Bool.or_eq_true] at hjs
        simp [hjs]
      · show (EndElement.addScripts s.leaveBody element).body_element_depth_
          = 0
        rw [addScripts_body_element_depth]
        simp [hdepth]
    · refine ⟨{ RemoveReorderContainers s.leaveBody with
        reached_reorder_containers_ := false }, ?_, rfl, ?_⟩
      · unfold EndElement
        simp only [hsc, hb, State.leaveBody, hdepth]
        simp only [State.leaveBody, Bool.or_eq_true] at hjs
        simp [hjs]
      · show (RemoveReorderContainers s.leaveBody).body_element_depth_ = 0
        rw [RemoveReorderContainers_body_element_depth]
        simp [hdepth]

/-- C29: while `body_element_depth_ = 0` no event fails, and an open, close
or text event leaves `element_roles_stack_`, `nav_keyword_stack_` and
`nav_element_depth_` unchanged and issues no `DeleteSavingChildren` and no
`MoveCurrentInto`; the only node deleted is a viewport meta, at its open
event, so no text node is deleted. -/
theorem inactive_outside_body (s : State) (ev : Event)
    (hdepth : s.body_element_depth_ = 0) :
    ∃ s1, step s ev = some s1 ∧
      s1.element_roles_stack_ = s.element_roles_stack_ ∧
      s1.nav_keyword_stack_ = s.nav_keyword_stack_ ∧
      s1.nav_element_depth_ = s.nav_element_depth_ ∧
      (∀ n, Cmd.DeleteSavingChildren n ∉ issued s s1) ∧
      (∀ x c, Cmd.MoveCurrentInto x c ∉ issued s s1) ∧
      (∀ n, Cmd.DeleteNode n ∈ issued s s1 →
        ∃ e, ev = .StartElement e ∧ StartElement.isViewportMeta e = true ∧
          n = e.id) := by
  have hnot : ¬ 0 < s.body_element_depth_ := by omega
  have hsplit : ∀ s1 : State, navState s1 = navState s →
      s1.element_roles_stack_ = s.element_roles_stack_ ∧
      s1.nav_keyword_stack_ = s.nav_keyword_stack_ ∧
      s1.nav_element_depth_ = s.nav_element_depth_ := by
    intro s1 h
    simp only [navState, Prod.mk.injEq] at h
    exact h
  cases ev with
  | StartElement e =>
    obtain ⟨n1, n2, n3⟩ := hsplit _ (navState_StartElement s e (Or.inl hnot))
    obtain ⟨a, ha, hcase⟩ := destroys_StartElement s e
    refine ⟨_, rfl, n1, n2, n3, ?_, ?_, ?_⟩
    · intro n hn
      have := mem_of_destroys ha _ hn rfl
      rcases hcase with rfl | ⟨rfl, _⟩ | ⟨_, hd, _⟩
      · simp at this
      · simp at this
      · exact hnot hd
    · intro x c hn
      have := mem_of_destroys ha _ hn rfl
      rcases hcase with rfl | ⟨rfl, _⟩ | ⟨_, hd, _⟩
      · simp at this
      · simp at this
      · exact hnot hd
    · intro n hn
      have := mem_of_destroys ha _ hn rfl
      rcases hcase with rfl | ⟨rfl, hv⟩ | ⟨_, hd, _⟩
      · simp at this
      · simp only [List.mem_singleton, Cmd.DeleteNode.injEq] at this
        exact ⟨e, rfl, hv, this⟩
      · exact absurd hd hnot
  | Characters c =>
    obtain ⟨n1, n2, n3⟩ := hsplit _ (navState_Characters s c)
    obtain ⟨a, ha, hcase⟩ := destroys_Characters s c
    have hnil : a = [] := by
      rcases hcase with rfl | ⟨_, _, hd, _⟩
      · rfl
      · exact absurd hdepth hd
    subst hnil
    refine ⟨_, rfl, n1, n2, n3, ?_, ?_, ?_⟩
    · intro n hn
      simpa using mem_of_destroys ha _ hn rfl
    · intro x c hn
      simpa using mem_of_destroys ha _ hn rfl
    · intro n hn
      simpa using mem_of_destroys ha _ hn rfl
  | EndElement e =>
    obtain ⟨s1, h1, h2⟩ := navState_EndElement s e (Or.inl hnot)
    obtain ⟨n1, n2, n3⟩ := hsplit _ h2
    obtain ⟨a, ha, hcase⟩ := destroys_EndElement s s1 e h1
    have hnil : a = [] := by
      rcases hcase with rfl | ⟨_, _, hd, _⟩ | ⟨_, _, hd, _⟩
      · rfl
      · exact absurd hd hnot
      · omega
    subst hnil
    refine ⟨s1, h1, n1, n2, n3, ?_, ?_, ?_⟩
    · intro n hn
      simpa using mem_of_destroys ha _ hn rfl
    · intro x c hn
      simpa using mem_of_destroys ha _ hn rfl
    · intro n hn
      simpa using mem_of_destroys ha _ hn rfl

/-- C30: an open event and a text event never issue a move, and an element
they delete keeping its children is the element that opens, which is none
of the containers. A close event issues at most a move of the element that
closes, or, when it is the close of a body that brings `body_element_depth_`
from 1 to 0, the dissolution of the containers; any other close event
issues neither a move of another node nor a `DeleteSavingChildren`. -/
theorem relocation_only_at_close (s s1 : State) (ev : Event)
    (h : step s ev = some s1) :
    (∀ x c, Cmd.MoveCurrentInto x c ∈ issued s s1 →
      ∃ e, ev = .EndElement e ∧ x = e.id ∧ e.keyword ≠ .kBody ∧
        0 < s.body_element_depth_) ∧
    (∀ n, Cmd.DeleteSavingChildren n ∈ issued s s1 →
      (∃ e, ev = .StartElement e ∧ n = e.id ∧
        n ∉ s.mobile_role_containers_) ∨
      (∃ e, ev = .EndElement e ∧ e.keyword = .kBody ∧
        s.body_element_depth_ = 1 ∧ n ∈ s.mobile_role_containers_)) := by
  cases ev with
  | StartElement e =>
    simp only [step, Option.some.injEq] at h
    subst h
    obtain ⟨a, ha, hcase⟩ := destroys_StartElement s e
    refine ⟨?_, ?_⟩
    · intro x c hn
      have := mem_of_destroys ha _ hn rfl
      rcases hcase with rfl | ⟨rfl, _⟩ | ⟨rfl, _⟩ <;> simp at this
    · intro n hn
      have := mem_of_destroys ha _ hn rfl
      rcases hcase with rfl | ⟨rfl, _⟩ | ⟨rfl, _, _, _, hc, _⟩
      · simp at this
      · simp at this
      · simp only [List.mem_singleton, Cmd.DeleteSavingChildren.injEq] at this
        subst this
        exact Or.inl ⟨e, rfl, rfl, (IsReorderContainer_false_iff s e).1 hc⟩
  | Characters c =>
    simp only [step, Option.some.injEq] at h
    subst h
    obtain ⟨a, ha, hcase⟩ := destroys_Characters s c
    refine ⟨?_, ?_⟩
    · intro x c hn
      have := mem_of_destroys ha _ hn rfl
      rcases hcase with rfl | ⟨rfl, _⟩ <;> simp at this
    · intro n hn
      have := mem_of_destroys ha _ hn rfl
      rcases hcase with rfl | ⟨rfl, _⟩ <;> simp at this
  | EndElement e =>
    obtain ⟨a, ha, hcase⟩ := destroys_EndElement s s1 e h
    refine ⟨?_, ?_⟩
    · intro x c hn
      have := mem_of_destroys ha _ hn rfl
      rcases hcase with rfl | ⟨c1, rfl, hd, _, _, hb, _⟩ | ⟨rfl, _⟩
      · simp at this
      · simp only [List.mem_singleton, Cmd.MoveCurrentInto.injEq] at this
        exact ⟨e, rfl, this.1, hb, hd⟩
      · simp at this
    · intro n hn
      have := mem_of_destroys ha _ hn rfl
      rcases hcase with rfl | ⟨c1, rfl, _⟩ | ⟨rfl, hb, hd, _⟩
      · simp at this
      · simp at this
      · simp only [List.mem_map, Cmd.DeleteSavingChildren.injEq,
          exists_eq_right] at this
        exact Or.inr ⟨e, rfl, hb, hd, this⟩

theorem reached_containers_freeze_witness :
    insideBody.reached_reorder_containers_ = false ∧
    HandleStartTagInBody insideBody (plainElement 100 0 .kDiv "div")
      = { insideBody with reached_reorder_containers_ := true } ∧
    insideContainers.reached_reorder_containers_ = true ∧
    HandleStartTagInBody insideContainers (plainElement 7 100 .kSpan "span")
      = insideContainers ∧
    HandleEndTagInBody insideContainers (plainElement 7 100 .kSpan "span")
      = some insideContainers :=
  have h := reached_containers_freeze insideContainers
    (plainElement 7 100 .kSpan "span") ⟨8, "x"⟩
  ⟨by decide,
   (reached_containers_freeze insideBody (plainElement 100 0 .kDiv "div")
      ⟨8, "x"⟩).1 (by decide) (by decide),
   by decide, (h.2.1 (by decide)).1, (h.2.1 (by decide)).2.1⟩

theorem inactive_outside_body_witness :
    ∃ s1, step exampleStart (.StartElement (divElement 1 0 "content"))
        = some s1 ∧
      s1.element_roles_stack_ = exampleStart.element_roles_stack_ ∧
      s1.nav_keyword_stack_ = exampleStart.nav_keyword_stack_ ∧
      s1.nav_element_depth_ = exampleStart.nav_element_depth_ ∧
      (∀ n, Cmd.DeleteSavingChildren n ∉ issued exampleStart s1) ∧
      (∀ x c, Cmd.MoveCurrentInto x c ∉ issued exampleStart s1) ∧
      (∀ n, Cmd.DeleteNode n ∈ issued exampleStart s1 →
        ∃ e, Event.StartElement (divElement 1 0 "content") = .StartElement e ∧
          StartElement.isViewportMeta e = true ∧ n = e.id) :=
  inactive_outside_body exampleStart (.StartElement (divElement 1 0 "content"))
    (by decide)

theorem relocation_only_at_close_witness :
    Cmd.MoveCurrentInto 1 103 ∈ issued insideContentDiv
      ((step insideContentDiv (.EndElement (divElement 1 0 "content"))).getD
        insideContentDiv) ∧
    ∃ e, Event.EndElement (divElement 1 0 "content") = .EndElement e ∧
      1 = e.id ∧ e.keyword ≠ .kBody ∧
      0 < insideContentDiv.body_element_depth_ :=
  ⟨by decide,
   (relocation_only_at_close insideContentDiv
      ((step insideContentDiv (.EndElement (divElement 1 0 "content"))).getD
        insideContentDiv)
      (.EndElement (divElement 1 0 "content")) (by decide)).1 1 103
      (by decide)⟩

/-! ## Debug mode: lemmas -/

/-- Forgetting the debug mode changes no field but the driver. -/
theorem withoutDebug_fields (s : State) :
    s.withoutDebug.body_element_depth_ = s.body_element_depth_ ∧
    s.withoutDebug.nav_element_depth_ = s.nav_element_depth_ ∧
    s.withoutDebug.reached_reorder_containers_ = s.reached_reorder_containers_ ∧
    s.withoutDebug.found_viewport_ = s.found_viewport_ ∧
    s.withoutDebug.added_style_ = s.added_style_ ∧
    s.withoutDebug.added_containers_ = s.added_containers_ ∧
    s.withoutDebug.added_mob_js_ = s.added_mob_js_ ∧
    s.withoutDebug.in_script_ = s.in_script_ ∧
    s.withoutDebug.use_cxx_layout_ = s.use_cxx_layout_ ∧
    s.withoutDebug.use_js_layout_ = s.use_js_layout_ ∧
    s.withoutDebug.use_js_logo_ = s.use_js_logo_ ∧
    s.withoutDebug.use_js_nav_ = s.use_js_nav_ ∧
    s.withoutDebug.static_file_prefix_ = s.static_file_prefix_ ∧
    s.withoutDebug.style_css_ = s.style_css_ ∧
    s.withoutDebug.element_roles_stack_ = s.element_roles_stack_ ∧
    s.withoutDebug.nav_keyword_stack_ = s.nav_keyword_stack_ ∧
    s.withoutDebug.mobile_role_containers_ = s.mobile_role_containers_ ∧
    s.withoutDebug.num_pages_mobilized_ = s.num_pages_mobilized_ ∧
    s.withoutDebug.num_keeper_blocks_ = s.num_keeper_blocks_ ∧
    s.withoutDebug.num_header_blocks_ = s.num_header_blocks_ ∧
    s.withoutDebug.num_navigational_blocks_ = s.num_navigational_blocks_ ∧
    s.withoutDebug.num_content_blocks_ = s.num_content_blocks_ ∧
    s.withoutDebug.num_marginal_blocks_ = s.num_marginal_blocks_ ∧
    s.withoutDebug.num_elements_deleted_ = s.num_elements_deleted_ :=
  ⟨rfl, rfl, rfl, rfl, rfl, rfl, rfl, rfl, rfl, rfl, rfl, rfl, rfl, rfl, rfl, rfl, rfl, rfl, rfl, rfl, rfl, rfl, rfl, rfl⟩

theorem withoutDebug_emit (s : State) (c : Cmd) :
    (s.emit c).withoutDebug =
      if isDebugComment c then s.withoutDebug else s.withoutDebug.emit c := by
  cases h : isDebugComment c <;>
    simp [State.withoutDebug, RewriteDriver.withoutDebug, State.emit,
      RewriteDriver.emit, List.filter_append, h]

theorem withoutDebug_foldl {β : Type} (f : State → β → State)
    (h : ∀ a b, (f a b).withoutDebug = f a.withoutDebug b) (l : List β)
    (s : State) : (l.foldl f s).withoutDebug = l.foldl f s.withoutDebug := by
  induction l generalizing s with
  | nil => rfl
  | cons b l ih => simp only [List.foldl_cons, ih, h]

theorem withoutDebug_deleteElementSavingChildren (s : State)
    (element : HtmlElement) (msg : String) :
    (deleteElementSavingChildren s element msg).withoutDebug
      = deleteElementSavingChildren s.withoutDebug element msg := by
  by_cases hd : s.driver_.debug_mode = true <;>
    simp [deleteElementSavingChildren, hd, State.withoutDebug,
      RewriteDriver.withoutDebug, State.emit, RewriteDriver.emit,
      List.filter_append, isDebugComment]

theorem withoutDebug_Characters (s : State) (characters : HtmlCharactersNode) :
    (Characters s characters).withoutDebug
      = Characters s.withoutDebug characters := by
  by_cases h1 : s.use_cxx_layout_ = true
  · by_cases h4 : (s.body_element_depth_ == 0 ||
        s.reached_reorder_containers_) = true
    · simp [Characters, h1, h4, State.withoutDebug]
    · by_cases h5 : s.element_roles_stack_ = []
      · by_cases hd : s.driver_.debug_mode = true <;>
        by_cases hw : OnlyWhitespace characters.contents = true <;>
        simp [Characters, h1, h4, h5, hd, hw, State.withoutDebug,
          RewriteDriver.withoutDebug, InImportantElement, State.emit,
          RewriteDriver.emit, List.filter_append, isDebugComment]
      · by_cases h6 : (decide (0 < s.nav_element_depth_) &&
            s.nav_keyword_stack_.isEmpty) = true
        · by_cases hd : s.driver_.debug_mode = true <;>
          by_cases hw : OnlyWhitespace characters.contents = true <;>
          simp [Characters, h1, h4, h5, h6, hd, hw, State.withoutDebug,
            RewriteDriver.withoutDebug, InImportantElement, State.emit,
            RewriteDriver.emit, List.filter_append, isDebugComment]
        · simp [Characters, h1, h4, h5, h6, State.withoutDebug,
            InImportantElement]
  · by_cases h2 : s.in_script_ = true <;>
    by_cases h3 : containsSubstring characters.contents
      "//e.mouseflow.com/projects" = true <;>
    simp [Characters, h1, h2, h3, State.withoutDebug,
      RewriteDriver.withoutDebug, State.emit, RewriteDriver.emit,
      List.filter_append, isDebugComment]

theorem withoutDebug_unminify (s : State) (element : HtmlElement) :
    (StartElement.unminify s element).withoutDebug
      = StartElement.unminify s.withoutDebug element := by
  unfold StartElement.unminify
  by_cases h : (element.keyword == .kScript && !s.use_cxx_layout_) = true
  · cases hsrc : element.FindAttribute .kSrc with
    | none => simp [h, hsrc, State.withoutDebug]
    | some a =>
      by_cases hc : containsSubstring (StringPiece a.decoded_value)
          "jquery.min.js" = true <;>
        simp [h, hsrc, hc, State.withoutDebug, RewriteDriver.withoutDebug,
          State.emit, RewriteDriver.emit, List.filter_append, isDebugComment]
  · simp [h, State.withoutDebug]

theorem withoutDebug_viewport (s : State) (element : HtmlElement) :
    (StartElement.viewport s element).withoutDebug
      = StartElement.viewport s.withoutDebug element := by
  unfold StartElement.viewport
  by_cases h : (StringPiece (element.AttributeValue .kContent)
      == kViewportContent) = true <;>
    simp [h, State.withoutDebug, RewriteDriver.withoutDebug, State.emit,
      RewriteDriver.emit, List.filter_append, isDebugComment]

theorem withoutDebug_AddReorderContainers (s : State) (element : HtmlElement) :
    (AddReorderContainers s element).withoutDebug
      = AddReorderContainers s.withoutDebug element := by
  have hbody : ∀ (a : State) (i : Nat),
      (AddReorderContainers.body element a i).withoutDebug
        = AddReorderContainers.body element a.withoutDebug i := by
    intro a i
    simp [AddReorderContainers.body, State.withoutDebug,
      RewriteDriver.withoutDebug, RewriteDriver.NewElement, RewriteDriver.emit,
      List.filter_append, isDebugComment]
  by_cases h : (!s.added_containers_) = true
  · have h2 : (!s.withoutDebug.added_containers_) = true := h
    unfold AddReorderContainers
    rw [if_pos h, if_pos h2]
    dsimp only
    rw [show ({ s.withoutDebug with mobile_role_containers_ := [] } : State)
        = ({ s with mobile_role_containers_ := [] } : State).withoutDebug
      from rfl,
      ← withoutDebug_foldl (AddReorderContainers.body element) hbody]
    rfl
  · have h2 : ¬ (!s.withoutDebug.added_containers_) = true := h
    unfold AddReorderContainers
    rw [if_neg h, if_neg h2]

theorem withoutDebug_RemoveReorderContainers (s : State) :
    (RemoveReorderContainers s).withoutDebug
      = RemoveReorderContainers s.withoutDebug := by
  have hbody : ∀ (l : List (Nat × Nat)) (a : State),
      (l.foldl RemoveReorderContainers.body a).withoutDebug
        = l.foldl RemoveReorderContainers.body a.withoutDebug := by
    intro l a
    refine withoutDebug_foldl RemoveReorderContainers.body (fun a ic => ?_) l a
    by_cases hd : a.driver_.debug_mode = true <;>
      simp [RemoveReorderContainers.body, hd, State.withoutDebug,
        RewriteDriver.withoutDebug, State.emit, RewriteDriver.emit,
        List.filter_append, isDebugComment]
  by_cases h : s.added_containers_ = true
  · have h2 : s.withoutDebug.added_containers_ = true := h
    unfold RemoveReorderContainers
    rw [if_pos h, if_pos h2]
    dsimp only
    rw [← hbody]
    rfl
  · have h2 : ¬ s.withoutDebug.added_containers_ = true := h
    unfold RemoveReorderContainers
    rw [if_neg h, if_neg h2]

theorem withoutDebug_HandleStartTagInBody (s : State) (element : HtmlElement) :
    (HandleStartTagInBody s element).withoutDebug
      = HandleStartTagInBody s.withoutDebug element := by
  have hcont : IsReorderContainer s.withoutDebug element
      = IsReorderContainer s element := rfl
  have himp : InImportantElement s.withoutDebug = InImportantElement s := rfl
  have htable : (HandleStartTagInBody.table s element).withoutDebug
      = HandleStartTagInBody.table s.withoutDebug element := by
    unfold HandleStartTagInBody.table
    dsimp only
    rw [withoutDebug_deleteElementSavingChildren]
    congr 1
    split <;>
      simp [State.withoutDebug, RewriteDriver.withoutDebug,
        RewriteDriver.NewElement, RewriteDriver.emit, List.filter_append,
        isDebugComment]
  have hrole : (HandleStartTagInBody.role s element).withoutDebug
      = HandleStartTagInBody.role s.withoutDebug element := by
    unfold HandleStartTagInBody.role
    simp only [withoutDebug_fields]
    split_ifs <;> rfl
  have hnav : (HandleStartTagInBody.nav s element).withoutDebug
      = HandleStartTagInBody.nav s.withoutDebug element := by
    unfold HandleStartTagInBody.nav
    simp only [withoutDebug_fields]
    split_ifs <;>
      first
      | rfl
      | exact withoutDebug_deleteElementSavingChildren _ _ _
      | (exfalso; simp_all [withoutDebug_fields])
  unfold HandleStartTagInBody
  dsimp only
  rw [hcont, himp]
  have hproj : s.withoutDebug.reached_reorder_containers_
      = s.reached_reorder_containers_ ∧
      s.withoutDebug.nav_element_depth_ = s.nav_element_depth_ := ⟨rfl, rfl⟩
  rw [hproj.1, hproj.2]
  split_ifs <;>
    first
    | rfl
    | exact htable
    | exact hrole
    | exact hnav
    | exact withoutDebug_deleteElementSavingChildren _ _ _

theorem withoutDebug_HandleEndTagInBody (s : State) (element : HtmlElement) :
    (HandleEndTagInBody s element).map State.withoutDebug
      = HandleEndTagInBody s.withoutDebug element := by
  have hleave : ∀ (r : Level) (popped : List Level),
      (HandleEndTagInBody.leave s r popped).withoutDebug
        = HandleEndTagInBody.leave s.withoutDebug r popped := by
    intro r popped
    unfold HandleEndTagInBody.leave
    simp only [withoutDebug_fields]
    split_ifs <;> rfl
  have hmove : ∀ (t : State) (r : Level) (c : Nat),
      (HandleEndTagInBody.move t element r c).withoutDebug
        = HandleEndTagInBody.move t.withoutDebug element r c := by
    intro t r c
    unfold HandleEndTagInBody.move
    have hst : t.withoutDebug.element_roles_stack_ = t.element_roles_stack_ :=
      rfl
    rw [hst]
    split_ifs
    · cases r <;>
        simp [LogMovedBlock, State.withoutDebug, RewriteDriver.withoutDebug,
          State.emit, RewriteDriver.emit, List.filter_append, isDebugComment]
    · rfl
  have hnav : (HandleEndTagInBody.nav s element).withoutDebug
      = HandleEndTagInBody.nav s.withoutDebug element := by
    unfold HandleEndTagInBody.nav
    simp only [withoutDebug_fields]
    split_ifs <;> rfl
  have hM : ∀ (t : State) (r : Level),
      MobileRoleToContainer t.withoutDebug r = MobileRoleToContainer t r :=
    fun _ _ => rfl
  unfold HandleEndTagInBody
  have hproj : s.withoutDebug.reached_reorder_containers_
      = s.reached_reorder_containers_ ∧
      s.withoutDebug.nav_element_depth_ = s.nav_element_depth_ ∧
      s.withoutDebug.element_roles_stack_ = s.element_roles_stack_ :=
    ⟨rfl, rfl, rfl⟩
  rw [hproj.1, hproj.2.1, hproj.2.2]
  split_ifs
  · rfl
  · cases s.element_roles_stack_ with
    | nil => rfl
    | cons own popped =>
      dsimp only
      rw [← hleave, hM]
      cases MobileRoleToContainer (HandleEndTagInBody.leave s
          (GetMobileRole element) popped) (GetMobileRole element) with
      | none => rfl
      | some oc =>
        cases oc with
        | none => rfl
        | some c => simp [hmove]
  · simp [hnav]
  · rfl

theorem withoutDebug_script (s : State) (element : HtmlElement) :
    (EndElement.script s element).withoutDebug
      = EndElement.script s.withoutDebug element := by
  unfold EndElement.script
  split <;> rfl

theorem withoutDebug_insertScriptAfterCurrent (s : State)
    (element : HtmlElement) (file : String) :
    (insertScriptAfterCurrent s element file).withoutDebug
      = insertScriptAfterCurrent s.withoutDebug element file := by
  simp [insertScriptAfterCurrent, State.withoutDebug,
    RewriteDriver.withoutDebug, RewriteDriver.NewElement, RewriteDriver.emit,
    List.filter_append, isDebugComment]

theorem withoutDebug_addScripts (s : State) (element : HtmlElement) :
    (EndElement.addScripts s element).withoutDebug
      = EndElement.addScripts s.withoutDebug element := by
  by_cases h0 : s.added_mob_js_ = true
  · simp [EndElement.addScripts, h0, State.withoutDebug]
  · by_cases h1 : s.use_js_layout_ = true <;>
    by_cases h2 : s.use_js_nav_ = true <;>
    by_cases h3 : s.use_js_logo_ = true <;>
    simp [EndElement.addScripts, h0, h1, h2, h3, insertScriptAfterCurrent,
      State.withoutDebug, RewriteDriver.withoutDebug, RewriteDriver.NewElement,
      RewriteDriver.emit, List.filter_append, isDebugComment]

theorem withoutDebug_InsertPolymerLinks (s : State) (element : HtmlElement)
    (base : String) (links : List String) :
    (InsertPolymerLinks s element base links).withoutDebug
      = InsertPolymerLinks s.withoutDebug element base links := by
  refine withoutDebug_foldl
    (fun s l => InsertPolymerLink s element (base ++ l)) (fun a b => ?_) links s
  simp [InsertPolymerLink, State.withoutDebug, RewriteDriver.withoutDebug,
    RewriteDriver.NewElement, RewriteDriver.emit, List.filter_append,
    isDebugComment]

theorem withoutDebug_AddStyleAndViewport (s : State) (element : HtmlElement) :
    (AddStyleAndViewport s element).withoutDebug
      = AddStyleAndViewport s.withoutDebug element := by
  have hprefix : ∀ (t : State) (base : String) (links : List String),
      (InsertPolymerLinks t element base links).static_file_prefix_
        = t.static_file_prefix_ := fun t base links =>
    foldl_field (fun u => u.static_file_prefix_)
      (fun s l => InsertPolymerLink s element (base ++ l)) (fun _ _ => rfl) _ _
  have hp : ∀ t : State, (AddStyleAndViewport.polymer t element).withoutDebug
      = AddStyleAndViewport.polymer t.withoutDebug element := by
    intro t
    unfold AddStyleAndViewport.polymer
    simp only [withoutDebug_fields]
    split
    · simp only [withoutDebug_InsertPolymerLinks, hprefix]
      congr 2
      simp [State.withoutDebug, RewriteDriver.withoutDebug,
        RewriteDriver.NewElement, RewriteDriver.emit, List.filter_append,
        isDebugComment]
    · rfl
  have hl : ∀ t : State, (AddStyleAndViewport.link t element).withoutDebug
      = AddStyleAndViewport.link t.withoutDebug element := by
    intro t; unfold AddStyleAndViewport.link
    simp only [withoutDebug_fields]
    split <;>
      simp [State.withoutDebug, RewriteDriver.withoutDebug,
        RewriteDriver.NewElement, RewriteDriver.emit, List.filter_append,
        isDebugComment]
  have hv : ∀ t : State, (AddStyleAndViewport.viewport t element).withoutDebug
      = AddStyleAndViewport.viewport t.withoutDebug element := by
    intro t; unfold AddStyleAndViewport.viewport
    simp only [withoutDebug_fields]
    split <;>
      simp [State.withoutDebug, RewriteDriver.withoutDebug,
        RewriteDriver.NewElement, RewriteDriver.emit, List.filter_append,
        isDebugComment]
  have hs : ∀ t : State, (AddStyleAndViewport.style t element).withoutDebug
      = AddStyleAndViewport.style t.withoutDebug element := by
    intro t; unfold AddStyleAndViewport.style
    simp only [withoutDebug_fields]
    split <;>
      simp [State.withoutDebug, RewriteDriver.withoutDebug,
        RewriteDriver.NewElement, RewriteDriver.NewCharactersNode,
        RewriteDriver.emit, List.filter_append, isDebugComment]
  unfold AddStyleAndViewport
  simp only [withoutDebug_fields]
  split
  · simp only [hp, hl, hv, hs]
    rfl
  · rfl

theorem withoutDebug_StartElement (s : State) (element : HtmlElement) :
    (StartElement s element).withoutDebug
      = StartElement s.withoutDebug element := by
  unfold StartElement
  dsimp only
  rw [← withoutDebug_unminify]
  generalize StartElement.unminify s element = u
  by_cases hv : StartElement.isViewportMeta element = true
  · rw [if_pos hv, if_pos hv]
    exact withoutDebug_viewport _ _
  · rw [if_neg hv, if_neg hv]
    by_cases hb : (element.keyword == .kBody) = true
    · rw [if_pos hb, if_pos hb]
      by_cases hc : u.use_cxx_layout_ = true
      · have hc1 : u.enterBody.use_cxx_layout_ = true := hc
        have hc2 : u.withoutDebug.enterBody.use_cxx_layout_ = true := hc
        rw [if_pos hc1, if_pos hc2]
        exact withoutDebug_AddReorderContainers _ _
      · have hc1 : ¬ u.enterBody.use_cxx_layout_ = true := hc
        have hc2 : ¬ u.withoutDebug.enterBody.use_cxx_layout_ = true := hc
        rw [if_neg hc1, if_neg hc2]
        rfl
    · rw [if_neg hb, if_neg hb]
      by_cases hd : 0 < u.body_element_depth_
      · have hd2 : 0 < u.withoutDebug.body_element_depth_ := hd
        rw [if_pos hd, if_pos hd2]
        by_cases hc : u.use_cxx_layout_ = true
        · have hc2 : u.withoutDebug.use_cxx_layout_ = true := hc
          rw [if_pos hc, if_pos hc2]
          exact withoutDebug_HandleStartTagInBody _ _
        · have hc2 : ¬ u.withoutDebug.use_cxx_layout_ = true := hc
          rw [if_neg hc, if_neg hc2]
      · have hd2 : ¬ 0 < u.withoutDebug.body_element_depth_ := hd
        rw [if_neg hd, if_neg hd2]

theorem withoutDebug_EndElement (s : State) (element : HtmlElement) :
    (EndElement s element).map State.withoutDebug
      = EndElement s.withoutDebug element := by
  unfold EndElement
  dsimp only
  rw [← withoutDebug_script]
  generalize EndElement.script s element = u
  by_cases hb : (element.keyword == .kBody) = true
  · rw [if_pos hb, if_pos hb]
    by_cases h0 : (u.leaveBody.body_element_depth_ == 0) = true
    · have h02 : (u.withoutDebug.leaveBody.body_element_depth_ == 0) = true :=
        h0
      rw [if_pos h0, if_pos h02]
      by_cases hjs : (u.leaveBody.use_js_layout_ || u.leaveBody.use_js_nav_)
          = true
      · have hjs2 : (u.withoutDebug.leaveBody.use_js_layout_ ||
            u.withoutDebug.leaveBody.use_js_nav_) = true := hjs
        rw [if_pos hjs, if_pos hjs2]
        have := withoutDebug_addScripts u.leaveBody element
        simp only [Option.map_some', Option.some.injEq]
        rw [show u.withoutDebug.leaveBody = u.leaveBody.withoutDebug from rfl,
          ← this]
        rfl
      · have hjs2 : ¬ (u.withoutDebug.leaveBody.use_js_layout_ ||
            u.withoutDebug.leaveBody.use_js_nav_) = true := hjs
        rw [if_neg hjs, if_neg hjs2]
        have := withoutDebug_RemoveReorderContainers u.leaveBody
        simp only [Option.map_some', Option.some.injEq]
        rw [show u.withoutDebug.leaveBody = u.leaveBody.withoutDebug from rfl,
          ← this]
        rfl
    · have h02 : ¬ (u.withoutDebug.leaveBody.body_element_depth_ == 0)
          = true := h0
      rw [if_neg h0, if_neg h02]
      rfl
  · rw [if_neg hb, if_neg hb]
    by_cases hh : (u.body_element_depth_ == 0 && element.keyword == .kHead)
        = true
    · have hh2 : (u.withoutDebug.body_element_depth_ == 0 &&
          element.keyword == .kHead) = true := hh
      rw [if_pos hh, if_pos hh2]
      simp only [Option.map_some', withoutDebug_AddStyleAndViewport]
    · have hh2 : ¬ (u.withoutDebug.body_element_depth_ == 0 &&
          element.keyword == .kHead) = true := hh
      rw [if_neg hh, if_neg hh2]
      by_cases hd : 0 < u.body_element_depth_
      · have hd2 : 0 < u.withoutDebug.body_element_depth_ := hd
        rw [if_pos hd, if_pos hd2]
        by_cases hc : u.use_cxx_layout_ = true
        · have hc2 : u.withoutDebug.use_cxx_layout_ = true := hc
          rw [if_pos hc, if_pos hc2]
          exact withoutDebug_HandleEndTagInBody _ _
        · have hc2 : ¬ u.withoutDebug.use_cxx_layout_ = true := hc
          rw [if_neg hc, if_neg hc2]
          rfl
      · have hd2 : ¬ 0 < u.withoutDebug.body_element_depth_ := hd
        rw [if_neg hd, if_neg hd2]
        rfl

/-- Forgetting the debug mode commutes with every event. -/
theorem withoutDebug_step (s : State) (ev : Event) :
    (step s ev).map State.withoutDebug = step s.withoutDebug ev := by
  cases ev with
  | StartElement e => simp [step, withoutDebug_StartElement]
  | EndElement e => exact withoutDebug_EndElement s e
  | Characters c => simp [step, withoutDebug_Characters]

/-! ## Debug mode: the claims -/

/-- C22: for every state and every event, the handler run with `DebugMode()`
on and with `DebugMode()` off fail together or succeed together, and then
the two next states are the same once the debug mode and the debug comments
of the log are forgotten: every field of the filter, the next fresh node and
the log without its debug comments agree. In particular the commands issued
by the two runs, debug comments apart, are the same sequence. -/
theorem debug_mode_independence (s : State) (ev : Event) :
    (step (s.setDebugMode true) ev).map State.withoutDebug
      = (step (s.setDebugMode false) ev).map State.withoutDebug ∧
    ((step (s.setDebugMode true) ev).isSome
      = (step (s.setDebugMode false) ev).isSome) ∧
    (∀ s1 s2, step (s.setDebugMode true) ev = some s1 →
      step (s.setDebugMode false) ev = some s2 →
      s1.withoutDebug = s2.withoutDebug ∧
      (issued (s.setDebugMode true) s1).filter (fun c => !isDebugComment c)
        = (issued (s.setDebugMode false) s2).filter
            (fun c => !isDebugComment c)) := by
  have hmap : (step (s.setDebugMode true) ev).map State.withoutDebug
      = (step (s.setDebugMode false) ev).map State.withoutDebug := by
    rw [withoutDebug_step, withoutDebug_step]
    rfl
  refine ⟨hmap, ?_, ?_⟩
  · have := congrArg Option.isSome hmap
    simpa using this
  · intro s1 s2 h1 h2
    rw [h1, h2] at hmap
    have heq : s1.withoutDebug = s2.withoutDebug := by simpa using hmap
    refine ⟨heq, ?_⟩
    have e1 := step_extends _ _ _ h1
    have e2 := step_extends _ _ _ h2
    have hc : s1.driver_.commands.filter (fun c => !isDebugComment c)
        = s2.driver_.commands.filter (fun c => !isDebugComment c) :=
      congrArg (fun t : State => t.driver_.commands) heq
    rw [e1, e2, List.filter_append, List.filter_append] at hc
    exact List.append_cancel_left hc

theorem debug_mode_independence_witness :
    step (insideBody.setDebugMode true)
        (.StartElement (plainElement 2 0 .kSpan "span"))
      = some ((step (insideBody.setDebugMode true)
          (.StartElement (plainElement 2 0 .kSpan "span"))).getD insideBody) ∧
    issued (insideBody.setDebugMode true)
        ((step (insideBody.setDebugMode true)
          (.StartElement (plainElement 2 0 .kSpan "span"))).getD insideBody)
      = [ Cmd.InsertDebugComment
            "Deleted element which did not have a mobile role: span" 2,
          Cmd.DeleteSavingChildren 2 ] ∧
    (issued (insideBody.setDebugMode true)
        ((step (insideBody.setDebugMode true)
          (.StartElement (plainElement 2 0 .kSpan "span"))).getD
            insideBody)).filter (fun c => !isDebugComment c)
      = (issued (insideBody.setDebugMode false)
        ((step (insideBody.setDebugMode false)
          (.StartElement (plainElement 2 0 .kSpan "span"))).getD
            insideBody)).filter (fun c => !isDebugComment c) :=
  ⟨by decide, by decide,
   ((debug_mode_independence insideBody
      (.StartElement (plainElement 2 0 .kSpan "span"))).2.2 _ _
      (by decide) (by decide)).2⟩

/-! ## Debug comments -/

/-- C23, as the code has it: in debug mode, on `mixedDocument`, the deletions
of the span and of its text `X` each follow a debug comment, but the move of
the content element is issued without any comment, and so is the deletion of
the blank text. -/
theorem debug_comment_counterexample :
    issuedIn debugStart 1 3 mixedDocument = some
      [ Cmd.InsertDebugComment
          "Deleted element which did not have a mobile role: span" 1,
        Cmd.DeleteSavingChildren 1,
        Cmd.InsertDebugComment
          ("Deleted characters which were not in an element which" ++
            " was tagged as important: X") 2,
        Cmd.DeleteNode 2 ] ∧
    issuedIn debugStart 6 7 mixedDocument
      = some [Cmd.MoveCurrentInto 3 103] ∧
    issuedIn debugStart 7 8 mixedDocument = some [Cmd.DeleteNode 5] := by
  decide

theorem issued_of_driver {s s1 : State} (h : s1.driver_ = s.driver_) :
    issued s s1 = [] := by
  simp [issued, h]

/-- The commands of a successful `HandleEndTagInBody`: nothing, or the move
of the element. -/
theorem issued_HandleEndTagInBody (s s1 : State) (element : HtmlElement)
    (h : HandleEndTagInBody s element = some s1) :
    issued s s1 = [] ∨
      ∃ c, issued s s1 = [Cmd.MoveCurrentInto element.id c] := by
  rcases HandleEndTagInBody_inv s s1 element h with
    ⟨_, rfl⟩ | ⟨_, hvalid, _, below, c, _, _, rfl⟩ | ⟨_, _, rfl | rfl⟩
  · exact Or.inl (issued_self _)
  · have hleave : ∀ t : State,
        issued s t = issued (HandleEndTagInBody.leave s
          (GetMobileRole element) below) t := by
      intro t; simp [issued, leave_driver]
    rw [hleave]
    rcases (move_counters (HandleEndTagInBody.leave s (GetMobileRole element)
      below) element (GetMobileRole element) c hvalid).1 with m | m
    · exact Or.inl m
    · exact Or.inr ⟨c, m⟩
  · exact Or.inl (issued_self _)
  · refine Or.inl (issued_of_driver ?_)
    unfold HandleEndTagInBody.nav
    dsimp only
    split_ifs <;> rfl

/-- The commands of `HandleStartTagInBody` in debug mode. -/
theorem issued_HandleStartTagInBody_debug (s : State) (element : HtmlElement)
    (hdebug : s.driver_.debug_mode = true) :
    ∃ pre, (∀ c ∈ pre, isDebugComment c = false ∧ isDestructive c = false) ∧
      (issued s (HandleStartTagInBody s element) = pre ∨
        ∃ rule ∈ elementRules,
          issued s (HandleStartTagInBody s element) = pre ++
            [ Cmd.InsertDebugComment (rule ++ element.name_str) element.id,
              Cmd.DeleteSavingChildren element.id ]) := by
  have hdel : ∀ (t : State) (msg : String), t.driver_ = s.driver_ →
      msg ∈ elementRules →
      ∃ pre, (∀ c ∈ pre, isDebugComment c = false ∧ isDestructive c = false) ∧
        (issued s (deleteElementSavingChildren t element msg) = pre ∨
          ∃ rule ∈ elementRules,
            issued s (deleteElementSavingChildren t element msg) = pre ++
              [ Cmd.InsertDebugComment (rule ++ element.name_str) element.id,
                Cmd.DeleteSavingChildren element.id ]) := by
    intro t msg ht hmsg
    refine ⟨[], by simp, Or.inr ⟨msg, hmsg, ?_⟩⟩
    have h1 : issued s (deleteElementSavingChildren t element msg)
        = issued t (deleteElementSavingChildren t element msg) := by
      simp [issued, ht]
    rw [h1, issued_deleteElementSavingChildren, ht, hdebug]
    rfl
  have hnone : ∀ t : State, t.driver_ = s.driver_ →
      ∃ pre, (∀ c ∈ pre, isDebugComment c = false ∧ isDestructive c = false) ∧
        (issued s t = pre ∨
          ∃ rule ∈ elementRules,
            issued s t = pre ++
              [ Cmd.InsertDebugComment (rule ++ element.name_str) element.id,
                Cmd.DeleteSavingChildren element.id ]) :=
    fun t ht => ⟨[], by simp, Or.inl (issued_of_driver ht)⟩
  unfold HandleStartTagInBody
  dsimp only
  split_ifs
  · exact hnone s rfl
  · exact hnone _ rfl
  · obtain ⟨t1, _⟩ := table_branch s element
    by_cases hb : element.keyword = .kTable ∨ element.keyword = .kTr
    · refine ⟨[ Cmd.NewElement s.driver_.next_node element.parent .kBr,
          Cmd.SetStyle s.driver_.next_node .IMPLICIT_CLOSE,
          Cmd.InsertElementAfterElement element.id s.driver_.next_node ],
        by simp [isDebugComment, isDestructive],
        Or.inr ⟨"Deleted table tag: ", by simp [elementRules], ?_⟩⟩
      rw [t1]
      simp [hb, hdebug]
    · refine ⟨[], by simp,
        Or.inr ⟨"Deleted table tag: ", by simp [elementRules], ?_⟩⟩
      rw [t1]
      simp [hb, hdebug]
  · refine hnone _ ?_
    unfold HandleStartTagInBody.role
    dsimp only
    split_ifs <;> rfl
  · unfold HandleStartTagInBody.nav
    dsimp only
    split_ifs
    · exact hdel _ _ rfl (by simp [elementRules])
    · exact hnone _ rfl
    · exact hdel _ _ rfl (by simp [elementRules])
    · exact hnone s rfl
  · exact hdel _ _ rfl (by simp [elementRules])
  · exact hnone s rfl

/-- The commands of `Characters` in debug mode. -/
theorem issued_Characters_debug (s : State) (characters : HtmlCharactersNode)
    (hdebug : s.driver_.debug_mode = true) :
    issued s (Characters s characters) = [] ∨
    (∃ contents, issued s (Characters s characters)
      = [Cmd.SetContents characters.id contents]) ∨
    (OnlyWhitespace characters.contents = true ∧
      issued s (Characters s characters) = [Cmd.DeleteNode characters.id]) ∨
    (OnlyWhitespace characters.contents = false ∧
      ∃ rule ∈ textRules, issued s (Characters s characters) =
        [ Cmd.InsertDebugComment (rule ++ characters.contents) characters.id,
          Cmd.DeleteNode characters.id ]) := by
  by_cases h1 : s.use_cxx_layout_ = true
  · by_cases h4 : (s.body_element_depth_ == 0 ||
        s.reached_reorder_containers_) = true
    · left
      simp [Characters, h1, h4, issued]
    · by_cases h5 : s.element_roles_stack_ = []
      · by_cases hw : OnlyWhitespace characters.contents = true
        · right; right; left
          refine ⟨hw, ?_⟩
          simp [Characters, h1, h4, h5, hdebug, hw, InImportantElement,
            State.emit, RewriteDriver.emit, issued]
        · right; right; right
          refine ⟨by simpa using hw, _, List.mem_cons_self _ _, ?_⟩
          simp [Characters, h1, h4, h5, hdebug, hw, InImportantElement,
            State.emit, RewriteDriver.emit, issued]
      · by_cases h6 : (decide (0 < s.nav_element_depth_) &&
            s.nav_keyword_stack_.isEmpty) = true
        · by_cases hw : OnlyWhitespace characters.contents = true
          · right; right; left
            refine ⟨hw, ?_⟩
            simp [Characters, h1, h4, h5, h6, hdebug, hw, InImportantElement,
              State.emit, RewriteDriver.emit, issued]
          · right; right; right
            refine ⟨by simpa using hw, _,
              List.mem_cons_of_mem _ (List.mem_cons_self _ _), ?_⟩
            simp [Characters, h1, h4, h5, h6, hdebug, hw, InImportantElement,
              State.emit, RewriteDriver.emit, issued]
        · left
          simp [Characters, h1, h4, h5, h6, InImportantElement, issued]
  · by_cases h2 : s.in_script_ = true <;>
    by_cases h3 : containsSubstring characters.contents
      "//e.mouseflow.com/projects" = true <;>
    simp [Characters, h1, h2, h3, State.emit, RewriteDriver.emit, issued]

/-- C23, amended: in debug mode, every element deleted by
`HandleStartTagInBody` has its `DeleteSavingChildren` right after one debug
comment inserted at the element, whose text is the message of the rule that
fired followed by the tag name, and nothing else it issues is a comment or a
deletion; a text node deleted by `Characters` has its `DeleteNode` right
after one debug comment at the node, the message of the rule followed by the
text, unless the text is only whitespace, which is deleted without comment;
`HandleEndTagInBody` issues nothing or the move alone: a move has no debug
comment. -/
theorem debug_comment_per_deletion (s : State) (element : HtmlElement)
    (characters : HtmlCharactersNode)
    (hdebug : s.driver_.debug_mode = true) :
    (∃ pre, (∀ c ∈ pre, isDebugComment c = false ∧ isDestructive c = false) ∧
      (issued s (HandleStartTagInBody s element) = pre ∨
        ∃ rule ∈ elementRules,
          issued s (HandleStartTagInBody s element) = pre ++
            [ Cmd.InsertDebugComment (rule ++ element.name_str) element.id,
              Cmd.DeleteSavingChildren element.id ])) ∧
    (issued s (Characters s characters) = [] ∨
      (∃ contents, issued s (Characters s characters)
        = [Cmd.SetContents characters.id contents]) ∨
      (OnlyWhitespace characters.contents = true ∧
        issued s (Characters s characters) = [Cmd.DeleteNode characters.id]) ∨
      (OnlyWhitespace characters.contents = false ∧
        ∃ rule ∈ textRules, issued s (Characters s characters) =
          [ Cmd.InsertDebugComment (rule ++ characters.contents) characters.id,
            Cmd.DeleteNode characters.id ])) ∧
    (∀ s1, HandleEndTagInBody s element = some s1 →
      issued s s1 = [] ∨
        ∃ c, issued s s1 = [Cmd.MoveCurrentInto element.id c]) :=
  ⟨issued_HandleStartTagInBody_debug s element hdebug,
   issued_Characters_debug s characters hdebug,
   fun s1 h => issued_HandleEndTagInBody s s1 element h⟩

theorem debug_comment_per_deletion_witness :
    debugInsideBody.driver_.debug_mode = true ∧
    issued debugInsideBody (Characters debugInsideBody ⟨2, "X"⟩)
      = [ Cmd.InsertDebugComment
            ("Deleted characters which were not in an element which" ++
              " was tagged as important: X") 2,
          Cmd.DeleteNode 2 ] ∧
    (issued debugInsideBody (Characters debugInsideBody ⟨2, "X"⟩) = [] ∨
      (∃ contents, issued debugInsideBody (Characters debugInsideBody ⟨2, "X"⟩)
        = [Cmd.SetContents 2 contents]) ∨
      (OnlyWhitespace "X" = true ∧
        issued debugInsideBody (Characters debugInsideBody ⟨2, "X"⟩)
          = [Cmd.DeleteNode 2]) ∨
      (OnlyWhitespace "X" = false ∧
        ∃ rule ∈ textRules,
          issued debugInsideBody (Characters debugInsideBody ⟨2, "X"⟩) =
            [Cmd.InsertDebugComment (rule ++ "X") 2, Cmd.DeleteNode 2])) :=
  ⟨by decide, by decide,
   (debug_comment_per_deletion debugInsideBody (plainElement 1 0 .kSpan "span")
      ⟨2, "X"⟩ (by decide)).2.1⟩

/-! ## The viewport meta: lemmas -/

theorem metas_deleteElementSavingChildren (s : State) (element : HtmlElement)
    (msg : String) :
    metas (deleteElementSavingChildren s element msg) = metas s := by
  unfold deleteElementSavingChildren
  split <;> simp [metas, isMetaCreation]

theorem metas_HandleStartTagInBody (s : State) (element : HtmlElement) :
    metas (HandleStartTagInBody s element) = metas s := by
  have htable : metas (HandleStartTagInBody.table s element) = metas s := by
    unfold HandleStartTagInBody.table
    dsimp only
    rw [metas_deleteElementSavingChildren]
    split <;> simp [metas, isMetaCreation]
  have hrole : metas (HandleStartTagInBody.role s element) = metas s := by
    unfold HandleStartTagInBody.role
    dsimp only
    split_ifs <;> rfl
  have hnav : metas (HandleStartTagInBody.nav s element) = metas s := by
    unfold HandleStartTagInBody.nav
    dsimp only
    split_ifs <;>
      first
      | rfl
      | (rw [metas_deleteElementSavingChildren] <;> rfl)
  unfold HandleStartTagInBody
  dsimp only
  split_ifs <;>
    first
    | rfl
    | exact htable
    | exact hrole
    | exact hnav
    | exact metas_deleteElementSavingChildren _ _ _

theorem metas_HandleEndTagInBody (s s1 : State) (element : HtmlElement)
    (h : HandleEndTagInBody s element = some s1) : metas s1 = metas s := by
  rcases issued_HandleEndTagInBody s s1 element h with hi | ⟨c, hi⟩
  all_goals
    obtain ⟨a, ha, _⟩ := destroys_HandleEndTagInBody s s1 element h
    have he := (destroys_issued ha).1
    simp [metas, he, hi, isMetaCreation]

theorem metas_Characters (s : State) (characters : HtmlCharactersNode) :
    metas (Characters s characters) = metas s := by
  unfold Characters
  split_ifs <;> simp [metas, isMetaCreation]

theorem metas_unminify (s : State) (element : HtmlElement) :
    metas (StartElement.unminify s element) = metas s := by
  unfold StartElement.unminify
  split
  · dsimp only
    split
    · split <;> simp [metas, isMetaCreation]
    · rfl
  · rfl

theorem metas_viewport (s : State) (element : HtmlElement) :
    metas (StartElement.viewport s element) = metas s := by
  unfold StartElement.viewport
  dsimp only
  split <;> simp [metas, isMetaCreation]

theorem metas_AddReorderContainers (s : State) (element : HtmlElement) :
    metas (AddReorderContainers s element) = metas s := by
  unfold AddReorderContainers
  split
  · dsimp only
    refine foldl_field metas (AddReorderContainers.body element)
      (fun a b => ?_) _ _
    simp [metas, AddReorderContainers.body, isMetaCreation]
  · rfl

theorem metas_RemoveReorderContainers (s : State) :
    metas (RemoveReorderContainers s) = metas s := by
  unfold RemoveReorderContainers
  split
  · dsimp only
    refine foldl_field metas RemoveReorderContainers.body (fun a b => ?_) _ _
    unfold RemoveReorderContainers.body
    split <;> simp [metas, isMetaCreation]
  · rfl

theorem metas_addScripts (s : State) (element : HtmlElement) :
    metas (EndElement.addScripts s element) = metas s := by
  unfold EndElement.addScripts
  dsimp only
  split_ifs <;> simp [metas, insertScriptAfterCurrent, isMetaCreation]

theorem metas_script (s : State) (element : HtmlElement) :
    metas (EndElement.script s element) = metas s := by
  unfold EndElement.script
  split <;> rfl

theorem metas_StartElement (s : State) (element : HtmlElement) :
    metas (StartElement s element) = metas s := by
  unfold StartElement
  dsimp only
  split_ifs
  · exact (metas_viewport _ _).trans (metas_unminify _ _)
  · exact (metas_AddReorderContainers _ _).trans (metas_unminify _ _)
  · exact metas_unminify _ _
  · exact (metas_HandleStartTagInBody _ _).trans (metas_unminify _ _)
  · exact metas_unminify _ _
  · exact metas_unminify _ _

/-- With `added_style_` set, `AddStyleAndViewport` does nothing. -/
theorem AddStyleAndViewport_of_added (s : State) (element : HtmlElement)
    (h : s.added_style_ = true) : AddStyleAndViewport s element = s := by
  simp [AddStyleAndViewport, h]

theorem tail_without_meta {t t1 : State}
    (hp : t.driver_.commands <+: t1.driver_.commands)
    (hm : metas t1 = metas t) :
    ∃ after, t1.driver_.commands = t.driver_.commands ++ after ∧
      after.filter isMetaCreation = [] := by
  obtain ⟨after, hafter⟩ := hp
  refine ⟨after, hafter.symm, ?_⟩
  simp only [metas, ← hafter, List.filter_append] at hm
  simpa using hm

theorem NoMeta.compose {s s1 s2 : State} (h1 : NoMeta s s1)
    (h2 : NoMeta s1 s2) : NoMeta s s2 :=
  ⟨h2.1.trans h1.1, h2.2.1.trans h1.2.1, h1.2.2.1.trans h2.2.2.1,
    h2.2.2.2.trans h1.2.2.2⟩

theorem NoMeta.of_links (s : State) (element : HtmlElement) (base : String)
    (links : List String) :
    NoMeta s (InsertPolymerLinks s element base links) := by
  refine ⟨foldl_field (fun u => u.found_viewport_)
      (fun s l => InsertPolymerLink s element (base ++ l)) (fun _ _ => rfl) _ _,
    foldl_field (fun u => u.added_style_)
      (fun s l => InsertPolymerLink s element (base ++ l)) (fun _ _ => rfl) _ _,
    (destroys_InsertPolymerLinks _ _ _ _).1,
    foldl_field metas (fun s l => InsertPolymerLink s element (base ++ l))
      (fun a b => ?_) _ _⟩
  simp [metas, InsertPolymerLink, isMetaCreation]

/-- The first call of `AddStyleAndViewport` in a document: the viewport meta
is appended exactly when `found_viewport_` is false, between commands that
create no `meta`. -/
theorem AddStyleAndViewport_first (s : State) (element : HtmlElement)
    (h : s.added_style_ = false) :
    (AddStyleAndViewport s element).found_viewport_ = true ∧
    (AddStyleAndViewport s element).added_style_ = true ∧
    ∃ before after n,
      (AddStyleAndViewport s element).driver_.commands =
        s.driver_.commands ++
          (before ++
            ((if s.found_viewport_ = true then []
              else viewportMeta n element.id) ++ after)) ∧
      before.filter isMetaCreation = [] ∧
      after.filter isMetaCreation = [] := by
  have hp : ∀ t : State, NoMeta t (AddStyleAndViewport.polymer t element) := by
    intro t
    unfold AddStyleAndViewport.polymer
    split
    · dsimp only
      refine NoMeta.compose ?_ (NoMeta.of_links _ _ _ _)
      refine NoMeta.compose ?_ (NoMeta.of_links _ _ _ _)
      simp [NoMeta, metas, RewriteDriver.NewElement, RewriteDriver.emit,
        isMetaCreation]
    · exact ⟨rfl, rfl, List.prefix_refl _, rfl⟩
  have hl : ∀ t : State, NoMeta t (AddStyleAndViewport.link t element) := by
    intro t; unfold AddStyleAndViewport.link
    split <;>
      simp [NoMeta, metas, RewriteDriver.NewElement, RewriteDriver.emit,
        isMetaCreation]
  have hs : ∀ t : State, NoMeta t (AddStyleAndViewport.style t element) := by
    intro t; unfold AddStyleAndViewport.style
    split <;>
      simp [NoMeta, metas, RewriteDriver.NewElement,
        RewriteDriver.NewCharactersNode, RewriteDriver.emit, isMetaCreation]
  have hv : ∀ t : State,
      (AddStyleAndViewport.viewport t element).found_viewport_ = true ∧
      (AddStyleAndViewport.viewport t element).added_style_ = t.added_style_ ∧
      (AddStyleAndViewport.viewport t element).driver_.commands =
        t.driver_.commands ++
          (if t.found_viewport_ = true then []
           else viewportMeta t.driver_.next_node element.id) := by
    intro t; unfold AddStyleAndViewport.viewport
    by_cases hf : t.found_viewport_ = true <;>
      simp [hf, viewportMeta, RewriteDriver.NewElement, RewriteDriver.emit]
  have hunfold : AddStyleAndViewport s element =
      AddStyleAndViewport.polymer (AddStyleAndViewport.link
        (AddStyleAndViewport.viewport (AddStyleAndViewport.style
          { s with added_style_ := true } element) element) element)
        element := by
    simp [AddStyleAndViewport, h]
  obtain ⟨s1, s2, s3, s4⟩ := hs { s with added_style_ := true }
  obtain ⟨v1, v2, v3⟩ := hv (AddStyleAndViewport.style
    { s with added_style_ := true } element)
  obtain ⟨l1, l2, l3, l4⟩ := (hl (AddStyleAndViewport.viewport
    (AddStyleAndViewport.style { s with added_style_ := true } element)
    element)).compose (hp _)
  rw [hunfold]
  refine ⟨l1.trans v1, l2.trans (v2.trans s2), ?_⟩
  obtain ⟨before, hb1, hb2⟩ := tail_without_meta s3 s4
  obtain ⟨after, ha1, ha2⟩ := tail_without_meta l3 l4
  refine ⟨before, after, (AddStyleAndViewport.style
    { s with added_style_ := true } element).driver_.next_node, ?_, hb2, ha2⟩
  rw [ha1, v3, hb1, s1]
  simp only [List.append_assoc]

theorem metas_AddStyleAndViewport (s : State) (element : HtmlElement)
    (h : s.added_style_ = true) :
    metas (AddStyleAndViewport s element) = metas s := by
  rw [AddStyleAndViewport_of_added s element h]

theorem AddStyleAndViewport_added_style (s : State) (element : HtmlElement) :
    (AddStyleAndViewport s element).added_style_ = true := by
  cases h : s.added_style_ with
  | true => rw [AddStyleAndViewport_of_added s element h]; exact h
  | false => exact (AddStyleAndViewport_first s element h).2.1

theorem headFlags_addScripts (s : State) (element : HtmlElement) :
    (EndElement.addScripts s element).found_viewport_ = s.found_viewport_ ∧
    (EndElement.addScripts s element).added_style_ = s.added_style_ := by
  unfold EndElement.addScripts
  dsimp only
  split_ifs <;> exact ⟨rfl, rfl⟩

theorem headFlags_AddReorderContainers (s : State) (element : HtmlElement) :
    (AddReorderContainers s element).found_viewport_ = s.found_viewport_ ∧
    (AddReorderContainers s element).added_style_ = s.added_style_ := by
  unfold AddReorderContainers
  split
  · dsimp only
    exact ⟨foldl_field (fun u => u.found_viewport_)
        (AddReorderContainers.body element) (fun _ _ => rfl) _ _,
      foldl_field (fun u => u.added_style_)
        (AddReorderContainers.body element) (fun _ _ => rfl) _ _⟩
  · exact ⟨rfl, rfl⟩

theorem headFlags_RemoveReorderContainers (s : State) :
    (RemoveReorderContainers s).found_viewport_ = s.found_viewport_ ∧
    (RemoveReorderContainers s).added_style_ = s.added_style_ := by
  have hb : ∀ (a : State) (b : Nat × Nat),
      (RemoveReorderContainers.body a b).found_viewport_ = a.found_viewport_ ∧
      (RemoveReorderContainers.body a b).added_style_ = a.added_style_ := by
    intro a b
    unfold RemoveReorderContainers.body
    split <;> exact ⟨rfl, rfl⟩
  unfold RemoveReorderContainers
  split
  · dsimp only
    exact ⟨foldl_field (fun u => u.found_viewport_)
        RemoveReorderContainers.body (fun a b => (hb a b).1) _ _,
      foldl_field (fun u => u.added_style_)
        RemoveReorderContainers.body (fun a b => (hb a b).2) _ _⟩
  · exact ⟨rfl, rfl⟩

theorem headFlags_of_flags {s s1 : State} (h : flags s1 = flags s) :
    s1.found_viewport_ = s.found_viewport_ ∧
    s1.added_style_ = s.added_style_ := by
  simp only [flags, Prod.mk.injEq] at h
  exact ⟨h.1, h.2.1⟩

/-- What `StartElement` does to `found_viewport_` and `added_style_`. -/
theorem headFlags_StartElement (s : State) (element : HtmlElement) :
    (StartElement s element).found_viewport_
      = (s.found_viewport_ || isGoodViewport element) ∧
    (StartElement s element).added_style_ = s.added_style_ := by
  obtain ⟨u1, u2⟩ := headFlags_of_flags (flags_unminify s element)
  unfold StartElement
  dsimp only
  by_cases hv : StartElement.isViewportMeta element = true
  · rw [if_pos hv]
    unfold StartElement.viewport
    dsimp only
    by_cases hc : (StringPiece (element.AttributeValue .kContent)
        == kViewportContent) = true
    · rw [if_pos hc]
      simp [isGoodViewport, hv, hc, u2]
    · rw [if_neg hc]
      simp only [Bool.not_eq_true] at hc
      simp [isGoodViewport, hv, hc, u1, u2, State.emit]
  · rw [if_neg hv]
    have hg : isGoodViewport element = false := by
      simp only [Bool.not_eq_true] at hv
      simp [isGoodViewport, hv]
    rw [hg, Bool.or_false]
    split_ifs
    · obtain ⟨a1, a2⟩ := headFlags_AddReorderContainers
        (StartElement.unminify s element).enterBody element
      exact ⟨a1.trans u1, a2.trans u2⟩
    · exact ⟨u1, u2⟩
    · obtain ⟨a1, a2⟩ := headFlags_of_flags (flags_HandleStartTagInBody
        (StartElement.unminify s element) element)
      exact ⟨a1.trans u1, a2.trans u2⟩
    · exact ⟨u1, u2⟩
    · exact ⟨u1, u2⟩

/-- An `EndElement` that leaves `added_style_` false changed neither flag. -/
theorem headFlags_EndElement (s s1 : State) (element : HtmlElement)
    (h : EndElement s element = some s1) (hstyle : s1.added_style_ = false) :
    s1.found_viewport_ = s.found_viewport_ ∧ s.added_style_ = false := by
  obtain ⟨u1, u2⟩ := headFlags_of_flags (flags_script s element)
  unfold EndElement at h
  dsimp only at h
  split_ifs at h
  · cases h
    obtain ⟨a1, a2⟩ := headFlags_addScripts
      (EndElement.script s element).leaveBody element
    exact ⟨a1.trans u1, by rw [← u2]; exact a2.symm.trans hstyle⟩
  · cases h
    obtain ⟨a1, a2⟩ := headFlags_RemoveReorderContainers
      (EndElement.script s element).leaveBody
    exact ⟨a1.trans u1, by rw [← u2]; exact a2.symm.trans hstyle⟩
  · cases h
    exact ⟨u1, by rw [← u2]; exact hstyle⟩
  · cases h
    rw [AddStyleAndViewport_added_style] at hstyle
    exact absurd hstyle (by decide)
  · obtain ⟨a1, a2⟩ := headFlags_of_flags (flags_HandleEndTagInBody _ _ _ h)
    exact ⟨a1.trans u1, by rw [← u2]; exact a2.symm.trans hstyle⟩
  · cases h
    exact ⟨u1, by rw [← u2]; exact hstyle⟩
  · cases h
    exact ⟨u1, by rw [← u2]; exact hstyle⟩

/-- As long as `added_style_` is false, `found_viewport_` tells whether a
viewport meta with the content `kViewportContent` was opened. -/
theorem found_viewport_of_run (events : List Event) (s s1 : State)
    (hrun : run s events = some s1) (hstyle : s1.added_style_ = false) :
    s1.found_viewport_ = (s.found_viewport_ || seenViewport events) ∧
    s.added_style_ = false := by
  induction events generalizing s with
  | nil =>
    simp only [run, Option.some.injEq] at hrun
    subst hrun
    simp [seenViewport, hstyle]
  | cons ev events ih =>
    cases ev with
    | StartElement element =>
      simp only [run, step] at hrun
      obtain ⟨i1, i2⟩ := ih _ hrun
      obtain ⟨a1, a2⟩ := headFlags_StartElement s element
      refine ⟨?_, a2.symm.trans i2⟩
      rw [i1, a1]
      simp [seenViewport, Bool.or_assoc]
    | Characters c =>
      simp only [run, step] at hrun
      obtain ⟨i1, i2⟩ := ih _ hrun
      obtain ⟨a1, a2⟩ := headFlags_of_flags (flags_Characters s c)
      refine ⟨?_, a2.symm.trans i2⟩
      rw [i1, a1]
      simp [seenViewport]
    | EndElement element =>
      simp only [run, step] at hrun
      cases hstep : EndElement s element with
      | none => simp [hstep] at hrun
      | some s2 =>
        simp only [hstep] at hrun
        obtain ⟨i1, i2⟩ := ih _ hrun
        obtain ⟨a1, a2⟩ := headFlags_EndElement s s2 element hstep i2
        refine ⟨?_, a2⟩
        rw [i1, a1]
        simp [seenViewport]

theorem metas_EndElement (s s1 : State) (element : HtmlElement)
    (h : EndElement s element = some s1) (hstyle : s.added_style_ = true) :
    metas s1 = metas s := by
  have u2 := (headFlags_of_flags (flags_script s element)).2
  unfold EndElement at h
  dsimp only at h
  split_ifs at h
  · cases h
    exact (metas_addScripts (EndElement.script s element).leaveBody
      element).trans (metas_script _ _)
  · cases h
    exact (metas_RemoveReorderContainers
      (EndElement.script s element).leaveBody).trans (metas_script _ _)
  · cases h
    exact metas_script _ _
  · cases h
    exact (metas_AddStyleAndViewport _ _ (u2.trans hstyle)).trans
      (metas_script _ _)
  · exact (metas_HandleEndTagInBody _ _ _ h).trans (metas_script _ _)
  · cases h
    exact metas_script _ _
  · cases h
    exact metas_script _ _

/-- Once `added_style_` is set, no event creates a `meta`. -/
theorem metas_run (events : List Event) (s s1 : State)
    (hrun : run s events = some s1) (hstyle : s.added_style_ = true) :
    metas s1 = metas s := by
  induction events generalizing s with
  | nil =>
    simp only [run, Option.some.injEq] at hrun
    subst hrun
    rfl
  | cons ev events ih =>
    cases ev with
    | StartElement element =>
      simp only [run, step] at hrun
      exact (ih _ hrun ((StartElement_flags s element).1.2.1 hstyle)).trans
        (metas_StartElement s element)
    | Characters c =>
      simp only [run, step] at hrun
      exact (ih _ hrun
        ((headFlags_of_flags (flags_Characters s c)).2.trans hstyle)).trans
        (metas_Characters s c)
    | EndElement element =>
      simp only [run, step] at hrun
      cases hstep : EndElement s element with
      | none => simp [hstep] at hrun
      | some s2 =>
        simp only [hstep] at hrun
        exact (ih _ hrun
          ((EndElement_flags s s2 element hstep).1.2.1 hstyle)).trans
          (metas_EndElement s s2 element hstep hstyle)

/-- Every stream of events extends the log. -/
theorem run_extends (events : List Event) (s s1 : State)
    (hrun : run s events = some s1) :
    s.driver_.commands <+: s1.driver_.commands := by
  induction events generalizing s with
  | nil =>
    simp only [run, Option.some.injEq] at hrun
    subst hrun
    exact List.prefix_refl _
  | cons ev events ih =>
    simp only [run] at hrun
    cases hstep : step s ev with
    | none => simp [hstep] at hrun
    | some s2 =>
      simp only [hstep] at hrun
      exact List.IsPrefix.trans ⟨_, (step_extends s s2 ev hstep).symm⟩
        (ih _ hrun)

/-! ## The viewport meta: the claim -/

/-- A close event that leaves `added_style_` false creates no `meta`. -/
theorem metas_EndElement_before (s s1 : State) (element : HtmlElement)
    (h : EndElement s element = some s1) (hstyle : s1.added_style_ = false) :
    metas s1 = metas s := by
  unfold EndElement at h
  dsimp only at h
  split_ifs at h
  · cases h
    exact (metas_addScripts (EndElement.script s element).leaveBody
      element).trans (metas_script _ _)
  · cases h
    exact (metas_RemoveReorderContainers
      (EndElement.script s element).leaveBody).trans (metas_script _ _)
  · cases h
    exact metas_script _ _
  · cases h
    rw [AddStyleAndViewport_added_style] at hstyle
    cases hstyle
  · exact (metas_HandleEndTagInBody _ _ _ h).trans (metas_script _ _)
  · cases h
    exact metas_script _ _
  · cases h
    exact metas_script _ _

/-- As long as `added_style_` is false, no event has created a `meta`. -/
theorem metas_before_style (events : List Event) (s s1 : State)
    (hrun : run s events = some s1) (hstyle : s1.added_style_ = false) :
    metas s1 = metas s := by
  induction events generalizing s with
  | nil =>
    simp only [run, Option.some.injEq] at hrun
    subst hrun
    rfl
  | cons ev events ih =>
    cases ev with
    | StartElement element =>
      simp only [run, step] at hrun
      exact (ih _ hrun).trans (metas_StartElement s element)
    | Characters c =>
      simp only [run, step] at hrun
      exact (ih _ hrun).trans (metas_Characters s c)
    | EndElement element =>
      simp only [run, step] at hrun
      cases hstep : EndElement s element with
      | none => simp [hstep] at hrun
      | some s2 =>
        simp only [hstep] at hrun
        exact (ih _ hrun).trans (metas_EndElement_before s s2 element hstep
          (found_viewport_of_run events s2 s1 hrun hstyle).2)

/-- C24: let a stream of events lead from a state with `found_viewport_`
false (the `StartDocument` state) to a state outside the body with
`added_style_` still false, that is, no head element was closed outside the
body so far, and no `meta` was created so far. Then the close of a head
element succeeds and appends the viewport meta (a fresh `meta` with `name='viewport'` and
`content='width=device-width'`, appended to the head) exactly when the
stream opened no viewport meta with that content; the other commands of
this close create no `meta`; `found_viewport_` and `added_style_` are true
afterwards, and whatever events follow, no `meta` is created any more. -/
theorem viewport_inserted_once (pre : List Event) (s0 s : State)
    (element : HtmlElement)
    (hrun : run s0 pre = some s)
    (hfound : s0.found_viewport_ = false)
    (hstyle : s.added_style_ = false)
    (hdepth : s.body_element_depth_ = 0)
    (hhead : element.keyword = .kHead) :
    (issued s0 s).filter isMetaCreation = [] ∧
    ∃ s1, EndElement s element = some s1 ∧
      s1.found_viewport_ = true ∧ s1.added_style_ = true ∧
      (∃ before after n,
        issued s s1 = before ++
          ((if seenViewport pre = true then []
            else viewportMeta n element.id) ++ after) ∧
        before.filter isMetaCreation = [] ∧
        after.filter isMetaCreation = []) ∧
      (∀ rest s2, run s1 rest = some s2 →
        (issued s1 s2).filter isMetaCreation = []) := by
  have hseen : s.found_viewport_ = seenViewport pre := by
    rw [(found_viewport_of_run pre s0 s hrun hstyle).1, hfound]
    simp
  have hscript : EndElement.script s element = s := by
    simp [EndElement.script, hhead]
  have hend : EndElement s element = some (AddStyleAndViewport s element) := by
    unfold EndElement
    simp [hscript, hhead, hdepth]
  obtain ⟨f1, f2, before, after, n, hcmd, hb, ha⟩ :=
    AddStyleAndViewport_first s element hstyle
  refine ⟨?_, _, hend, f1, f2, ⟨before, after, n, ?_, hb, ha⟩, ?_⟩
  · obtain ⟨tail, h1, h2⟩ := tail_without_meta (run_extends pre s0 s hrun)
      (metas_before_style pre s0 s hrun hstyle)
    have : issued s0 s = tail := by
      simp [issued, h1]
    rw [this]
    exact h2
  · rw [← hseen]
    simp [issued, hcmd]
  · intro rest s2 hrest
    obtain ⟨tail, h1, h2⟩ := tail_without_meta (run_extends rest _ s2 hrest)
      (metas_run rest _ s2 hrest f2)
    have : issued (AddStyleAndViewport s element) s2 = tail := by
      simp [issued, h1]
    rw [this]
    exact h2

theorem viewport_inserted_once_witness :
    seenViewport (headWithViewport "width=device-width") = true ∧
    issued exampleStart (insideHead "width=1024") = [Cmd.DeleteNode 2] ∧
    ((issued exampleStart (insideHead "width=device-width")).filter
      isMetaCreation = [] ∧
     ∃ s1, EndElement (insideHead "width=device-width") headElement
        = some s1 ∧
      s1.found_viewport_ = true ∧ s1.added_style_ = true ∧
      (∃ before after n,
        issued (insideHead "width=device-width") s1 = before ++
          ((if seenViewport (headWithViewport "width=device-width") = true
            then [] else viewportMeta n headElement.id) ++ after) ∧
        before.filter isMetaCreation = [] ∧
        after.filter isMetaCreation = []) ∧
      (∀ rest s2, run s1 rest = some s2 →
        (issued s1 s2).filter isMetaCreation = [])) ∧
    ((issued exampleStart (insideHead "width=1024")).filter
      isMetaCreation = [] ∧
     ∃ s1, EndElement (insideHead "width=1024") headElement = some s1 ∧
      s1.found_viewport_ = true ∧ s1.added_style_ = true ∧
      (∃ before after n,
        issued (insideHead "width=1024") s1 = before ++
          ((if seenViewport (headWithViewport "width=1024") = true
            then [] else viewportMeta n headElement.id) ++ after) ∧
        before.filter isMetaCreation = [] ∧
        after.filter isMetaCreation = []) ∧
      (∀ rest s2, run s1 rest = some s2 →
        (issued s1 s2).filter isMetaCreation = [])) :=
  ⟨by decide, by decide,
   viewport_inserted_once (headWithViewport "width=device-width") exampleStart
    (insideHead "width=device-width") headElement
    (by decide) (by decide) (by decide) (by decide) (by decide),
   viewport_inserted_once (headWithViewport "width=1024") exampleStart
    (insideHead "width=1024") headElement
    (by decide) (by decide) (by decide) (by decide) (by decide)⟩

/-! ## The containers are in place inside the body: lemmas -/

theorem containerState_of_keeps {s s1 : State} (h : Keeps s s1) :
    containerState s1 = containerState s := by
  obtain ⟨k1, _, _, _, _, _, k7, _, k9, _⟩ := h
  simp [containerState, k1, k7, k9]

theorem containerState_HandleStartTagInBody (s : State)
    (element : HtmlElement) :
    containerState (HandleStartTagInBody s element) = containerState s := by
  have hdel : ∀ (t : State) (msg : String),
      containerState (deleteElementSavingChildren t element msg)
        = containerState t := by
    intro t msg
    unfold deleteElementSavingChildren
    split <;> rfl
  have htable : containerState (HandleStartTagInBody.table s element)
      = containerState s := by
    unfold HandleStartTagInBody.table
    dsimp only
    rw [hdel]
    split <;> rfl
  have hrole : containerState (HandleStartTagInBody.role s element)
      = containerState s := by
    unfold HandleStartTagInBody.role
    dsimp only
    split_ifs <;> rfl
  have hnav : containerState (HandleStartTagInBody.nav s element)
      = containerState s := by
    unfold HandleStartTagInBody.nav
    dsimp only
    split_ifs <;>
      first
      | rfl
      | (rw [hdel] <;> rfl)
  unfold HandleStartTagInBody
  dsimp only
  split_ifs <;>
    first
    | rfl
    | exact htable
    | exact hrole
    | exact hnav
    | exact hdel _ _

theorem containerState_HandleEndTagInBody (s s1 : State)
    (element : HtmlElement) (h : HandleEndTagInBody s element = some s1) :
    containerState s1 = containerState s := by
  have hleave : ∀ (t : State) (r : Level) (popped : List Level),
      containerState (HandleEndTagInBody.leave t r popped)
        = containerState t := by
    intro t r popped
    unfold HandleEndTagInBody.leave
    dsimp only
    split_ifs <;> rfl
  have hmove : ∀ (t : State) (r : Level) (c : Nat),
      containerState (HandleEndTagInBody.move t element r c)
        = containerState t := by
    intro t r c
    unfold HandleEndTagInBody.move
    split_ifs
    · cases r <;> rfl
    · rfl
  rcases HandleEndTagInBody_inv s s1 element h with
    ⟨_, rfl⟩ | ⟨_, _, _, _, _, _, _, rfl⟩ | ⟨_, _, rfl | rfl⟩
  · rfl
  · rw [hmove, hleave]
  · rfl
  · unfold HandleEndTagInBody.nav
    dsimp only
    split_ifs <;> rfl

/-- What `AddReorderContainers` leaves in the container set. -/
theorem AddReorderContainers_ready (s : State) (element : HtmlElement) :
    (AddReorderContainers s element).use_cxx_layout_ = s.use_cxx_layout_ ∧
    (AddReorderContainers s element).added_containers_ = true ∧
    (AddReorderContainers s element).body_element_depth_
      = s.body_element_depth_ ∧
    (AddReorderContainers s element).mobile_role_containers_ =
      if s.added_containers_ = true then s.mobile_role_containers_
      else [ s.driver_.next_node, s.driver_.next_node + 1,
        s.driver_.next_node + 2, s.driver_.next_node + 3,
        s.driver_.next_node + 4 ] := by
  have hrange : List.range Level.kInvalid.toNat = [0, 1, 2, 3, 4] := by decide
  refine ⟨(AddReorderContainers_frame s element).1,
    (AddReorderContainers_flags s element).2,
    AddReorderContainers_body_element_depth s element, ?_⟩
  by_cases hadded : s.added_containers_ = true
  · simp [AddReorderContainers, hadded]
  · simp [AddReorderContainers, hadded, hrange, AddReorderContainers.body,
      RewriteDriver.NewElement, RewriteDriver.emit]

theorem ContainersReady.of_same {s s1 : State} (h : ContainersReady s)
    (hc : containerState s1 = containerState s)
    (hd : 0 < s1.body_element_depth_ → 0 < s.body_element_depth_) :
    ContainersReady s1 := by
  simp only [containerState, Prod.mk.injEq] at hc
  obtain ⟨c1, c2, c3⟩ := hc
  obtain ⟨h1, h2, h3⟩ := h
  refine ⟨c1.trans h1, ?_, ?_⟩
  · intro ha
    rw [c3]
    exact h2 (c2.symm.trans ha)
  · intro hb
    exact c2.trans (h3 (hd hb))

theorem ContainersReady.at_open (s : State) (element : HtmlElement)
    (h : ContainersReady s) : ContainersReady (StartElement s element) := by
  have hu : ContainersReady (StartElement.unminify s element) :=
    h.of_same (containerState_of_keeps (Keeps.unminify s element))
      (by rw [unminify_body_element_depth]; exact id)
  unfold StartElement
  dsimp only
  split_ifs
  · exact hu.of_same (containerState_of_keeps (Keeps.viewport _ _))
      (by rw [viewport_body_element_depth]; exact id)
  · obtain ⟨a1, a2, a3, a4⟩ := AddReorderContainers_ready
      (StartElement.unminify s element).enterBody element
    refine ⟨a1.trans hu.1, ?_, fun _ => a2⟩
    intro _
    rw [a4]
    by_cases hadded : (StartElement.unminify s element).enterBody.added_containers_
        = true
    · rw [if_pos hadded]
      exact hu.2.1 hadded
    · rw [if_neg hadded]
      exact ⟨_, rfl⟩
  · rename_i hcxx
    exact absurd hu.1 hcxx
  · exact hu.of_same (containerState_HandleStartTagInBody _ _)
      (by rw [HandleStartTagInBody_body_element_depth]; exact id)
  · exact hu
  · exact hu

theorem ContainersReady.at_close (s s1 : State) (element : HtmlElement)
    (h : ContainersReady s) (hstep : EndElement s element = some s1) :
    ContainersReady s1 := by
  have hsd : (EndElement.script s element).body_element_depth_
      = s.body_element_depth_ := by
    unfold EndElement.script; split <;> rfl
  have hu : ContainersReady (EndElement.script s element) :=
    h.of_same (containerState_of_keeps (Keeps.script s element))
      (by rw [hsd]; exact id)
  unfold EndElement at hstep
  dsimp only at hstep
  split_ifs at hstep with hb h0
  · cases hstep
    have h0' : (EndElement.script s element).body_element_depth_ - 1 = 0 := by
      simpa using h0
    refine ⟨?_, ?_, ?_⟩
    · exact (Keeps.addScripts _ element).1.trans hu.1
    · intro ha
      have hk := Keeps.addScripts (EndElement.script s element).leaveBody
        element
      show ∃ n, (EndElement.addScripts
        (EndElement.script s element).leaveBody element).mobile_role_containers_
          = _
      rw [hk.2.2.2.2.2.2.2.2.1]
      exact hu.2.1 (hk.2.2.2.2.2.2.1.symm.trans ha)
    · intro hd
      have : (EndElement.addScripts (EndElement.script s element).leaveBody
          element).body_element_depth_ = 0 := by
        rw [addScripts_body_element_depth]; exact h0'
      change 0 < (EndElement.addScripts (EndElement.script s element).leaveBody
          element).body_element_depth_ at hd
      omega
  · cases hstep
    have h0' : (EndElement.script s element).body_element_depth_ - 1 = 0 := by
      simpa using h0
    refine ⟨?_, ?_, ?_⟩
    · exact (RemoveReorderContainers_frame _).1.trans hu.1
    · intro ha
      have : (RemoveReorderContainers
          (EndElement.script s element).leaveBody).added_containers_ = false :=
        RemoveReorderContainers_added _
      change (RemoveReorderContainers
          (EndElement.script s element).leaveBody).added_containers_ = true
        at ha
      rw [this] at ha
      exact absurd ha (by decide)
    · intro hd
      have : (RemoveReorderContainers (EndElement.script s element).leaveBody
          ).body_element_depth_ = 0 := by
        rw [RemoveReorderContainers_body_element_depth]; exact h0'
      change 0 < (RemoveReorderContainers
          (EndElement.script s element).leaveBody).body_element_depth_ at hd
      omega
  · cases hstep
    refine hu.of_same rfl ?_
    intro hd
    change 0 < (EndElement.script s element).body_element_depth_ - 1 at hd
    omega
  · cases hstep
    exact hu.of_same (containerState_of_keeps (Keeps.styleAndViewport _ _))
      (by rw [AddStyleAndViewport_body_element_depth]; exact id)
  · exact hu.of_same (containerState_HandleEndTagInBody _ _ _ hstep)
      (by rw [HandleEndTagInBody_body_element_depth _ _ _ hstep]; exact id)
  · cases hstep
    exact hu
  · cases hstep
    exact hu

theorem ContainersReady.along (events : List Event) (s s1 : State)
    (h : ContainersReady s) (hrun : run s events = some s1) :
    ContainersReady s1 := by
  induction events generalizing s with
  | nil =>
    simp only [run, Option.some.injEq] at hrun
    subst hrun
    exact h
  | cons ev events ih =>
    cases ev with
    | StartElement element =>
      simp only [run, step] at hrun
      exact ih _ (ContainersReady.at_open s element h) hrun
    | Characters c =>
      simp only [run, step] at hrun
      exact ih _ (h.of_same (containerState_of_keeps (Keeps.characters s c))
        (by rw [Characters_body_element_depth]; exact id)) hrun
    | EndElement element =>
      simp only [run, step] at hrun
      cases hstep : EndElement s element with
      | none => simp [hstep] at hrun
      | some s2 =>
        simp only [hstep] at hrun
        exact ih _ (ContainersReady.at_close s s2 element h hstep) hrun

/-! ## The containers are in place inside the body: the claim -/

/-- C26: in self-restructure mode, from a state outside the body with no
container added (the `StartDocument` state), after every stream of events
that leaves the filter inside the body, `added_containers_` is set and
`mobile_role_containers_` holds five consecutive nodes, those
`AddReorderContainers` made; every valid level is an index into it and
`MobileRoleToContainer` returns the container at that index, which is not
null. So the only way `HandleEndTagInBody` can fail there is `pop_back` on an
empty `element_roles_stack_`: the lookup of the container never fails. -/
theorem containers_ready_at_lookup (pre : List Event) (s0 s : State)
    (hcxx : s0.use_cxx_layout_ = true)
    (hdepth : s0.body_element_depth_ = 0)
    (hadded : s0.added_containers_ = false)
    (hrun : run s0 pre = some s)
    (hbody : 0 < s.body_element_depth_) :
    s.use_cxx_layout_ = true ∧ s.added_containers_ = true ∧
    ∃ n, s.mobile_role_containers_ = [n, n + 1, n + 2, n + 3, n + 4] ∧
      (∀ l : Level, l ≠ .kInvalid →
        MobileRoleToContainer s l = some (some (n + l.toNat))) ∧
      (∀ element, HandleEndTagInBody s element = none →
        s.reached_reorder_containers_ = false ∧
        GetMobileRole element ≠ .kInvalid ∧
        s.element_roles_stack_ = []) := by
  have h0 : ContainersReady s0 :=
    ⟨hcxx, fun h => absurd (hadded.symm.trans h) (by decide),
      fun h => by omega⟩
  obtain ⟨r1, r2, r3⟩ := ContainersReady.along pre s0 s h0 hrun
  obtain ⟨n, hn⟩ := r2 (r3 hbody)
  have hM : ∀ l : Level, l ≠ .kInvalid →
      MobileRoleToContainer s l = some (some (n + l.toNat)) := by
    intro l hl
    cases l <;>
      first
      | exact absurd rfl hl
      | simp [MobileRoleToContainer, hn, Level.toNat]
  refine ⟨r1, r3 hbody, n, hn, hM, ?_⟩
  intro element hnone
  by_cases hreach : s.reached_reorder_containers_ = true
  · simp [HandleEndTagInBody, hreach] at hnone
  · have hreach : s.reached_reorder_containers_ = false := by simpa using hreach
    by_cases hvalid : GetMobileRole element = .kInvalid
    · simp only [HandleEndTagInBody, hreach, hvalid] at hnone
      simp only [bne_self_eq_false, Bool.false_eq_true, if_false] at hnone
      split_ifs at hnone
    · refine ⟨hreach, hvalid, ?_⟩
      cases hstack : s.element_roles_stack_ with
      | nil => rfl
      | cons own below =>
        have hc : s.mobile_role_containers_[(GetMobileRole element).toNat]?
            = some (n + (GetMobileRole element).toNat) := by
          have := hM _ hvalid
          simp only [MobileRoleToContainer, hvalid, if_false] at this
          split at this
          · rename_i c hc
            simp only [Option.some.injEq] at this
            rw [hc, this]
          · exact absurd this (by simp)
        rw [HandleEndTagInBody_role s element own below _ hreach hvalid hstack
          hc] at hnone
        exact absurd hnone (by simp)

theorem containers_ready_at_lookup_witness :
    insideContentDiv.use_cxx_layout_ = true ∧
    insideContentDiv.added_containers_ = true ∧
    ∃ n, insideContentDiv.mobile_role_containers_
        = [n, n + 1, n + 2, n + 3, n + 4] ∧
      (∀ l : Level, l ≠ .kInvalid →
        MobileRoleToContainer insideContentDiv l = some (some (n + l.toNat))) ∧
      (∀ element, HandleEndTagInBody insideContentDiv element = none →
        insideContentDiv.reached_reorder_containers_ = false ∧
        GetMobileRole element ≠ .kInvalid ∧
        insideContentDiv.element_roles_stack_ = []) :=
  containers_ready_at_lookup (tableDocument.take 2) exampleStart
    insideContentDiv (by decide) (by decide) (by decide) (by decide)
    (by decide)

/-! ## The whitelist stack of the navigational subtrees: lemmas -/

theorem openWhitelisted_of_navDepth (opened : List HtmlElement)
    (h : navDepth opened = 0) : openWhitelisted opened = 0 := by
  induction opened with
  | nil => rfl
  | cons element below ih =>
    simp only [navDepth] at h
    have hb : navDepth below = 0 := by omega
    simp [openWhitelisted, whitelisted, hb, ih hb]

theorem navDepth_cons_of_not (element : HtmlElement) (below : List HtmlElement)
    (h : opensNavigation element below = false) :
    navDepth (element :: below) = navDepth below := by
  simp [navDepth, h]

theorem openWhitelisted_cons_of_not (element : HtmlElement)
    (below : List HtmlElement) (h : whitelisted element below = false) :
    openWhitelisted (element :: below) = openWhitelisted below := by
  simp [openWhitelisted, h]

theorem NavTraversal.of_navState {s s1 : State}
    {opened opened1 : List HtmlElement} (h : NavTraversal s opened)
    (hs : navState s1 = navState s) (hn : navDepth opened1 = navDepth opened)
    (hw : openWhitelisted opened1 = openWhitelisted opened) :
    NavTraversal s1 opened1 := by
  simp only [navState, Prod.mk.injEq] at hs
  exact ⟨by rw [hs.2.2, h.1, hn], by rw [hs.2.1, h.2, hw]⟩

theorem navState_deleteElementSavingChildren (s : State)
    (element : HtmlElement) (msg : String) :
    navState (deleteElementSavingChildren s element msg) = navState s := by
  unfold deleteElementSavingChildren
  split <;> rfl

theorem navState_table (s : State) (element : HtmlElement) :
    navState (HandleStartTagInBody.table s element) = navState s := by
  unfold HandleStartTagInBody.table
  dsimp only
  rw [navState_deleteElementSavingChildren]
  split <;> rfl

theorem role_nav (s : State) (element : HtmlElement) :
    (HandleStartTagInBody.role s element).nav_element_depth_
      = s.nav_element_depth_ +
        (if GetMobileRole element = .kNavigational then 1 else 0) ∧
    (HandleStartTagInBody.role s element).nav_keyword_stack_
      = if GetMobileRole element = .kNavigational ∧ s.nav_element_depth_ = 0
        then [] else s.nav_keyword_stack_ := by
  unfold HandleStartTagInBody.role
  dsimp only
  by_cases hr : GetMobileRole element = .kNavigational
  · by_cases h0 : s.nav_element_depth_ = 0
    · simp [hr, h0]
    · have h1 : ¬ s.nav_element_depth_ + 1 = 1 := by omega
      simp [hr, h0, h1]
  · simp [hr]

theorem startNav_nav (s : State) (element : HtmlElement) :
    (HandleStartTagInBody.nav s element).nav_element_depth_
      = s.nav_element_depth_ ∧
    (HandleStartTagInBody.nav s element).nav_keyword_stack_
      = if element.keyword = .kA then Keyword.kA :: s.nav_keyword_stack_
        else s.nav_keyword_stack_ := by
  have hpre : CheckForKeyword kPreserveNavTags kPreserveNavTags.length
      element.keyword = decide (element.keyword = .kA) := by
    rw [CheckForKeyword_kPreserveNavTags]; simp [kPreserveNavTags]
  have hdel : ∀ (t : State) (msg : String),
      (deleteElementSavingChildren t element msg).nav_element_depth_
        = t.nav_element_depth_ ∧
      (deleteElementSavingChildren t element msg).nav_keyword_stack_
        = t.nav_keyword_stack_ := by
    intro t msg
    unfold deleteElementSavingChildren
    split <;> exact ⟨rfl, rfl⟩
  unfold HandleStartTagInBody.nav
  dsimp only
  rw [hpre]
  by_cases ha : element.keyword = .kA
  · simp [ha]
  · simp only [ha, decide_False, Bool.false_eq_true, if_false]
    split
    · exact hdel _ _
    · exact ⟨rfl, rfl⟩

theorem leave_nav (s : State) (r : Level) (popped : List Level) :
    (HandleEndTagInBody.leave s r popped).nav_element_depth_
      = s.nav_element_depth_ - (if r = .kNavigational then 1 else 0) ∧
    (HandleEndTagInBody.leave s r popped).nav_keyword_stack_
      = s.nav_keyword_stack_ := by
  unfold HandleEndTagInBody.leave
  dsimp only
  by_cases hr : r = .kNavigational <;> simp [hr]

theorem move_nav (s : State) (element : HtmlElement) (r : Level) (c : Nat) :
    (HandleEndTagInBody.move s element r c).nav_element_depth_
      = s.nav_element_depth_ ∧
    (HandleEndTagInBody.move s element r c).nav_keyword_stack_
      = s.nav_keyword_stack_ := by
  unfold HandleEndTagInBody.move
  split_ifs
  · cases r <;> exact ⟨rfl, rfl⟩
  · exact ⟨rfl, rfl⟩

theorem endNav_nav (s : State) (element : HtmlElement) :
    (HandleEndTagInBody.nav s element).nav_element_depth_
      = s.nav_element_depth_ ∧
    (HandleEndTagInBody.nav s element).nav_keyword_stack_
      = if s.nav_keyword_stack_.head? = some element.keyword then
          s.nav_keyword_stack_.tail
        else s.nav_keyword_stack_ := by
  unfold HandleEndTagInBody.nav
  dsimp only
  cases hst : s.nav_keyword_stack_ with
  | nil => simp [hst]
  | cons k rest =>
    by_cases hk : k = element.keyword <;> simp [hk, hst]

theorem preserve_of_table (k : Keyword)
    (h : CheckForKeyword kTableTags kTableTags.length k = true) :
    CheckForKeyword kPreserveNavTags kPreserveNavTags.length k = false := by
  rw [CheckForKeyword_kTableTags] at h
  rw [CheckForKeyword_kPreserveNavTags]
  revert h
  cases k <;> decide

/-- The navigational invariant through an open event. -/
theorem NavTraversal.at_start (fresh : Nat) (s : State)
    (opened : List HtmlElement) (element : HtmlElement)
    (hinv : Traversal fresh s opened) (hnav : NavTraversal s opened)
    (hsrc : SourceElement fresh element) :
    NavTraversal (StartElement s element) (element :: opened) := by
  obtain ⟨hcxx, hreach, hnext, hcont, hdepth, hstack⟩ := hinv
  obtain ⟨hid, hclean⟩ := hsrc
  have hpre : CheckForKeyword kPreserveNavTags kPreserveNavTags.length
      element.keyword = decide (element.keyword = .kA) := by
    rw [CheckForKeyword_kPreserveNavTags]; simp [kPreserveNavTags]
  rw [StartElement_cxx s element hcxx]
  by_cases hv : StartElement.isViewportMeta element = true
  · have hk := isViewportMeta_keyword element hv
    have hrole : GetMobileRole element = .kInvalid := by
      by_contra hne
      have := (hclean hne).2
      rw [hv] at this; cases this
    rw [if_pos hv]
    refine hnav.of_navState (navState_viewport s element)
      (navDepth_cons_of_not _ _ ?_) (openWhitelisted_cons_of_not _ _ ?_)
    · simp [opensNavigation, pushesRole, hrole]
    · have hp : CheckForKeyword kPreserveNavTags kPreserveNavTags.length
          element.keyword = false := by rw [hpre, hk]; rfl
      simp [whitelisted, hp]
  · rw [if_neg hv]
    by_cases hb : element.keyword = .kBody
    · rw [if_pos hb]
      refine hnav.of_navState (navState_AddReorderContainers _ _)
        (navDepth_cons_of_not _ _ ?_) (openWhitelisted_cons_of_not _ _ ?_)
      · simp [opensNavigation, pushesRole, hb]
      · have hp : CheckForKeyword kPreserveNavTags kPreserveNavTags.length
            element.keyword = false := by rw [hpre, hb]; rfl
        simp [whitelisted, hp]
    · rw [if_neg hb]
      by_cases hd : 0 < s.body_element_depth_
      · rw [if_pos hd]
        have hcont' : IsReorderContainer s element = false :=
          IsReorderContainer_fresh fresh _ element hcont hid
        have hpos : 0 < openBodies opened := by omega
        by_cases hrole : GetMobileRole element = .kInvalid
        · have hno : opensNavigation element opened = false := by
            simp [opensNavigation, pushesRole, hrole]
          by_cases htable : CheckForKeyword kTableTags kTableTags.length
              element.keyword = true
          · rw [HandleStartTagInBody_eq_table s element hreach hcont' htable]
            refine hnav.of_navState (navState_table s element)
              (navDepth_cons_of_not _ _ hno)
              (openWhitelisted_cons_of_not _ _ ?_)
            simp [whitelisted, preserve_of_table _ htable]
          · have htable : CheckForKeyword kTableTags kTableTags.length
                element.keyword = false := by simpa using htable
            by_cases hn : 0 < s.nav_element_depth_
            · rw [HandleStartTagInBody_eq_nav s element hreach hcont' htable
                hrole hn]
              obtain ⟨n1, n2⟩ := startNav_nav s element
              have hnd : 0 < navDepth opened := by
                have := hnav.1; omega
              refine ⟨by rw [n1, hnav.1, navDepth_cons_of_not _ _ hno], ?_⟩
              rw [n2, hnav.2]
              by_cases ha : element.keyword = .kA
              · have hp : CheckForKeyword kPreserveNavTags
                    kPreserveNavTags.length element.keyword = true := by
                  rw [hpre]; simpa using ha
                have hw : whitelisted element opened = true := by
                  simp [whitelisted, hp, hrole, hpos, hnd]
                simp [ha, openWhitelisted, hw, List.replicate_succ,
                  Nat.add_comm]
              · have hp : CheckForKeyword kPreserveNavTags
                    kPreserveNavTags.length element.keyword = false := by
                  rw [hpre]; simpa using ha
                have hw : whitelisted element opened = false := by
                  simp [whitelisted, hp]
                simp [ha, openWhitelisted, hw]
            · rw [HandleStartTagInBody_eq_unimportant s element hreach hcont'
                htable hrole hn]
              have hnd : navDepth opened = 0 := by
                have := hnav.1; omega
              have hs : navState (if s.element_roles_stack_ = [] then
                  deleteElementSavingChildren s element
                    "Deleted element which did not have a mobile role: "
                  else s) = navState s := by
                split
                · exact navState_deleteElementSavingChildren _ _ _
                · rfl
              refine hnav.of_navState hs (navDepth_cons_of_not _ _ hno)
                (openWhitelisted_cons_of_not _ _ ?_)
              simp [whitelisted, hnd]
        · have htable := (hclean hrole).1
          rw [HandleStartTagInBody_eq_role _ element hreach hcont' htable hrole]
          obtain ⟨r1, r2⟩ := role_nav s element
          have hw : whitelisted element opened = false := by
            simp [whitelisted, hrole]
          have hon : opensNavigation element opened
              = decide (GetMobileRole element = .kNavigational) := by
            have h1 : (element.keyword != Keyword.kBody) = true := by
              simpa using hb
            have h2 : (GetMobileRole element != Level.kInvalid) = true := by
              simpa using hrole
            simp only [opensNavigation, pushesRole, h1, h2, hpos, decide_True,
              Bool.true_and]
            by_cases hr : GetMobileRole element = .kNavigational <;> simp [hr]
          refine ⟨?_, ?_⟩
          · rw [r1, hnav.1]
            by_cases hr : GetMobileRole element = .kNavigational
            · simp [navDepth, hon, hr]; omega
            · simp [navDepth, hon, hr]
          · rw [r2, openWhitelisted_cons_of_not _ _ hw]
            by_cases hc : GetMobileRole element = .kNavigational ∧
                s.nav_element_depth_ = 0
            · rw [if_pos hc]
              have hnd : navDepth opened = 0 := by
                have := hnav.1; omega
              rw [openWhitelisted_of_navDepth _ hnd]
              rfl
            · rw [if_neg hc]
              exact hnav.2
      · rw [if_neg hd]
        have hzero : openBodies opened = 0 := by omega
        refine hnav.of_navState rfl (navDepth_cons_of_not _ _ ?_)
          (openWhitelisted_cons_of_not _ _ ?_)
        · simp [opensNavigation, hzero]
        · simp [whitelisted, hzero]

/-- The navigational invariant through a close event. -/
theorem NavTraversal.at_end (fresh : Nat) (s s1 : State)
    (opened : List HtmlElement) (element : HtmlElement)
    (hinv : Traversal fresh s (element :: opened))
    (hnav : NavTraversal s (element :: opened))
    (h : EndElement s element = some s1) :
    NavTraversal s1 opened := by
  have hs : Traversal fresh (EndElement.script s element) (element :: opened) :=
    hinv.keeps _ _ (Keeps.script s element) rfl rfl
  have hsn : NavTraversal (EndElement.script s element) (element :: opened) :=
    hnav.of_navState (navState_script s element) rfl rfl
  have hsd : (EndElement.script s element).body_element_depth_
      = openBodies (element :: opened) := hs.2.2.2.2.1
  have hpre : CheckForKeyword kPreserveNavTags kPreserveNavTags.length
      element.keyword = decide (element.keyword = .kA) := by
    rw [CheckForKeyword_kPreserveNavTags]; simp [kPreserveNavTags]
  unfold EndElement at h
  dsimp only at h
  by_cases hb : element.keyword = .kBody
  · have hn : navDepth (element :: opened) = navDepth opened :=
      navDepth_cons_of_not _ _ (by simp [opensNavigation, pushesRole, hb])
    have hw : openWhitelisted (element :: opened) = openWhitelisted opened := by
      have hp : CheckForKeyword kPreserveNavTags kPreserveNavTags.length
          element.keyword = false := by rw [hpre, hb]; rfl
      exact openWhitelisted_cons_of_not _ _ (by simp [whitelisted, hp])
    simp only [hb, beq_self_eq_true, if_true] at h
    split_ifs at h
    · cases h
      exact hsn.of_navState
        (navState_addScripts (EndElement.script s element).leaveBody element)
        hn.symm hw.symm
    · cases h
      exact hsn.of_navState
        (navState_RemoveReorderContainers
          (EndElement.script s element).leaveBody)
        hn.symm hw.symm
    · cases h
      exact hsn.of_navState rfl hn.symm hw.symm
  · have hob : openBodies (element :: opened) = openBodies opened := by
      rw [openBodies_cons_nat]; simp [hb]
    have hbk : (element.keyword == Keyword.kBody) = false := by simpa using hb
    have hout : openBodies opened = 0 →
        navDepth (element :: opened) = navDepth opened ∧
        openWhitelisted (element :: opened) = openWhitelisted opened := by
      intro hzero
      exact ⟨navDepth_cons_of_not _ _ (by simp [opensNavigation, hzero]),
        openWhitelisted_cons_of_not _ _ (by simp [whitelisted, hzero])⟩
    simp only [hbk, Bool.false_eq_true, if_false] at h
    split_ifs at h with h1 h2 h3
    · cases h
      have hzero : openBodies opened = 0 := by
        simp only [Bool.and_eq_true, beq_iff_eq] at h1
        have := h1.1
        rw [hsd, hob] at this
        exact_mod_cast this
      exact hsn.of_navState (navState_AddStyleAndViewport _ element)
        (hout hzero).1.symm (hout hzero).2.symm
    · have hpos : 0 < openBodies opened := by
        rw [hsd, hob] at h2
        exact_mod_cast h2
      have hreach := hs.2.1
      by_cases hvalid : GetMobileRole element = .kInvalid
      · have hn : navDepth (element :: opened) = navDepth opened :=
          navDepth_cons_of_not _ _
            (by simp [opensNavigation, pushesRole, hvalid])
        simp only [HandleEndTagInBody, hreach, hvalid] at h
        simp only [bne_self_eq_false, Bool.false_eq_true, if_false] at h
        split_ifs at h with hnavpos
        · cases h
          obtain ⟨n1, n2⟩ := endNav_nav (EndElement.script s element) element
          have hnd : 0 < navDepth opened := by
            have := hsn.1; rw [hn] at this; omega
          refine ⟨by rw [n1, hsn.1, hn], ?_⟩
          rw [n2, hsn.2]
          by_cases ha : element.keyword = .kA
          · have hp : CheckForKeyword kPreserveNavTags
                kPreserveNavTags.length element.keyword = true := by
              rw [hpre]; simpa using ha
            have hw : whitelisted element opened = true := by
              simp [whitelisted, hp, hvalid, hpos, hnd]
            simp [openWhitelisted, hw, ha, List.replicate_succ, Nat.add_comm]
          · have hp : CheckForKeyword kPreserveNavTags
                kPreserveNavTags.length element.keyword = false := by
              rw [hpre]; simpa using ha
            have hw : whitelisted element opened = false := by
              simp [whitelisted, hp]
            rw [openWhitelisted_cons_of_not _ _ hw]
            cases hcount : openWhitelisted opened with
            | zero => simp
            | succ c =>
              have : ¬ Keyword.kA = element.keyword := fun hx => ha hx.symm
              simp [List.replicate_succ, this]
        · cases h
          have hnd : navDepth opened = 0 := by
            have := hsn.1; rw [hn] at this; omega
          refine hsn.of_navState rfl hn.symm
            (openWhitelisted_cons_of_not _ _ ?_).symm
          simp [whitelisted, hnd]
      · rcases HandleEndTagInBody_inv _ s1 element h with
          ⟨hr, _⟩ | ⟨_, _, own, below, c, _, _, rfl⟩ | ⟨_, hinvalid, _⟩
        · rw [hreach] at hr; cases hr
        · obtain ⟨m1, m2⟩ := move_nav (HandleEndTagInBody.leave
            (EndElement.script s element) (GetMobileRole element) below)
            element (GetMobileRole element) c
          obtain ⟨l1, l2⟩ := leave_nav (EndElement.script s element)
            (GetMobileRole element) below
          have hw : whitelisted element opened = false := by
            simp [whitelisted, hvalid]
          have h1 : (element.keyword != Keyword.kBody) = true := by
            simpa using hb
          have h2 : (GetMobileRole element != Level.kInvalid) = true := by
            simpa using hvalid
          refine ⟨?_, ?_⟩
          · rw [m1, l1, hsn.1]
            by_cases hr : GetMobileRole element = .kNavigational
            · simp [navDepth, opensNavigation, pushesRole, h1, h2, hpos, hr]
            · simp [navDepth, opensNavigation, pushesRole, h1, h2, hpos, hr]
          · rw [m2, l2, hsn.2, openWhitelisted_cons_of_not _ _ hw]
        · exact absurd hinvalid hvalid
    · exact absurd hs.1 h3
    · cases h
      have hzero : openBodies opened = 0 := by
        have : ¬ (0 : Int) < openBodies opened := by
          rw [hsd, hob] at h2; exact h2
        omega
      exact hsn.of_navState rfl (hout hzero).1.symm (hout hzero).2.symm

/-- The navigational invariant along every stream of source elements. -/
theorem NavTraversal.through (fresh : Nat) (events : List Event)
    (s s1 : State) (opened opened1 : List HtmlElement)
    (hsrc : ∀ element ∈ elementsOf events, SourceElement fresh element)
    (hopen : openElements opened events = some opened1)
    (hrun : run s events = some s1)
    (hinv : Traversal fresh s opened) (hnav : NavTraversal s opened) :
    NavTraversal s1 opened1 := by
  induction events generalizing s opened with
  | nil =>
    simp only [openElements, run, Option.some.injEq] at hopen hrun
    subst hopen; subst hrun; exact hnav
  | cons ev events ih =>
    cases ev with
    | StartElement element =>
      simp only [openElements, run, step] at hopen hrun
      have hse := hsrc element (List.mem_cons_self _ _)
      exact ih _ _ (fun e he => hsrc e (List.mem_cons_of_mem _ he)) hopen hrun
        (Traversal.startElement fresh s opened element hinv hse)
        (NavTraversal.at_start fresh s opened element hinv hnav hse)
    | Characters c =>
      simp only [openElements, run, step] at hopen hrun
      exact ih _ _ hsrc hopen hrun (Traversal.textNode fresh s opened c hinv)
        (hnav.of_navState (navState_Characters s c) rfl rfl)
    | EndElement element =>
      cases opened with
      | nil => simp [openElements] at hopen
      | cons top below =>
        simp only [openElements] at hopen
        split_ifs at hopen with htop
        subst htop
        simp only [run, step] at hrun
        cases hstep : EndElement s top with
        | none => simp [hstep] at hrun
        | some s2 =>
          simp only [hstep] at hrun
          exact ih _ _ hsrc hopen hrun
            (Traversal.endElement fresh s s2 below top hinv hstep)
            (NavTraversal.at_end fresh s s2 below top hinv hnav hstep)

/-! ## Lookup in the keyword tables: lemmas -/

theorem Keyword.ord_injective (a b : Keyword) (h : a.ord = b.ord) : a = b := by
  revert h
  cases a <;> cases b <;> decide

/-- A list passes `CheckKeywordsSorted` exactly when each element is below
the next one. -/
theorem CheckKeywordsSorted_iff (list : List Keyword) :
    CheckKeywordsSorted list list.length = true ↔
      ∀ i, 1 ≤ i → i < list.length →
        (list.getD (i - 1) default).ord < (list.getD i default).ord := by
  simp only [CheckKeywordsSorted, List.all_eq_true, List.mem_range'_1,
    decide_eq_true_eq]
  constructor
  · intro h i h1 h2
    exact h i ⟨h1, by omega⟩
  · intro h i hi
    exact h i hi.1 (by omega)

/-- In a list that passes `CheckKeywordsSorted` an element is below every
later one. -/
theorem increasing_of_adjacent (list : List Keyword)
    (h : ∀ i, 1 ≤ i → i < list.length →
      (list.getD (i - 1) default).ord < (list.getD i default).ord)
    (i j : Nat) (hij : i < j) (hj : j < list.length) :
    (list.getD i default).ord < (list.getD j default).ord := by
  induction j with
  | zero => omega
  | succ j ih =>
    have hadj := h (j + 1) (by omega) hj
    simp only [Nat.add_sub_cancel] at hadj
    by_cases hlt : i < j
    · exact Nat.lt_trans (ih hlt (by omega)) hadj
    · have : i = j := by omega
      subst this
      exact hadj

theorem increasing_iff_pairwise (list : List Keyword) :
    list.Pairwise (fun a b => a.ord < b.ord) ↔
      ∀ i j, i < j → j < list.length →
        (list.getD i default).ord < (list.getD j default).ord := by
  rw [List.pairwise_iff_getElem]
  constructor
  · intro h i j hij hj
    have hi : i < list.length := by omega
    rw [List.getD_eq_getElem _ _ hi, List.getD_eq_getElem _ _ hj]
    exact h i j hi hj hij
  · intro h i j hi hj hij
    have := h i j hij hj
    rwa [List.getD_eq_getElem _ _ hi, List.getD_eq_getElem _ _ hj] at this

/-- The loop of `std::lower_bound` on an increasing list, with enough fuel:
it returns the partition point of `keyword`. -/
theorem lowerBound_partition (sorted_list : List Keyword) (keyword : Keyword)
    (hs : ∀ i j, i < j → j < sorted_list.length →
      (sorted_list.getD i default).ord < (sorted_list.getD j default).ord)
    (fuel : Nat) :
    ∀ first count, count ≤ fuel → first + count ≤ sorted_list.length →
      (∀ i, i < first → (sorted_list.getD i default).ord < keyword.ord) →
      (∀ i, first + count ≤ i → i < sorted_list.length →
        keyword.ord ≤ (sorted_list.getD i default).ord) →
      first ≤ lowerBound sorted_list keyword fuel first count ∧
      lowerBound sorted_list keyword fuel first count ≤ first + count ∧
      (∀ i, i < lowerBound sorted_list keyword fuel first count →
        (sorted_list.getD i default).ord < keyword.ord) ∧
      (∀ i, lowerBound sorted_list keyword fuel first count ≤ i →
        i < sorted_list.length →
        keyword.ord ≤ (sorted_list.getD i default).ord) := by
  induction fuel with
  | zero =>
    intro first count hc hlen hlo hhi
    have : count = 0 := by omega
    subst this
    exact ⟨Nat.le_refl _, by simp [lowerBound], by simpa [lowerBound] using hlo,
      by simpa [lowerBound] using hhi⟩
  | succ fuel ih =>
    intro first count hc hlen hlo hhi
    unfold lowerBound
    by_cases hpos : 0 < count
    · simp only [hpos, if_true]
      by_cases hlt : (sorted_list.getD (first + count / 2) default).ord
          < keyword.ord
      · simp only [hlt, if_true]
        obtain ⟨r1, r2, r3, r4⟩ := ih (first + count / 2 + 1)
          (count - (count / 2 + 1)) (by omega) (by omega)
          (by
            intro i hi
            by_cases heq : i = first + count / 2
            · rw [heq]; exact hlt
            · exact Nat.lt_trans
                (hs i (first + count / 2) (by omega) (by omega)) hlt)
          (by
            intro i hi hil
            exact hhi i (by omega) hil)
        exact ⟨by omega, by omega, r3, r4⟩
      · simp only [hlt, if_false]
        obtain ⟨r1, r2, r3, r4⟩ := ih first (count / 2) (by omega) (by omega)
          hlo
          (by
            intro i hi hil
            by_cases heq : i = first + count / 2
            · rw [heq]; omega
            · have := hs (first + count / 2) i (by omega) hil
              omega)
        exact ⟨r1, by omega, r3, r4⟩
    · simp only [hpos, if_false]
      have : count = 0 := by omega
      subst this
      exact ⟨Nat.le_refl _, Nat.le_refl _, hlo, hhi⟩

/-- On an increasing list `CheckForKeyword` is membership. -/
theorem CheckForKeyword_of_increasing (sorted_list : List Keyword)
    (keyword : Keyword)
    (hs : ∀ i j, i < j → j < sorted_list.length →
      (sorted_list.getD i default).ord < (sorted_list.getD j default).ord) :
    CheckForKeyword sorted_list sorted_list.length keyword = true ↔
      keyword ∈ sorted_list := by
  obtain ⟨_, r2, r3, r4⟩ := lowerBound_partition sorted_list keyword hs
    sorted_list.length 0 sorted_list.length (Nat.le_refl _) (by omega)
    (by intro i hi; omega) (by intro i hi hil; omega)
  simp only [CheckForKeyword, Bool.and_eq_true, bne_iff_ne, ne_eq,
    Bool.not_eq_true', decide_eq_false_iff_not, Nat.not_lt]
  generalize lowerBound sorted_list keyword sorted_list.length 0
    sorted_list.length = r at r2 r3 r4
  constructor
  · rintro ⟨hne, hle⟩
    have hr : r < sorted_list.length := by omega
    have hge := r4 r (Nat.le_refl _) hr
    have heq : sorted_list.getD r default = keyword :=
      Keyword.ord_injective _ _ (by omega)
    rw [List.getD_eq_getElem _ _ hr] at heq
    rw [← heq]
    exact List.getElem_mem _
  · intro hmem
    obtain ⟨j, hj, hjk⟩ := List.getElem_of_mem hmem
    have hjd : sorted_list.getD j default = keyword := by
      rw [List.getD_eq_getElem _ _ hj]; exact hjk
    have hrj : r ≤ j := by
      by_contra hcon
      have := r3 j (by omega)
      rw [hjd] at this
      omega
    refine ⟨by omega, ?_⟩
    by_cases heq : r = j
    · rw [heq, hjd]
    · have := hs r j (by omega) hj
      rw [hjd] at this
      omega

/-! ## Lookup in the keyword tables: the claim -/

/-- C31: for every keyword list that is strictly increasing in keyword
order and every keyword `k`, the list passes `CheckKeywordsSorted` and
`CheckForKeyword(list, len, k)`, with `len` the length of the list, is true
if and only if `k` occurs in the list. Each of the four tables
`kKeeperTags`, `kPreserveNavTags`, `kTableTags` and `kTableTagsToBr` is
strictly increasing, so the lookup in each of them is set membership. -/
theorem CheckForKeyword_membership (sorted_list : List Keyword)
    (keyword : Keyword)
    (hsorted : sorted_list.Pairwise (fun a b => a.ord < b.ord)) :
    CheckKeywordsSorted sorted_list sorted_list.length = true ∧
    (CheckForKeyword sorted_list sorted_list.length keyword = true ↔
      keyword ∈ sorted_list) ∧
    (kKeeperTags.Pairwise (fun a b => a.ord < b.ord) ∧
      kPreserveNavTags.Pairwise (fun a b => a.ord < b.ord) ∧
      kTableTags.Pairwise (fun a b => a.ord < b.ord) ∧
      kTableTagsToBr.Pairwise (fun a b => a.ord < b.ord)) ∧
    (CheckKeywordsSorted kKeeperTags kNumKeeperTags = true ∧
      CheckKeywordsSorted kPreserveNavTags kPreserveNavTags.length = true ∧
      CheckKeywordsSorted kTableTags kTableTags.length = true ∧
      CheckKeywordsSorted kTableTagsToBr kTableTagsToBr.length = true) ∧
    (∀ k, (CheckForKeyword kKeeperTags kNumKeeperTags k = true ↔
        k ∈ kKeeperTags) ∧
      (CheckForKeyword kPreserveNavTags kPreserveNavTags.length k = true ↔
        k ∈ kPreserveNavTags) ∧
      (CheckForKeyword kTableTags kTableTags.length k = true ↔
        k ∈ kTableTags) ∧
      (CheckForKeyword kTableTagsToBr kTableTagsToBr.length k = true ↔
        k ∈ kTableTagsToBr)) := by
  have hidx := (increasing_iff_pairwise sorted_list).1 hsorted
  have h1 : kKeeperTags.Pairwise (fun a b => a.ord < b.ord) := by decide
  have h2 : kPreserveNavTags.Pairwise (fun a b => a.ord < b.ord) := by decide
  have h3 : kTableTags.Pairwise (fun a b => a.ord < b.ord) := by decide
  have h4 : kTableTagsToBr.Pairwise (fun a b => a.ord < b.ord) := by decide
  refine ⟨?_, CheckForKeyword_of_increasing sorted_list keyword hidx,
    ⟨h1, h2, h3, h4⟩, ⟨by decide, by decide, by decide, by decide⟩, ?_⟩
  · rw [CheckKeywordsSorted_iff]
    intro i hi hlen
    exact hidx (i - 1) i (by omega) hlen
  · intro k
    exact ⟨CheckForKeyword_of_increasing kKeeperTags k
        ((increasing_iff_pairwise _).1 h1),
      CheckForKeyword_of_increasing kPreserveNavTags k
        ((increasing_iff_pairwise _).1 h2),
      CheckForKeyword_of_increasing kTableTags k
        ((increasing_iff_pairwise _).1 h3),
      CheckForKeyword_of_increasing kTableTagsToBr k
        ((increasing_iff_pairwise _).1 h4)⟩

theorem CheckForKeyword_membership_witness :
    [Keyword.kDiv, Keyword.kP, Keyword.kSpan].Pairwise
      (fun a b => a.ord < b.ord) ∧
    (CheckForKeyword [Keyword.kDiv, Keyword.kP, Keyword.kSpan] 3 .kP = true ↔
      Keyword.kP ∈ [Keyword.kDiv, Keyword.kP, Keyword.kSpan]) ∧
    CheckForKeyword [Keyword.kDiv, Keyword.kP, Keyword.kSpan] 3 .kP = true ∧
    CheckForKeyword [Keyword.kDiv, Keyword.kP, Keyword.kSpan] 3 .kA = false :=
  ⟨by decide,
   (CheckForKeyword_membership [Keyword.kDiv, Keyword.kP, Keyword.kSpan] .kP
      (by decide)).2.1,
   by decide, by decide⟩

/-! ## The prefix of the static files -/

/-- The test `starts_with(".")` on a string that is not empty looks at its
first character. -/
theorem startsWith_cons (c : Char) (rest : List Char) :
    (String.mk (c :: rest)).startsWith "." = decide (c = '.') := by
  have hnext : (String.mk (c :: rest)).next 0 = ⟨c.utf8Size⟩ := by
    simpa using String.next_of_valid [] c rest
  have hget : (String.mk (c :: rest)).get 0 = c := by
    simpa using String.get_of_valid [] (c :: rest)
  have hend : (String.mk (c :: rest)).endPos
      = ⟨String.utf8Len rest + c.utf8Size⟩ := by
    rw [String.endPos_eq, String.utf8Len_cons]
  have hpos := c.utf8Size_pos
  have hne : ¬ ((0 : String.Pos) = (String.mk (c :: rest)).endPos) := by
    rw [hend]
    intro h
    have := congrArg String.Pos.byteIdx h
    simp at this
    omega
  have hzero : (⟨0⟩ : String.Pos) + (0 : String.Pos) = 0 := rfl
  have hdot : ".".endPos.byteIdx = 1 := by decide
  have hsz : ((⟨0⟩ : String.Pos) + ⟨c.utf8Size - 0⟩).byteIdx.sub 0
      = c.utf8Size := by
    show 0 + (c.utf8Size - 0) - 0 = c.utf8Size
    omega
  have hone : Nat.sub 1 0 = 1 := rfl
  unfold String.startsWith
  show Substring.beq _ _ = _
  unfold Substring.beq
  simp only [String.toSubstring, Substring.take, Substring.nextn,
    Substring.next, Substring.bsize, String.length, List.length_singleton,
    hzero, hne, if_false, hnext, hdot, hsz, hone]
  by_cases h1 : c.utf8Size = 1
  · rw [h1]
    unfold String.substrEq
    rw [String.substrEq.loop]
    have hz : ((⟨0⟩ : String.Pos)) = 0 := rfl
    simp only [hz, hget, hend, hdot]
    have hget2 : ".".get 0 = '.' := by decide
    have hloop : ∀ (p q : String.Pos), 1 ≤ p.byteIdx →
        String.substrEq.loop (String.mk (c :: rest)) "." p q ⟨0 + 1⟩
          = true := by
      intro p q hp
      rw [String.substrEq.loop]
      have : ¬ p.byteIdx < (⟨0 + 1⟩ : String.Pos).byteIdx := by
        show ¬ p.byteIdx < 0 + 1
        omega
      rw [dif_neg this]
    rw [hget2, hloop _ _ (by rw [String.Pos.zero_addChar_byteIdx]; omega)]
    have h2 : 0 + 1 ≤ String.utf8Len rest + c.utf8Size := by omega
    have h3 : decide (0 + 1 ≤ String.utf8Len rest + c.utf8Size) = true :=
      decide_eq_true h2
    rw [h3]
    by_cases hc : c = '.' <;> simp [hc]
  · have hc : c ≠ '.' := by
      intro hc
      rw [hc] at h1
      exact h1 (by decide)
    simp [h1, hc]

/-- C38: for every proxy suffix (and all other arguments of the
constructor), `static_file_prefix_` is `//` followed by the suffix without
its first character followed by `/static/` when the suffix is not empty and
starts with a dot, and is empty otherwise: the constructor computes
`staticFilePrefixSpec`. The suffix `.suffix` gives `//suffix/static/`, the
suffixes `suffix` and the empty one give the empty prefix, and
`StartDocument` leaves the prefix as it is. -/
theorem static_file_prefix_of_suffix (rewrite_driver : RewriteDriver)
    (mob_layout mob_logo mob_nav : Bool) (proxy_suffix css : String) :
    (MobilizeRewriteFilter rewrite_driver mob_layout mob_logo mob_nav
      proxy_suffix css).static_file_prefix_
        = staticFilePrefixSpec proxy_suffix ∧
    (StartDocument (MobilizeRewriteFilter rewrite_driver mob_layout mob_logo
      mob_nav proxy_suffix css)).static_file_prefix_
        = staticFilePrefixSpec proxy_suffix ∧
    (MobilizeRewriteFilter rewrite_driver mob_layout mob_logo mob_nav
      ".suffix" css).static_file_prefix_ = "//suffix/static/" ∧
    (MobilizeRewriteFilter rewrite_driver mob_layout mob_logo mob_nav
      "suffix" css).static_file_prefix_ = "" ∧
    (MobilizeRewriteFilter rewrite_driver mob_layout mob_logo mob_nav
      "" css).static_file_prefix_ = "" := by
  have hspec : ∀ proxy_suffix : String,
      (MobilizeRewriteFilter rewrite_driver mob_layout mob_logo
        mob_nav proxy_suffix css).static_file_prefix_
          = staticFilePrefixSpec proxy_suffix := by
    intro proxy_suffix
    show (if (!proxy_suffix.isEmpty && proxy_suffix.startsWith ".") = true
      then "//" ++ proxy_suffix.drop 1 ++ "/static/" else "")
        = staticFilePrefixSpec proxy_suffix
    obtain ⟨cs⟩ := proxy_suffix
    cases cs with
    | nil => decide
    | cons c rest =>
      have hne : (String.mk (c :: rest)).isEmpty = false := by
        rw [Bool.eq_false_iff, ne_eq, String.isEmpty_iff]
        intro h
        have := congrArg String.data h
        simp at this
      have hdrop : (String.mk (c :: rest)).drop 1 = String.mk rest := by
        rw [String.drop_eq]
        rfl
      unfold staticFilePrefixSpec
      rw [hne, startsWith_cons, hdrop]
      by_cases hc : c = '.'
      · subst hc
        simp
      · simp [hc]
  exact ⟨hspec _, hspec _, (hspec _).trans (by decide),
    (hspec _).trans (by decide), (hspec _).trans (by decide)⟩

/-! ## The viewport meta at its open event -/

/-- C34: for every `meta` element whose `name` attribute is `viewport`, in
every state (either mode, any body depth), `StartElement` sets
`found_viewport_` and does nothing else when the content is
`width=device-width`, and otherwise issues `DeleteNode` on the element,
adds one to the deleted-elements counter and does nothing else. So the
element is deleted if and only if its content differs, and no other rule is
applied at its open event: both stacks, `nav_element_depth_`,
`body_element_depth_`, `reached_reorder_containers_` and the containers are
unchanged. -/
theorem viewport_meta_at_open (s : State) (element : HtmlElement)
    (name_attribute : Attribute)
    (hmeta : element.keyword = .kMeta)
    (hname : element.FindAttribute .kName = some name_attribute)
    (hviewport : StringPiece name_attribute.escaped_value = "viewport") :
    StartElement s element =
      (if StringPiece (element.AttributeValue .kContent) = kViewportContent
        then { s with found_viewport_ := true }
        else { s with
          driver_ := s.driver_.emit (.DeleteNode element.id)
          num_elements_deleted_ := s.num_elements_deleted_ + 1 }) ∧
    issued s (StartElement s element) =
      (if StringPiece (element.AttributeValue .kContent) = kViewportContent
        then [] else [Cmd.DeleteNode element.id]) ∧
    (Cmd.DeleteNode element.id ∈ issued s (StartElement s element) ↔
      StringPiece (element.AttributeValue .kContent) ≠ kViewportContent) ∧
    (StringPiece (element.AttributeValue .kContent) = kViewportContent →
      (StartElement s element).found_viewport_ = true) ∧
    (StringPiece (element.AttributeValue .kContent) ≠ kViewportContent →
      (StartElement s element).found_viewport_ = s.found_viewport_) ∧
    navState (StartElement s element) = navState s ∧
    (StartElement s element).body_element_depth_ = s.body_element_depth_ ∧
    (StartElement s element).reached_reorder_containers_
      = s.reached_reorder_containers_ ∧
    containerState (StartElement s element) = containerState s := by
  have hv : StartElement.isViewportMeta element = true := by
    simp [StartElement.isViewportMeta, hmeta, hname, hviewport]
  have hu : StartElement.unminify s element = s := by
    simp [StartElement.unminify, hmeta]
  have hstart : StartElement s element = StartElement.viewport s element := by
    simp [StartElement, hv, hu]
  rw [hstart]
  unfold StartElement.viewport
  by_cases hc : StringPiece (element.AttributeValue .kContent)
      = kViewportContent
  · simp [hc, issued, navState, containerState]
  · simp [hc, issued, navState, containerState, State.emit,
      RewriteDriver.emit]

theorem viewport_meta_at_open_witness :
    issued exampleStart (StartElement exampleStart
      (viewportElement "width=1024")) = [Cmd.DeleteNode 2] ∧
    issued insideBody (StartElement insideBody
      (viewportElement "width=device-width")) = [] ∧
    (StartElement insideBody
      (viewportElement "width=device-width")).found_viewport_ = true :=
  ⟨(viewport_meta_at_open exampleStart (viewportElement "width=1024")
      ⟨.kName, some "viewport", some "viewport"⟩ (by decide) (by decide)
      (by decide)).2.1.trans (by decide),
   (viewport_meta_at_open insideBody (viewportElement "width=device-width")
      ⟨.kName, some "viewport", some "viewport"⟩ (by decide) (by decide)
      (by decide)).2.1.trans (by decide),
   (viewport_meta_at_open insideBody (viewportElement "width=device-width")
      ⟨.kName, some "viewport", some "viewport"⟩ (by decide) (by decide)
      (by decide)).2.2.2.1 (by decide)⟩

/-! ## Elements with a valid role at their open event -/

/-- For an element with a valid role and no table tag `HandleStartTagInBody`
sends nothing to the driver and counts no deletion. -/
theorem HandleStartTagInBody_of_role (s : State) (element : HtmlElement)
    (hrole : GetMobileRole element ≠ .kInvalid)
    (htable : CheckForKeyword kTableTags kTableTags.length element.keyword
      = false) :
    (HandleStartTagInBody s element).driver_ = s.driver_ ∧
    (HandleStartTagInBody s element).num_elements_deleted_
      = s.num_elements_deleted_ := by
  by_cases hreach : s.reached_reorder_containers_ = true
  · simp [HandleStartTagInBody, hreach]
  · have hreach : s.reached_reorder_containers_ = false := by
      simpa using hreach
    by_cases hcont : IsReorderContainer s element = true
    · simp [HandleStartTagInBody, hreach, hcont]
    · have hcont : IsReorderContainer s element = false := by
        simpa using hcont
      rw [HandleStartTagInBody_eq_role s element hreach hcont htable hrole]
      unfold HandleStartTagInBody.role
      dsimp only
      split_ifs <;> exact ⟨rfl, rfl⟩

/-- The open event of an element with a valid role and no table tag that is
not a viewport meta issues no deletion and no move. -/
theorem StartElement_of_role (s : State) (element : HtmlElement)
    (hrole : GetMobileRole element ≠ .kInvalid)
    (htable : CheckForKeyword kTableTags kTableTags.length element.keyword
      = false)
    (hmeta : StartElement.isViewportMeta element = false) :
    Destroys s (StartElement s element) [] := by
  refine destroys_trans_nil (destroys_unminify s element) ?_
  unfold StartElement
  dsimp only
  rw [hmeta]
  simp only [Bool.false_eq_true, if_false]
  have h0 : Destroys (StartElement.unminify s element)
      (StartElement.unminify s element).enterBody [] :=
    destroys_of_driver rfl
  split_ifs
  · exact destroys_trans_nil h0 (destroys_AddReorderContainers
      (StartElement.unminify s element).enterBody element)
  · exact h0
  · exact destroys_of_driver (HandleStartTagInBody_of_role
      (StartElement.unminify s element) element hrole htable).1
  · exact destroys_refl (StartElement.unminify s element)
  · exact destroys_refl (StartElement.unminify s element)

theorem deletions_of_destroys {s s1 : State} (h : Destroys s s1 []) :
    (issued s s1).filter isDeletion = [] := by
  have h2 := (destroys_issued h).2
  rw [List.filter_eq_nil_iff] at h2 ⊢
  intro c hc hd
  refine h2 c hc ?_
  cases c <;> simp_all [isDeletion, isDestructive]

/-- C35, as the code has it: once the containers are reached
(`insideContainers`), an element annotated as content is not pushed by
`HandleStartTagInBody`; and a viewport meta with another content that is
annotated as content and opens in the body has a valid role and no table
tag, yet `StartElement` deletes it and pushes nothing. -/
theorem valid_role_not_deleted_counterexample :
    insideContainers.reached_reorder_containers_ = true ∧
    GetMobileRole (divElement 5 0 "content") = .kContent ∧
    CheckForKeyword kTableTags kTableTags.length
      (divElement 5 0 "content").keyword = false ∧
    (HandleStartTagInBody insideContainers
      (divElement 5 0 "content")).element_roles_stack_ = [] ∧
    0 < insideBody.body_element_depth_ ∧
    GetMobileRole annotatedViewportElement = .kContent ∧
    CheckForKeyword kTableTags kTableTags.length
      annotatedViewportElement.keyword = false ∧
    issued insideBody (StartElement insideBody annotatedViewportElement)
      = [Cmd.DeleteNode 5] ∧
    (StartElement insideBody annotatedViewportElement).element_roles_stack_
      = [] := by
  decide

/-- C35, amended: for an element with a valid role whose tag is not a table
tag, `HandleStartTagInBody` issues no command at all and counts no deletion,
in every state: also inside a navigational subtree with an empty
`nav_keyword_stack_` and without a role-bearing ancestor. It pushes the role
when the containers are not reached and the element is none of them;
otherwise it leaves the state as it is or only sets
`reached_reorder_containers_`. Unless the element is a viewport meta, its
open event issues no deletion either. No keeper tag is a table tag, and an
element with a keeper tag and no annotation has the role keeper and is no
viewport meta, so its open event never deletes it. -/
theorem valid_role_not_deleted (s : State) (element : HtmlElement)
    (hrole : GetMobileRole element ≠ .kInvalid)
    (htable : CheckForKeyword kTableTags kTableTags.length element.keyword
      = false) :
    issued s (HandleStartTagInBody s element) = [] ∧
    (HandleStartTagInBody s element).num_elements_deleted_
      = s.num_elements_deleted_ ∧
    (s.reached_reorder_containers_ = false →
      IsReorderContainer s element = false →
      HandleStartTagInBody s element = HandleStartTagInBody.role s element ∧
      (HandleStartTagInBody s element).element_roles_stack_
        = GetMobileRole element :: s.element_roles_stack_) ∧
    (s.reached_reorder_containers_ = true →
      HandleStartTagInBody s element = s) ∧
    (s.reached_reorder_containers_ = false →
      IsReorderContainer s element = true →
      HandleStartTagInBody s element
        = { s with reached_reorder_containers_ := true }) ∧
    (StartElement.isViewportMeta element = false →
      (issued s (StartElement s element)).filter isDeletion = []) ∧
    (∀ k ∈ kKeeperTags,
      CheckForKeyword kTableTags kTableTags.length k = false) ∧
    (∀ (t : State) (keeper : HtmlElement), keeper.keyword ∈ kKeeperTags →
      keeper.FindAttribute .kDataMobileRole = none →
      GetMobileRole keeper = .kKeeper ∧
      StartElement.isViewportMeta keeper = false ∧
      issued t (HandleStartTagInBody t keeper) = [] ∧
      (issued t (StartElement t keeper)).filter isDeletion = []) := by
  refine ⟨issued_of_driver
      (HandleStartTagInBody_of_role s element hrole htable).1,
    (HandleStartTagInBody_of_role s element hrole htable).2, ?_, ?_, ?_, ?_,
    fun k hk => (kKeeperTags_not_table k hk).1, ?_⟩
  · intro hreach hcont
    have heq := HandleStartTagInBody_eq_role s element hreach hcont htable
      hrole
    refine ⟨heq, ?_⟩
    rw [heq]
    unfold HandleStartTagInBody.role
    dsimp only
    split_ifs <;> rfl
  · intro hreach
    simp [HandleStartTagInBody, hreach]
  · intro hreach hcont
    simp [HandleStartTagInBody, hreach, hcont]
  · intro hmeta
    exact deletions_of_destroys (StartElement_of_role s element hrole htable
      hmeta)
  · intro t keeper hk hnone
    obtain ⟨k1, _, k3⟩ := kKeeperTags_not_table keeper.keyword hk
    have hr : GetMobileRole keeper = .kKeeper := by
      rw [GetMobileRole_of_no_attribute keeper hnone, if_pos hk]
    have hvalid : GetMobileRole keeper ≠ .kInvalid := by
      rw [hr]; decide
    have hm : StartElement.isViewportMeta keeper = false := by
      simp [StartElement.isViewportMeta, k3]
    exact ⟨hr, hm,
      issued_of_driver (HandleStartTagInBody_of_role t keeper hvalid k1).1,
      deletions_of_destroys (StartElement_of_role t keeper hvalid k1 hm)⟩

theorem valid_role_not_deleted_witness :
    GetMobileRole (divElement 5 1 "content") ≠ .kInvalid ∧
    insideNavDiv.nav_keyword_stack_ = [] ∧
    0 < insideNavDiv.nav_element_depth_ ∧
    issued insideNavDiv
      (HandleStartTagInBody insideNavDiv (divElement 5 1 "content")) = [] ∧
    (HandleStartTagInBody insideNavDiv
      (divElement 5 1 "content")).element_roles_stack_
        = GetMobileRole (divElement 5 1 "content")
          :: insideNavDiv.element_roles_stack_ :=
  have h := valid_role_not_deleted insideNavDiv (divElement 5 1 "content")
    (by decide) (by decide)
  ⟨by decide, by decide, by decide, h.1,
    (h.2.2.1 (by decide) (by decide)).2⟩

/-! ## The open and the close of a body element -/

theorem bodyFrame_AddReorderContainers (s : State) (element : HtmlElement) :
    bodyFrame (AddReorderContainers s element) = bodyFrame s ∧
    (AddReorderContainers s element).reached_reorder_containers_
      = s.reached_reorder_containers_ ∧
    (AddReorderContainers s element).added_mob_js_ = s.added_mob_js_ ∧
    (AddReorderContainers s element).body_element_depth_
      = s.body_element_depth_ := by
  unfold AddReorderContainers
  split
  · dsimp only
    exact ⟨foldl_field bodyFrame (AddReorderContainers.body element)
        (fun _ _ => rfl) _ _,
      foldl_field (fun u => u.reached_reorder_containers_)
        (AddReorderContainers.body element) (fun _ _ => rfl) _ _,
      foldl_field (fun u => u.added_mob_js_)
        (AddReorderContainers.body element) (fun _ _ => rfl) _ _,
      foldl_field (fun u => u.body_element_depth_)
        (AddReorderContainers.body element) (fun _ _ => rfl) _ _⟩
  · exact ⟨rfl, rfl, rfl, rfl⟩

theorem bodyFrame_RemoveReorderContainers (s : State) :
    bodyFrame (RemoveReorderContainers s) = bodyFrame s ∧
    (RemoveReorderContainers s).added_mob_js_ = s.added_mob_js_ := by
  have hb : ∀ (a : State) (b : Nat × Nat),
      bodyFrame (RemoveReorderContainers.body a b) = bodyFrame a ∧
      (RemoveReorderContainers.body a b).added_mob_js_ = a.added_mob_js_ := by
    intro a b
    unfold RemoveReorderContainers.body
    split <;> exact ⟨rfl, rfl⟩
  unfold RemoveReorderContainers
  split
  · dsimp only
    exact ⟨foldl_field bodyFrame RemoveReorderContainers.body
        (fun a b => (hb a b).1) _ _,
      foldl_field (fun u => u.added_mob_js_) RemoveReorderContainers.body
        (fun a b => (hb a b).2) _ _⟩
  · exact ⟨rfl, rfl⟩

theorem bodyFrame_addScripts (s : State) (element : HtmlElement) :
    bodyFrame (EndElement.addScripts s element) = bodyFrame s ∧
    containerState (EndElement.addScripts s element) = containerState s := by
  unfold EndElement.addScripts
  dsimp only
  split_ifs <;> exact ⟨rfl, rfl⟩

/-- The open event of a body element: the depth is raised and, in
self-restructure mode, `AddReorderContainers` runs. -/
theorem StartElement_body (s : State) (element : HtmlElement)
    (hbody : element.keyword = .kBody) :
    StartElement s element =
      if s.use_cxx_layout_ = true then AddReorderContainers s.enterBody element
      else s.enterBody := by
  have hu : StartElement.unminify s element = s := by
    simp [StartElement.unminify, hbody]
  have hv : StartElement.isViewportMeta element = false := by
    simp [StartElement.isViewportMeta, hbody]
  simp [StartElement, hu, hv, hbody]

/-- The close event of a body element: the depth is lowered and, when it
reaches 0, the script references are inserted or the containers dissolved
and `reached_reorder_containers_` is reset. -/
theorem EndElement_body (s : State) (element : HtmlElement)
    (hbody : element.keyword = .kBody) :
    EndElement s element = some
      (if s.body_element_depth_ = 1 then
        { (if (s.use_js_layout_ || s.use_js_nav_) = true then
            EndElement.addScripts s.leaveBody element
           else RemoveReorderContainers s.leaveBody) with
          reached_reorder_containers_ := false }
       else s.leaveBody) := by
  have hu : EndElement.script s element = s := by
    simp [EndElement.script, hbody]
  by_cases hd : s.body_element_depth_ = 1
  · simp [EndElement, hu, hbody, hd]
  · have : ¬ s.body_element_depth_ - 1 = 0 := by omega
    simp [EndElement, hu, hbody, hd, this]

/-- C36, as the code has it: in delegation mode (`mob_layout` set) the close
of the body of `<body></body>` sets `added_mob_js_` and inserts the
reference to `mob.js`; and in self-restructure mode, once the containers
are reached, the close of the body resets `reached_reorder_containers_`. -/
theorem body_element_frame_counterexample :
    (run (optionsStart true false false) [.StartElement bodyElement]).map
      (fun s => s.added_mob_js_) = some false ∧
    (run (optionsStart true false false) emptyBodyDocument).map
      (fun s => (s.added_mob_js_, s.driver_.commands))
      = some (true,
          [ Cmd.NewElement 100 none .kScript,
            Cmd.SetStyle 100 .EXPLICIT_CLOSE,
            Cmd.InsertNodeAfterCurrent 0 100,
            Cmd.AddAttribute 100 .kSrc "mob.js" .DOUBLE_QUOTE ]) ∧
    insideContainers.reached_reorder_containers_ = true ∧
    (EndElement insideContainers bodyElement).map
      (fun s => s.reached_reorder_containers_) = some false := by
  decide

/-- C36, amended: for every body element, with or without a
`data-mobile-role` attribute and at any depth, the open event only raises
`body_element_depth_` and, in self-restructure mode, runs
`AddReorderContainers`; the close event only lowers `body_element_depth_`
and, when the depth reaches 0, resets `reached_reorder_containers_` and
either inserts the script references, setting `added_mob_js_`, or dissolves
the containers. No other field changes: both stacks and
`nav_element_depth_` are unchanged, the open event issues no deletion and no
move, and the close event issues no move and no `DeleteNode`, and deletes
nothing but the containers. -/
theorem body_element_frame (s : State) (element : HtmlElement)
    (hbody : element.keyword = .kBody) :
    (bodyFrame (StartElement s element) = bodyFrame s ∧
      navState (StartElement s element) = navState s ∧
      (StartElement s element).body_element_depth_
        = s.body_element_depth_ + 1 ∧
      (StartElement s element).reached_reorder_containers_
        = s.reached_reorder_containers_ ∧
      (StartElement s element).added_mob_js_ = s.added_mob_js_ ∧
      (s.use_cxx_layout_ = false → StartElement s element = s.enterBody) ∧
      (issued s (StartElement s element)).filter isDestructive = []) ∧
    ∃ s1, EndElement s element = some s1 ∧
      bodyFrame s1 = bodyFrame s ∧
      navState s1 = navState s ∧
      s1.body_element_depth_ = s.body_element_depth_ - 1 ∧
      (s.body_element_depth_ ≠ 1 → s1 = s.leaveBody) ∧
      (s.body_element_depth_ = 1 →
        s1.reached_reorder_containers_ = false) ∧
      (∀ x c, Cmd.MoveCurrentInto x c ∉ issued s s1) ∧
      (∀ n, Cmd.DeleteNode n ∉ issued s s1) ∧
      (∀ n, Cmd.DeleteSavingChildren n ∈ issued s s1 →
        n ∈ s.mobile_role_containers_) := by
  constructor
  · have hstart := StartElement_body s element hbody
    obtain ⟨a1, a2, a3, a4⟩ := bodyFrame_AddReorderContainers s.enterBody
      element
    obtain ⟨d, hd, hcase⟩ := destroys_StartElement s element
    have hnil : d = [] := by
      rcases hcase with h | ⟨_, hv⟩ | ⟨_, _, _, _, _, hk⟩
      · exact h
      · rw [isViewportMeta_keyword element hv] at hbody
        exact absurd hbody (by decide)
      · exact absurd hbody hk
    subst hnil
    refine ⟨?_, ?_, ?_, ?_, ?_, ?_, (destroys_issued hd).2⟩
    · rw [hstart]; split_ifs
      · exact a1
      · rfl
    · rw [hstart]; split_ifs
      · exact navState_AddReorderContainers _ _
      · rfl
    · rw [hstart]; split_ifs
      · exact a4
      · rfl
    · rw [hstart]; split_ifs
      · exact a2
      · rfl
    · rw [hstart]; split_ifs
      · exact a3
      · rfl
    · intro hmode
      rw [hstart]
      simp [hmode]
  · have hend := EndElement_body s element hbody
    refine ⟨_, hend, ?_⟩
    obtain ⟨d, hd, hcase⟩ := destroys_EndElement s _ element hend
    have hmem := fun c hc hdes => mem_of_destroys hd c hc hdes
    have hcontainers : d = [] ∨
        d = s.mobile_role_containers_.map Cmd.DeleteSavingChildren := by
      rcases hcase with h | ⟨c, _, _, _, _, hk, _⟩ | ⟨h, _⟩
      · exact Or.inl h
      · exact absurd hbody hk
      · exact Or.inr h
    obtain ⟨r1, r2⟩ := bodyFrame_RemoveReorderContainers s.leaveBody
    obtain ⟨j1, j2⟩ := bodyFrame_addScripts s.leaveBody element
    refine ⟨?_, ?_, ?_, ?_, ?_, ?_, ?_, ?_⟩
    · split_ifs
      · exact j1
      · exact r1
      · rfl
    · split_ifs
      · exact navState_addScripts _ _
      · exact navState_RemoveReorderContainers _
      · rfl
    · split_ifs
      · exact addScripts_body_element_depth _ _
      · exact RemoveReorderContainers_body_element_depth _
      · rfl
    · intro hne
      rw [if_neg hne]
    · intro h1
      rw [if_pos h1]
    · intro x c hc
      have := hmem _ hc rfl
      rcases hcontainers with h | h <;> simp [h] at this
    · intro n hc
      have := hmem _ hc rfl
      rcases hcontainers with h | h <;> simp [h] at this
    · intro n hc
      have := hmem _ hc rfl
      rcases hcontainers with h | h
      · simp [h] at this
      · simpa [h] using this

theorem body_element_frame_witness :
    GetMobileRole annotatedBodyElement = .kContent ∧
    navState (StartElement exampleStart annotatedBodyElement)
      = navState exampleStart ∧
    (StartElement exampleStart annotatedBodyElement).body_element_depth_
      = exampleStart.body_element_depth_ + 1 ∧
    (issued exampleStart
      (StartElement exampleStart annotatedBodyElement)).filter isDestructive
        = [] :=
  have h := (body_element_frame exampleStart annotatedBodyElement
    (by decide)).1
  ⟨by decide, h.2.1, h.2.2.1, h.2.2.2.2.2.2⟩

/-! ## The containers across documents: lemmas -/

theorem next_node_HandleStartTagInBody (s : State) (element : HtmlElement) :
    s.driver_.next_node
      ≤ (HandleStartTagInBody s element).driver_.next_node := by
  unfold HandleStartTagInBody
  dsimp only
  split_ifs
  · exact Nat.le_refl _
  · exact Nat.le_refl _
  · exact (Keeps.table s element).2.2.2.2.2.2.2.2.2
  · rw [(role_frame s element).2.2.2.2.1]
  · exact (Keeps.startNav s element).2.2.2.2.2.2.2.2.2
  · exact (Keeps.deleteSavingChildren s element _).2.2.2.2.2.2.2.2.2
  · exact Nat.le_refl _

theorem next_node_HandleEndTagInBody (s s1 : State) (element : HtmlElement)
    (h : HandleEndTagInBody s element = some s1) :
    s.driver_.next_node ≤ s1.driver_.next_node := by
  rcases HandleEndTagInBody_inv s s1 element h with
    ⟨_, rfl⟩ | ⟨_, _, _, below, c, _, _, rfl⟩ | ⟨_, _, rfl | rfl⟩
  · exact Nat.le_refl _
  · rw [(move_frame _ element _ c).2.2.2.2.1,
      (leave_frame s _ below).2.2.2.2.1]
  · exact Nat.le_refl _
  · exact (Keeps.endNav s element).2.2.2.2.2.2.2.2.2

theorem fresh_of_same {base : Nat} {s s1 : State}
    (h : FreshContainers base s)
    (hc : containerState s1 = containerState s)
    (hn : s.driver_.next_node ≤ s1.driver_.next_node) :
    FreshContainers base s1 := by
  simp only [containerState, Prod.mk.injEq] at hc
  refine ⟨Nat.le_trans h.1 hn, ?_⟩
  rw [hc.2.1, hc.2.2]
  exact h.2

theorem fresh_of_keeps {base : Nat} {s s1 : State}
    (h : FreshContainers base s) (hk : Keeps s s1) :
    FreshContainers base s1 :=
  fresh_of_same h (containerState_of_keeps hk) hk.2.2.2.2.2.2.2.2.2

theorem fresh_StartElement (base : Nat) (s : State) (element : HtmlElement)
    (h : FreshContainers base s) :
    FreshContainers base (StartElement s element) := by
  have hu : FreshContainers base (StartElement.unminify s element) :=
    fresh_of_keeps h (Keeps.unminify s element)
  have he : FreshContainers base (StartElement.unminify s element).enterBody :=
    fresh_of_same hu rfl (Nat.le_refl _)
  unfold StartElement
  dsimp only
  split_ifs
  · exact fresh_of_keeps hu (Keeps.viewport _ _)
  · obtain ⟨_, _, _, a4⟩ := AddReorderContainers_ready
      (StartElement.unminify s element).enterBody element
    have hn := (AddReorderContainers_frame
      (StartElement.unminify s element).enterBody element).2.2.2.2.1
    refine ⟨Nat.le_trans he.1 hn, ?_⟩
    intro _ c hc
    rw [a4] at hc
    by_cases hadded : (StartElement.unminify s element).enterBody.added_containers_
        = true
    · rw [if_pos hadded] at hc
      exact he.2 hadded c hc
    · rw [if_neg hadded] at hc
      have h1 := he.1
      simp only [List.mem_cons, List.mem_singleton, List.not_mem_nil,
        or_false] at hc
      omega
  · exact he
  · exact fresh_of_same hu (containerState_HandleStartTagInBody _ _)
      (next_node_HandleStartTagInBody _ _)
  · exact hu
  · exact hu

theorem fresh_EndElement (base : Nat) (s s1 : State) (element : HtmlElement)
    (h : FreshContainers base s) (hstep : EndElement s element = some s1) :
    FreshContainers base s1 := by
  have hu : FreshContainers base (EndElement.script s element) :=
    fresh_of_keeps h (Keeps.script s element)
  have hl : FreshContainers base (EndElement.script s element).leaveBody :=
    fresh_of_same hu rfl (Nat.le_refl _)
  unfold EndElement at hstep
  dsimp only at hstep
  split_ifs at hstep
  · cases hstep
    exact fresh_of_same (fresh_of_keeps hl (Keeps.addScripts _ element)) rfl
      (Nat.le_refl _)
  · cases hstep
    refine ⟨Nat.le_trans hl.1 (RemoveReorderContainers_frame _).2.2.2.2.1, ?_⟩
    intro ha
    have : (RemoveReorderContainers
        (EndElement.script s element).leaveBody).added_containers_ = false :=
      RemoveReorderContainers_added _
    change (RemoveReorderContainers
        (EndElement.script s element).leaveBody).added_containers_ = true
      at ha
    rw [this] at ha
    exact absurd ha (by decide)
  · cases hstep
    exact hl
  · cases hstep
    exact fresh_of_keeps hu (Keeps.styleAndViewport _ _)
  · exact fresh_of_same hu (containerState_HandleEndTagInBody _ _ _ hstep)
      (next_node_HandleEndTagInBody _ _ _ hstep)
  · cases hstep
    exact hu
  · cases hstep
    exact hu

theorem fresh_run (base : Nat) (events : List Event) (s s1 : State)
    (h : FreshContainers base s) (hrun : run s events = some s1) :
    FreshContainers base s1 := by
  induction events generalizing s with
  | nil =>
    simp only [run, Option.some.injEq] at hrun
    subst hrun
    exact h
  | cons ev events ih =>
    cases ev with
    | StartElement element =>
      simp only [run, step] at hrun
      exact ih _ (fresh_StartElement base s element h) hrun
    | Characters c =>
      simp only [run, step] at hrun
      exact ih _ (fresh_of_keeps h (Keeps.characters s c)) hrun
    | EndElement element =>
      simp only [run, step] at hrun
      cases hstep : EndElement s element with
      | none => simp [hstep] at hrun
      | some s2 =>
        simp only [hstep] at hrun
        exact ih _ (fresh_EndElement base s s2 element h hstep) hrun

/-- The handler of the open tags sets `reached_reorder_containers_` only
for one of the containers. -/
theorem reached_HandleStartTagInBody (s : State) (element : HtmlElement)
    (h0 : s.reached_reorder_containers_ = false)
    (h1 : (HandleStartTagInBody s element).reached_reorder_containers_
      = true) :
    IsReorderContainer s element = true := by
  by_cases hcont : IsReorderContainer s element = true
  · exact hcont
  · exfalso
    have hcont : IsReorderContainer s element = false := by simpa using hcont
    have hsame : (HandleStartTagInBody s element).reached_reorder_containers_
        = s.reached_reorder_containers_ := by
      unfold HandleStartTagInBody
      dsimp only
      rw [h0, hcont]
      simp only [Bool.false_eq_true, if_false]
      split_ifs
      · exact (Keeps.table s element).2.2.2.2.2.1.trans h0
      · exact (role_frame s element).2.2.1.trans h0
      · exact (Keeps.startNav s element).2.2.2.2.2.1.trans h0
      · exact (Keeps.deleteSavingChildren s element _).2.2.2.2.2.1.trans h0
      · exact h0
    rw [hsame, h0] at h1
    exact absurd h1 (by decide)

/-- An event sets `reached_reorder_containers_` only when it is the open,
inside the body and in self-restructure mode, of one of the containers. -/
theorem reached_only_in_body (s s1 : State) (ev : Event)
    (h : step s ev = some s1)
    (h0 : s.reached_reorder_containers_ = false)
    (h1 : s1.reached_reorder_containers_ = true) :
    s.use_cxx_layout_ = true ∧ 0 < s.body_element_depth_ ∧
    ∃ element, ev = .StartElement element ∧
      IsReorderContainer s element = true := by
  cases ev with
  | StartElement element =>
    simp only [step, Option.some.injEq] at h
    subst h
    obtain ⟨k1, _, _, _, k5, k6, _, _, k9, _⟩ := Keeps.unminify s element
    have hu0 : (StartElement.unminify s element).reached_reorder_containers_
        = false := k6.trans h0
    unfold StartElement at h1
    dsimp only at h1
    split_ifs at h1 with c1 c2 c3 c4 c5
    · rw [(Keeps.viewport _ _).2.2.2.2.2.1, hu0] at h1
      exact absurd h1 (by decide)
    · rw [(AddReorderContainers_frame _ _).2.2.1] at h1
      change (StartElement.unminify s element).reached_reorder_containers_
        = true at h1
      rw [hu0] at h1
      exact absurd h1 (by decide)
    · change (StartElement.unminify s element).reached_reorder_containers_
        = true at h1
      rw [hu0] at h1
      exact absurd h1 (by decide)
    · have hc := reached_HandleStartTagInBody _ element hu0 h1
      refine ⟨k1.symm.trans c5, by rw [← k5]; exact c4, element, rfl, ?_⟩
      simpa [IsReorderContainer, k9] using hc
    · rw [hu0] at h1
      exact absurd h1 (by decide)
    · rw [hu0] at h1
      exact absurd h1 (by decide)
  | Characters c =>
    simp only [step, Option.some.injEq] at h
    subst h
    rw [(Keeps.characters s c).2.2.2.2.2.1, h0] at h1
    exact absurd h1 (by decide)
  | EndElement element =>
    exfalso
    simp only [step] at h
    have hu0 : (EndElement.script s element).reached_reorder_containers_
        = false := (Keeps.script s element).2.2.2.2.2.1.trans h0
    unfold EndElement at h
    dsimp only at h
    split_ifs at h
    · cases h
      exact Bool.noConfusion h1
    · cases h
      exact Bool.noConfusion h1
    · cases h
      change (EndElement.script s element).reached_reorder_containers_
        = true at h1
      rw [hu0] at h1
      exact absurd h1 (by decide)
    · cases h
      rw [(Keeps.styleAndViewport _ _).2.2.2.2.2.1, hu0] at h1
      exact absurd h1 (by decide)
    · rcases HandleEndTagInBody_inv _ s1 element h with
        ⟨_, rfl⟩ | ⟨_, _, _, below, c, _, _, rfl⟩ | ⟨_, _, rfl | rfl⟩
      · rw [hu0] at h1
        exact absurd h1 (by decide)
      · rw [(move_frame _ element _ c).2.2.1,
          (leave_frame _ _ below).2.2.1, hu0] at h1
        exact absurd h1 (by decide)
      · rw [hu0] at h1
        exact absurd h1 (by decide)
      · rw [(Keeps.endNav _ element).2.2.2.2.2.1, hu0] at h1
        exact absurd h1 (by decide)
    · cases h
      rw [hu0] at h1
      exact absurd h1 (by decide)
    · cases h
      rw [hu0] at h1
      exact absurd h1 (by decide)

/-! ## The containers across documents: the claims -/

/-- C33, as the code has it: when the body of the previous document was
never closed, the state `StartDocument` produces still holds the five
containers of that document (nodes 100 to 104), with `added_containers_`
reset, and `IsReorderContainer` returns true for an element that is node
100. -/
theorem stale_containers_counterexample :
    insideBody.use_cxx_layout_ = true ∧
    0 < insideBody.body_element_depth_ ∧
    afterUnclosedBody.mobile_role_containers_ = [100, 101, 102, 103, 104] ∧
    afterUnclosedBody.added_containers_ = false ∧
    IsReorderContainer afterUnclosedBody (plainElement 100 0 .kDiv "div")
      = true := by
  decide

/-- C33, amended: `StartDocument` leaves `mobile_role_containers_` as the
previous document left it, so in the state it produces `IsReorderContainer`
answers as before the reset. But along every stream of events of the new
document, an event sets `reached_reorder_containers_` only when it is the
open, inside the body and in self-restructure mode, of an element
`IsReorderContainer` recognises; and inside the body, in self-restructure
mode, the containers are five consecutive nodes that `AddReorderContainers`
made in the new document (nodes allocated after `StartDocument`), so
`IsReorderContainer` recognises exactly these five. -/
theorem containers_of_new_document (s s1 : State) (events : List Event)
    (element : HtmlElement)
    (hrun : run (StartDocument s) events = some s1) :
    (StartDocument s).mobile_role_containers_ = s.mobile_role_containers_ ∧
    IsReorderContainer (StartDocument s) element
      = IsReorderContainer s element ∧
    (StartDocument s).added_containers_ = false ∧
    (StartDocument s).body_element_depth_ = 0 ∧
    (StartDocument s).reached_reorder_containers_ = false ∧
    (s.use_cxx_layout_ = true → 0 < s1.body_element_depth_ →
      ∃ n, s.driver_.next_node ≤ n ∧
        s1.mobile_role_containers_ = [n, n + 1, n + 2, n + 3, n + 4] ∧
        (IsReorderContainer s1 element = true ↔
          n ≤ element.id ∧ element.id < n + 5)) ∧
    (∀ (ev : Event) (s2 : State), step s1 ev = some s2 →
      s1.reached_reorder_containers_ = false →
      s2.reached_reorder_containers_ = true →
      s1.use_cxx_layout_ = true ∧ 0 < s1.body_element_depth_ ∧
      ∃ opened, ev = .StartElement opened ∧
        IsReorderContainer s1 opened = true) := by
  refine ⟨rfl, rfl, rfl, rfl, rfl, ?_,
    fun ev s2 h h0 h1 => reached_only_in_body s1 s2 ev h h0 h1⟩
  intro hcxx hbody
  have hready : ContainersReady (StartDocument s) :=
    ⟨hcxx, fun h => absurd h (by simp [StartDocument]),
      fun h => absurd h (by simp [StartDocument])⟩
  obtain ⟨_, r2, r3⟩ := ContainersReady.along events _ s1 hready hrun
  obtain ⟨n, hn⟩ := r2 (r3 hbody)
  have hfresh : FreshContainers s.driver_.next_node (StartDocument s) :=
    ⟨Nat.le_refl _, fun h => absurd h (by simp [StartDocument])⟩
  have hf := fresh_run _ events _ s1 hfresh hrun
  have hle : s.driver_.next_node ≤ n :=
    hf.2 (r3 hbody) n (by rw [hn]; exact List.mem_cons_self _ _)
  refine ⟨n, hle, hn, ?_⟩
  simp only [IsReorderContainer, hn, List.any_cons, List.any_nil,
    Bool.or_false, Bool.or_eq_true, beq_iff_eq]
  omega

theorem containers_of_new_document_witness :
    run (StartDocument insideBody)
      [.StartElement (exampleElement 7 none .kBody "body" none)]
      = some ((run afterUnclosedBody
          [.StartElement (exampleElement 7 none .kBody "body" none)]).getD
            afterUnclosedBody) ∧
    IsReorderContainer (StartDocument insideBody)
      (plainElement 100 7 .kDiv "div") = true ∧
    ∃ n, insideBody.driver_.next_node ≤ n ∧
      ((run afterUnclosedBody
        [.StartElement (exampleElement 7 none .kBody "body" none)]).getD
          afterUnclosedBody).mobile_role_containers_
        = [n, n + 1, n + 2, n + 3, n + 4] ∧
      (IsReorderContainer ((run afterUnclosedBody
        [.StartElement (exampleElement 7 none .kBody "body" none)]).getD
          afterUnclosedBody) (plainElement 100 7 .kDiv "div") = true ↔
        n ≤ (plainElement 100 7 .kDiv "div").id ∧
          (plainElement 100 7 .kDiv "div").id < n + 5) :=
  ⟨by decide, by decide,
   (containers_of_new_document insideBody
      ((run afterUnclosedBody
        [.StartElement (exampleElement 7 none .kBody "body" none)]).getD
          afterUnclosedBody)
      [.StartElement (exampleElement 7 none .kBody "body" none)]
      (plainElement 100 7 .kDiv "div") (by decide)).2.2.2.2.2.1
      (by decide) (by decide)⟩

/-! ## The injection of the style: lemmas -/

theorem styles_deleteElementSavingChildren (s : State) (element : HtmlElement)
    (msg : String) :
    styles (deleteElementSavingChildren s element msg) = styles s := by
  unfold deleteElementSavingChildren
  split <;> simp [styles, isStyleInjection]

theorem styles_HandleStartTagInBody (s : State) (element : HtmlElement) :
    styles (HandleStartTagInBody s element) = styles s := by
  have htable : styles (HandleStartTagInBody.table s element) = styles s := by
    unfold HandleStartTagInBody.table
    dsimp only
    rw [styles_deleteElementSavingChildren]
    split <;> simp [styles, isStyleInjection]
  have hrole : styles (HandleStartTagInBody.role s element) = styles s := by
    unfold HandleStartTagInBody.role
    dsimp only
    split_ifs <;> rfl
  have hnav : styles (HandleStartTagInBody.nav s element) = styles s := by
    unfold HandleStartTagInBody.nav
    dsimp only
    split_ifs <;>
      first
      | rfl
      | (rw [styles_deleteElementSavingChildren] <;> rfl)
  unfold HandleStartTagInBody
  dsimp only
  split_ifs <;>
    first
    | rfl
    | exact htable
    | exact hrole
    | exact hnav
    | exact styles_deleteElementSavingChildren _ _ _

theorem styles_HandleEndTagInBody (s s1 : State) (element : HtmlElement)
    (h : HandleEndTagInBody s element = some s1) : styles s1 = styles s := by
  rcases issued_HandleEndTagInBody s s1 element h with hi | ⟨c, hi⟩
  all_goals
    obtain ⟨a, ha, _⟩ := destroys_HandleEndTagInBody s s1 element h
    have he := (destroys_issued ha).1
    simp [styles, he, hi, isStyleInjection]

theorem styles_Characters (s : State) (characters : HtmlCharactersNode) :
    styles (Characters s characters) = styles s := by
  unfold Characters
  split_ifs <;> simp [styles, isStyleInjection]

theorem styles_unminify (s : State) (element : HtmlElement) :
    styles (StartElement.unminify s element) = styles s := by
  unfold StartElement.unminify
  split
  · dsimp only
    split
    · split <;> simp [styles, isStyleInjection]
    · rfl
  · rfl

theorem styles_viewport (s : State) (element : HtmlElement) :
    styles (StartElement.viewport s element) = styles s := by
  unfold StartElement.viewport
  dsimp only
  split <;> simp [styles, isStyleInjection]

theorem styles_AddReorderContainers (s : State) (element : HtmlElement) :
    styles (AddReorderContainers s element) = styles s := by
  unfold AddReorderContainers
  split
  · dsimp only
    refine foldl_field styles (AddReorderContainers.body element)
      (fun a b => ?_) _ _
    simp [styles, AddReorderContainers.body, isStyleInjection]
  · rfl

theorem styles_RemoveReorderContainers (s : State) :
    styles (RemoveReorderContainers s) = styles s := by
  unfold RemoveReorderContainers
  split
  · dsimp only
    refine foldl_field styles RemoveReorderContainers.body (fun a b => ?_) _ _
    unfold RemoveReorderContainers.body
    split <;> simp [styles, isStyleInjection]
  · rfl

theorem styles_addScripts (s : State) (element : HtmlElement) :
    styles (EndElement.addScripts s element) = styles s := by
  unfold EndElement.addScripts
  dsimp only
  split_ifs <;> simp [styles, insertScriptAfterCurrent, isStyleInjection]

theorem styles_script (s : State) (element : HtmlElement) :
    styles (EndElement.script s element) = styles s := by
  unfold EndElement.script
  split <;> rfl

theorem styles_StartElement (s : State) (element : HtmlElement) :
    styles (StartElement s element) = styles s := by
  unfold StartElement
  dsimp only
  split_ifs
  · exact (styles_viewport _ _).trans (styles_unminify _ _)
  · exact (styles_AddReorderContainers _ _).trans (styles_unminify _ _)
  · exact styles_unminify _ _
  · exact (styles_HandleStartTagInBody _ _).trans (styles_unminify _ _)
  · exact styles_unminify _ _
  · exact styles_unminify _ _

theorem styles_AddStyleAndViewport (s : State) (element : HtmlElement)
    (h : s.added_style_ = true) :
    styles (AddStyleAndViewport s element) = styles s := by
  rw [AddStyleAndViewport_of_added s element h]

theorem styles_EndElement (s s1 : State) (element : HtmlElement)
    (h : EndElement s element = some s1) (hstyle : s.added_style_ = true) :
    styles s1 = styles s := by
  have u2 := (headFlags_of_flags (flags_script s element)).2
  unfold EndElement at h
  dsimp only at h
  split_ifs at h
  · cases h
    exact (styles_addScripts (EndElement.script s element).leaveBody
      element).trans (styles_script _ _)
  · cases h
    exact (styles_RemoveReorderContainers
      (EndElement.script s element).leaveBody).trans (styles_script _ _)
  · cases h
    exact styles_script _ _
  · cases h
    exact (styles_AddStyleAndViewport _ _ (u2.trans hstyle)).trans
      (styles_script _ _)
  · exact (styles_HandleEndTagInBody _ _ _ h).trans (styles_script _ _)
  · cases h
    exact styles_script _ _
  · cases h
    exact styles_script _ _

/-- Once `added_style_` is set, no event injects a style. -/
theorem styles_run (events : List Event) (s s1 : State)
    (hrun : run s events = some s1) (hstyle : s.added_style_ = true) :
    styles s1 = styles s := by
  induction events generalizing s with
  | nil =>
    simp only [run, Option.some.injEq] at hrun
    subst hrun
    rfl
  | cons ev events ih =>
    cases ev with
    | StartElement element =>
      simp only [run, step] at hrun
      exact (ih _ hrun ((StartElement_flags s element).1.2.1 hstyle)).trans
        (styles_StartElement s element)
    | Characters c =>
      simp only [run, step] at hrun
      exact (ih _ hrun
        ((headFlags_of_flags (flags_Characters s c)).2.trans hstyle)).trans
        (styles_Characters s c)
    | EndElement element =>
      simp only [run, step] at hrun
      cases hstep : EndElement s element with
      | none => simp [hstep] at hrun
      | some s2 =>
        simp only [hstep] at hrun
        exact (ih _ hrun
          ((EndElement_flags s s2 element hstep).1.2.1 hstyle)).trans
          (styles_EndElement s s2 element hstep hstyle)

/-- A close event that leaves `added_style_` false injects no style. -/
theorem styles_EndElement_before (s s1 : State) (element : HtmlElement)
    (h : EndElement s element = some s1) (hstyle : s1.added_style_ = false) :
    styles s1 = styles s := by
  unfold EndElement at h
  dsimp only at h
  split_ifs at h
  · cases h
    exact (styles_addScripts (EndElement.script s element).leaveBody
      element).trans (styles_script _ _)
  · cases h
    exact (styles_RemoveReorderContainers
      (EndElement.script s element).leaveBody).trans (styles_script _ _)
  · cases h
    exact styles_script _ _
  · cases h
    rw [AddStyleAndViewport_added_style] at hstyle
    cases hstyle
  · exact (styles_HandleEndTagInBody _ _ _ h).trans (styles_script _ _)
  · cases h
    exact styles_script _ _
  · cases h
    exact styles_script _ _

/-- As long as `added_style_` is false, no event has injected a style. -/
theorem styles_before_style (events : List Event) (s s1 : State)
    (hrun : run s events = some s1) (hstyle : s1.added_style_ = false) :
    styles s1 = styles s := by
  induction events generalizing s with
  | nil =>
    simp only [run, Option.some.injEq] at hrun
    subst hrun
    rfl
  | cons ev events ih =>
    cases ev with
    | StartElement element =>
      simp only [run, step] at hrun
      exact (ih _ hrun).trans (styles_StartElement s element)
    | Characters c =>
      simp only [run, step] at hrun
      exact (ih _ hrun).trans (styles_Characters s c)
    | EndElement element =>
      simp only [run, step] at hrun
      cases hstep : EndElement s element with
      | none => simp [hstep] at hrun
      | some s2 =>
        simp only [hstep] at hrun
        exact (ih _ hrun).trans (styles_EndElement_before s s2 element hstep
          (found_viewport_of_run events s2 s1 hrun hstyle).2)

theorem tail_without_style {t t1 : State}
    (hp : t.driver_.commands <+: t1.driver_.commands)
    (hm : styles t1 = styles t) :
    ∃ after, t1.driver_.commands = t.driver_.commands ++ after ∧
      after.filter isStyleInjection = [] := by
  obtain ⟨after, hafter⟩ := hp
  refine ⟨after, hafter.symm, ?_⟩
  simp only [styles, ← hafter, List.filter_append] at hm
  simpa using hm

theorem NoStyle.chained {s s1 s2 : State} (h1 : NoStyle s s1)
    (h2 : NoStyle s1 s2) : NoStyle s s2 :=
  ⟨h2.1.trans h1.1, h2.2.1.trans h1.2.1, h2.2.2.1.trans h1.2.2.1,
    h1.2.2.2.1.trans h2.2.2.2.1, h2.2.2.2.2.trans h1.2.2.2.2⟩

theorem NoStyle.of_polymerLink (s : State) (element : HtmlElement)
    (base : String) (links : List String) :
    NoStyle s (InsertPolymerLinks s element base links) := by
  refine ⟨foldl_field (fun u => u.use_cxx_layout_)
      (fun s l => InsertPolymerLink s element (base ++ l)) (fun _ _ => rfl) _ _,
    foldl_field (fun u => u.static_file_prefix_)
      (fun s l => InsertPolymerLink s element (base ++ l)) (fun _ _ => rfl) _ _,
    foldl_field (fun u => u.style_css_)
      (fun s l => InsertPolymerLink s element (base ++ l)) (fun _ _ => rfl) _ _,
    (destroys_InsertPolymerLinks _ _ _ _).1,
    foldl_field styles (fun s l => InsertPolymerLink s element (base ++ l))
      (fun a b => ?_) _ _⟩
  simp [styles, InsertPolymerLink, isStyleInjection, RewriteDriver.NewElement,
    RewriteDriver.emit]

/-- The first call of `AddStyleAndViewport` in a document: the inline style
in self-restructure mode, the link to `lite.css` in delegation mode, and
around them commands that inject no style. -/
theorem AddStyleAndViewport_styles (s : State) (element : HtmlElement)
    (h : s.added_style_ = false) :
    ∃ middle after n m,
      (AddStyleAndViewport s element).driver_.commands =
        s.driver_.commands ++
          ((if s.use_cxx_layout_ = true
              then inlineStyle n element.id s.style_css_ else []) ++
            (middle ++
              ((if s.use_cxx_layout_ = true then []
                else stylesheetLink m element.id s.static_file_prefix_) ++
                after))) ∧
      middle.filter isStyleInjection = [] ∧
      after.filter isStyleInjection = [] := by
  have hp : ∀ t : State, NoStyle t (AddStyleAndViewport.polymer t element) := by
    intro t
    unfold AddStyleAndViewport.polymer
    split
    · dsimp only
      refine NoStyle.chained ?_ (NoStyle.of_polymerLink _ _ _ _)
      refine NoStyle.chained ?_ (NoStyle.of_polymerLink _ _ _ _)
      simp [NoStyle, styles, RewriteDriver.NewElement, RewriteDriver.emit,
        isStyleInjection]
    · exact ⟨rfl, rfl, rfl, List.prefix_refl _, rfl⟩
  have hv : ∀ t : State, NoStyle t (AddStyleAndViewport.viewport t element) := by
    intro t; unfold AddStyleAndViewport.viewport
    split <;>
      simp [NoStyle, styles, RewriteDriver.NewElement, RewriteDriver.emit,
        isStyleInjection]
  have hs : ∀ t : State,
      (AddStyleAndViewport.style t element).use_cxx_layout_
        = t.use_cxx_layout_ ∧
      (AddStyleAndViewport.style t element).static_file_prefix_
        = t.static_file_prefix_ ∧
      (AddStyleAndViewport.style t element).driver_.commands =
        t.driver_.commands ++
          (if t.use_cxx_layout_ = true
            then inlineStyle t.driver_.next_node element.id t.style_css_
            else []) := by
    intro t; unfold AddStyleAndViewport.style
    by_cases hc : t.use_cxx_layout_ = true <;>
      simp [hc, inlineStyle, RewriteDriver.NewElement,
        RewriteDriver.NewCharactersNode, RewriteDriver.emit]
  have hl : ∀ t : State,
      (AddStyleAndViewport.link t element).driver_.commands =
        t.driver_.commands ++
          (if t.use_cxx_layout_ = true then []
            else stylesheetLink t.driver_.next_node element.id
              t.static_file_prefix_) := by
    intro t; unfold AddStyleAndViewport.link
    by_cases hc : t.use_cxx_layout_ = true <;>
      simp [hc, stylesheetLink, RewriteDriver.NewElement, RewriteDriver.emit]
  have hunfold : AddStyleAndViewport s element =
      AddStyleAndViewport.polymer (AddStyleAndViewport.link
        (AddStyleAndViewport.viewport (AddStyleAndViewport.style
          { s with added_style_ := true } element) element) element)
        element := by
    simp [AddStyleAndViewport, h]
  obtain ⟨s1, s2, s3⟩ := hs { s with added_style_ := true }
  obtain ⟨v1, v2, _, v4, v5⟩ := hv (AddStyleAndViewport.style
    { s with added_style_ := true } element)
  have l3 := hl (AddStyleAndViewport.viewport
    (AddStyleAndViewport.style { s with added_style_ := true } element)
    element)
  obtain ⟨_, _, _, p4, p5⟩ := hp (AddStyleAndViewport.link
    (AddStyleAndViewport.viewport (AddStyleAndViewport.style
      { s with added_style_ := true } element) element) element)
  obtain ⟨middle, hm1, hm2⟩ := tail_without_style v4 v5
  obtain ⟨after, ha1, ha2⟩ := tail_without_style p4 p5
  rw [hunfold]
  refine ⟨middle, after, s.driver_.next_node,
    (AddStyleAndViewport.viewport (AddStyleAndViewport.style
      { s with added_style_ := true } element) element).driver_.next_node,
    ?_, hm2, ha2⟩
  rw [ha1, l3, hm1, s3, v1, s1, v2, s2]
  simp only [List.append_assoc]

/-! ## The injection of the style: the claim -/

/-- C37: let a stream of events lead to a state outside the body with
`added_style_` still false, that is, no head element was closed outside the
body so far. Then no style was injected so far, and the close of a head
element succeeds, sets `added_style_` and appends the inline `style`
element with the style sheet in self-restructure mode, or the `link` with
`rel=stylesheet` to the static prefix followed by `lite.css` in delegation
mode, and injects no other style. Whatever events follow, `added_style_`
stays set, no style is injected any more, and the close of a head element
outside the body changes nothing. The close of a head element at another
body depth leaves `added_style_` as it is and issues at most the move of this
element. -/
theorem style_injected_once (pre : List Event) (s0 s : State)
    (element : HtmlElement)
    (hrun : run s0 pre = some s)
    (hstyle : s.added_style_ = false)
    (hdepth : s.body_element_depth_ = 0)
    (hhead : element.keyword = .kHead) :
    (issued s0 s).filter isStyleInjection = [] ∧
    (∃ s1, EndElement s element = some s1 ∧ s1.added_style_ = true ∧
      (∃ middle after n m,
        issued s s1 =
          (if s.use_cxx_layout_ = true
            then inlineStyle n element.id s.style_css_ else []) ++
          (middle ++
            ((if s.use_cxx_layout_ = true then []
              else stylesheetLink m element.id s.static_file_prefix_) ++
              after)) ∧
        middle.filter isStyleInjection = [] ∧
        after.filter isStyleInjection = []) ∧
      (∀ rest s2, run s1 rest = some s2 →
        s2.added_style_ = true ∧
        (issued s1 s2).filter isStyleInjection = [] ∧
        ∀ head : HtmlElement, head.keyword = .kHead →
          s2.body_element_depth_ = 0 → EndElement s2 head = some s2)) ∧
    (∀ (t t1 : State) (head : HtmlElement), head.keyword = .kHead →
      t.body_element_depth_ ≠ 0 → EndElement t head = some t1 →
      t1.added_style_ = t.added_style_ ∧
      (issued t t1 = [] ∨
        ∃ c, issued t t1 = [Cmd.MoveCurrentInto head.id c])) := by
  have hclose : ∀ (t : State) (head : HtmlElement), head.keyword = .kHead →
      t.body_element_depth_ = 0 →
      EndElement t head = some (AddStyleAndViewport t head) := by
    intro t head hk hd
    have hscript : EndElement.script t head = t := by
      simp [EndElement.script, hk]
    unfold EndElement
    simp [hscript, hk, hd]
  refine ⟨?_, ⟨_, hclose s element hhead hdepth,
    AddStyleAndViewport_added_style s element, ?_, ?_⟩, ?_⟩
  · obtain ⟨tail, h1, h2⟩ := tail_without_style (run_extends pre s0 s hrun)
      (styles_before_style pre s0 s hrun hstyle)
    have : issued s0 s = tail := by
      simp [issued, h1]
    rw [this]
    exact h2
  · obtain ⟨middle, after, n, m, hcmd, hm, ha⟩ :=
      AddStyleAndViewport_styles s element hstyle
    refine ⟨middle, after, n, m, ?_, hm, ha⟩
    simp [issued, hcmd]
  · intro rest s2 hrest
    have hset : s2.added_style_ = true :=
      (Latched.of_stream rest _ s2 hrest).1.2.1
        (AddStyleAndViewport_added_style s element)
    refine ⟨hset, ?_, ?_⟩
    · obtain ⟨tail, h1, h2⟩ := tail_without_style (run_extends rest _ s2 hrest)
        (styles_run rest _ s2 hrest (AddStyleAndViewport_added_style s element))
      have : issued (AddStyleAndViewport s element) s2 = tail := by
        simp [issued, h1]
      rw [this]
      exact h2
    · intro head hk hd
      rw [hclose s2 head hk hd, AddStyleAndViewport_of_added s2 head hset]
  · intro t t1 head hk hd hend
    have hscript : EndElement.script t head = t := by
      simp [EndElement.script, hk]
    unfold EndElement at hend
    simp only [hscript, hk, hd] at hend
    by_cases hpos : 0 < t.body_element_depth_
    · by_cases hcxx : t.use_cxx_layout_ = true
      · simp [hpos, hcxx, hd] at hend
        exact ⟨(headFlags_of_flags
            (flags_HandleEndTagInBody t t1 head hend)).2,
          issued_HandleEndTagInBody t t1 head hend⟩
      · simp [hpos, hcxx, hd] at hend
        subst hend
        exact ⟨rfl, Or.inl (issued_self t)⟩
    · simp [hpos, hd] at hend
      subst hend
      exact ⟨rfl, Or.inl (issued_self t)⟩

theorem style_injected_once_witness :
    issued (insideOpenHead exampleStart)
      ((EndElement (insideOpenHead exampleStart) headElement).getD
        exampleStart)
      = inlineStyle 100 1 "" ++ viewportMeta 102 1 ∧
    issued (insideOpenHead (optionsStart true false false))
      ((EndElement (insideOpenHead (optionsStart true false false))
        headElement).getD exampleStart)
      = viewportMeta 100 1 ++ stylesheetLink 101 1 "" ∧
    (issued exampleStart (insideOpenHead exampleStart)).filter
      isStyleInjection = [] ∧
    ∃ s1, EndElement (insideOpenHead exampleStart) headElement = some s1 ∧
      s1.added_style_ = true :=
  have h := style_injected_once headOpenDocument exampleStart
    (insideOpenHead exampleStart) headElement (by decide) (by decide)
    (by decide) (by decide)
  ⟨by decide, by decide, h.1,
    match h.2.1 with
    | ⟨s1, h1, h2, _⟩ => ⟨s1, h1, h2⟩⟩

/-! ## Delegation mode issues no restructuring command: lemmas -/

theorem breaks_Characters (s : State) (characters : HtmlCharactersNode) :
    breaks (Characters s characters) = breaks s := by
  unfold Characters
  split_ifs <;> simp [breaks, isBreakInsertion]

theorem breaks_unminify (s : State) (element : HtmlElement) :
    breaks (StartElement.unminify s element) = breaks s := by
  unfold StartElement.unminify
  split
  · dsimp only
    split
    · split <;> simp [breaks, isBreakInsertion]
    · rfl
  · rfl

theorem breaks_viewport (s : State) (element : HtmlElement) :
    breaks (StartElement.viewport s element) = breaks s := by
  unfold StartElement.viewport
  dsimp only
  split <;> simp [breaks, isBreakInsertion]

theorem breaks_RemoveReorderContainers (s : State) :
    breaks (RemoveReorderContainers s) = breaks s := by
  unfold RemoveReorderContainers
  split
  · dsimp only
    refine foldl_field breaks RemoveReorderContainers.body (fun a b => ?_) _ _
    unfold RemoveReorderContainers.body
    split <;> simp [breaks, isBreakInsertion]
  · rfl

theorem breaks_addScripts (s : State) (element : HtmlElement) :
    breaks (EndElement.addScripts s element) = breaks s := by
  unfold EndElement.addScripts
  dsimp only
  split_ifs <;> simp [breaks, insertScriptAfterCurrent, isBreakInsertion]

theorem breaks_script (s : State) (element : HtmlElement) :
    breaks (EndElement.script s element) = breaks s := by
  unfold EndElement.script
  split <;> rfl

theorem breaks_AddStyleAndViewport (s : State) (element : HtmlElement) :
    breaks (AddStyleAndViewport s element) = breaks s := by
  have hlinks : ∀ (t : State) (base : String) (links : List String),
      breaks (InsertPolymerLinks t element base links) = breaks t := by
    intro t base links
    refine foldl_field breaks
      (fun s l => InsertPolymerLink s element (base ++ l)) (fun a b => ?_) _ _
    simp [breaks, InsertPolymerLink, isBreakInsertion,
      RewriteDriver.NewElement, RewriteDriver.emit]
  have hp : ∀ t : State,
      breaks (AddStyleAndViewport.polymer t element) = breaks t := by
    intro t
    unfold AddStyleAndViewport.polymer
    split
    · dsimp only
      rw [hlinks, hlinks]
      simp [breaks, RewriteDriver.NewElement, RewriteDriver.emit,
        isBreakInsertion]
    · rfl
  have hl : ∀ t : State,
      breaks (AddStyleAndViewport.link t element) = breaks t := by
    intro t; unfold AddStyleAndViewport.link
    split <;>
      simp [breaks, RewriteDriver.NewElement, RewriteDriver.emit,
        isBreakInsertion]
  have hv : ∀ t : State,
      breaks (AddStyleAndViewport.viewport t element) = breaks t := by
    intro t; unfold AddStyleAndViewport.viewport
    split <;>
      simp [breaks, RewriteDriver.NewElement, RewriteDriver.emit,
        isBreakInsertion]
  have hs : ∀ t : State,
      breaks (AddStyleAndViewport.style t element) = breaks t := by
    intro t; unfold AddStyleAndViewport.style
    split <;>
      simp [breaks, RewriteDriver.NewElement,
        RewriteDriver.NewCharactersNode, RewriteDriver.emit, isBreakInsertion]
  unfold AddStyleAndViewport
  split
  · dsimp only
    rw [hp, hl, hv, hs]
    rfl
  · rfl

/-- The open event of a viewport meta runs the viewport rule alone. -/
theorem StartElement_of_viewport (s : State) (element : HtmlElement)
    (hv : StartElement.isViewportMeta element = true) :
    StartElement s element = StartElement.viewport s element := by
  have hu : StartElement.unminify s element = s := by
    simp [StartElement.unminify, isViewportMeta_keyword element hv]
  simp [StartElement, hv, hu]

/-- The open events in delegation mode. -/
theorem StartElement_delegation (s : State) (element : HtmlElement)
    (hmode : s.use_cxx_layout_ = false) :
    StartElement s element =
      if StartElement.isViewportMeta element = true then
        StartElement.viewport (StartElement.unminify s element) element
      else if element.keyword = .kBody then
        (StartElement.unminify s element).enterBody
      else StartElement.unminify s element := by
  have hu : (StartElement.unminify s element).use_cxx_layout_ = false :=
    (Keeps.unminify s element).1.trans hmode
  unfold StartElement
  dsimp only
  split_ifs <;> simp_all

/-- A close event in delegation mode leaves both stacks and
`nav_element_depth_` as they are and inserts no `br`. -/
theorem EndElement_delegation (s s1 : State) (element : HtmlElement)
    (hmode : s.use_cxx_layout_ = false)
    (h : EndElement s element = some s1) :
    navState s1 = navState s ∧ breaks s1 = breaks s := by
  have hn := navState_script s element
  have hb := breaks_script s element
  have hu : (EndElement.script s element).use_cxx_layout_ = false :=
    (Keeps.script s element).1.trans hmode
  unfold EndElement at h
  dsimp only at h
  split_ifs at h with c1 c2 c3 c4 c5 c6
  · cases h
    exact ⟨(navState_addScripts _ element).trans hn,
      (breaks_addScripts (EndElement.script s element).leaveBody
        element).trans hb⟩
  · cases h
    exact ⟨(navState_RemoveReorderContainers _).trans hn,
      (breaks_RemoveReorderContainers
        (EndElement.script s element).leaveBody).trans hb⟩
  · cases h
    exact ⟨hn, hb⟩
  · cases h
    exact ⟨(navState_AddStyleAndViewport _ element).trans hn,
      (breaks_AddStyleAndViewport _ element).trans hb⟩
  · rw [hu] at c6
    exact absurd c6 (by decide)
  · cases h
    exact ⟨hn, hb⟩
  · cases h
    exact ⟨hn, hb⟩

/-- One event in delegation mode. -/
theorem step_delegation (s : State) (ev : Event)
    (hmode : s.use_cxx_layout_ = false)
    (hadded : s.added_containers_ = false) :
    ∃ s1, step s ev = some s1 ∧ Quiet s s1 ∧ navState s1 = navState s ∧
      breaks s1 = breaks s ∧
      ∃ a, Destroys s s1 a ∧
        (a = [] ∨
          ∃ element, ev = .StartElement element ∧
            StartElement.isViewportMeta element = true ∧
            StringPiece (element.AttributeValue .kContent)
              ≠ kViewportContent ∧
            a = [Cmd.DeleteNode element.id]) := by
  cases ev with
  | StartElement element =>
    refine ⟨_, rfl, Quiet.of_startElement s element hmode, ?_, ?_, ?_⟩
    · rw [StartElement_delegation s element hmode]
      split_ifs
      · exact (navState_viewport _ element).trans (navState_unminify s element)
      · exact navState_unminify s element
      · exact navState_unminify s element
    · rw [StartElement_delegation s element hmode]
      split_ifs
      · exact (breaks_viewport _ element).trans (breaks_unminify s element)
      · exact breaks_unminify s element
      · exact breaks_unminify s element
    · by_cases hv : StartElement.isViewportMeta element = true
      · show ∃ a, Destroys s (StartElement s element) a ∧ _
        rw [StartElement_of_viewport s element hv]
        refine ⟨_, destroys_viewport s element, ?_⟩
        by_cases hc : StringPiece (element.AttributeValue .kContent)
            = kViewportContent
        · left
          simp [hc]
        · right
          exact ⟨element, rfl, hv, hc, by simp [hc]⟩
      · refine ⟨[], ?_, Or.inl rfl⟩
        show Destroys s (StartElement s element) []
        rw [StartElement_delegation s element hmode, if_neg hv]
        have h0 : Destroys (StartElement.unminify s element)
            (StartElement.unminify s element).enterBody [] :=
          destroys_of_driver rfl
        split_ifs
        · exact destroys_trans_nil (destroys_unminify s element) h0
        · exact destroys_unminify s element
  | Characters c =>
    refine ⟨_, rfl, Quiet.of_characters s c hmode, navState_Characters s c,
      breaks_Characters s c, ?_⟩
    obtain ⟨a, ha, hcase⟩ := destroys_Characters s c
    rcases hcase with rfl | ⟨_, hcxx, _⟩
    · exact ⟨[], ha, Or.inl rfl⟩
    · rw [hmode] at hcxx
      exact absurd hcxx (by decide)
  | EndElement element =>
    obtain ⟨s1, h1, hq⟩ := Quiet.of_endElement s element hmode hadded
    obtain ⟨hn, hb⟩ := EndElement_delegation s s1 element hmode h1
    refine ⟨s1, h1, hq, hn, hb, ?_⟩
    obtain ⟨a, ha, hcase⟩ := destroys_EndElement s s1 element h1
    rcases hcase with rfl | ⟨_, _, _, hcxx, _⟩ | ⟨_, _, _, hadd⟩
    · exact ⟨[], ha, Or.inl rfl⟩
    · rw [hmode] at hcxx
      exact absurd hcxx (by decide)
    · rw [hadded] at hadd
      exact absurd hadd (by decide)

/-! ## Delegation mode issues no restructuring command: the claim -/

/-- C32: in delegation mode (`use_cxx_layout_` false, and no container
added, as in the state the constructor and `StartDocument` produce when an
option is set), every stream of events is processed without failure and
leads to a state in delegation mode in which every event succeeds and
leaves `element_roles_stack_`, `nav_keyword_stack_`, `nav_element_depth_`
and `mobile_role_containers_` unchanged. No command it issues deletes an
element keeping its children, moves a node, creates a `div` or inserts a
`br`, and the only `DeleteNode` it can issue is that of a viewport meta
whose content is not `width=device-width`, at its open event: no text node
is deleted. -/
theorem delegation_no_restructuring (pre : List Event) (s0 : State)
    (ev : Event)
    (hmode : s0.use_cxx_layout_ = false)
    (hadded : s0.added_containers_ = false) :
    (∃ s, run s0 pre = some s ∧ s.use_cxx_layout_ = false ∧
      ∃ s1, step s ev = some s1 ∧
        navState s1 = navState s ∧
        s1.mobile_role_containers_ = s.mobile_role_containers_ ∧
        s1.added_containers_ = false ∧
        (∀ c ∈ issued s s1,
          isContainerCommand c = false ∧ isBreakInsertion c = false) ∧
        (∀ n, Cmd.DeleteNode n ∈ issued s s1 →
          ∃ element, ev = .StartElement element ∧
            StartElement.isViewportMeta element = true ∧
            StringPiece (element.AttributeValue .kContent)
              ≠ kViewportContent ∧
            n = element.id)) ∧
    (∀ (rewrite_driver : RewriteDriver) (mob_layout mob_logo mob_nav : Bool)
        (proxy_suffix css : String),
      (mob_layout || mob_logo || mob_nav) = true →
      (StartDocument (MobilizeRewriteFilter rewrite_driver mob_layout mob_logo
        mob_nav proxy_suffix css)).use_cxx_layout_ = false ∧
      (StartDocument (MobilizeRewriteFilter rewrite_driver mob_layout mob_logo
        mob_nav proxy_suffix css)).added_containers_ = false) := by
  constructor
  · obtain ⟨s, hs, q⟩ := Quiet.of_run pre s0 hmode hadded
    have hm : s.use_cxx_layout_ = false := q.1.trans hmode
    have ha : s.added_containers_ = false := q.2.1.trans hadded
    obtain ⟨s1, h1, q1, hn, hb, a, hd, hcase⟩ := step_delegation s ev hm ha
    refine ⟨s, hs, hm, s1, h1, hn, q1.2.2.1, q1.2.1.trans ha, ?_, ?_⟩
    · intro c hc
      refine ⟨q1.issued_quiet c hc, ?_⟩
      have hext := step_extends s s1 ev h1
      have hf : (issued s s1).filter isBreakInsertion = [] := by
        have := hb
        simp only [breaks, hext, List.filter_append] at this
        simpa using this
      rw [List.filter_eq_nil_iff] at hf
      simpa using hf c hc
    · intro n hn
      have hmem := mem_of_destroys hd _ hn rfl
      rcases hcase with rfl | ⟨element, he, hv, hc, rfl⟩
      · simp at hmem
      · refine ⟨element, he, hv, hc, ?_⟩
        simpa using hmem
  · intro d a b c p css h
    simp [StartDocument, MobilizeRewriteFilter, h]

theorem delegation_no_restructuring_witness :
    (run (optionsStart true false false) delegatedDocument).map
      (fun s => s.driver_.commands) = some [] ∧
    ∃ s, run (optionsStart true false false) delegatedDocument = some s ∧
      s.use_cxx_layout_ = false ∧
      ∃ s1, step s (.EndElement bodyElement) = some s1 ∧
        navState s1 = navState s ∧
        s1.mobile_role_containers_ = s.mobile_role_containers_ ∧
        s1.added_containers_ = false ∧
        (∀ c ∈ issued s s1,
          isContainerCommand c = false ∧ isBreakInsertion c = false) ∧
        (∀ n, Cmd.DeleteNode n ∈ issued s s1 →
          ∃ element, Event.EndElement bodyElement = .StartElement element ∧
            StartElement.isViewportMeta element = true ∧
            StringPiece (element.AttributeValue .kContent)
              ≠ kViewportContent ∧
            n = element.id) :=
  ⟨by decide,
   (delegation_no_restructuring delegatedDocument
      (optionsStart true false false) (.EndElement bodyElement)
      (by decide) (by decide)).1⟩

/-! ## The depth counter of the body: lemmas and the claims -/

theorem asInt32_of_range (count : Int) (h0 : -2147483648 ≤ count)
    (h1 : count < 2147483648) : asInt32 count = count := by
  unfold asInt32
  omega

theorem openElements_nestedBodies (count : Nat) :
    ∀ (first : Nat) (opened : List HtmlElement) (rest : List Event),
      openElements opened
        (nestedBodyOpens first count ++ (nestedBodyCloses first count ++ rest))
        = openElements opened rest := by
  induction count with
  | zero =>
    intro first opened rest
    rfl
  | succ count ih =>
    intro first opened rest
    show openElements (bodyAt first :: opened)
      (nestedBodyOpens (first + 1) count ++
        ((nestedBodyCloses (first + 1) count ++ [.EndElement (bodyAt first)])
          ++ rest)) = openElements opened rest
    rw [List.append_assoc, ih]
    simp [openElements]

theorem openElements_nestedBodyOpens (count : Nat) :
    ∀ (first : Nat) (opened : List HtmlElement),
      ∃ opened1, openElements opened (nestedBodyOpens first count)
          = some opened1 ∧
        openBodies opened1 = openBodies opened + count := by
  induction count with
  | zero =>
    intro first opened
    exact ⟨opened, rfl, rfl⟩
  | succ count ih =>
    intro first opened
    obtain ⟨opened1, h1, h2⟩ := ih (first + 1) (bodyAt first :: opened)
    refine ⟨opened1, h1, ?_⟩
    rw [h2, openBodies_cons_nat]
    have : (bodyAt first).keyword = .kBody := rfl
    simp [this]
    omega

theorem run_nestedBodyOpens (count : Nat) :
    ∀ (first : Nat) (s : State),
      ∃ s1, run s (nestedBodyOpens first count) = some s1 ∧
        s1.body_element_depth_ = s.body_element_depth_ + count := by
  induction count with
  | zero =>
    intro first s
    exact ⟨s, rfl, by simp⟩
  | succ count ih =>
    intro first s
    obtain ⟨s1, h1, h2⟩ := ih (first + 1) (StartElement s (bodyAt first))
    refine ⟨s1, h1, ?_⟩
    rw [h2, StartElement_body_element_depth]
    have : (bodyAt first).keyword = .kBody := rfl
    simp [this]
    omega

theorem nestedBodyOpens_succ (count : Nat) :
    ∀ first : Nat, nestedBodyOpens first (count + 1)
      = nestedBodyOpens first count ++
        [.StartElement (bodyAt (first + count))] := by
  induction count with
  | zero => intro first; rfl
  | succ count ih =>
    intro first
    show Event.StartElement (bodyAt first) ::
        nestedBodyOpens (first + 1) (count + 1) = _
    rw [ih (first + 1)]
    have : first + 1 + count = first + (count + 1) := by omega
    rw [this]
    rfl

/-- With five containers in place and a non-empty stack for a role-bearing
element, `HandleEndTagInBody` is defined. -/
theorem HandleEndTagInBody_defined (s : State) (element : HtmlElement)
    (hstack : GetMobileRole element ≠ .kInvalid →
      s.element_roles_stack_ ≠ [])
    (hcont : ∃ n, s.mobile_role_containers_ = [n, n + 1, n + 2, n + 3, n + 4]) :
    ∃ s1, HandleEndTagInBody s element = some s1 := by
  obtain ⟨n, hn⟩ := hcont
  unfold HandleEndTagInBody
  by_cases hreach : s.reached_reorder_containers_ = true
  · exact ⟨s, by simp [hreach]⟩
  · by_cases hrole : GetMobileRole element = .kInvalid
    · by_cases hnav : 0 < s.nav_element_depth_
      · exact ⟨HandleEndTagInBody.nav s element, by simp [hreach, hrole, hnav]⟩
      · exact ⟨s, by simp [hreach, hrole, hnav]⟩
    · cases hst : s.element_roles_stack_ with
      | nil => exact absurd hst (hstack hrole)
      | cons own popped =>
        have hc : (HandleEndTagInBody.leave s (GetMobileRole element)
            popped).mobile_role_containers_ = [n, n + 1, n + 2, n + 3, n + 4] :=
          (leave_frame s _ popped).2.2.2.1.trans hn
        have hM : ∃ c, MobileRoleToContainer
            (HandleEndTagInBody.leave s (GetMobileRole element) popped)
            (GetMobileRole element) = some (some c) := by
          unfold MobileRoleToContainer
          rw [if_neg hrole, hc]
          cases hr : GetMobileRole element <;>
            first
            | exact absurd hr hrole
            | exact ⟨_, rfl⟩
        obtain ⟨c, hc2⟩ := hM
        have hne : (GetMobileRole element != .kInvalid) = true := by
          simpa using hrole
        have hreach1 : s.reached_reorder_containers_ = false := by
          simpa using hreach
        refine ⟨HandleEndTagInBody.move
          (HandleEndTagInBody.leave s (GetMobileRole element) popped) element
          (GetMobileRole element) c, ?_⟩
        rw [hreach1, hne]
        simp only [Bool.false_eq_true, if_false, if_true]
        rw [hc2]

/-- The close event of the innermost open source element is defined. -/
theorem EndElement_defined (fresh : Nat) (s : State) (top : HtmlElement)
    (below : List HtmlElement)
    (hinv : Traversal fresh s (top :: below)) (hready : ContainersReady s) :
    ∃ s1, EndElement s top = some s1 := by
  obtain ⟨_, _, _, _, k5, _, _, k8, k9, _⟩ := Keeps.script s top
  unfold EndElement
  dsimp only
  by_cases h1 : (top.keyword == .kBody) = true
  · rw [if_pos h1]
    split_ifs <;> exact ⟨_, rfl⟩
  · rw [if_neg h1]
    by_cases h2 : ((EndElement.script s top).body_element_depth_ == 0 &&
        top.keyword == .kHead) = true
    · rw [if_pos h2]
      exact ⟨_, rfl⟩
    · rw [if_neg h2]
      by_cases h3 : 0 < (EndElement.script s top).body_element_depth_
      · rw [if_pos h3]
        by_cases h4 : (EndElement.script s top).use_cxx_layout_ = true
        · rw [if_pos h4]
          have hpos : 0 < s.body_element_depth_ := by rw [← k5]; exact h3
          have hb : top.keyword ≠ .kBody := by simpa using h1
          refine HandleEndTagInBody_defined _ top ?_ ?_
          · intro hrole
            rw [k8, hinv.2.2.2.2.2]
            have hob : 0 < openBodies below := by
              have := hinv.2.2.2.2.1
              rw [openBodies_cons_nat] at this
              simp only [hb, if_false, Nat.add_zero] at this
              omega
            rw [roleStack_cons_of top below
              (by simp [pushesRole, hb, hrole, hob])]
            simp
          · rw [k9]
            exact hready.2.1 (hready.2.2 hpos)
        · rw [if_neg h4]
          exact ⟨_, rfl⟩
      · rw [if_neg h3]
        exact ⟨_, rfl⟩

/-- Every stream of source elements whose close events match the open
elements is processed without failure. -/
theorem run_defined (fresh : Nat) (events : List Event) (s : State)
    (opened opened1 : List HtmlElement)
    (hsrc : ∀ element ∈ elementsOf events, SourceElement fresh element)
    (hopen : openElements opened events = some opened1)
    (hinv : Traversal fresh s opened) (hready : ContainersReady s) :
    ∃ s1, run s events = some s1 := by
  induction events generalizing s opened with
  | nil => exact ⟨s, rfl⟩
  | cons ev events ih =>
    cases ev with
    | StartElement element =>
      simp only [openElements] at hopen
      simp only [run, step]
      exact ih _ _ (fun e he => hsrc e (List.mem_cons_of_mem _ he)) hopen
        (Traversal.startElement fresh s opened element hinv
          (hsrc element (List.mem_cons_self _ _)))
        (ContainersReady.at_open s element hready)
    | Characters c =>
      simp only [openElements] at hopen
      simp only [run, step]
      exact ih _ _ hsrc hopen (Traversal.textNode fresh s opened c hinv)
        (ContainersReady.of_same hready
          (containerState_of_keeps (Keeps.characters s c))
          (by rw [Characters_body_element_depth]; exact id))
    | EndElement element =>
      cases opened with
      | nil => simp [openElements] at hopen
      | cons top below =>
        simp only [openElements] at hopen
        split_ifs at hopen with htop
        subst htop
        obtain ⟨s2, hstep⟩ := EndElement_defined fresh s top below hinv hready
        simp only [run, step, hstep]
        exact ih _ _ hsrc hopen
          (Traversal.endElement fresh s s2 below top hinv hstep)
          (ContainersReady.at_close s s2 top hready hstep)

/-- With `reached_reorder_containers_` set, a close event issues no move. -/
theorem moves_EndElement_of_reached (s s1 : State) (element : HtmlElement)
    (h : EndElement s element = some s1)
    (hreach : s.reached_reorder_containers_ = true) :
    moves s1.driver_.commands = moves s.driver_.commands := by
  have hr : (EndElement.script s element).reached_reorder_containers_ = true :=
    (Keeps.script s element).2.2.2.2.2.1.trans hreach
  unfold EndElement at h
  dsimp only at h
  split_ifs at h
  · cases h; simp [moves_addScripts, moves_script]
  · cases h; simp [moves_RemoveReorderContainers, moves_script]
  · cases h; simp [moves_script]
  · cases h; simp [moves_AddStyleAndViewport, moves_script]
  · rcases HandleEndTagInBody_inv _ s1 element h with
      ⟨_, rfl⟩ | ⟨hf, _⟩ | ⟨hf, _⟩
    · exact moves_script s element
    · rw [hr] at hf
      exact Bool.noConfusion hf
    · rw [hr] at hf
      exact Bool.noConfusion hf
  · cases h; simp [moves_script]
  · cases h; simp [moves_script]

/-- Along any stream the log of moves grows by a subsequence of the close
events received before the containers are reached. -/
theorem moves_before_containers (events : List Event) (s s1 : State)
    (hrun : run s events = some s1) :
    ∃ l, moves s1.driver_.commands = moves s.driver_.commands ++ l ∧
      (l.map (fun m => m.1)).Sublist (closesBeforeContainers s events) := by
  induction events generalizing s with
  | nil =>
    simp only [run, Option.some.injEq] at hrun
    subst hrun
    exact ⟨[], by simp, by simp [closesBeforeContainers]⟩
  | cons ev events ih =>
    cases ev with
    | StartElement element =>
      simp only [run, step] at hrun
      obtain ⟨l, hl, hsub⟩ := ih _ hrun
      exact ⟨l, by rw [hl, moves_StartElement],
        by simpa [closesBeforeContainers] using hsub⟩
    | Characters c =>
      simp only [run, step] at hrun
      obtain ⟨l, hl, hsub⟩ := ih _ hrun
      exact ⟨l, by rw [hl, moves_Characters],
        by simpa [closesBeforeContainers] using hsub⟩
    | EndElement element =>
      simp only [run, step] at hrun
      cases hstep : EndElement s element with
      | none => simp [hstep] at hrun
      | some s2 =>
        simp only [hstep] at hrun
        obtain ⟨l, hl, hsub⟩ := ih _ hrun
        by_cases hreach : s.reached_reorder_containers_ = true
        · refine ⟨l, by
            rw [hl, moves_EndElement_of_reached s s2 element hstep hreach], ?_⟩
          simpa [closesBeforeContainers, hstep, hreach] using hsub
        · rcases moves_EndElement _ _ _ hstep with h2 | ⟨c, h2⟩
          · refine ⟨l, by rw [hl, h2], ?_⟩
            simp only [closesBeforeContainers, hstep, hreach, if_false]
            exact hsub.trans (List.sublist_cons_self _ _)
          · refine ⟨(element.id, c) :: l, by rw [hl, h2]; simp, ?_⟩
            simp only [closesBeforeContainers, hstep, hreach, if_false,
              List.map_cons]
            exact hsub.cons₂ _

theorem closesBeforeContainers_append (pre rest : List Event) (s t : State)
    (hpre : run s pre = some t) :
    closesBeforeContainers s (pre ++ rest)
      = closesBeforeContainers s pre ++ closesBeforeContainers t rest := by
  induction pre generalizing s with
  | nil =>
    simp only [run, Option.some.injEq] at hpre
    subst hpre
    simp [closesBeforeContainers]
  | cons ev pre ih =>
    cases ev with
    | StartElement element =>
      simp only [run, step] at hpre
      simp only [List.cons_append, closesBeforeContainers]
      exact ih _ hpre
    | Characters c =>
      simp only [run, step] at hpre
      simp only [List.cons_append, closesBeforeContainers]
      exact ih _ hpre
    | EndElement element =>
      simp only [run, step] at hpre
      cases hstep : EndElement s element with
      | none => simp [hstep] at hpre
      | some s2 =>
        simp only [hstep] at hpre
        have hih := ih _ hpre
        simp only [List.cons_append, closesBeforeContainers, hstep]
        split_ifs
        · exact hih
        · exact congrArg (List.cons element.id) hih

/-- The close events received before the containers are reached are among
the close events of the stream. -/
theorem closesBeforeContainers_sublist (events : List Event) :
    ∀ s : State, (closesBeforeContainers s events).Sublist (closeIds events) := by
  induction events with
  | nil => intro s; simp [closesBeforeContainers, closeIds]
  | cons ev events ih =>
    intro s
    cases ev with
    | StartElement element =>
      simpa [closesBeforeContainers, closeIds] using ih _
    | Characters c =>
      simpa [closesBeforeContainers, closeIds] using ih _
    | EndElement element =>
      simp only [closesBeforeContainers, closeIds]
      cases hstep : EndElement s element with
      | none => simp
      | some s2 =>
        dsimp only
        split_ifs
        · exact (ih s2).trans (List.sublist_cons_self _ _)
        · exact (ih s2).cons₂ _

/-- Once the containers are reached, no close event is a first one until the
body closes. -/
theorem closesBeforeContainers_inside (inside : List Event) :
    ∀ t : State, t.reached_reorder_containers_ = true →
      (∀ e, Event.EndElement e ∈ inside → e.keyword ≠ .kBody) →
      closesBeforeContainers t inside = [] := by
  induction inside with
  | nil => intro t _ _; rfl
  | cons ev inside ih =>
    intro t hreach hbody
    have hrest : ∀ e, Event.EndElement e ∈ inside → e.keyword ≠ .kBody :=
      fun e he => hbody e (List.mem_cons_of_mem _ he)
    cases ev with
    | StartElement element =>
      simp only [closesBeforeContainers]
      exact ih _ (reached_StartElement t element hreach) hrest
    | Characters c =>
      simp only [closesBeforeContainers]
      exact ih _ ((Keeps.characters t c).2.2.2.2.2.1.trans hreach) hrest
    | EndElement element =>
      simp only [closesBeforeContainers]
      cases hstep : EndElement t element with
      | none => rfl
      | some t2 =>
        simp only [hreach, if_true]
        rcases reached_EndElement t t2 element hstep hreach with h | ⟨hb, _⟩
        · exact ih _ h hrest
        · exact absurd hb (hbody element (List.mem_cons_self _ _))

/-- In a pass made of a source part and, from the open of a container on,
of the part inside the containers, the close events received before the
containers are reached are those of the source part: they are of distinct
elements as soon as the source elements are distinct nodes. -/
theorem closesBeforeContainers_of_pass (source inside : List Event)
    (s t : State) (hrun : run s source = some t)
    (hreach : t.reached_reorder_containers_ = true)
    (hbody : ∀ e, Event.EndElement e ∈ inside → e.keyword ≠ .kBody)
    (hnodup : (closeIds source).Nodup) :
    closesBeforeContainers s (source ++ inside)
      = closesBeforeContainers s source ∧
    (closesBeforeContainers s (source ++ inside)).Nodup := by
  have h : closesBeforeContainers s (source ++ inside)
      = closesBeforeContainers s source := by
    rw [closesBeforeContainers_append source inside s t hrun,
      closesBeforeContainers_inside inside t hreach hbody, List.append_nil]
  exact ⟨h, by
    rw [h]; exact (closesBeforeContainers_sublist source s).nodup hnodup⟩

/-- An element whose close event, received before the containers are
reached, adds no move to the log is not moved at all by a stream in which
the close events received before the containers are reached are those of
distinct elements. -/
theorem not_moved_of_silent_first_close (pre rest : List Event)
    (element : HtmlElement) (s t t2 s1 : State) (l : List (Nat × Nat))
    (hnodup : (closesBeforeContainers s
      (pre ++ .EndElement element :: rest)).Nodup)
    (hpre : run s pre = some t) (hstep : EndElement t element = some t2)
    (hreach : t.reached_reorder_containers_ = false)
    (hrest : run t2 rest = some s1)
    (hl : moves s1.driver_.commands = moves s.driver_.commands ++ l)
    (hsilent : moves t2.driver_.commands = moves t.driver_.commands) :
    element.id ∉ l.map (fun m => m.1) := by
  obtain ⟨l1, hl1, hsub1⟩ := moves_before_containers pre s t hpre
  obtain ⟨l3, hl3, hsub3⟩ := moves_before_containers rest t2 s1 hrest
  have hl2 : l = l1 ++ l3 := by
    have : moves s.driver_.commands ++ l
        = moves s.driver_.commands ++ (l1 ++ l3) := by
      rw [← hl, hl3, hsilent, hl1, List.append_assoc]
    exact List.append_cancel_left this
  rw [closesBeforeContainers_append pre _ s t hpre] at hnodup
  simp only [closesBeforeContainers, hstep, hreach, Bool.false_eq_true,
    if_false] at hnodup
  have hnd := List.nodup_append.1 hnodup
  have hnot_pre : element.id ∉ closesBeforeContainers s pre := by
    intro hmem
    exact hnd.2.2 hmem (List.mem_cons_self _ _)
  have hnot_rest : element.id ∉ closesBeforeContainers t2 rest :=
    (List.nodup_cons.1 hnd.2.1).1
  rw [hl2, List.map_append, List.mem_append]
  rintro (hm | hm)
  · exact hnot_pre (hsub1.subset hm)
  · exact hnot_rest (hsub3.subset hm)

/-- The open of a reorder container inside the body, in self-restructure
mode, only sets `reached_reorder_containers_`. -/
theorem StartElement_container (s : State) (element : HtmlElement)
    (hcxx : s.use_cxx_layout_ = true) (hpos : 0 < s.body_element_depth_)
    (hreach : s.reached_reorder_containers_ = false)
    (hcont : IsReorderContainer s element = true)
    (hdiv : element.keyword = .kDiv) :
    StartElement s element = { s with reached_reorder_containers_ := true } := by
  simp [StartElement, StartElement.unminify, StartElement.isViewportMeta,
    hdiv, hpos, hcxx, HandleStartTagInBody, hreach, hcont]

/-- Once the containers are reached, every stream without a body close is
processed, and it leaves the flag set, the two stacks and
`nav_element_depth_` as they are. -/
theorem frozen_run (inside : List Event) :
    ∀ s : State, s.reached_reorder_containers_ = true →
      (∀ e, Event.EndElement e ∈ inside → e.keyword ≠ .kBody) →
      ∃ s2, run s inside = some s2 ∧
        s2.reached_reorder_containers_ = true ∧ navState s2 = navState s := by
  induction inside with
  | nil => intro s hreach _; exact ⟨s, rfl, hreach, rfl⟩
  | cons ev inside ih =>
    intro s hreach hbody
    have hrest : ∀ e, Event.EndElement e ∈ inside → e.keyword ≠ .kBody :=
      fun e he => hbody e (List.mem_cons_of_mem _ he)
    cases ev with
    | StartElement element =>
      obtain ⟨s2, h1, h2, h3⟩ :=
        ih _ (reached_StartElement s element hreach) hrest
      exact ⟨s2, by simpa [run, step] using h1, h2,
        h3.trans (navState_StartElement s element (Or.inr hreach))⟩
    | Characters c =>
      obtain ⟨s2, h1, h2, h3⟩ :=
        ih _ ((Keeps.characters s c).2.2.2.2.2.1.trans hreach) hrest
      exact ⟨s2, by simpa [run, step] using h1, h2,
        h3.trans (navState_Characters s c)⟩
    | EndElement element =>
      obtain ⟨t, ht, hnav⟩ := navState_EndElement s element (Or.inr hreach)
      have hr : t.reached_reorder_containers_ = true := by
        rcases reached_EndElement s t element ht hreach with h | ⟨hb, _⟩
        · exact h
        · exact absurd hb (hbody element (List.mem_cons_self _ _))
      obtain ⟨s2, h1, h2, h3⟩ := ih t hr hrest
      exact ⟨s2, by simp only [run, step, ht]; exact h1, h2, h3.trans hnav⟩

end MobilizeRewrite
